import Mathlib

/-!
# USemLog: manipulator listener (event debouncing) and world-state sampler

A shallow embedding of

* `Source/USemLogSkel/Public/SLStructs.h`
  (`FSLEntity`, `TSLEntityPreviousPose`, `FSLContactResult`),
* `Source/USemLog/Private/SLManipulatorListener.cpp`
  (grasp and contact detection with delayed, cancellable end events),
* `Source/USemLog/Private/WorldState/SLWorldStateWriterMongoC.cpp`
  (the change-detecting sample pass over the tracked entities, `Write`, and the connection
  life cycle `Connect` / `Init` / `Finish` / `CreateIndexes`; compiled with
  `SL_WITH_LIBMONGO_C`),
* `Source/USemLog/Private/WorldState/SLWorldStateAsyncWorker.cpp`
  (the worker that owns the writer and the arrays of tracked entities and calls `Write`).

Modelling conventions

* A `float` value (timestamp, gap, coordinate, threshold) is the rational it denotes.  The
  two `float` operations of the listener, the difference of two times that is compared with a
  gap and the product `gap * 1.2f` that is the rate of a timer, are the operations `Sub` and
  `Mul` of the class `FFloat`: the general statements hold for every such pair of operations,
  rounded or not, and say so when they need the subtraction to be monotone (`SubRegular`) or
  accurate.  The concrete runs are evaluated with the exact operations (`ExactFloat`).  The
  coordinates of the sample pass are compared by the exact squared distance.
  `GetWorld()->GetTimeSeconds()` is the argument `now` of every operation.
* `UObject*` / `AActor*` are natural-number handles; a nullable pointer is an `Option`.
* `TArray` is a `List` (index order), `TSet` a duplicate-free `List`, `TMap` an association
  `List`.  The engine iterator `TIndexedContainerIterator` is `TIterator`: a container and a
  signed index, with `RemoveCurrent` being `RemoveAt(Index); Index--`.  The iteration order
  of a `TSet` is taken to be the insertion order; no statement below depends on it.
* An `int32` contact count is an integer that `(*NumContacts)++` and `(*NumContacts)--` wrap
  at the word size (`WrapInt32`).  The `uint32_t` array index of the sample pass is a natural
  number; it counts elements of one array.
* An operation that does not return (a null dereference, a failed range check of `TArray`)
  has the result `none`.
* Calls on collaborators whose code is elsewhere (the overlap spheres of the two groups, the
  input component) are left out; what they return is an argument.
  The lookup of the entity registry is the argument `GetEntityPtr`.
* A multicast delegate `Broadcast(...)` appends one `Broadcast` value to the field `Log` of
  the listener; `Log` is the only ghost field of the listener.
* A call of the database driver appends one `FMongoCommand` to the ghost field `Commands` of
  the writer; what the driver and the server answer during a call is the argument
  `FMongoAnswers`.  A driver handle is a `Bool`: true when it holds a handle obtained from
  the driver.  The BSON document under construction is the structure `FWorldStateDoc`.
* A timer handle is `Option ℚ`: `none` when no timer is pending, `some d` when the timer set
  through the handle expires at time `d`.  `SetTimer` sets a timer only for a positive rate.
* Loops over iterators carry a fuel argument that is instantiated with the length of the
  array; the refinement lemmas show that this fuel is always enough.
-/

namespace USemLog

set_option linter.unusedVariables false

/-! ## Engine containers -/

/-- Engine type `AActor*` (also used for `UObject*`): an object handle. -/
abbrev AActor := Nat

/-- Engine `TIndexedContainerIterator` over a `TArray`: the container and the current index. -/
structure TIterator (α : Type) where
  Container : List α
  Index : Int
deriving DecidableEq

/-- Iterator dereference `*It` / `It->`: the element at `Index`, `none` when the index is not a
valid index of the container (the conversion of the iterator to `bool` is `Get.isSome`). -/
def TIterator.Get {α : Type} (It : TIterator α) : Option α :=
  if 0 ≤ It.Index then It.Container[It.Index.toNat]? else none

/-- Iterator increment `++It`. -/
def TIterator.Next {α : Type} (It : TIterator α) : TIterator α :=
  { It with Index := It.Index + 1 }

/-- Engine `RemoveCurrent`: `Container.RemoveAt(Index); Index--;`. -/
def TIterator.RemoveCurrent {α : Type} (It : TIterator α) : TIterator α :=
  { Container := It.Container.eraseIdx It.Index.toNat, Index := It.Index - 1 }

/-- Engine `TArray::CreateIterator`. -/
def CreateIterator {α : Type} (Arr : List α) : TIterator α :=
  { Container := Arr, Index := 0 }

/-- Engine `TSet::Emplace(Elem, &bIsAlreadyInSet)`: the new set and the flag. -/
def TSetEmplace (S : List AActor) (x : AActor) : List AActor × Bool :=
  if x ∈ S then (S, true) else (S ++ [x], false)

/-- Engine `TSet::Remove(Elem)`: the new set and the number of removed elements. -/
def TSetRemove (S : List AActor) (x : AActor) : List AActor × Nat :=
  (S.filter (fun y => y != x), (S.filter (fun y => y == x)).length)

/-- Engine `TSet::Intersect`: iterates the smaller operand and keeps what the other contains. -/
def TSetIntersect (A B : List AActor) : List AActor :=
  if A.length > B.length then B.filter (fun x => decide (x ∈ A))
  else A.filter (fun x => decide (x ∈ B))

/-- Engine `TArray::AddUnique`. -/
def TArrayAddUnique (Arr : List AActor) (x : AActor) : List AActor :=
  if x ∈ Arr then Arr else Arr ++ [x]

/-- Engine `TArray::Remove(Item)`: removes every equal element, returns how many. -/
def TArrayRemove (Arr : List AActor) (x : AActor) : List AActor × Nat :=
  (Arr.filter (fun y => y != x), (Arr.filter (fun y => y == x)).length)

/-- Engine `TMap::Find`. -/
def TMapFind (M : List (AActor × Int)) (k : AActor) : Option Int :=
  (M.find? (fun p => p.1 == k)).map Prod.snd

/-- Engine `TMap::Add(Key, Value)`: replaces the value of an existing key. -/
def TMapAdd (M : List (AActor × Int)) (k : AActor) (v : Int) : List (AActor × Int) :=
  if (M.find? (fun p => p.1 == k)).isSome then M.map (fun p => if p.1 == k then (k, v) else p)
  else M ++ [(k, v)]

/-- Write through the pointer returned by `TMap::Find`: the value of key `k` becomes `v`. -/
def TMapSetValue (M : List (AActor × Int)) (k : AActor) (v : Int) : List (AActor × Int) :=
  M.map (fun p => if p.1 == k then (p.1, v) else p)

/-- Engine `TMap::Remove(Key)`. -/
def TMapRemove (M : List (AActor × Int)) (k : AActor) : List (AActor × Int) :=
  M.filter (fun p => p.1 != k)

/-! ## Platform arithmetic and engine timers -/

/-- The `float` arithmetic of the platform, as far as the listener uses it.  A `float` is
modelled by the rational it denotes; `Sub a b` is what the expression `a - b` evaluates to on
`float` operands and `Mul a b` what `a * b` evaluates to.  Both results are rounded by the
platform, so they need not be the exact difference and the exact product: every statement
below that does not fix an instance holds for every pair of operations. -/
class FFloat where
  Sub : ℚ → ℚ → ℚ
  Mul : ℚ → ℚ → ℚ

/-- Arithmetic without rounding error: what the platform computes whenever the exact result is
itself a `float`.  The concrete runs of this file are evaluated with it. -/
instance ExactFloat : FFloat :=
  { Sub := fun a b => a - b, Mul := fun a b => a * b }

/-- Three properties of the subtraction that hold under every rounding mode of IEEE 754: the
difference of a number and itself is zero, and the result is monotone, a larger minuend or a
smaller subtrahend does not give a smaller result.  Statements that need them say so. -/
class SubRegular [FFloat] : Prop where
  Self : ∀ a : ℚ, FFloat.Sub a a = 0
  Left : ∀ a b c : ℚ, a ≤ b → FFloat.Sub a c ≤ FFloat.Sub b c
  Right : ∀ a b c : ℚ, b ≤ c → FFloat.Sub a c ≤ FFloat.Sub a b

/-- The `int32` result of an arithmetic operation whose exact result is `x`: two-s complement
wrap-around at the word size. -/
def WrapInt32 (x : Int) : Int :=
  (x + 2147483648) % 4294967296 - 2147483648

/-- Engine `FTimerManager::SetTimer(Handle, ..., InRate, false)` called at time `now`: a
timer the handle names is cleared, and the handle then names a new timer that expires at
`now + InRate`; for a rate that is not positive the engine sets no timer and leaves the
handle invalid. -/
def SetTimer (now InRate : ℚ) : Option ℚ :=
  if InRate > 0 then some (now + InRate) else none

/-! ## SLStructs.h -/

/-- Structure holding the semantic data of an entity (`FSLEntity`). -/
structure FSLEntity where
  Obj : Option Nat
  Id : String
  Class : String
  VisualMask : String
deriving DecidableEq

/-- `FSLEntity::IsSet`. -/
def FSLEntity.IsSet (E : FSLEntity) : Bool :=
  E.Obj.isSome && !E.Id.isEmpty && !E.Class.isEmpty

/-- `FSLEntity::EqualsFast`: compares only the object pointers, false when either is null. -/
def FSLEntity.EqualsFast (E Other : FSLEntity) : Bool :=
  if E.Obj = none ∨ Other.Obj = none then false else decide (E.Obj = Other.Obj)

/-- `FSLEntity::Equals`: object pointer, id and class. -/
def FSLEntity.Equals (E Other : FSLEntity) : Bool :=
  decide (E.Obj = Other.Obj) && decide (E.Id = Other.Id) && decide (E.Class = Other.Class)

/-- `FSLContactResult` as built by its four-argument constructor (mesh components unset). -/
structure FSLContactResult where
  Self : FSLEntity
  Other : FSLEntity
  SelfMeshComponent : Option Nat
  OtherMeshComponent : Option Nat
  Time : ℚ
  bIsOtherASemanticOverlapArea : Bool
deriving DecidableEq

/-- The init constructor `FSLContactResult(InSelf, InOther, InTime, bIsSemanticOverlapArea)`. -/
def FSLContactResult.Init (InSelf InOther : FSLEntity) (InTime : ℚ)
    (bIsSemanticOverlapArea : Bool) : FSLContactResult :=
  { Self := InSelf, Other := InOther, SelfMeshComponent := none, OtherMeshComponent := none,
    Time := InTime, bIsOtherASemanticOverlapArea := bIsSemanticOverlapArea }

/-! ## SLManipulatorListener.cpp: state -/

/-- Pending grasp end event, `FSLGraspEndEvent(OtherActor, Time)`. -/
structure FSLGraspEndEvent where
  OtherActor : AActor
  Time : ℚ
deriving DecidableEq

/-- Pending contact end event, `FSLContactEndEvent(OtherItem, Time)`. -/
structure FSLContactEndEvent where
  OtherItem : FSLEntity
  Time : ℚ
deriving DecidableEq

/-- One call of `Broadcast` on one of the four delegates of the listener. -/
inductive Broadcast where
  | OnBeginManipulatorGrasp (Self : FSLEntity) (Other : AActor) (Time : ℚ) (GraspType : String)
  | OnEndManipulatorGrasp (Self : FSLEntity) (Other : AActor) (Time : ℚ)
  | OnBeginManipulatorContact (Result : FSLContactResult)
  | OnEndManipulatorContact (Self : FSLEntity) (Other : FSLEntity) (Time : ℚ)
deriving DecidableEq

/-- The members of `USLManipulatorListener` the event logic reads or writes. -/
structure USLManipulatorListener where
  bIsInit : Bool
  bIsStarted : Bool
  bIsFinished : Bool
  bIsPaused : Bool
  bDetectGrasps : Bool
  bDetectContacts : Bool
  UnPauseTriggerVal : ℚ
  SemanticOwner : FSLEntity
  ActiveGraspType : String
  GroupA : List Nat
  GroupB : List Nat
  MaxGraspEventTimeGap : ℚ
  MaxContactEventTimeGap : ℚ
  SetA : List AActor
  SetB : List AActor
  GraspedObjects : List AActor
  ObjectsInContact : List (AActor × Int)
  RecentlyEndedGraspEvents : List FSLGraspEndEvent
  RecentlyEndedContactEvents : List FSLContactEndEvent
  GraspDelayTimerHandle : Option ℚ
  ContactDelayTimerHandle : Option ℚ
  Log : List Broadcast
deriving DecidableEq

/-! ## SLManipulatorListener.cpp: life cycle -/

/-- The constructor `USLManipulatorListener()`.  The members it does not assign (their
defaults are in the header) are arguments. -/
def USLManipulatorListener.Constructor (bDetectGrasps bDetectContacts : Bool)
    (MaxGraspEventTimeGap MaxContactEventTimeGap : ℚ) : USLManipulatorListener :=
  { bIsInit := false, bIsStarted := false, bIsFinished := false, bIsPaused := false,
    bDetectGrasps := bDetectGrasps, bDetectContacts := bDetectContacts,
    UnPauseTriggerVal := 1 / 2,
    SemanticOwner := { Obj := none, Id := "", Class := "", VisualMask := "" },
    ActiveGraspType := "Default",
    GroupA := [], GroupB := [],
    MaxGraspEventTimeGap := MaxGraspEventTimeGap,
    MaxContactEventTimeGap := MaxContactEventTimeGap,
    SetA := [], SetB := [], GraspedObjects := [], ObjectsInContact := [],
    RecentlyEndedGraspEvents := [], RecentlyEndedContactEvents := [],
    GraspDelayTimerHandle := none, ContactDelayTimerHandle := none,
    Log := [] }

/-- `LoadOverlapGroups`: `FoundA` / `FoundB` are the overlap spheres of group A / B that the
component lookup returns.  The function returns true on every path. -/
def LoadOverlapGroups (FoundA FoundB : List Nat) (s : USLManipulatorListener) :
    Bool × USLManipulatorListener :=
  let s1 := { s with GroupA := s.GroupA ++ FoundA, GroupB := s.GroupB ++ FoundB }
  let s2 := if s1.GroupA.length = 0 ∨ s1.GroupB.length = 0 then
      { s1 with bDetectGrasps := false } else s1
  (true, s2)

/-- `Init`: `OwnerEntity` is what the entity manager returns for the owner. -/
def Init (bInDetectGrasps bInDetectContacts : Bool) (OwnerEntity : FSLEntity)
    (FoundA FoundB : List Nat) (s : USLManipulatorListener) : Bool × USLManipulatorListener :=
  if !s.bIsInit then
    let s1 := { s with bDetectGrasps := bInDetectGrasps, bDetectContacts := bInDetectContacts,
                       SemanticOwner := OwnerEntity }
    if !s1.SemanticOwner.IsSet then (false, s1)
    else
      let r := LoadOverlapGroups FoundA FoundB s1
      if r.1 then (true, { r.2 with bIsInit := true }) else (false, r.2)
  else (false, s)

/-- `Start`: the two flags say whether a player controller and its input component exist. -/
def Start (bHasPlayerController bHasInputComponent : Bool) (s : USLManipulatorListener) :
    USLManipulatorListener :=
  if !s.bIsStarted && s.bIsInit then
    if bHasPlayerController then
      if bHasInputComponent then { s with bIsStarted := true } else s
    else s
  else s

/-- `PauseGraspDetection`. -/
def PauseGraspDetection (now : ℚ) (bInPause : Bool) (s : USLManipulatorListener) :
    USLManipulatorListener :=
  if bInPause != s.bIsPaused then
    let s1 := { s with bIsPaused := bInPause }
    if bInPause then
      { s1 with
        Log := s1.Log ++ s1.GraspedObjects.map
          (fun Obj => Broadcast.OnEndManipulatorGrasp s1.SemanticOwner Obj now),
        GraspedObjects := [], SetA := [], SetB := [] }
    else s1
  else s

/-- `Finish`: publishes the dangling grasp end events, then the dangling contact end events. -/
def Finish (bForced : Bool) (s : USLManipulatorListener) : USLManipulatorListener :=
  if !s.bIsFinished && (s.bIsInit || s.bIsStarted) then
    let Log1 := s.Log ++ s.RecentlyEndedGraspEvents.map
      (fun EvItr => Broadcast.OnEndManipulatorGrasp s.SemanticOwner EvItr.OtherActor EvItr.Time)
    let Log2 := Log1 ++ s.RecentlyEndedContactEvents.map
      (fun EvItr => Broadcast.OnEndManipulatorContact s.SemanticOwner EvItr.OtherItem EvItr.Time)
    { s with
      Log := Log2,
      RecentlyEndedGraspEvents := [],
      RecentlyEndedContactEvents := [],
      bIsStarted := false, bIsInit := false, bIsFinished := true }
  else s

/-- `GraspInputAxisCallback`. -/
def GraspInputAxisCallback (now : ℚ) (Value : ℚ) (s : USLManipulatorListener) :
    USLManipulatorListener :=
  if Value ≥ s.UnPauseTriggerVal then PauseGraspDetection now false s
  else PauseGraspDetection now true s

/-! ## SLManipulatorListener.cpp: grasp -/

/-- The loop of `SkipRecentGraspEndEventBroadcast`: `some Arr` when the function returns true
having removed one event (`Arr` is the array afterwards), `none` when the loop ends. -/
def SkipRecentGraspEndEventLoop [FFloat] (OtherActor : AActor) (StartTime MaxGap : ℚ) :
    Nat → TIterator FSLGraspEndEvent → Option (List FSLGraspEndEvent)
  | 0, _ => none
  | fuel + 1, EvItr =>
    match EvItr.Get with
    | none => none
    | some Ev =>
      if Ev.OtherActor = OtherActor then
        if FFloat.Sub StartTime Ev.Time < MaxGap then
          some EvItr.RemoveCurrent.Container
        else SkipRecentGraspEndEventLoop OtherActor StartTime MaxGap fuel EvItr.Next
      else SkipRecentGraspEndEventLoop OtherActor StartTime MaxGap fuel EvItr.Next

/-- `SkipRecentGraspEndEventBroadcast`. -/
def SkipRecentGraspEndEventBroadcast [FFloat] (OtherActor : AActor) (StartTime : ℚ)
    (s : USLManipulatorListener) : Bool × USLManipulatorListener :=
  match SkipRecentGraspEndEventLoop OtherActor StartTime s.MaxGraspEventTimeGap
      s.RecentlyEndedGraspEvents.length (CreateIterator s.RecentlyEndedGraspEvents) with
  | some Arr =>
    (true, { s with
      RecentlyEndedGraspEvents := Arr,
      GraspDelayTimerHandle := if Arr.length = 0 then none else s.GraspDelayTimerHandle })
  | none => (false, s)

/-- `BeginGrasp`. -/
def BeginGrasp [FFloat] (now : ℚ) (OtherActor : AActor) (s : USLManipulatorListener) :
    USLManipulatorListener :=
  let s1 := { s with GraspedObjects := TArrayAddUnique s.GraspedObjects OtherActor }
  let r := SkipRecentGraspEndEventBroadcast OtherActor now s1
  if !r.1 then
    { r.2 with Log := r.2.Log ++
        [Broadcast.OnBeginManipulatorGrasp r.2.SemanticOwner OtherActor now r.2.ActiveGraspType] }
  else r.2

/-- `EndGrasp`. -/
def EndGrasp [FFloat] (now : ℚ) (OtherActor : AActor) (s : USLManipulatorListener) :
    USLManipulatorListener :=
  let r := TArrayRemove s.GraspedObjects OtherActor
  if r.2 > 0 then
    let s1 := { s with
      GraspedObjects := r.1,
      RecentlyEndedGraspEvents := s.RecentlyEndedGraspEvents ++ [⟨OtherActor, now⟩] }
    if !s1.GraspDelayTimerHandle.isSome then
      { s1 with
        GraspDelayTimerHandle := SetTimer now (FFloat.Mul s1.MaxGraspEventTimeGap (6 / 5)) }
    else s1
  else s

/-- `CheckGraspState`. -/
def CheckGraspState [FFloat] (now : ℚ) (s : USLManipulatorListener) : USLManipulatorListener :=
  (TSetIntersect s.SetA s.SetB).foldl
    (fun st Obj => if Obj ∉ st.GraspedObjects then BeginGrasp now Obj st else st) s

/-- `OnBeginOverlapGroupAGrasp`. -/
def OnBeginOverlapGroupAGrasp [FFloat] (now : ℚ) (OtherActor : AActor) (s : USLManipulatorListener) :
    USLManipulatorListener :=
  let r := TSetEmplace s.SetA OtherActor
  let s1 := { s with SetA := r.1 }
  if !r.2 ∧ s1.GroupB.length ≠ 0 ∧ OtherActor ∉ s1.GraspedObjects then CheckGraspState now s1
  else s1

/-- `OnBeginOverlapGroupBGrasp`. -/
def OnBeginOverlapGroupBGrasp [FFloat] (now : ℚ) (OtherActor : AActor) (s : USLManipulatorListener) :
    USLManipulatorListener :=
  let r := TSetEmplace s.SetB OtherActor
  let s1 := { s with SetB := r.1 }
  if !r.2 ∧ s1.GroupA.length ≠ 0 ∧ OtherActor ∉ s1.GraspedObjects then CheckGraspState now s1
  else s1

/-- `OnEndOverlapGroupAGrasp`. -/
def OnEndOverlapGroupAGrasp [FFloat] (now : ℚ) (OtherActor : AActor) (s : USLManipulatorListener) :
    USLManipulatorListener :=
  let r := TSetRemove s.SetA OtherActor
  let s1 := { s with SetA := r.1 }
  if r.2 > 0 then
    if OtherActor ∈ s1.GraspedObjects then EndGrasp now OtherActor s1 else s1
  else s1

/-- `OnEndOverlapGroupBGrasp`. -/
def OnEndOverlapGroupBGrasp [FFloat] (now : ℚ) (OtherActor : AActor) (s : USLManipulatorListener) :
    USLManipulatorListener :=
  let r := TSetRemove s.SetB OtherActor
  let s1 := { s with SetB := r.1 }
  if r.2 > 0 then
    if OtherActor ∈ s1.GraspedObjects then EndGrasp now OtherActor s1 else s1
  else s1

/-- The loop of `DelayedGraspEndEventCallback`: the iterator and the log when it ends. -/
def DelayedGraspEndEventLoop [FFloat] (Owner : FSLEntity) (CurrTime MaxGap : ℚ) :
    Nat → TIterator FSLGraspEndEvent → List Broadcast →
      TIterator FSLGraspEndEvent × List Broadcast
  | 0, EvItr, Log => (EvItr, Log)
  | fuel + 1, EvItr, Log =>
    match EvItr.Get with
    | none => (EvItr, Log)
    | some Ev =>
      if FFloat.Sub CurrTime Ev.Time > MaxGap then
        DelayedGraspEndEventLoop Owner CurrTime MaxGap fuel EvItr.RemoveCurrent.Next
          (Log ++ [Broadcast.OnEndManipulatorGrasp Owner Ev.OtherActor Ev.Time])
      else DelayedGraspEndEventLoop Owner CurrTime MaxGap fuel EvItr.Next Log

/-- `DelayedGraspEndEventCallback`. -/
def DelayedGraspEndEventCallback [FFloat] (CurrTime : ℚ) (s : USLManipulatorListener) :
    USLManipulatorListener :=
  let r := DelayedGraspEndEventLoop s.SemanticOwner CurrTime s.MaxGraspEventTimeGap
    s.RecentlyEndedGraspEvents.length (CreateIterator s.RecentlyEndedGraspEvents) s.Log
  let s1 := { s with RecentlyEndedGraspEvents := r.1.Container, Log := r.2 }
  if s1.RecentlyEndedGraspEvents.length > 0 then
    { s1 with
      GraspDelayTimerHandle := SetTimer CurrTime (FFloat.Mul s1.MaxGraspEventTimeGap (6 / 5)) }
  else s1

/-! ## SLManipulatorListener.cpp: contact

`GetEntityPtr` stands for `FSLEntitiesManager::GetInstance()->GetEntityPtr`, the lookup of
the entity registry: `none` is the null pointer. -/

/-- The loop of `SkipRecentContactEndEventBroadcast`: `some Arr` when the function returns true
having removed one event (`Arr` is the array afterwards), `none` when the loop ends. -/
def SkipRecentContactEndEventLoop [FFloat] (OtherItem : FSLEntity) (StartTime MaxGap : ℚ) :
    Nat → TIterator FSLContactEndEvent → Option (List FSLContactEndEvent)
  | 0, _ => none
  | fuel + 1, EvItr =>
    match EvItr.Get with
    | none => none
    | some Ev =>
      if Ev.OtherItem.EqualsFast OtherItem then
        let TimeGap := FFloat.Sub StartTime Ev.Time
        if TimeGap < MaxGap then
          some EvItr.RemoveCurrent.Container
        else SkipRecentContactEndEventLoop OtherItem StartTime MaxGap fuel EvItr.Next
      else SkipRecentContactEndEventLoop OtherItem StartTime MaxGap fuel EvItr.Next

/-- `SkipRecentContactEndEventBroadcast`. -/
def SkipRecentContactEndEventBroadcast [FFloat] (OtherItem : FSLEntity) (StartTime : ℚ)
    (s : USLManipulatorListener) : Bool × USLManipulatorListener :=
  match SkipRecentContactEndEventLoop OtherItem StartTime s.MaxContactEventTimeGap
      s.RecentlyEndedContactEvents.length (CreateIterator s.RecentlyEndedContactEvents) with
  | some Arr =>
    (true, { s with
      RecentlyEndedContactEvents := Arr,
      ContactDelayTimerHandle := if Arr.length = 0 then none else s.ContactDelayTimerHandle })
  | none => (false, s)

/-- `OnBeginOverlapContact`. -/
def OnBeginOverlapContact [FFloat] (GetEntityPtr : AActor → Option FSLEntity) (now : ℚ)
    (OtherActor : AActor) (s : USLManipulatorListener) : USLManipulatorListener :=
  match GetEntityPtr OtherActor with
  | some OtherItem =>
    match TMapFind s.ObjectsInContact OtherActor with
    | some NumContacts =>
      { s with ObjectsInContact :=
          TMapSetValue s.ObjectsInContact OtherActor (WrapInt32 (NumContacts + 1)) }
    | none =>
      let s1 := { s with ObjectsInContact := TMapAdd s.ObjectsInContact OtherActor 1 }
      let CurrTime := now
      let r := SkipRecentContactEndEventBroadcast OtherItem CurrTime s1
      if !r.1 then
        { r.2 with Log := r.2.Log ++ [Broadcast.OnBeginManipulatorContact
            (FSLContactResult.Init r.2.SemanticOwner OtherItem CurrTime false)] }
      else r.2
  | none => s

/-- `OnEndOverlapContact`. -/
def OnEndOverlapContact [FFloat] (GetEntityPtr : AActor → Option FSLEntity) (now : ℚ)
    (OtherActor : AActor) (s : USLManipulatorListener) : USLManipulatorListener :=
  match GetEntityPtr OtherActor with
  | some OtherItem =>
    match TMapFind s.ObjectsInContact OtherActor with
    | some NumContacts =>
      let s1 := { s with
        ObjectsInContact :=
          TMapSetValue s.ObjectsInContact OtherActor (WrapInt32 (NumContacts - 1)) }
      if WrapInt32 (NumContacts - 1) < 1 then
        let s2 := { s1 with
          ObjectsInContact := TMapRemove s1.ObjectsInContact OtherActor,
          RecentlyEndedContactEvents := s1.RecentlyEndedContactEvents ++ [⟨OtherItem, now⟩] }
        if !s2.ContactDelayTimerHandle.isSome then
          { s2 with
            ContactDelayTimerHandle :=
              SetTimer now (FFloat.Mul s2.MaxContactEventTimeGap (6 / 5)) }
        else s2
      else s1
    | none => s
  | none => s

/-- The loop of `DelayedContactEndEventCallback`: the iterator and the log when it ends. -/
def DelayedContactEndEventLoop [FFloat] (Owner : FSLEntity) (CurrTime MaxGap : ℚ) :
    Nat → TIterator FSLContactEndEvent → List Broadcast →
      TIterator FSLContactEndEvent × List Broadcast
  | 0, EvItr, Log => (EvItr, Log)
  | fuel + 1, EvItr, Log =>
    match EvItr.Get with
    | none => (EvItr, Log)
    | some Ev =>
      if FFloat.Sub CurrTime Ev.Time > MaxGap then
        DelayedContactEndEventLoop Owner CurrTime MaxGap fuel EvItr.RemoveCurrent.Next
          (Log ++ [Broadcast.OnEndManipulatorContact Owner Ev.OtherItem Ev.Time])
      else DelayedContactEndEventLoop Owner CurrTime MaxGap fuel EvItr.Next Log

/-- `DelayedContactEndEventCallback`. -/
def DelayedContactEndEventCallback [FFloat] (CurrTime : ℚ) (s : USLManipulatorListener) :
    USLManipulatorListener :=
  let r := DelayedContactEndEventLoop s.SemanticOwner CurrTime s.MaxContactEventTimeGap
    s.RecentlyEndedContactEvents.length (CreateIterator s.RecentlyEndedContactEvents) s.Log
  let s1 := { s with RecentlyEndedContactEvents := r.1.Container, Log := r.2 }
  if s1.RecentlyEndedContactEvents.length > 0 then
    { s1 with
      ContactDelayTimerHandle :=
        SetTimer CurrTime (FFloat.Mul s1.MaxContactEventTimeGap (6 / 5)) }
  else s1

/-! ## Runs of the listener

A run is a list of timed calls of the member functions that the overlap spheres, the input
axis, the timer manager and the owner of the listener invoke. -/

/-- The calls of a run. -/
inductive Call where
  | BeginOverlapGroupAGrasp (OtherActor : AActor)
  | BeginOverlapGroupBGrasp (OtherActor : AActor)
  | EndOverlapGroupAGrasp (OtherActor : AActor)
  | EndOverlapGroupBGrasp (OtherActor : AActor)
  | PauseGraspDetection (bInPause : Bool)
  | DelayedGraspEndEventCallback
  | BeginOverlapContact (OtherActor : AActor)
  | EndOverlapContact (OtherActor : AActor)
  | DelayedContactEndEventCallback
  | Finish (bForced : Bool)
deriving DecidableEq

/-- One timed call.  A delayed callback is invoked by the timer manager when the one-shot timer
of its handle expires, so the handle no longer names a pending timer when the callback body
starts. -/
def Step [FFloat] (GetEntityPtr : AActor → Option FSLEntity) (s : USLManipulatorListener)
    (c : ℚ × Call) : USLManipulatorListener :=
  match c.2 with
  | .BeginOverlapGroupAGrasp a => OnBeginOverlapGroupAGrasp c.1 a s
  | .BeginOverlapGroupBGrasp a => OnBeginOverlapGroupBGrasp c.1 a s
  | .EndOverlapGroupAGrasp a => OnEndOverlapGroupAGrasp c.1 a s
  | .EndOverlapGroupBGrasp a => OnEndOverlapGroupBGrasp c.1 a s
  | .PauseGraspDetection b => PauseGraspDetection c.1 b s
  | .DelayedGraspEndEventCallback =>
      DelayedGraspEndEventCallback c.1 { s with GraspDelayTimerHandle := none }
  | .BeginOverlapContact a => OnBeginOverlapContact GetEntityPtr c.1 a s
  | .EndOverlapContact a => OnEndOverlapContact GetEntityPtr c.1 a s
  | .DelayedContactEndEventCallback =>
      DelayedContactEndEventCallback c.1 { s with ContactDelayTimerHandle := none }
  | .Finish b => Finish b s

/-- A run: the calls are made in list order. -/
def Run [FFloat] (GetEntityPtr : AActor → Option FSLEntity) (s : USLManipulatorListener)
    (cs : List (ℚ × Call)) : USLManipulatorListener :=
  cs.foldl (Step GetEntityPtr) s

/-- The clock of a run is non-decreasing and starts at or after `t`. -/
def ClockFrom (t : ℚ) : List (ℚ × Call) → Prop
  | [] => True
  | c :: cs => t ≤ c.1 ∧ ClockFrom c.1 cs

/-- The empty state of a listener: nothing overlaps, nothing is grasped or in contact, nothing
is pending and nothing has been broadcast. -/
def IsEmptyState (s : USLManipulatorListener) : Prop :=
  s.SetA = [] ∧ s.SetB = [] ∧ s.GraspedObjects = [] ∧ s.ObjectsInContact = [] ∧
  s.RecentlyEndedGraspEvents = [] ∧ s.RecentlyEndedContactEvents = [] ∧ s.Log = []

/-! ## SLWorldStateWriterMongoC.cpp: the sample pass

`FEngine` collects what the engine and the conversion library answer during one pass:
the pose of an object behind a weak pointer (`none` when the pointer is stale, which is what
`TWeakObjectPtr::IsValid` tests), `FQuat::AngularDistance`, the skeletal mesh parent and its
bones, and `FConversions::UToROS`. -/

/-- Engine `FVector`. -/
structure FVector where
  X : ℚ
  Y : ℚ
  Z : ℚ
deriving DecidableEq

/-- Engine `FQuat`. -/
structure FQuat where
  X : ℚ
  Y : ℚ
  Z : ℚ
  W : ℚ
deriving DecidableEq

/-- Engine `FVector::DistSquared`. -/
def FVector.DistSquared (V1 V2 : FVector) : ℚ :=
  (V2.X - V1.X) * (V2.X - V1.X) + (V2.Y - V1.Y) * (V2.Y - V1.Y) + (V2.Z - V1.Z) * (V2.Z - V1.Z)

/-- Engine `FQuat::Identity`. -/
def FQuat.Identity : FQuat := { X := 0, Y := 0, Z := 0, W := 1 }

/-- Answers of the engine during one sample pass. -/
structure FEngine where
  Pose : Nat → Option (FVector × FQuat)
  AngularDistance : FQuat → FQuat → ℚ
  SkeletalMeshParent : Nat → Option Nat
  Bones : Nat → List (String × FVector × FQuat)
  UToROSVector : FVector → FVector
  UToROSQuat : FQuat → FQuat

/-- `TSLEntityPreviousPose<T>`: `Obj` is the weak pointer. -/
structure TSLEntityPreviousPose where
  Obj : Nat
  Entity : FSLEntity
  PrevLoc : FVector
  PrevQuat : FQuat
deriving DecidableEq

/-- The init constructor of `TSLEntityPreviousPose` with its default arguments
(`BIG_NUMBER` is the argument `BigNumber`). -/
def TSLEntityPreviousPose.Init (BigNumber : ℚ) (InObj : Nat) (InEntity : FSLEntity) :
    TSLEntityPreviousPose :=
  { Obj := InObj, Entity := InEntity,
    PrevLoc := { X := BigNumber, Y := BigNumber, Z := BigNumber },
    PrevQuat := FQuat.Identity }

/-- One bone element written by `AddSkeletalBones`. -/
structure FBoneDoc where
  name : String
  loc : FVector
  rot : FQuat
deriving DecidableEq

/-- One element of the `entities` / `skel_entities` array. -/
structure FEntityDoc where
  id : String
  loc : FVector
  rot : FQuat
  bones : Option (List (Nat × FBoneDoc))
deriving DecidableEq

/-- `FSLGazeData`, as far as `SLWorldStateWriterMongoC.cpp` uses it (the declaration is not
among the sources): the members that `AddGazeData` reads. -/
structure FSLGazeData where
  Target : FVector
  Origin : FVector
  Entity : FSLEntity
deriving DecidableEq

/-- The two member functions of `FSLGazeData` that `Write` calls, `HasDataFast()` and
`Equals(Other, Tolerance)`; their code is not among the sources, so they are arguments. -/
structure FSLGazeDataOps where
  HasDataFast : FSLGazeData → Bool
  Equals : FSLGazeData → FSLGazeData → ℚ → Bool

/-- The `gaze` sub-document written by `AddGazeData`. -/
structure FGazeDoc where
  entity_id : String
  target : FVector
  origin : FVector
deriving DecidableEq

/-- The document `ws_doc` that `Write` builds: `skel_entities` is present only when the
skeletal list is not empty, `gaze` only when `AddGazeData` ran. -/
structure FWorldStateDoc where
  timestamp : ℚ
  entities : List (Nat × FEntityDoc)
  skel_entities : Option (List (Nat × FEntityDoc))
  gaze : Option FGazeDoc
deriving DecidableEq

/-- The calls of the database driver made by the writer, in the order of the source.
`InsertOne` records whether the collection handle it is given is set; `CreateIndexes` records
the key documents of the command (the index names are derived from them by the driver). -/
inductive FMongoCommand where
  | MongocInit
  | UriNewWithError (Uri : String)
  | ClientNewFromUri
  | ClientSetAppname (Name : String)
  | ClientGetDatabase (DBName : String)
  | DatabaseHasCollection (CollectionName : String)
  | CollectionDrop (CollectionName : String)
  | ClientGetCollection (DBName : String) (CollectionName : String)
  | PingAdmin
  | CollectionInsertOne (bCollectionSet : Bool) (Doc : FWorldStateDoc)
  | BsonDestroy
  | CreateIndexes (Keys : List (List (String × Int)))
  | UriDestroy
  | ClientDestroy
  | DatabaseDestroy
  | CollectionDestroy
  | MongocCleanup
deriving DecidableEq

/-- What the driver and the server answer during one call of a member function. -/
structure FMongoAnswers where
  bUriValid : Bool
  bClientCreated : Bool
  bHasCollection : Bool
  bDropSucceeds : Bool
  bPingSucceeds : Bool
  bInsertSucceeds : Bool
  bIndexCommandSucceeds : Bool
deriving DecidableEq

/-- The members of `FSLWorldStateWriterMongoC`: the init flag, the two thresholds that `Init`
copies from the parameters, the last written gaze data, and the four driver handles (true
when the member holds a handle obtained from the driver).  `Commands` is a ghost field: the
driver calls made so far. -/
structure FSLWorldStateWriterMongoC where
  bIsInit : Bool
  LinDistSqMin : ℚ
  AngDistMin : ℚ
  PreviousGazeData : FSLGazeData
  uri : Bool
  client : Bool
  database : Bool
  collection : Bool
  Commands : List FMongoCommand
deriving DecidableEq

/-- The variables of one of the three loops: the iterator over the tracked entities, the
array document written so far (key and element), the array index, and the arguments of the
calls of `FSLEntitiesManager::RemoveEntity` made so far (`none`: the null pointer, `some o`:
the object `o`). -/
structure FSampleLoop where
  Itr : TIterator TSLEntityPreviousPose
  out_doc : List (Nat × FEntityDoc)
  idx : Nat
  RemoveEntityCalls : List (Option Nat)
deriving DecidableEq

/-- In-place write through the iterator, `Itr->Field = Value`. -/
def TIterator.Set {α : Type} (It : TIterator α) (x : α) : TIterator α :=
  { It with Container := It.Container.set It.Index.toNat x }

/-- The test both plain loops and the skeletal loop make on a live entity.  The second operand
of `||` is the `float` returned by `AngularDistance`, converted to `bool`. -/
def PoseChanged (W : FSLWorldStateWriterMongoC) (E : FEngine) (CurrLoc : FVector) (CurrQuat : FQuat)
    (Prev : TSLEntityPreviousPose) : Bool :=
  decide (FVector.DistSquared CurrLoc Prev.PrevLoc > W.LinDistSqMin) ||
    decide (E.AngularDistance CurrQuat Prev.PrevQuat ≠ 0)

/-- The statements after `Itr.RemoveCurrent()` in the else branch: the argument of
`RemoveEntity`, `Itr->Obj.Get()`, is read through the iterator that `RemoveCurrent` has
already moved.  The result is `none` when the iterator is not at an element of the array, so
that `Itr->` fails the range check of `TArray`; otherwise it is the pointer `Get()` returns,
the object or the null pointer. -/
def RemoveEntityArgument (E : FEngine) (Itr : TIterator TSLEntityPreviousPose) :
    Option (Option Nat) :=
  match Itr.Get with
  | none => none
  | some Ent => some (if (E.Pose Ent.Obj).isSome then some Ent.Obj else none)

/-- `AddSkeletalBones`. -/
def AddSkeletalBones (E : FEngine) (SkelComp : Nat) : List (Nat × FBoneDoc) :=
  (E.Bones SkelComp).enum.map
    (fun b => (b.1, { name := b.2.1, loc := E.UToROSVector b.2.2.1,
                      rot := E.UToROSQuat b.2.2.2 }))

/-- The loop of `AddActorEntities`.  The result is `none` when the pass does not return: the
read `Itr->Obj` after `RemoveCurrent` is outside the array. -/
def AddActorEntitiesLoop (W : FSLWorldStateWriterMongoC) (E : FEngine) :
    Nat → FSampleLoop → Option FSampleLoop
  | 0, L => some L
  | fuel + 1, L =>
    match L.Itr.Get with
    | none => some L
    | some Ent =>
      match E.Pose Ent.Obj with
      | some (CurrLoc, CurrQuat) =>
        if PoseChanged W E CurrLoc CurrQuat Ent then
          AddActorEntitiesLoop W E fuel
            { L with
              Itr := (L.Itr.Set { Ent with PrevLoc := CurrLoc, PrevQuat := CurrQuat }).Next,
              out_doc := L.out_doc ++ [(L.idx,
                { id := Ent.Entity.Id, loc := E.UToROSVector CurrLoc,
                  rot := E.UToROSQuat CurrQuat, bones := none })],
              idx := L.idx + 1 }
        else AddActorEntitiesLoop W E fuel { L with Itr := L.Itr.Next }
      | none =>
        match RemoveEntityArgument E L.Itr.RemoveCurrent with
        | none => none
        | some Arg =>
          AddActorEntitiesLoop W E fuel
            { L with
              Itr := L.Itr.RemoveCurrent.Next,
              RemoveEntityCalls := L.RemoveEntityCalls ++ [Arg] }

/-- `AddActorEntities`: the array afterwards, the document array with its index, and the
calls of `RemoveEntity`; `none` when the pass does not return. -/
def AddActorEntities (W : FSLWorldStateWriterMongoC) (E : FEngine)
    (ActorEntities : List TSLEntityPreviousPose) (out_doc : List (Nat × FEntityDoc))
    (idx : Nat) : Option FSampleLoop :=
  AddActorEntitiesLoop W E ActorEntities.length
    { Itr := CreateIterator ActorEntities, out_doc := out_doc, idx := idx,
      RemoveEntityCalls := [] }

/-- The loop of `AddComponentEntities`; `none` as in `AddActorEntitiesLoop`. -/
def AddComponentEntitiesLoop (W : FSLWorldStateWriterMongoC) (E : FEngine) :
    Nat → FSampleLoop → Option FSampleLoop
  | 0, L => some L
  | fuel + 1, L =>
    match L.Itr.Get with
    | none => some L
    | some Ent =>
      match E.Pose Ent.Obj with
      | some (CurrLoc, CurrQuat) =>
        if PoseChanged W E CurrLoc CurrQuat Ent then
          AddComponentEntitiesLoop W E fuel
            { L with
              Itr := (L.Itr.Set { Ent with PrevLoc := CurrLoc, PrevQuat := CurrQuat }).Next,
              out_doc := L.out_doc ++ [(L.idx,
                { id := Ent.Entity.Id, loc := E.UToROSVector CurrLoc,
                  rot := E.UToROSQuat CurrQuat, bones := none })],
              idx := L.idx + 1 }
        else AddComponentEntitiesLoop W E fuel { L with Itr := L.Itr.Next }
      | none =>
        match RemoveEntityArgument E L.Itr.RemoveCurrent with
        | none => none
        | some Arg =>
          AddComponentEntitiesLoop W E fuel
            { L with
              Itr := L.Itr.RemoveCurrent.Next,
              RemoveEntityCalls := L.RemoveEntityCalls ++ [Arg] }

/-- `AddComponentEntities`. -/
def AddComponentEntities (W : FSLWorldStateWriterMongoC) (E : FEngine)
    (ComponentEntities : List TSLEntityPreviousPose) (out_doc : List (Nat × FEntityDoc))
    (idx : Nat) : Option FSampleLoop :=
  AddComponentEntitiesLoop W E ComponentEntities.length
    { Itr := CreateIterator ComponentEntities, out_doc := out_doc, idx := idx,
      RemoveEntityCalls := [] }

/-- The loop of `AddSkeletalEntities`.  The pose is read through the weak pointer before the
pointer is tested, so the result is `none` (null dereference) at a stale entry; the else
branch is as in the other two loops. -/
def AddSkeletalEntitiesLoop (W : FSLWorldStateWriterMongoC) (E : FEngine) :
    Nat → FSampleLoop → Option FSampleLoop
  | 0, L => some L
  | fuel + 1, L =>
    match L.Itr.Get with
    | none => some L
    | some Ent =>
      match E.Pose Ent.Obj with
      | none => none
      | some (CurrLoc, CurrQuat) =>
        if (E.Pose Ent.Obj).isSome then
          if PoseChanged W E CurrLoc CurrQuat Ent then
            AddSkeletalEntitiesLoop W E fuel
              { L with
                Itr := (L.Itr.Set { Ent with PrevLoc := CurrLoc, PrevQuat := CurrQuat }).Next,
                out_doc := L.out_doc ++ [(L.idx,
                  { id := Ent.Entity.Id, loc := E.UToROSVector CurrLoc,
                    rot := E.UToROSQuat CurrQuat,
                    bones := (E.SkeletalMeshParent Ent.Obj).map (AddSkeletalBones E) })],
                idx := L.idx + 1 }
          else AddSkeletalEntitiesLoop W E fuel { L with Itr := L.Itr.Next }
        else
          match RemoveEntityArgument E L.Itr.RemoveCurrent with
          | none => none
          | some Arg =>
            AddSkeletalEntitiesLoop W E fuel
              { L with
                Itr := L.Itr.RemoveCurrent.Next,
                RemoveEntityCalls := L.RemoveEntityCalls ++ [Arg] }

/-- `AddSkeletalEntities`. -/
def AddSkeletalEntities (W : FSLWorldStateWriterMongoC) (E : FEngine)
    (SkeletalEntities : List TSLEntityPreviousPose) (out_doc : List (Nat × FEntityDoc))
    (idx : Nat) : Option FSampleLoop :=
  AddSkeletalEntitiesLoop W E SkeletalEntities.length
    { Itr := CreateIterator SkeletalEntities, out_doc := out_doc, idx := idx,
      RemoveEntityCalls := [] }

/-! ## `FSLWorldStateWriterMongoC`: connection, `Init`, `Finish`, `Write` -/

/-- The members of `FSLWorldStateWriterParams` that `Init` reads. -/
structure FSLWorldStateWriterParams where
  LinearDistanceSquared : ℚ
  AngularDistance : ℚ
  TaskId : String
  EpisodeId : String
  ServerIp : String
  ServerPort : Nat
  bOverwrite : Bool
deriving DecidableEq

/-- The default constructor: `bIsInit = false`, and no handle has been obtained yet; the
thresholds and the gaze snapshot, which the constructor does not assign, are arguments. -/
def FSLWorldStateWriterMongoC.Constructor (LinDistSqMin AngDistMin : ℚ)
    (PreviousGazeData : FSLGazeData) : FSLWorldStateWriterMongoC :=
  { bIsInit := false, LinDistSqMin := LinDistSqMin, AngDistMin := AngDistMin,
    PreviousGazeData := PreviousGazeData,
    uri := false, client := false, database := false, collection := false, Commands := [] }

/-- Appends one driver call to the ghost field. -/
def FSLWorldStateWriterMongoC.Issue (W : FSLWorldStateWriterMongoC) (c : FMongoCommand) :
    FSLWorldStateWriterMongoC :=
  { W with Commands := W.Commands ++ [c] }

/-- The last part of `Connect`, reached when the collection does not exist or was dropped:
get the collection handle, ping the server, destroy the ping command. -/
def ConnectCollection (Srv : FMongoAnswers) (DBName CollectionName : String)
    (W : FSLWorldStateWriterMongoC) : Bool × FSLWorldStateWriterMongoC :=
  let W1 := { W with collection := true }.Issue (.ClientGetCollection DBName CollectionName)
  let W2 := W1.Issue .PingAdmin
  if !Srv.bPingSucceeds then (false, W2.Issue .BsonDestroy)
  else (true, W2.Issue .BsonDestroy)

/-- `FSLWorldStateWriterMongoC::Connect` (with `SL_WITH_LIBMONGO_C`): returns the result and
the writer with the handles set so far. -/
def Connect (Srv : FMongoAnswers) (DBName CollectionName ServerIp : String) (ServerPort : Nat)
    (bOverwrite : Bool) (W : FSLWorldStateWriterMongoC) : Bool × FSLWorldStateWriterMongoC :=
  let W1 := W.Issue .MongocInit
  let Uri := "mongodb://" ++ ServerIp ++ ":" ++ toString ServerPort
  let W2 := { W1 with uri := Srv.bUriValid }.Issue (.UriNewWithError Uri)
  if !W2.uri then (false, W2)
  else
    let W3 := { W2 with client := Srv.bClientCreated }.Issue .ClientNewFromUri
    if !W3.client then (false, W3)
    else
      let W4 := W3.Issue (.ClientSetAppname ("SL_" ++ CollectionName))
      let W5 := { W4 with database := true }.Issue (.ClientGetDatabase DBName)
      let W6 := W5.Issue (.DatabaseHasCollection CollectionName)
      if Srv.bHasCollection then
        if bOverwrite then
          let W7 := W6.Issue (.CollectionDrop CollectionName)
          if !Srv.bDropSucceeds then (false, W7)
          else ConnectCollection Srv DBName CollectionName W7
        else (false, W6)
      else ConnectCollection Srv DBName CollectionName W6

/-- `FSLWorldStateWriterMongoC::Init`. -/
def FSLWorldStateWriterMongoC.Init (Srv : FMongoAnswers) (InParams : FSLWorldStateWriterParams)
    (W : FSLWorldStateWriterMongoC) : FSLWorldStateWriterMongoC :=
  if !W.bIsInit then
    let r := Connect Srv InParams.TaskId InParams.EpisodeId InParams.ServerIp
      InParams.ServerPort InParams.bOverwrite W
    if !r.1 then r.2
    else
      { r.2 with
        LinDistSqMin := InParams.LinearDistanceSquared
        AngDistMin := InParams.AngularDistance
        bIsInit := true }
  else W

/-- The key documents of the five indexes built by `CreateIndexes`. -/
def IndexKeys : List (List (String × Int)) :=
  [[("timestamp", 1)], [("entities.id", 1)], [("skel_entities.id", 1)],
   [("skel_entities.bones.name", 1)], [("gaze.entity_id", 1)]]

/-- `FSLWorldStateWriterMongoC::CreateIndexes`: the result and the writer (only the ghost
field changes: the member function is `const`). -/
def CreateIndexes (Srv : FMongoAnswers) (W : FSLWorldStateWriterMongoC) :
    Bool × FSLWorldStateWriterMongoC :=
  if !W.bIsInit then (false, W)
  else
    let W1 := W.Issue (.CreateIndexes IndexKeys)
    if !Srv.bIndexCommandSucceeds then (false, W1.Issue .BsonDestroy)
    else (true, W1.Issue .BsonDestroy)

/-- `FSLWorldStateWriterMongoC::Finish`. -/
def FSLWorldStateWriterMongoC.Finish (Srv : FMongoAnswers) (W : FSLWorldStateWriterMongoC) :
    FSLWorldStateWriterMongoC :=
  if W.bIsInit then
    { (CreateIndexes Srv W).2 with bIsInit := false }
  else W

/-- `FSLWorldStateWriterMongoC::Disconnect`. -/
def Disconnect (W : FSLWorldStateWriterMongoC) : FSLWorldStateWriterMongoC :=
  let W1 := if W.uri then W.Issue .UriDestroy else W
  let W2 := if W1.client then W1.Issue .ClientDestroy else W1
  let W3 := if W2.database then W2.Issue .DatabaseDestroy else W2
  let W4 := if W3.collection then W3.Issue .CollectionDestroy else W3
  W4.Issue .MongocCleanup

/-- `FSLWorldStateWriterMongoC::AddGazeData`: the `gaze` sub-document. -/
def AddGazeData (E : FEngine) (GazeData : FSLGazeData) : FGazeDoc :=
  { entity_id := GazeData.Entity.Id
    target := E.UToROSVector GazeData.Target
    origin := E.UToROSVector GazeData.Origin }

/-- What one call of `Write` leaves behind: the writer, the three arrays (passed by
reference) and the arguments of the calls of `FSLEntitiesManager::RemoveEntity`. -/
structure FWriteResult where
  Writer : FSLWorldStateWriterMongoC
  ActorEntities : List TSLEntityPreviousPose
  ComponentEntities : List TSLEntityPreviousPose
  SkeletalEntities : List TSLEntityPreviousPose
  RemoveEntityCalls : List (Option Nat)

/-- The part of `Write` after the three loops: the gaze data, the insertion and the clean
up. -/
def WriteDocument (E : FEngine) (G : FSLGazeDataOps) (Srv : FMongoAnswers) (Timestamp : ℚ)
    (entities : List (Nat × FEntityDoc)) (skel_entities : Option (List (Nat × FEntityDoc)))
    (GazeData : FSLGazeData) (W : FSLWorldStateWriterMongoC) : FSLWorldStateWriterMongoC :=
  let ws_doc : FWorldStateDoc :=
    { timestamp := Timestamp, entities := entities, skel_entities := skel_entities,
      gaze := none }
  let r : FWorldStateDoc × FSLWorldStateWriterMongoC :=
    if G.HasDataFast GazeData then
      if !G.Equals W.PreviousGazeData GazeData 3 then
        ({ ws_doc with gaze := some (AddGazeData E GazeData) },
         { W with PreviousGazeData := GazeData })
      else (ws_doc, W)
    else (ws_doc, W)
  let W1 := r.2.Issue (.CollectionInsertOne r.2.collection r.1)
  let W2 := if !Srv.bInsertSucceeds then W1.Issue .BsonDestroy else W1
  W2.Issue .BsonDestroy

/-- `FSLWorldStateWriterMongoC::Write` (with `SL_WITH_LIBMONGO_C`).  The result is `none`
when one of the three passes does not return. -/
def Write (E : FEngine) (G : FSLGazeDataOps) (Srv : FMongoAnswers) (Timestamp : ℚ)
    (ActorEntities ComponentEntities SkeletalEntities : List TSLEntityPreviousPose)
    (GazeData : FSLGazeData) (bCheckAndRemoveInvalidEntities : Bool)
    (W : FSLWorldStateWriterMongoC) : Option FWriteResult :=
  if ActorEntities.length = 0 ∧ ComponentEntities.length = 0 ∧ SkeletalEntities.length = 0 then
    some
      { Writer := W, ActorEntities := ActorEntities, ComponentEntities := ComponentEntities,
        SkeletalEntities := SkeletalEntities, RemoveEntityCalls := [] }
  else
    let arr_idx := 0
    match AddActorEntities W E ActorEntities [] arr_idx with
    | none => none
    | some A =>
      match AddComponentEntities W E ComponentEntities A.out_doc A.idx with
      | none => none
      | some C =>
        if SkeletalEntities.length > 0 then
          match AddSkeletalEntities W E SkeletalEntities [] 0 with
          | none => none
          | some S =>
            some
              { Writer := WriteDocument E G Srv Timestamp C.out_doc (some S.out_doc) GazeData W
                ActorEntities := A.Itr.Container
                ComponentEntities := C.Itr.Container
                SkeletalEntities := S.Itr.Container
                RemoveEntityCalls :=
                  A.RemoveEntityCalls ++ C.RemoveEntityCalls ++ S.RemoveEntityCalls }
        else
          some
            { Writer := WriteDocument E G Srv Timestamp C.out_doc none GazeData W
              ActorEntities := A.Itr.Container
              ComponentEntities := C.Itr.Container
              SkeletalEntities := SkeletalEntities
              RemoveEntityCalls := A.RemoveEntityCalls ++ C.RemoveEntityCalls }

/-- A call of one of the three public member functions of the writer, with what the
environment answers during the call. -/
inductive WriterCall where
  | Init (Srv : FMongoAnswers) (InParams : FSLWorldStateWriterParams)
  | Write (E : FEngine) (G : FSLGazeDataOps) (Srv : FMongoAnswers) (Timestamp : ℚ)
      (ActorEntities ComponentEntities SkeletalEntities : List TSLEntityPreviousPose)
      (GazeData : FSLGazeData) (bCheckAndRemoveInvalidEntities : Bool)
  | Finish (Srv : FMongoAnswers)

/-- One call on the writer; `none` when the call does not return (a pass of `Write` stops at
a null dereference or at a failed range check). -/
def WriterStep (W : FSLWorldStateWriterMongoC) : WriterCall → Option FSLWorldStateWriterMongoC
  | .Init Srv InParams => some (W.Init Srv InParams)
  | .Write E G Srv Timestamp A C S GazeData b =>
    (Write E G Srv Timestamp A C S GazeData b W).map (fun r => r.Writer)
  | .Finish Srv => some (W.Finish Srv)

/-- A sequence of calls on the writer; it ends at the first call that does not return, with
the writer as it was before that call. -/
def WriterRun (W : FSLWorldStateWriterMongoC) : List WriterCall → FSLWorldStateWriterMongoC
  | [] => W
  | c :: cs =>
    match WriterStep W c with
    | none => W
    | some W1 => WriterRun W1 cs

/-! ## SLWorldStateAsyncWorker.cpp

The worker owns the writer and the three arrays of tracked entities and is the caller of
`Write`.  Of the `switch` over the writer type the case `ESLWorldStateWriterType::MongoC` is
modelled, the writer whose code is among the sources; `IsInit()` of the writer, declared in
its header, is taken to return `bIsInit`.  The gaze data handler is left out: the gaze data
it returns is an argument of `DoWork`. -/

/-- The members of `FSLWorldStateAsyncWorker`: the three flags, whether `World` is set, the
shared pointer `Writer` (`none`: null) and the three arrays. -/
structure FSLWorldStateAsyncWorker where
  bIsInit : Bool
  bIsStarted : Bool
  bIsFinished : Bool
  World : Bool
  Writer : Option FSLWorldStateWriterMongoC
  ActorEntitites : List TSLEntityPreviousPose
  ComponentEntities : List TSLEntityPreviousPose
  SkeletalEntities : List TSLEntityPreviousPose

/-- The constructor `FSLWorldStateAsyncWorker()`: the flags are cleared, the shared pointer is
null and the arrays are empty; `World`, which the constructor does not assign, is an
argument. -/
def FSLWorldStateAsyncWorker.Constructor (World : Bool) : FSLWorldStateAsyncWorker :=
  { bIsInit := false, bIsStarted := false, bIsFinished := false, World := World,
    Writer := none, ActorEntitites := [], ComponentEntities := [], SkeletalEntities := [] }

/-- The init constructor `FSLWorldStateWriterMongoC(InParams)`: `bIsInit = false`, then
`Init(InParams)`. -/
def FSLWorldStateWriterMongoC.ConstructorInit (Srv : FMongoAnswers)
    (InParams : FSLWorldStateWriterParams) (LinDistSqMin AngDistMin : ℚ)
    (PreviousGazeData : FSLGazeData) : FSLWorldStateWriterMongoC :=
  (FSLWorldStateWriterMongoC.Constructor LinDistSqMin AngDistMin PreviousGazeData).Init Srv
    InParams

/-- `FSLWorldStateAsyncWorker::Init`.  `InWorld` says whether the world pointer is set;
`Actors`, `Components` and `Skeletals` are the objects, with their semantic entities, that the
two loops over the arrays of the entities manager emplace into the three arrays, in order;
`LinDistSqMin`, `AngDistMin` and `PreviousGazeData` are the members of the new writer that its
constructor does not assign. -/
def FSLWorldStateAsyncWorker.Init (InWorld : Bool) (Srv : FMongoAnswers)
    (InParams : FSLWorldStateWriterParams) (LinDistSqMin AngDistMin : ℚ)
    (PreviousGazeData : FSLGazeData) (BigNumber : ℚ)
    (Actors Components Skeletals : List (Nat × FSLEntity)) (w : FSLWorldStateAsyncWorker) :
    FSLWorldStateAsyncWorker :=
  if !w.bIsInit then
    let w1 := { w with World := InWorld }
    if !w1.World then w1
    else
      let w2 := { w1 with
        Writer := some (FSLWorldStateWriterMongoC.ConstructorInit Srv InParams LinDistSqMin
          AngDistMin PreviousGazeData) }
      match w2.Writer with
      | none => w2
      | some Writer =>
        if !Writer.bIsInit then w2
        else
          { w2 with
            ActorEntitites := w2.ActorEntitites ++
              Actors.map (fun p => TSLEntityPreviousPose.Init BigNumber p.1 p.2),
            ComponentEntities := w2.ComponentEntities ++
              Components.map (fun p => TSLEntityPreviousPose.Init BigNumber p.1 p.2),
            SkeletalEntities := w2.SkeletalEntities ++
              Skeletals.map (fun p => TSLEntityPreviousPose.Init BigNumber p.1 p.2),
            bIsInit := true }
  else w

/-- `FSLWorldStateAsyncWorker::Start`. -/
def FSLWorldStateAsyncWorker.Start (w : FSLWorldStateAsyncWorker) : FSLWorldStateAsyncWorker :=
  if !w.bIsStarted && w.bIsInit then { w with bIsStarted := true } else w

/-- `FSLWorldStateAsyncWorker::Finish`. -/
def FSLWorldStateAsyncWorker.Finish (bForced : Bool) (Srv : FMongoAnswers)
    (w : FSLWorldStateAsyncWorker) : FSLWorldStateAsyncWorker :=
  if !w.bIsFinished && (w.bIsStarted || w.bIsInit) then
    let w1 :=
      if !bForced then
        match w.Writer with
        | some Writer => { w with Writer := some (Writer.Finish Srv) }
        | none => w
      else w
    { w1 with bIsInit := false, bIsStarted := false, bIsFinished := true }
  else w

/-- The pending grasp end events a flush at `CurrTime` publishes: strictly older than the gap. -/
def GraspExpired [FFloat] (CurrTime MaxGap : ℚ) (Ev : FSLGraspEndEvent) : Bool :=
  decide (FFloat.Sub CurrTime Ev.Time > MaxGap)

/-- The pending contact end events a flush at `CurrTime` publishes: strictly older than the
gap. -/
def ContactExpired [FFloat] (CurrTime MaxGap : ℚ) (Ev : FSLContactEndEvent) : Bool :=
  decide (FFloat.Sub CurrTime Ev.Time > MaxGap)

/-- The pending grasp end event a begin of `OtherActor` at `StartTime` cancels. -/
def GraspCancels [FFloat] (OtherActor : AActor) (StartTime MaxGap : ℚ)
    (Ev : FSLGraspEndEvent) : Bool :=
  decide (Ev.OtherActor = OtherActor) && decide (FFloat.Sub StartTime Ev.Time < MaxGap)

/-- The pending contact end event a begin of `OtherItem` at `StartTime` cancels. -/
def ContactCancels [FFloat] (OtherItem : FSLEntity) (StartTime MaxGap : ℚ)
    (Ev : FSLContactEndEvent) : Bool :=
  Ev.OtherItem.EqualsFast OtherItem && decide (FFloat.Sub StartTime Ev.Time < MaxGap)

instance (s : USLManipulatorListener) : Decidable (IsEmptyState s) := by
  unfold IsEmptyState
  infer_instance

/-- The weak pointer of a tracked entity is valid. -/
def EntryIsValid (E : FEngine) (Ent : TSLEntityPreviousPose) : Bool :=
  (E.Pose Ent.Obj).isSome

/-- The test of the sample pass, made on the current pose of a tracked entity: true when the
entity is appended to the document in this pass. -/
def EntryIsWritten (W : FSLWorldStateWriterMongoC) (E : FEngine) (Ent : TSLEntityPreviousPose) : Bool :=
  match E.Pose Ent.Obj with
  | some (CurrLoc, CurrQuat) => PoseChanged W E CurrLoc CurrQuat Ent
  | none => false

/-- The tracked entity after the pass has looked at it. -/
def EntryAfterPass (W : FSLWorldStateWriterMongoC) (E : FEngine) (Ent : TSLEntityPreviousPose) :
    TSLEntityPreviousPose :=
  match E.Pose Ent.Obj with
  | some (CurrLoc, CurrQuat) =>
    if PoseChanged W E CurrLoc CurrQuat Ent then
      { Ent with PrevLoc := CurrLoc, PrevQuat := CurrQuat }
    else Ent
  | none => Ent

/-- The relation the sample pass keeps between a valid tracked entity before the pass and the
same entity after it: `Obj` and `Entity` are as before, and the previous pose is the current
pose when the entity was appended to the document and is as before when it was not. -/
def PoseFollowsWritten (W : FSLWorldStateWriterMongoC) (E : FEngine)
    (Before After : TSLEntityPreviousPose) : Prop :=
  After.Obj = Before.Obj ∧ After.Entity = Before.Entity ∧
  (if EntryIsWritten W E Before then
    E.Pose Before.Obj = some (After.PrevLoc, After.PrevQuat)
  else After.PrevLoc = Before.PrevLoc ∧ After.PrevQuat = Before.PrevQuat)

/-- The array element the plain loops append for a written entity. -/
def EntryDoc (E : FEngine) (Ent : TSLEntityPreviousPose) : Option FEntityDoc :=
  (E.Pose Ent.Obj).map (fun P =>
    { id := Ent.Entity.Id, loc := E.UToROSVector P.1, rot := E.UToROSQuat P.2, bones := none })

/-! ## Concrete listeners, registries and engines used to instantiate the statements -/

/-- The semantic entity of the hand that owns the example listener. -/
def exampleOwner : FSLEntity := { Obj := some 100, Id := "hand", Class := "Hand", VisualMask := "" }

/-- The semantic entity of the cup, object 7. -/
def exampleCup : FSLEntity := { Obj := some 7, Id := "cup", Class := "Cup", VisualMask := "" }

/-- The semantic entity of the plate, object 8. -/
def examplePlate : FSLEntity :=
  { Obj := some 8, Id := "plate", Class := "Plate", VisualMask := "" }

/-- A registry that knows the cup and the plate. -/
def exampleRegistry : AActor → Option FSLEntity :=
  fun a => if a = 7 then some exampleCup else if a = 8 then some examplePlate else none

/-- A listener that has been constructed with gaps 0.5 s (grasp) and 0.12 s (contact),
initialised with one overlap sphere in each group, and started. -/
def exampleListener : USLManipulatorListener :=
  Start true true
    (Init true true exampleOwner [1] [2]
      (USLManipulatorListener.Constructor true true (1 / 2) (3 / 25))).2

/-- The example listener after object 5 was grasped and released and the cup was touched and
left: one grasp end event and one contact end event are pending. -/
def examplePending : USLManipulatorListener :=
  Run exampleRegistry exampleListener
    [(0, Call.BeginOverlapGroupAGrasp 5), (0, Call.BeginOverlapGroupBGrasp 5),
     (0, Call.BeginOverlapContact 7), (1, Call.EndOverlapGroupAGrasp 5),
     (1, Call.EndOverlapContact 7)]

/-- A writer with linear threshold 0.25 (squared) and angular threshold 0.1. -/
def exampleWriter : FSLWorldStateWriterMongoC :=
  { bIsInit := true, LinDistSqMin := 1 / 4, AngDistMin := 1 / 10,
    PreviousGazeData :=
      { Target := { X := 0, Y := 0, Z := 0 }, Origin := { X := 0, Y := 0, Z := 0 },
        Entity := { Obj := none, Id := "", Class := "", VisualMask := "" } },
    uri := true, client := true, database := true, collection := true, Commands := [] }

/-- An orientation slightly turned about the vertical axis. -/
def exampleTurned : FQuat := { X := 0, Y := 0, Z := 1 / 40, W := 1 }

/-- An engine in which object 1 rests at the origin with the turned orientation, object 2 has
moved to (1, 0, 0) without turning, every other object is destroyed, and the angular distance
between two different orientations is 0.05. -/
def exampleEngine : FEngine :=
  { Pose := fun o =>
      if o = 1 then some ({ X := 0, Y := 0, Z := 0 }, exampleTurned)
      else if o = 2 then some ({ X := 1, Y := 0, Z := 0 }, FQuat.Identity)
      else none,
    AngularDistance := fun q p => if q = p then 0 else 1 / 20,
    SkeletalMeshParent := fun _ => none,
    Bones := fun _ => [],
    UToROSVector := fun v => v,
    UToROSQuat := fun q => q }

/-- A tracked entity for object `o` whose last written pose is the origin, not turned. -/
def exampleEntry (o : Nat) : TSLEntityPreviousPose :=
  { Obj := o, Entity := exampleCup, PrevLoc := { X := 0, Y := 0, Z := 0 },
    PrevQuat := FQuat.Identity }

/-- The grasped objects are the members of both overlap sets, without duplicates. -/
def GraspedIsIntersection (s : USLManipulatorListener) : Prop :=
  s.GraspedObjects.Nodup ∧ ∀ x, x ∈ s.GraspedObjects ↔ (x ∈ s.SetA ∧ x ∈ s.SetB)

/-- A list of timestamps is in non-decreasing order and holds no time later than `now`. -/
def TimeOrdered (now : ℚ) (ts : List ℚ) : Prop :=
  ts.Pairwise (fun a b => a ≤ b) ∧ ∀ t ∈ ts, t ≤ now

/-- Both pending queues are in time order and hold no entry later than `now`. -/
def QueuesTimeOrdered (now : ℚ) (s : USLManipulatorListener) : Prop :=
  TimeOrdered now (s.RecentlyEndedGraspEvents.map (fun e => e.Time)) ∧
  TimeOrdered now (s.RecentlyEndedContactEvents.map (fun e => e.Time))

/-- The timestamp a broadcast carries. -/
def Broadcast.Time : Broadcast → ℚ
  | .OnBeginManipulatorGrasp _ _ t _ => t
  | .OnEndManipulatorGrasp _ _ t => t
  | .OnBeginManipulatorContact r => r.Time
  | .OnEndManipulatorContact _ _ t => t

/-- The broadcast is an end-grasp event. -/
def Broadcast.IsEndGrasp : Broadcast → Bool
  | .OnEndManipulatorGrasp _ _ _ => true
  | _ => false

/-- The broadcast is an end-contact event. -/
def Broadcast.IsEndContact : Broadcast → Bool
  | .OnEndManipulatorContact _ _ _ => true
  | _ => false

/-- Deciding `ClockFrom` by recursion on the run. -/
def ClockFrom.decide : (t : ℚ) → (cs : List (ℚ × Call)) → Decidable (ClockFrom t cs)
  | _, [] => isTrue trivial
  | t, c :: cs =>
    match (inferInstance : Decidable (t ≤ c.1)), ClockFrom.decide c.1 cs with
    | isTrue h1, isTrue h2 => isTrue ⟨h1, h2⟩
    | isFalse h1, _ => isFalse (fun h => h1 h.1)
    | _, isFalse h2 => isFalse (fun h => h2 h.2)

instance (t : ℚ) (cs : List (ℚ × Call)) : Decidable (ClockFrom t cs) := ClockFrom.decide t cs

/-- A run of the example listener under a non-decreasing clock: the cup is touched and object 5
grasped at time 0, the contact with the cup ends at 1.0, the grasp ends at 1.05. -/
def exampleRunBeforeFinish : List (ℚ × Call) :=
  [(0, Call.BeginOverlapContact 7), (0, Call.BeginOverlapGroupAGrasp 5),
   (0, Call.BeginOverlapGroupBGrasp 5), (1, Call.EndOverlapContact 7),
   (21 / 20, Call.EndOverlapGroupAGrasp 5)]

/-- Debounce invariant of the grasp queue at clock `now`: for every actor at most one pending
end event is recent enough to be cancelled by a begin at `now`, and none is when the actor is
grasped. -/
def GraspPendingInv [FFloat] (now : ℚ) (s : USLManipulatorListener) : Prop :=
  ∀ X, s.RecentlyEndedGraspEvents.countP (GraspCancels X now s.MaxGraspEventTimeGap) ≤ 1 ∧
    (X ∈ s.GraspedObjects →
      s.RecentlyEndedGraspEvents.countP (GraspCancels X now s.MaxGraspEventTimeGap) = 0)

/-- The pending grasp end event is the one of actor `X` stamped `t0`. -/
def IsGraspEntry (X : AActor) (t0 : ℚ) (Ev : FSLGraspEndEvent) : Bool :=
  decide (Ev.OtherActor = X) && decide (Ev.Time = t0)

/-- The broadcast is an end-grasp event for actor `X` carrying the timestamp `t0`. -/
def IsEndGraspOf (X : AActor) (t0 : ℚ) : Broadcast → Bool
  | .OnEndManipulatorGrasp _ Y t => decide (Y = X) && decide (t = t0)
  | _ => false

/-- Number of pending grasp end events `(X, t0)` plus number of end-grasp events `(X, t0)`
broadcast so far. -/
def PendingPlusBroadcast (X : AActor) (t0 : ℚ) (s : USLManipulatorListener) : Nat :=
  s.RecentlyEndedGraspEvents.countP (IsGraspEntry X t0) + s.Log.countP (IsEndGraspOf X t0)

/-- In the run `cs` from `s`, no call made at a time `t1` with `t1 - t0 < MaxGraspEventTimeGap`
begins a grasp of `X`: after every such call `X` is not in `GraspedObjects`. -/
def NotRegrasped [FFloat] (GetEntityPtr : AActor → Option FSLEntity) (X : AActor) (t0 : ℚ) :
    USLManipulatorListener → List (ℚ × Call) → Prop
  | _, [] => True
  | s, c :: cs =>
    (FFloat.Sub c.1 t0 < s.MaxGraspEventTimeGap → X ∉ (Step GetEntityPtr s c).GraspedObjects) ∧
    NotRegrasped GetEntityPtr X t0 (Step GetEntityPtr s c) cs

/-- The bookkeeping of one pending grasp end event `(X, t0)` after its creation: the entry is
either still pending or has been broadcast once, `K` being the number of such broadcasts before
plus one; and `X` can be grasped again only at a time later than `t0`. -/
def GraspEntryInv (K : Nat) (G : ℚ) (X : AActor) (t0 : ℚ) (now : ℚ)
    (s : USLManipulatorListener) : Prop :=
  PendingPlusBroadcast X t0 s = K ∧ s.MaxGraspEventTimeGap = G ∧
  (X ∈ s.GraspedObjects → t0 < now)

/-- Deciding `NotRegrasped` by recursion on the run. -/
def NotRegrasped.decide [FFloat] (GetEntityPtr : AActor → Option FSLEntity) (X : AActor) (t0 : ℚ) :
    (s : USLManipulatorListener) → (cs : List (ℚ × Call)) →
      Decidable (NotRegrasped GetEntityPtr X t0 s cs)
  | _, [] => isTrue trivial
  | s, c :: cs =>
    match (inferInstance : Decidable
        (FFloat.Sub c.1 t0 < s.MaxGraspEventTimeGap →
          X ∉ (Step GetEntityPtr s c).GraspedObjects)),
      NotRegrasped.decide GetEntityPtr X t0 (Step GetEntityPtr s c) cs with
    | isTrue h1, isTrue h2 => isTrue ⟨h1, h2⟩
    | isFalse h1, _ => isFalse (fun h => h1 h.1)
    | _, isFalse h2 => isFalse (fun h => h2 h.2)

instance [FFloat] (GetEntityPtr : AActor → Option FSLEntity) (X : AActor) (t0 : ℚ)
    (s : USLManipulatorListener) (cs : List (ℚ × Call)) :
    Decidable (NotRegrasped GetEntityPtr X t0 s cs) :=
  NotRegrasped.decide GetEntityPtr X t0 s cs

/-- The registry is keyed by the object: the entity found for an actor has that actor as its
object (every registered entity has a non-null object). -/
def RegistryKeyed (GetEntityPtr : AActor → Option FSLEntity) : Prop :=
  ∀ a e, GetEntityPtr a = some e → e.Obj = some a

/-- The actor has an entry in `ObjectsInContact`. -/
def InContact (s : USLManipulatorListener) (k : AActor) : Prop :=
  TMapFind s.ObjectsInContact k ≠ none

/-- The pending contact end event is one of actor `k` that a begin at `now` would cancel. -/
def ContactOf [FFloat] (k : AActor) (now MaxGap : ℚ) (Ev : FSLContactEndEvent) : Bool :=
  decide (Ev.OtherItem.Obj = some k) && decide (FFloat.Sub now Ev.Time < MaxGap)

/-- The pending contact end event is one of actor `k` stamped `t0`. -/
def IsContactEntry (k : AActor) (t0 : ℚ) (Ev : FSLContactEndEvent) : Bool :=
  decide (Ev.OtherItem.Obj = some k) && decide (Ev.Time = t0)

/-- The broadcast is an end-contact event for actor `k` carrying the timestamp `t0`. -/
def IsEndContactOf (k : AActor) (t0 : ℚ) : Broadcast → Bool
  | .OnEndManipulatorContact _ Other t => decide (Other.Obj = some k) && decide (t = t0)
  | _ => false

/-- Debounce invariant of the contact queue at clock `now`: for every actor at most one pending
end event is recent enough to be cancelled by a begin at `now`, and none is when the actor is
in contact. -/
def ContactPendingInv [FFloat] (now : ℚ) (s : USLManipulatorListener) : Prop :=
  ∀ k, s.RecentlyEndedContactEvents.countP (ContactOf k now s.MaxContactEventTimeGap) ≤ 1 ∧
    (InContact s k →
      s.RecentlyEndedContactEvents.countP (ContactOf k now s.MaxContactEventTimeGap) = 0)

/-- What one call does to the contact bookkeeping (the keys of `ObjectsInContact`, the pending
contact queue and the log), by cases: nothing but broadcasts that are not end-contact events;
a begin of a new contact, which cancels at most one pending entry; the end of the last contact
of an actor, which enqueues one entry; a flush of the expired entries; a `Finish` that
publishes every pending entry. -/
inductive ContactEffect [FFloat] (GetEntityPtr : AActor → Option FSLEntity) (c : ℚ × Call)
    (s r : USLManipulatorListener) : Prop where
  | frame (hK : ∀ k, InContact r k ↔ InContact s k)
      (hQ : r.RecentlyEndedContactEvents = s.RecentlyEndedContactEvents)
      (L : List Broadcast) (hL : r.Log = s.Log ++ L) (hE : ∀ e ∈ L, e.IsEndContact = false)
  | beginNew (a : AActor) (Item : FSLEntity) (hc : c.2 = Call.BeginOverlapContact a)
      (hr : GetEntityPtr a = some Item) (ha : ¬ InContact s a)
      (hK : ∀ k, InContact r k ↔ (InContact s k ∨ k = a))
      (hQ : r.RecentlyEndedContactEvents = s.RecentlyEndedContactEvents.eraseP
        (ContactCancels Item c.1 s.MaxContactEventTimeGap))
      (L : List Broadcast) (hL : r.Log = s.Log ++ L) (hE : ∀ e ∈ L, e.IsEndContact = false)
      (hAny : s.RecentlyEndedContactEvents.any
        (ContactCancels Item c.1 s.MaxContactEventTimeGap) = true → L = [])
  | endLast (a : AActor) (Item : FSLEntity) (hc : c.2 = Call.EndOverlapContact a)
      (hr : GetEntityPtr a = some Item) (ha : InContact s a)
      (hK : ∀ k, InContact r k ↔ (InContact s k ∧ k ≠ a))
      (hQ : r.RecentlyEndedContactEvents = s.RecentlyEndedContactEvents ++ [⟨Item, c.1⟩])
      (hL : r.Log = s.Log)
  | flush (hc : c.2 = Call.DelayedContactEndEventCallback)
      (hK : ∀ k, InContact r k ↔ InContact s k)
      (hQ : r.RecentlyEndedContactEvents = s.RecentlyEndedContactEvents.filter
        (fun e => !ContactExpired c.1 s.MaxContactEventTimeGap e))
      (hL : r.Log = s.Log ++ (s.RecentlyEndedContactEvents.filter
        (ContactExpired c.1 s.MaxContactEventTimeGap)).map
          (fun e => Broadcast.OnEndManipulatorContact s.SemanticOwner e.OtherItem e.Time))
  | finish (b : Bool) (hc : c.2 = Call.Finish b)
      (hK : ∀ k, InContact r k ↔ InContact s k)
      (hQ : r.RecentlyEndedContactEvents = [])
      (L : List Broadcast) (hE : ∀ e ∈ L, e.IsEndContact = false)
      (hL : r.Log = s.Log ++ L ++ s.RecentlyEndedContactEvents.map
          (fun e => Broadcast.OnEndManipulatorContact s.SemanticOwner e.OtherItem e.Time))

/-- The bookkeeping between the end of the last contact of `k` at `t0` and the next begin of
`k` at `t1`: `k` is not in contact, the entry `(Item, t0)` is pending, at most one pending entry
of `k` can be cancelled at `t1`, and `c0` end-contact events `(k, t0)` have been broadcast. -/
def ContactMidInv [FFloat] (k : AActor) (Item : FSLEntity) (t0 t1 G : ℚ) (c0 : Nat)
    (s : USLManipulatorListener) : Prop :=
  ¬ InContact s k ∧ (⟨Item, t0⟩ : FSLContactEndEvent) ∈ s.RecentlyEndedContactEvents ∧
  s.RecentlyEndedContactEvents.countP (ContactOf k t1 G) ≤ 1 ∧
  s.Log.countP (IsEndContactOf k t0) = c0 ∧ s.MaxContactEventTimeGap = G

/-- The bookkeeping after the cancellation: no entry `(k, t0)` is pending and `c0` end-contact
events `(k, t0)` have been broadcast. -/
def ContactPostInv (k : AActor) (t0 : ℚ) (c0 : Nat) (s : USLManipulatorListener) : Prop :=
  s.RecentlyEndedContactEvents.countP (IsContactEntry k t0) = 0 ∧
  s.Log.countP (IsEndContactOf k t0) = c0

instance : Decidable (RegistryKeyed exampleRegistry) :=
  isTrue (by
    intro a e h
    unfold exampleRegistry at h
    split at h
    · cases h; subst a; rfl
    · split at h
      · cases h; subst a; rfl
      · cases h)

/-- The run of C1 with the end and the next begin in the same tick, followed by another end in
that tick and a late flush. -/
def exampleSameTickRun : List (ℚ × Call) :=
  [(0, Call.BeginOverlapContact 7), (1, Call.EndOverlapContact 7),
   (1, Call.BeginOverlapContact 7), (1, Call.EndOverlapContact 7),
   (2, Call.DelayedContactEndEventCallback)]

/-- The example listener holding object 5: it entered both overlap groups at time 0. -/
def exampleGrasping : USLManipulatorListener :=
  Run exampleRegistry exampleListener
    [(0, Call.BeginOverlapGroupAGrasp 5), (0, Call.BeginOverlapGroupBGrasp 5)]

/-- What `RemoveEntity` receives at a stale entry, given the array element that stands just
before the stale one (`none` when the stale entry is the first element): the read goes
through the iterator after `RemoveCurrent`, so it is the weak pointer of that element. -/
def StaleCallArgument (E : FEngine) (Before : Option TSLEntityPreviousPose) :
    Option (Option Nat) :=
  Before.map (fun Ent => if (E.Pose Ent.Obj).isSome then some Ent.Obj else none)

/-- The pointer `Get()` returns for the weak pointer of an entry: the object, or the null
pointer when the weak pointer is stale. -/
def WeakGet (E : FEngine) (Ent : TSLEntityPreviousPose) : Option Nat :=
  if (E.Pose Ent.Obj).isSome then some Ent.Obj else none

/-- The arguments of the calls of `RemoveEntity` in the part of a pass that goes over
`Entities` with `Before` as the array element just before the first of them: a valid entry
becomes the new `Before`, a stale entry produces one call, with the pointer of `Before`. -/
def RemoveEntityCallsOf (W : FSLWorldStateWriterMongoC) (E : FEngine) :
    TSLEntityPreviousPose → List TSLEntityPreviousPose → List (Option Nat)
  | _, [] => []
  | Before, Ent :: Entities =>
    if EntryIsValid E Ent then RemoveEntityCallsOf W E (EntryAfterPass W E Ent) Entities
    else WeakGet E Before :: RemoveEntityCallsOf W E Before Entities

/-- The first entry of the array is stale. -/
def FirstEntryIsStale (E : FEngine) : List TSLEntityPreviousPose → Bool
  | [] => false
  | Ent :: _ => !EntryIsValid E Ent

/-- What a pass of `AddActorEntities` or `AddComponentEntities` that returns leaves behind:
the valid entries in order, the previous pose of a written one replaced by its current pose,
the iterator at the end of the array; one array element per written entry; and the calls of
`RemoveEntity`, one per stale entry, each with the pointer of the array element before it. -/
def SamplePassResult (W : FSLWorldStateWriterMongoC) (E : FEngine)
    (Entities : List TSLEntityPreviousPose) (out_doc : List (Nat × FEntityDoc)) (idx : Nat) :
    FSampleLoop :=
  { Itr := TIterator.mk ((Entities.filter (EntryIsValid E)).map (EntryAfterPass W E))
      (((Entities.filter (EntryIsValid E)).map (EntryAfterPass W E)).length : Int),
    out_doc := out_doc ++
      ((Entities.filter (EntryIsWritten W E)).filterMap (EntryDoc E)).enumFrom idx,
    idx := idx + (Entities.filter (EntryIsWritten W E)).length,
    RemoveEntityCalls :=
      match Entities with
      | [] => []
      | Ent :: Rest => RemoveEntityCallsOf W E (EntryAfterPass W E Ent) Rest }

/-- What one pass over `Entities` leaves in the loop variables `L`: the array holds the valid
entries, in their order, each having gone once through the body of the loop, so that as far as
`Obj` and `Entity` go it is the original array without the stale entries (and literally so when
no entry was written); the document array has received, from index `idx` on, one element for
each valid entry whose pose test is true, in order, and nothing for a stale entry. -/
def LazyRemoval (W : FSLWorldStateWriterMongoC) (E : FEngine)
    (Entities : List TSLEntityPreviousPose) (out_doc : List (Nat × FEntityDoc)) (idx : Nat)
    (L : FSampleLoop) : Prop :=
  L.Itr.Container = (Entities.filter (EntryIsValid E)).map (EntryAfterPass W E) ∧
  L.Itr.Container.map (fun Ent => (Ent.Obj, Ent.Entity)) =
    (Entities.filter (EntryIsValid E)).map (fun Ent => (Ent.Obj, Ent.Entity)) ∧
  ((∀ Ent ∈ Entities, EntryIsWritten W E Ent = false) →
    L.Itr.Container = Entities.filter (EntryIsValid E)) ∧
  L.out_doc = out_doc ++
    (((Entities.filter (EntryIsValid E)).filter (EntryIsWritten W E)).filterMap
      (EntryDoc E)).enumFrom idx ∧
  L.idx = idx + ((Entities.filter (EntryIsValid E)).filter (EntryIsWritten W E)).length ∧
  ∀ Ent ∈ Entities, EntryIsValid E Ent = false → EntryIsWritten W E Ent = false

/-- A tracked entity for object 2 whose last written pose is the pose object 2 has in the
example engine. -/
def exampleRestingEntry : TSLEntityPreviousPose :=
  { Obj := 2, Entity := examplePlate, PrevLoc := { X := 1, Y := 0, Z := 0 },
    PrevQuat := FQuat.Identity }

/-- The driver call is a `createIndexes` command. -/
def IsCreateIndexes : FMongoCommand → Bool
  | .CreateIndexes _ => true
  | _ => false

/-- The driver call is an insertion of a document. -/
def IsInsertOne : FMongoCommand → Bool
  | .CollectionInsertOne _ _ => true
  | _ => false

/-- The driver call drops a collection. -/
def IsCollectionDrop : FMongoCommand → Bool
  | .CollectionDrop _ => true
  | _ => false

/-- The call is a call of `Finish`. -/
def WriterCall.IsFinish : WriterCall → Bool
  | .Finish _ => true
  | _ => false

/-- The call is a call of `Write`. -/
def WriterCall.IsWrite : WriterCall → Bool
  | .Write _ _ _ _ _ _ _ _ _ => true
  | _ => false

/-- The call is a call of `Init` that initialises the writer `W`: it starts with `bIsInit`
false and ends with `bIsInit` true. -/
def InitSucceeds (W : FSLWorldStateWriterMongoC) : WriterCall → Bool
  | .Init Srv InParams => !W.bIsInit && (W.Init Srv InParams).bIsInit
  | _ => false

/-- The number of successful calls of `Init` in a sequence of calls on the writer. -/
def SuccessfulInits (W : FSLWorldStateWriterMongoC) : List WriterCall → Nat
  | [] => 0
  | c :: cs =>
    match WriterStep W c with
    | none => 0
    | some W1 => (if InitSucceeds W c then 1 else 0) + SuccessfulInits W1 cs

/-- The driver calls `Connect` makes up to the test of the collection. -/
def ConnectPrefix (DBName CollectionName ServerIp : String) (ServerPort : Nat) :
    List FMongoCommand :=
  [.MongocInit, .UriNewWithError ("mongodb://" ++ ServerIp ++ ":" ++ toString ServerPort),
   .ClientNewFromUri, .ClientSetAppname ("SL_" ++ CollectionName),
   .ClientGetDatabase DBName, .DatabaseHasCollection CollectionName]

/-- Gaze data without a target entity. -/
def exampleNoGaze : FSLGazeData :=
  { Target := { X := 0, Y := 0, Z := 0 }, Origin := { X := 0, Y := 0, Z := 0 },
    Entity := { Obj := none, Id := "", Class := "", VisualMask := "" } }

/-- Gaze data: the cup is looked at, at (5, 0, 0), from the origin. -/
def exampleGaze : FSLGazeData :=
  { Target := { X := 5, Y := 0, Z := 0 }, Origin := { X := 0, Y := 0, Z := 0 },
    Entity := exampleCup }

/-- An instance of the two gaze functions: data is present when the entity has an object; two
records are equal within the tolerance when they name the same entity and their targets and
origins are not farther apart than the tolerance. -/
def exampleGazeOps : FSLGazeDataOps :=
  { HasDataFast := fun g => g.Entity.Obj.isSome,
    Equals := fun a b Tolerance =>
      a.Entity.EqualsFast b.Entity &&
      decide (FVector.DistSquared a.Target b.Target ≤ Tolerance * Tolerance) &&
      decide (FVector.DistSquared a.Origin b.Origin ≤ Tolerance * Tolerance) }

/-- A server on which the collection already exists and every command succeeds. -/
def exampleAnswers : FMongoAnswers :=
  { bUriValid := true, bClientCreated := true, bHasCollection := true, bDropSucceeds := true,
    bPingSucceeds := true, bInsertSucceeds := true, bIndexCommandSucceeds := true }

/-- Parameters with the thresholds of the example writer that do not allow overwriting. -/
def exampleParams : FSLWorldStateWriterParams :=
  { LinearDistanceSquared := 1 / 4, AngularDistance := 1 / 10, TaskId := "task",
    EpisodeId := "episode", ServerIp := "127.0.0.1", ServerPort := 27017, bOverwrite := false }

/-- A writer as the default constructor leaves it, with zero thresholds and no gaze data. -/
def exampleFreshWriter : FSLWorldStateWriterMongoC :=
  FSLWorldStateWriterMongoC.Constructor 0 0 exampleNoGaze

/-- The broadcast is a begin-grasp event. -/
def Broadcast.IsBeginGrasp : Broadcast → Bool
  | .OnBeginManipulatorGrasp _ _ _ _ => true
  | _ => false

/-- The broadcast is a grasp event, begin or end. -/
def Broadcast.IsGraspEvent (e : Broadcast) : Bool :=
  e.IsBeginGrasp || e.IsEndGrasp

/-- The broadcast is a contact event, begin or end. -/
def Broadcast.IsContactEvent : Broadcast → Bool
  | .OnBeginManipulatorContact _ => true
  | .OnEndManipulatorContact _ _ _ => true
  | _ => false

/-- The state `r` differs from `st` in nothing the grasp bookkeeping reads: the grasped
objects, the pending grasp queue, the grasp timer, the owner, the gap and the grasp type are
the same, and the log has only grown by broadcasts that are not grasp events. -/
def GraspFrame (st r : USLManipulatorListener) : Prop :=
  r.GraspedObjects = st.GraspedObjects ∧
  r.RecentlyEndedGraspEvents = st.RecentlyEndedGraspEvents ∧
  r.GraspDelayTimerHandle = st.GraspDelayTimerHandle ∧
  r.SemanticOwner = st.SemanticOwner ∧
  r.MaxGraspEventTimeGap = st.MaxGraspEventTimeGap ∧
  r.ActiveGraspType = st.ActiveGraspType ∧
  ∃ L, r.Log = st.Log ++ L ∧ ∀ e ∈ L, e.IsGraspEvent = false

/-- The state `r` differs from `st` in nothing the contact bookkeeping reads: the contact map,
the pending contact queue, the contact timer, the owner and the gap are the same, and the log
has only grown by broadcasts that are not contact events. -/
def ContactFrame (st r : USLManipulatorListener) : Prop :=
  r.ObjectsInContact = st.ObjectsInContact ∧
  r.RecentlyEndedContactEvents = st.RecentlyEndedContactEvents ∧
  r.ContactDelayTimerHandle = st.ContactDelayTimerHandle ∧
  r.SemanticOwner = st.SemanticOwner ∧
  r.MaxContactEventTimeGap = st.MaxContactEventTimeGap ∧
  ∃ L, r.Log = st.Log ++ L ∧ ∀ e ∈ L, e.IsContactEvent = false

/-- The call is a call on the contact path. -/
def Call.IsContactCall : Call → Bool
  | .BeginOverlapContact _ => true
  | .EndOverlapContact _ => true
  | .DelayedContactEndEventCallback => true
  | _ => false

/-- The call is a call of `Finish`. -/
def Call.IsFinish : Call → Bool
  | .Finish _ => true
  | _ => false

/-- A non-empty pending grasp queue has its flush timer pending. -/
def GraspFlushArmed (s : USLManipulatorListener) : Prop :=
  s.RecentlyEndedGraspEvents ≠ [] → s.GraspDelayTimerHandle.isSome = true

/-- A non-empty pending contact queue has its flush timer pending. -/
def ContactFlushArmed (s : USLManipulatorListener) : Prop :=
  s.RecentlyEndedContactEvents ≠ [] → s.ContactDelayTimerHandle.isSome = true

/-- A pending grasp flush timer has a non-empty queue to work on. -/
def GraspTimerHasWork (s : USLManipulatorListener) : Prop :=
  s.GraspDelayTimerHandle.isSome = true → s.RecentlyEndedGraspEvents ≠ []

/-- A pending contact flush timer has a non-empty queue to work on. -/
def ContactTimerHasWork (s : USLManipulatorListener) : Prop :=
  s.ContactDelayTimerHandle.isSome = true → s.RecentlyEndedContactEvents ≠ []

/-- A pending grasp flush timer expires at most `1.2 * MaxGraspEventTimeGap` after `now`. -/
def GraspDeadlineNear [FFloat] (now : ℚ) (s : USLManipulatorListener) : Prop :=
  ∀ d, s.GraspDelayTimerHandle = some d →
    d ≤ now + FFloat.Mul s.MaxGraspEventTimeGap (6 / 5)

/-- The clock after a run that started at clock `now`: the time of its last call. -/
def LastClock (now : ℚ) : List (ℚ × Call) → ℚ
  | [] => now
  | c :: cs => LastClock c.1 cs

/-- The example listener with two pending grasp end events: objects 5 and 6 were grasped at
time 0, object 5 was released at 1.0 (which armed the timer for 1.6) and object 6 at 1.3. -/
def exampleTwoPending : USLManipulatorListener :=
  Run exampleRegistry exampleListener
    [(0, Call.BeginOverlapGroupAGrasp 5), (0, Call.BeginOverlapGroupBGrasp 5),
     (0, Call.BeginOverlapGroupAGrasp 6), (0, Call.BeginOverlapGroupBGrasp 6),
     (1, Call.EndOverlapGroupAGrasp 5), (13 / 10, Call.EndOverlapGroupAGrasp 6)]

/-- The array element the skeletal loop appends for a written entity: the pose and, when the
component has a skeletal mesh parent, the bones. -/
def SkeletalEntryDoc (E : FEngine) (Ent : TSLEntityPreviousPose) : Option FEntityDoc :=
  (E.Pose Ent.Obj).map (fun P =>
    { id := Ent.Entity.Id, loc := E.UToROSVector P.1, rot := E.UToROSQuat P.2,
      bones := (E.SkeletalMeshParent Ent.Obj).map (AddSkeletalBones E) })

/-- Every count stored in `ObjectsInContact` is at least 1. -/
def CountsPositive (s : USLManipulatorListener) : Prop :=
  ∀ p ∈ s.ObjectsInContact, 1 ≤ p.2

/-- Every count stored in `ObjectsInContact` is at least 1 and at most `B`. -/
def CountsWithin (B : Int) (s : USLManipulatorListener) : Prop :=
  ∀ p ∈ s.ObjectsInContact, 1 ≤ p.2 ∧ p.2 ≤ B

/-- Calls of `OnBeginOverlapContact(k)` at the times `ts`. -/
def BeginContactCalls (k : AActor) (ts : List ℚ) : List (ℚ × Call) :=
  ts.map (fun t => (t, Call.BeginOverlapContact k))

/-- Calls of `OnEndOverlapContact(k)` at the times `ts`. -/
def EndContactCalls (k : AActor) (ts : List ℚ) : List (ℚ × Call) :=
  ts.map (fun t => (t, Call.EndOverlapContact k))

/-- The state `r` is the state `s` except, possibly, for the map `ObjectsInContact`. -/
def OnlyContactMapChanged (s r : USLManipulatorListener) : Prop :=
  r = { s with ObjectsInContact := r.ObjectsInContact }

/-- The broadcast is a begin-grasp event for actor `X`. -/
def IsBeginGraspFor (X : AActor) : Broadcast → Bool
  | .OnBeginManipulatorGrasp _ Y _ _ => decide (Y = X)
  | _ => false

/-- The broadcast is an end-grasp event for actor `X`. -/
def IsEndGraspFor (X : AActor) : Broadcast → Bool
  | .OnEndManipulatorGrasp _ Y _ => decide (Y = X)
  | _ => false

/-- The pending grasp end event is one of actor `X`. -/
def IsPendingFor (X : AActor) (Ev : FSLGraspEndEvent) : Bool :=
  decide (Ev.OtherActor = X)

/-- The accounting of the grasp events of actor `X`: the begin-grasp events broadcast so far
are the end-grasp events broadcast so far, plus one when `X` is grasped, plus the pending end
events of `X`; and `GraspedObjects` has no duplicates. -/
def GraspAccount (X : AActor) (s : USLManipulatorListener) : Prop :=
  s.GraspedObjects.Nodup ∧
  s.Log.countP (IsBeginGraspFor X) =
    s.Log.countP (IsEndGraspFor X) + s.GraspedObjects.count X +
      s.RecentlyEndedGraspEvents.countP (IsPendingFor X)

/-- In every initial segment of the log the end-grasp events of `X` are not more than the
begin-grasp events of `X`: every end-grasp event has an earlier begin-grasp event of its
own. -/
def EndsMatched (X : AActor) (L : List Broadcast) : Prop :=
  ∀ n, (L.take n).countP (IsEndGraspFor X) ≤ (L.take n).countP (IsBeginGraspFor X)


/-- The timestamps carried by the broadcasts of a log that satisfy `p`, in broadcast order. -/
def StampsOf (p : Broadcast → Bool) (L : List Broadcast) : List ℚ :=
  (L.filter p).map Broadcast.Time

/-- At clock `now`: the begin-grasp events of the log carry non-decreasing timestamps, no grasp
event of the log and no pending grasp end event carries a time later than `now`. -/
def GraspStampsBounded (now : ℚ) (s : USLManipulatorListener) : Prop :=
  (StampsOf Broadcast.IsBeginGrasp s.Log).Pairwise (fun a b => a ≤ b) ∧
  (∀ e ∈ s.Log, e.IsGraspEvent = true → e.Time ≤ now) ∧
  (∀ e ∈ s.RecentlyEndedGraspEvents, e.Time ≤ now)

/-- At clock `now`: the timestamps of the end-grasp events of the log, followed by the times of
the pending grasp end events, are in time order and none is later than `now`. -/
def EndStampsOrdered (now : ℚ) (s : USLManipulatorListener) : Prop :=
  TimeOrdered now
    (StampsOf Broadcast.IsEndGrasp s.Log ++ s.RecentlyEndedGraspEvents.map (fun e => e.Time))

/-- A run of the example listener under a non-decreasing clock: object 5 is grasped at 0 and
released at 1.0, object 6 is grasped at 1.2, the flush timer fires at 1.6. -/
def exampleLateEnd : List (ℚ × Call) :=
  [(0, Call.BeginOverlapGroupAGrasp 5), (0, Call.BeginOverlapGroupBGrasp 5),
   (1, Call.EndOverlapGroupAGrasp 5), (6 / 5, Call.BeginOverlapGroupAGrasp 6),
   (6 / 5, Call.BeginOverlapGroupBGrasp 6), (8 / 5, Call.DelayedGraspEndEventCallback)]

/-! # Theorems -/



/-! ## The arithmetic without rounding error -/

theorem ExactFloat_regular : @SubRegular ExactFloat :=
  { Self := fun a => sub_self a
    Left := fun a b c h => sub_le_sub_right h c
    Right := fun a b c h => sub_le_sub_left h a }

/-! ## Iterator lemmas -/

theorem TIterator.get_at {α : Type} (done : List α) (x : α) (rest : List α) :
    (TIterator.mk (done ++ x :: rest) (done.length : Int)).Get = some x := by
  have h : (done ++ x :: rest)[done.length]? = some x := by
    rw [List.getElem?_append_right (le_refl _)]
    simp
  simpa [TIterator.Get] using h

theorem TIterator.get_end {α : Type} (done : List α) :
    (TIterator.mk done (done.length : Int)).Get = none := by
  simp [TIterator.Get]

theorem TIterator.next_at {α : Type} (done : List α) (x : α) (rest : List α) :
    (TIterator.mk (done ++ x :: rest) (done.length : Int)).Next =
      TIterator.mk ((done ++ [x]) ++ rest) ((done ++ [x]).length : Int) := by
  simp [TIterator.Next]

theorem TIterator.removeCurrent_container_at {α : Type} (done : List α) (x : α) (rest : List α) :
    (TIterator.mk (done ++ x :: rest) (done.length : Int)).RemoveCurrent.Container =
      done ++ rest := by
  simp [TIterator.RemoveCurrent, List.eraseIdx_append_of_length_le]

theorem TIterator.removeCurrent_next_at {α : Type} (done : List α) (x : α) (rest : List α) :
    (TIterator.mk (done ++ x :: rest) (done.length : Int)).RemoveCurrent.Next =
      TIterator.mk (done ++ rest) (done.length : Int) := by
  simp [TIterator.RemoveCurrent, TIterator.Next, List.eraseIdx_append_of_length_le]

theorem TIterator.set_next_at {α : Type} (done : List α) (x y : α) (rest : List α) :
    ((TIterator.mk (done ++ x :: rest) (done.length : Int)).Set y).Next =
      TIterator.mk ((done ++ [y]) ++ rest) ((done ++ [y]).length : Int) := by
  simp [TIterator.Set, TIterator.Next, List.set_append]

theorem DelayedGraspEndEventLoop_at [FFloat] (Owner : FSLEntity) (CurrTime MaxGap : ℚ) :
    ∀ (rest done : List FSLGraspEndEvent) (fuel : Nat) (Log : List Broadcast),
      rest.length ≤ fuel →
      DelayedGraspEndEventLoop Owner CurrTime MaxGap fuel
          (TIterator.mk (done ++ rest) (done.length : Int)) Log =
        (TIterator.mk (done ++ rest.filter (fun e => !GraspExpired CurrTime MaxGap e))
            ((done ++ rest.filter (fun e => !GraspExpired CurrTime MaxGap e)).length : Int),
          Log ++ (rest.filter (GraspExpired CurrTime MaxGap)).map
            (fun e => Broadcast.OnEndManipulatorGrasp Owner e.OtherActor e.Time)) := by
  intro rest
  induction rest with
  | nil =>
    intro done fuel Log _
    cases fuel <;> simp [DelayedGraspEndEventLoop, TIterator.get_end]
  | cons x rest ih =>
    intro done fuel Log hf
    cases fuel with
    | zero => simp at hf
    | succ fuel =>
      have hf' : rest.length ≤ fuel := by simpa using hf
      simp only [DelayedGraspEndEventLoop, TIterator.get_at]
      by_cases hx : FFloat.Sub CurrTime x.Time > MaxGap
      · rw [if_pos hx, TIterator.removeCurrent_next_at, ih done fuel _ hf']
        simp [GraspExpired, hx]
      · rw [if_neg hx, TIterator.next_at, ih (done ++ [x]) fuel _ hf']
        simp [GraspExpired, hx]

theorem DelayedContactEndEventLoop_at [FFloat] (Owner : FSLEntity) (CurrTime MaxGap : ℚ) :
    ∀ (rest done : List FSLContactEndEvent) (fuel : Nat) (Log : List Broadcast),
      rest.length ≤ fuel →
      DelayedContactEndEventLoop Owner CurrTime MaxGap fuel
          (TIterator.mk (done ++ rest) (done.length : Int)) Log =
        (TIterator.mk (done ++ rest.filter (fun e => !ContactExpired CurrTime MaxGap e))
            ((done ++ rest.filter (fun e => !ContactExpired CurrTime MaxGap e)).length : Int),
          Log ++ (rest.filter (ContactExpired CurrTime MaxGap)).map
            (fun e => Broadcast.OnEndManipulatorContact Owner e.OtherItem e.Time)) := by
  intro rest
  induction rest with
  | nil =>
    intro done fuel Log _
    cases fuel <;> simp [DelayedContactEndEventLoop, TIterator.get_end]
  | cons x rest ih =>
    intro done fuel Log hf
    cases fuel with
    | zero => simp at hf
    | succ fuel =>
      have hf' : rest.length ≤ fuel := by simpa using hf
      simp only [DelayedContactEndEventLoop, TIterator.get_at]
      by_cases hx : FFloat.Sub CurrTime x.Time > MaxGap
      · rw [if_pos hx, TIterator.removeCurrent_next_at, ih done fuel _ hf']
        simp [ContactExpired, hx]
      · rw [if_neg hx, TIterator.next_at, ih (done ++ [x]) fuel _ hf']
        simp [ContactExpired, hx]

theorem SkipRecentGraspEndEventLoop_at [FFloat] (OtherActor : AActor) (StartTime MaxGap : ℚ) :
    ∀ (rest done : List FSLGraspEndEvent) (fuel : Nat), rest.length ≤ fuel →
      SkipRecentGraspEndEventLoop OtherActor StartTime MaxGap fuel
          (TIterator.mk (done ++ rest) (done.length : Int)) =
        if rest.any (GraspCancels OtherActor StartTime MaxGap) then
          some (done ++ rest.eraseP (GraspCancels OtherActor StartTime MaxGap))
        else none := by
  intro rest
  induction rest with
  | nil =>
    intro done fuel _
    cases fuel <;> simp [SkipRecentGraspEndEventLoop, TIterator.get_end]
  | cons x rest ih =>
    intro done fuel hf
    cases fuel with
    | zero => simp at hf
    | succ fuel =>
      have hf' : rest.length ≤ fuel := by simpa using hf
      simp only [SkipRecentGraspEndEventLoop, TIterator.get_at]
      by_cases h1 : x.OtherActor = OtherActor
      · by_cases h2 : FFloat.Sub StartTime x.Time < MaxGap
        · rw [if_pos h1, if_pos h2, TIterator.removeCurrent_container_at]
          simp [GraspCancels, h1, h2]
        · rw [if_pos h1, if_neg h2, TIterator.next_at, ih (done ++ [x]) fuel hf']
          simp [GraspCancels, h1, h2]
      · rw [if_neg h1, TIterator.next_at, ih (done ++ [x]) fuel hf']
        simp [GraspCancels, h1]

theorem SkipRecentContactEndEventLoop_at [FFloat] (OtherItem : FSLEntity) (StartTime MaxGap : ℚ) :
    ∀ (rest done : List FSLContactEndEvent) (fuel : Nat), rest.length ≤ fuel →
      SkipRecentContactEndEventLoop OtherItem StartTime MaxGap fuel
          (TIterator.mk (done ++ rest) (done.length : Int)) =
        if rest.any (ContactCancels OtherItem StartTime MaxGap) then
          some (done ++ rest.eraseP (ContactCancels OtherItem StartTime MaxGap))
        else none := by
  intro rest
  induction rest with
  | nil =>
    intro done fuel _
    cases fuel <;> simp [SkipRecentContactEndEventLoop, TIterator.get_end]
  | cons x rest ih =>
    intro done fuel hf
    cases fuel with
    | zero => simp at hf
    | succ fuel =>
      have hf' : rest.length ≤ fuel := by simpa using hf
      simp only [SkipRecentContactEndEventLoop, TIterator.get_at]
      by_cases h1 : x.OtherItem.EqualsFast OtherItem = true
      · by_cases h2 : FFloat.Sub StartTime x.Time < MaxGap
        · rw [if_pos h1, if_pos h2, TIterator.removeCurrent_container_at]
          simp [ContactCancels, h1, h2]
        · rw [if_pos h1, if_neg h2, TIterator.next_at, ih (done ++ [x]) fuel hf']
          simp [ContactCancels, h1, h2]
      · rw [if_neg h1, TIterator.next_at, ih (done ++ [x]) fuel hf']
        simp [ContactCancels, h1]

/-! ## Closed forms of the member functions -/

theorem DelayedGraspEndEventCallback_eq [FFloat] (CurrTime : ℚ) (s : USLManipulatorListener) :
    DelayedGraspEndEventCallback CurrTime s =
      { s with
        RecentlyEndedGraspEvents := s.RecentlyEndedGraspEvents.filter
          (fun e => !GraspExpired CurrTime s.MaxGraspEventTimeGap e),
        Log := s.Log ++ (s.RecentlyEndedGraspEvents.filter
          (GraspExpired CurrTime s.MaxGraspEventTimeGap)).map
            (fun e => Broadcast.OnEndManipulatorGrasp s.SemanticOwner e.OtherActor e.Time),
        GraspDelayTimerHandle :=
          if (s.RecentlyEndedGraspEvents.filter
              (fun e => !GraspExpired CurrTime s.MaxGraspEventTimeGap e)).length > 0
          then SetTimer CurrTime (FFloat.Mul s.MaxGraspEventTimeGap (6 / 5))
          else s.GraspDelayTimerHandle } := by
  have h := DelayedGraspEndEventLoop_at s.SemanticOwner CurrTime s.MaxGraspEventTimeGap
    s.RecentlyEndedGraspEvents [] s.RecentlyEndedGraspEvents.length s.Log (le_refl _)
  simp only [List.nil_append, List.length_nil, Nat.cast_zero] at h
  unfold DelayedGraspEndEventCallback CreateIterator
  rw [h]
  by_cases hl : (s.RecentlyEndedGraspEvents.filter
      (fun e => !GraspExpired CurrTime s.MaxGraspEventTimeGap e)).length > 0
  · simp [hl]
  · simp [hl]

theorem DelayedContactEndEventCallback_eq [FFloat] (CurrTime : ℚ) (s : USLManipulatorListener) :
    DelayedContactEndEventCallback CurrTime s =
      { s with
        RecentlyEndedContactEvents := s.RecentlyEndedContactEvents.filter
          (fun e => !ContactExpired CurrTime s.MaxContactEventTimeGap e),
        Log := s.Log ++ (s.RecentlyEndedContactEvents.filter
          (ContactExpired CurrTime s.MaxContactEventTimeGap)).map
            (fun e => Broadcast.OnEndManipulatorContact s.SemanticOwner e.OtherItem e.Time),
        ContactDelayTimerHandle :=
          if (s.RecentlyEndedContactEvents.filter
              (fun e => !ContactExpired CurrTime s.MaxContactEventTimeGap e)).length > 0
          then SetTimer CurrTime (FFloat.Mul s.MaxContactEventTimeGap (6 / 5))
          else s.ContactDelayTimerHandle } := by
  have h := DelayedContactEndEventLoop_at s.SemanticOwner CurrTime s.MaxContactEventTimeGap
    s.RecentlyEndedContactEvents [] s.RecentlyEndedContactEvents.length s.Log (le_refl _)
  simp only [List.nil_append, List.length_nil, Nat.cast_zero] at h
  unfold DelayedContactEndEventCallback CreateIterator
  rw [h]
  by_cases hl : (s.RecentlyEndedContactEvents.filter
      (fun e => !ContactExpired CurrTime s.MaxContactEventTimeGap e)).length > 0
  · simp [hl]
  · simp [hl]

theorem SkipRecentGraspEndEventBroadcast_eq [FFloat] (OtherActor : AActor) (StartTime : ℚ)
    (s : USLManipulatorListener) :
    SkipRecentGraspEndEventBroadcast OtherActor StartTime s =
      if s.RecentlyEndedGraspEvents.any
          (GraspCancels OtherActor StartTime s.MaxGraspEventTimeGap) then
        (true, { s with
          RecentlyEndedGraspEvents := s.RecentlyEndedGraspEvents.eraseP
            (GraspCancels OtherActor StartTime s.MaxGraspEventTimeGap),
          GraspDelayTimerHandle :=
            if (s.RecentlyEndedGraspEvents.eraseP
              (GraspCancels OtherActor StartTime s.MaxGraspEventTimeGap)).length = 0
            then none else s.GraspDelayTimerHandle })
      else (false, s) := by
  have h := SkipRecentGraspEndEventLoop_at OtherActor StartTime s.MaxGraspEventTimeGap
    s.RecentlyEndedGraspEvents [] s.RecentlyEndedGraspEvents.length (le_refl _)
  simp only [List.nil_append, List.length_nil, Nat.cast_zero] at h
  unfold SkipRecentGraspEndEventBroadcast CreateIterator
  rw [h]
  by_cases hc : s.RecentlyEndedGraspEvents.any
      (GraspCancels OtherActor StartTime s.MaxGraspEventTimeGap) = true
  · rw [if_pos hc, if_pos hc]
  · rw [if_neg hc, if_neg hc]

theorem SkipRecentContactEndEventBroadcast_eq [FFloat] (OtherItem : FSLEntity) (StartTime : ℚ)
    (s : USLManipulatorListener) :
    SkipRecentContactEndEventBroadcast OtherItem StartTime s =
      if s.RecentlyEndedContactEvents.any
          (ContactCancels OtherItem StartTime s.MaxContactEventTimeGap) then
        (true, { s with
          RecentlyEndedContactEvents := s.RecentlyEndedContactEvents.eraseP
            (ContactCancels OtherItem StartTime s.MaxContactEventTimeGap),
          ContactDelayTimerHandle :=
            if (s.RecentlyEndedContactEvents.eraseP
              (ContactCancels OtherItem StartTime s.MaxContactEventTimeGap)).length = 0
            then none else s.ContactDelayTimerHandle })
      else (false, s) := by
  have h := SkipRecentContactEndEventLoop_at OtherItem StartTime s.MaxContactEventTimeGap
    s.RecentlyEndedContactEvents [] s.RecentlyEndedContactEvents.length (le_refl _)
  simp only [List.nil_append, List.length_nil, Nat.cast_zero] at h
  unfold SkipRecentContactEndEventBroadcast CreateIterator
  rw [h]
  by_cases hc : s.RecentlyEndedContactEvents.any
      (ContactCancels OtherItem StartTime s.MaxContactEventTimeGap) = true
  · rw [if_pos hc, if_pos hc]
  · rw [if_neg hc, if_neg hc]

/-! ## Lemmas on the containers and the entity comparison -/

theorem TMapFind_TMapAdd_self (M : List (AActor × Int)) (k : AActor) (v : Int)
    (h : TMapFind M k = none) : TMapFind (TMapAdd M k v) k = some v := by
  have h' : M.find? (fun p => p.1 == k) = none := by
    simpa [TMapFind] using h
  simp [TMapFind, TMapAdd, h', List.find?_append]

theorem FSLEntity.EqualsFast_self (E : FSLEntity) (h : E.Obj ≠ none) :
    E.EqualsFast E = true := by
  simp [FSLEntity.EqualsFast, h]

/-! ## C3: two begins in a row -/

/-- C3 (counterexample): the cup is registered and already in contact after one begin, and no
contact end event is pending; the next two calls of `OnBeginOverlapContact` for the cup, made
in a row, broadcast nothing: the first of them does not broadcast one begin event. -/
theorem C3_counterexample :
    exampleRegistry 7 = some exampleCup ∧
    (Run exampleRegistry exampleListener
      [(0, Call.BeginOverlapContact 7)]).RecentlyEndedContactEvents = [] ∧
    (OnBeginOverlapContact exampleRegistry 1 7
      (Run exampleRegistry exampleListener [(0, Call.BeginOverlapContact 7)])).Log =
      (Run exampleRegistry exampleListener [(0, Call.BeginOverlapContact 7)]).Log ∧
    (OnBeginOverlapContact exampleRegistry 2 7 (OnBeginOverlapContact exampleRegistry 1 7
      (Run exampleRegistry exampleListener [(0, Call.BeginOverlapContact 7)]))).Log =
      (Run exampleRegistry exampleListener [(0, Call.BeginOverlapContact 7)]).Log := by
  decide!

/-- C3 (amended): for a registered actor `k` that is not in `ObjectsInContact` and has no
pending contact end event, two calls of `OnBeginOverlapContact` in a row broadcast exactly one
begin-contact event, on the first call; the second call broadcasts nothing. -/
theorem C3_begin_contact_twice [FFloat] (GetEntityPtr : AActor → Option FSLEntity)
    (s : USLManipulatorListener) (k : AActor) (OtherItem : FSLEntity) (t1 t2 : ℚ)
    (hReg : GetEntityPtr k = some OtherItem)
    (hNot : TMapFind s.ObjectsInContact k = none)
    (hPend : ∀ Ev ∈ s.RecentlyEndedContactEvents, Ev.OtherItem.EqualsFast OtherItem = false) :
    (OnBeginOverlapContact GetEntityPtr t1 k s).Log = s.Log ++
      [Broadcast.OnBeginManipulatorContact
        (FSLContactResult.Init s.SemanticOwner OtherItem t1 false)] ∧
    (OnBeginOverlapContact GetEntityPtr t2 k (OnBeginOverlapContact GetEntityPtr t1 k s)).Log =
      (OnBeginOverlapContact GetEntityPtr t1 k s).Log := by
  have hany : ∀ t, s.RecentlyEndedContactEvents.any
      (ContactCancels OtherItem t s.MaxContactEventTimeGap) = false := by
    intro t
    rw [List.any_eq_false]
    intro Ev hEv
    simp [ContactCancels, hPend Ev hEv]
  have h1 : OnBeginOverlapContact GetEntityPtr t1 k s =
      { s with ObjectsInContact := TMapAdd s.ObjectsInContact k 1,
               Log := s.Log ++ [Broadcast.OnBeginManipulatorContact
                 (FSLContactResult.Init s.SemanticOwner OtherItem t1 false)] } := by
    simp [OnBeginOverlapContact, hReg, hNot, SkipRecentContactEndEventBroadcast_eq, hany]
  refine ⟨by rw [h1], ?_⟩
  rw [h1]
  simp [OnBeginOverlapContact, hReg, TMapFind_TMapAdd_self _ _ _ hNot]

/-- C3 (witness): the amended statement at the started example listener and the cup. -/
theorem C3_begin_contact_twice_witness :
    (OnBeginOverlapContact exampleRegistry 0 7 exampleListener).Log =
      exampleListener.Log ++ [Broadcast.OnBeginManipulatorContact
        (FSLContactResult.Init exampleListener.SemanticOwner exampleCup 0 false)] ∧
    (OnBeginOverlapContact exampleRegistry 1 7
      (OnBeginOverlapContact exampleRegistry 0 7 exampleListener)).Log =
      (OnBeginOverlapContact exampleRegistry 0 7 exampleListener).Log :=
  C3_begin_contact_twice exampleRegistry exampleListener 7 exampleCup 0 1
    (by decide!) (by decide!) (by decide!)

/-! ## C4: Finish flushes both queues -/

/-- C4: on an initialised, not yet finished listener `Finish` broadcasts one end-grasp event
per pending grasp end event and then one end-contact event per pending contact end event,
each with the stored key and timestamp, whatever the age of the entry; the number of events
broadcast is the number of pending entries, and both queues are empty afterwards. -/
theorem C4_finish_flushes_all_pending (bForced : Bool) (s : USLManipulatorListener)
    (hInit : s.bIsInit = true) (hFin : s.bIsFinished = false) :
    (Finish bForced s).Log = s.Log ++
        s.RecentlyEndedGraspEvents.map
          (fun e => Broadcast.OnEndManipulatorGrasp s.SemanticOwner e.OtherActor e.Time) ++
        s.RecentlyEndedContactEvents.map
          (fun e => Broadcast.OnEndManipulatorContact s.SemanticOwner e.OtherItem e.Time) ∧
    (Finish bForced s).Log.length =
      s.Log.length + (s.RecentlyEndedGraspEvents.length + s.RecentlyEndedContactEvents.length) ∧
    (Finish bForced s).RecentlyEndedGraspEvents = [] ∧
    (Finish bForced s).RecentlyEndedContactEvents = [] := by
  simp [Finish, hInit, hFin, Nat.add_assoc]

/-- C4 (witness): the example listener with one pending grasp end event and one pending
contact end event. -/
theorem C4_finish_flushes_all_pending_witness :
    (examplePending.RecentlyEndedGraspEvents = [⟨5, 1⟩] ∧
      examplePending.RecentlyEndedContactEvents = [⟨exampleCup, 1⟩]) ∧
    (Finish false examplePending).Log.length = examplePending.Log.length + (1 + 1) ∧
    (Finish false examplePending).RecentlyEndedGraspEvents = [] ∧
    (Finish false examplePending).RecentlyEndedContactEvents = [] :=
  ⟨by decide!,
   (C4_finish_flushes_all_pending false examplePending (by decide!) (by decide!)).2⟩

/-! ## C7: the concrete grasp scenario -/

/-- C7: from the empty state with both groups non-empty, `OnBeginOverlapGroupAGrasp(O)` at
time 0 broadcasts nothing, and the following `OnBeginOverlapGroupBGrasp(O)` at time 0.02
broadcasts exactly one begin-grasp event (owner, O, 0.02, ActiveGraspType), which is the only
event of the two calls. -/
theorem C7_grasp_scenario [FFloat] (s : USLManipulatorListener) (O : AActor)
    (hEmpty : IsEmptyState s) (hA : s.GroupA ≠ []) (hB : s.GroupB ≠ []) :
    (OnBeginOverlapGroupAGrasp 0 O s).Log = [] ∧
    (OnBeginOverlapGroupBGrasp (1 / 50) O (OnBeginOverlapGroupAGrasp 0 O s)).Log =
      [Broadcast.OnBeginManipulatorGrasp s.SemanticOwner O (1 / 50) s.ActiveGraspType] := by
  obtain ⟨h1, h2, h3, h4, h5, h6, h7⟩ := hEmpty
  have hA' : s.GroupA.length ≠ 0 := by simpa using hA
  have hB' : s.GroupB.length ≠ 0 := by simpa using hB
  have e1 : OnBeginOverlapGroupAGrasp 0 O s = { s with SetA := [O] } := by
    simp [OnBeginOverlapGroupAGrasp, TSetEmplace, CheckGraspState, TSetIntersect, h1, h2, h3]
  rw [e1]
  refine ⟨h7, ?_⟩
  simp [OnBeginOverlapGroupBGrasp, TSetEmplace, CheckGraspState, TSetIntersect, h2, h3, hA',
    BeginGrasp, TArrayAddUnique, SkipRecentGraspEndEventBroadcast_eq, h5, h7]

/-- C7 (witness): the scenario at the started example listener and object 5. -/
theorem C7_grasp_scenario_witness :
    (OnBeginOverlapGroupAGrasp 0 5 exampleListener).Log = [] ∧
    (OnBeginOverlapGroupBGrasp (1 / 50) 5 (OnBeginOverlapGroupAGrasp 0 5 exampleListener)).Log =
      [Broadcast.OnBeginManipulatorGrasp exampleListener.SemanticOwner 5 (1 / 50)
        exampleListener.ActiveGraspType] :=
  C7_grasp_scenario exampleListener 5 (by decide!) (by decide!) (by decide!)

/-! ## C8: the concrete debounce scenario -/

/-- C8 (counterexample): with gap 0.12 and the flush made at time 3.12 exactly, the run
broadcasts the begin-contact event of time 0 only: the pending end event of time 3 is not
older than the gap and stays in the queue. -/
theorem C8_counterexample :
    IsEmptyState exampleListener ∧ exampleListener.MaxContactEventTimeGap = 3 / 25 ∧
    (Run exampleRegistry exampleListener
      [(0, Call.BeginOverlapContact 7), (1, Call.EndOverlapContact 7),
       (21 / 20, Call.BeginOverlapContact 7), (3, Call.EndOverlapContact 7),
       (78 / 25, Call.DelayedContactEndEventCallback)]).Log =
      [Broadcast.OnBeginManipulatorContact
        (FSLContactResult.Init exampleOwner exampleCup 0 false)] ∧
    (Run exampleRegistry exampleListener
      [(0, Call.BeginOverlapContact 7), (1, Call.EndOverlapContact 7),
       (21 / 20, Call.BeginOverlapContact 7), (3, Call.EndOverlapContact 7),
       (78 / 25, Call.DelayedContactEndEventCallback)]).RecentlyEndedContactEvents =
      [⟨exampleCup, 3⟩] := by
  decide!

/-- C8 (amended): with gap 0.12, from the empty state and for a registered actor `A` with a
non-null object, the calls begin at 0.0, end at 1.0, begin at 1.05, end at 3.0, followed by a
flush at any time `T` strictly later than 3.12, broadcast exactly one begin-contact event with
time 0.0 and one end-contact event with time 3.0; the 1.0 / 1.05 pair produces no event.
The two comparisons are made on the differences as the platform computes them: the difference
`1.05 - 1.0` is to be below the gap and the difference `T - 3.0` above it, which with exact
subtraction says that `T` is strictly later than 3.12. -/
theorem C8_debounce_scenario [FFloat] (GetEntityPtr : AActor → Option FSLEntity)
    (s : USLManipulatorListener) (A : AActor) (Item : FSLEntity) (T : ℚ)
    (hEmpty : IsEmptyState s) (hG : s.MaxContactEventTimeGap = 3 / 25)
    (hReg : GetEntityPtr A = some Item) (hObj : Item.Obj ≠ none)
    (hc : FFloat.Sub (21 / 20) 1 < 3 / 25)
    (hT : 3 / 25 < FFloat.Sub T 3) :
    (Run GetEntityPtr s
      [(0, Call.BeginOverlapContact A), (1, Call.EndOverlapContact A),
       (21 / 20, Call.BeginOverlapContact A), (3, Call.EndOverlapContact A),
       (T, Call.DelayedContactEndEventCallback)]).Log =
      [Broadcast.OnBeginManipulatorContact (FSLContactResult.Init s.SemanticOwner Item 0 false),
       Broadcast.OnEndManipulatorContact s.SemanticOwner Item 3] := by
  have hE := FSLEntity.EqualsFast_self Item hObj
  obtain ⟨f1, f2, f3, f4, f5, f6, f7, f8, f9, f10, f11, f12, f13, f14, f15, f16, f17, f18,
    f19, f20, f21, f22⟩ := s
  simp only [IsEmptyState] at hEmpty
  obtain ⟨h1, h2, h3, h4, h5, h6, h7⟩ := hEmpty
  subst h1 h2 h3 h4 h5 h6 h7
  simp only at hG
  subst hG
  cases f21 <;> simp [Run, Step, OnBeginOverlapContact, OnEndOverlapContact, hReg, TMapFind,
    TMapAdd, TMapSetValue, TMapRemove, SkipRecentContactEndEventBroadcast_eq,
    DelayedContactEndEventCallback_eq, ContactCancels, ContactExpired, hE, hT, hc, SetTimer,
    WrapInt32]

/-- C8 (witness): the amended scenario at the example listener, the cup, and a flush at
3.144, the time at which the timer armed by the end at 3.0 expires. -/
theorem C8_debounce_scenario_witness :
    (Run exampleRegistry exampleListener
      [(0, Call.BeginOverlapContact 7), (1, Call.EndOverlapContact 7),
       (21 / 20, Call.BeginOverlapContact 7), (3, Call.EndOverlapContact 7),
       (393 / 125, Call.DelayedContactEndEventCallback)]).Log =
      [Broadcast.OnBeginManipulatorContact
        (FSLContactResult.Init exampleListener.SemanticOwner exampleCup 0 false),
       Broadcast.OnEndManipulatorContact exampleListener.SemanticOwner exampleCup 3] :=
  C8_debounce_scenario exampleRegistry exampleListener 7 exampleCup (393 / 125)
    (by decide!) (by decide!) (by decide!) (by decide!) (by decide!) (by decide!)

/-! ## The sample pass over the actor list -/

theorem RemoveEntityArgument_at (E : FEngine) (done rest : List TSLEntityPreviousPose)
    (x : TSLEntityPreviousPose) :
    RemoveEntityArgument E
        (TIterator.mk (done ++ x :: rest) (done.length : Int)).RemoveCurrent =
      StaleCallArgument E done.getLast? := by
  have hC : (TIterator.mk (done ++ x :: rest) (done.length : Int)).RemoveCurrent =
      TIterator.mk (done ++ rest) ((done.length : Int) - 1) := by
    simp [TIterator.RemoveCurrent, List.eraseIdx_append_of_length_le]
  rw [hC]
  unfold RemoveEntityArgument StaleCallArgument TIterator.Get
  rcases List.eq_nil_or_concat done with rfl | ⟨d, l, rfl⟩
  · simp
  · simp only [List.concat_eq_append]
    have h1 : (0 : Int) ≤ ((d ++ [l]).length : Int) - 1 := by
      simp
    have h2 : (((d ++ [l]).length : Int) - 1).toNat = d.length := by
      simp
    have h3 : (d ++ [l] ++ rest)[d.length]? = some l := by
      rw [List.append_assoc, List.getElem?_append_right (le_refl _)]
      simp
    rw [if_pos h1, h2, h3]
    simp

theorem RemoveEntityArgument_first (E : FEngine) (x : TSLEntityPreviousPose)
    (rest : List TSLEntityPreviousPose) :
    RemoveEntityArgument E (CreateIterator (x :: rest)).RemoveCurrent = none := by
  have h := RemoveEntityArgument_at E [] rest x
  simpa [CreateIterator, StaleCallArgument] using h

theorem RemoveEntityArgument_after (E : FEngine) (done rest : List TSLEntityPreviousPose)
    (b x : TSLEntityPreviousPose) (hb : done.getLast? = some b) :
    RemoveEntityArgument E
        (TIterator.mk (done ++ x :: rest) (done.length : Int)).RemoveCurrent =
      some (WeakGet E b) := by
  rw [RemoveEntityArgument_at, hb]
  simp [StaleCallArgument, WeakGet]

theorem AddActorEntitiesLoop_at (W : FSLWorldStateWriterMongoC) (E : FEngine) :
    ∀ (rest done : List TSLEntityPreviousPose) (b : TSLEntityPreviousPose) (fuel : Nat)
      (out : List (Nat × FEntityDoc)) (idx : Nat) (calls : List (Option Nat)),
      done.getLast? = some b → rest.length ≤ fuel →
        AddActorEntitiesLoop W E fuel
          { Itr := TIterator.mk (done ++ rest) (done.length : Int), out_doc := out,
            idx := idx, RemoveEntityCalls := calls } =
        some
          { Itr := TIterator.mk
              (done ++ (rest.filter (EntryIsValid E)).map (EntryAfterPass W E))
              ((done ++ (rest.filter (EntryIsValid E)).map
                (EntryAfterPass W E)).length : Int),
            out_doc := out ++
              ((rest.filter (EntryIsWritten W E)).filterMap (EntryDoc E)).enumFrom idx,
            idx := idx + (rest.filter (EntryIsWritten W E)).length,
            RemoveEntityCalls := calls ++ RemoveEntityCallsOf W E b rest } := by
  intro rest
  induction rest with
  | nil =>
    intro done b fuel out idx calls _ _
    cases fuel <;> simp [AddActorEntitiesLoop, TIterator.get_end, RemoveEntityCallsOf]
  | cons x rest ih =>
    intro done b fuel out idx calls hb hf
    cases fuel with
    | zero => simp at hf
    | succ fuel =>
      have hf' : rest.length ≤ fuel := by simpa using hf
      simp only [AddActorEntitiesLoop, TIterator.get_at]
      cases hp : E.Pose x.Obj with
      | none =>
        simp only [RemoveEntityArgument_after E done rest b x hb,
          TIterator.removeCurrent_next_at]
        rw [ih done b fuel out idx _ hb hf']
        simp [RemoveEntityCallsOf, EntryIsValid, EntryIsWritten, hp]
      | some P =>
        obtain ⟨CurrLoc, CurrQuat⟩ := P
        simp only
        by_cases hch : PoseChanged W E CurrLoc CurrQuat x = true
        · rw [if_pos hch, TIterator.set_next_at]
          rw [ih (done ++ [TSLEntityPreviousPose.mk x.Obj x.Entity CurrLoc CurrQuat])
            (TSLEntityPreviousPose.mk x.Obj x.Entity CurrLoc CurrQuat)
            fuel (out ++ [(idx, FEntityDoc.mk x.Entity.Id (E.UToROSVector CurrLoc)
              (E.UToROSQuat CurrQuat) none)]) (idx + 1) calls (by simp) hf']
          simp [EntryIsValid, EntryIsWritten, EntryAfterPass, EntryDoc, hp, hch,
            List.enumFrom_cons, Nat.add_assoc, Nat.add_comm 1, RemoveEntityCallsOf]
        · rw [if_neg hch, TIterator.next_at]
          rw [ih (done ++ [x]) x fuel out idx calls (by simp) hf']
          simp [EntryIsValid, EntryIsWritten, EntryAfterPass, hp, hch, RemoveEntityCallsOf]

/-- The pass of `AddActorEntities` stops at the range check when the first entry of the array
is stale, and returns `SamplePassResult` otherwise. -/
theorem AddActorEntities_eq (W : FSLWorldStateWriterMongoC) (E : FEngine)
    (ActorEntities : List TSLEntityPreviousPose) (out_doc : List (Nat × FEntityDoc))
    (idx : Nat) :
    AddActorEntities W E ActorEntities out_doc idx =
      if FirstEntryIsStale E ActorEntities then none
      else some (SamplePassResult W E ActorEntities out_doc idx) := by
  cases ActorEntities with
  | nil => simp [AddActorEntities, AddActorEntitiesLoop, FirstEntryIsStale, SamplePassResult,
      CreateIterator]
  | cons x rest =>
    unfold AddActorEntities
    have hG : (CreateIterator (x :: rest)).Get = some x := by
      simp [CreateIterator, TIterator.Get]
    simp only [List.length_cons, AddActorEntitiesLoop, hG]
    cases hp : E.Pose x.Obj with
    | none =>
      simp only [RemoveEntityArgument_first]
      simp [FirstEntryIsStale, EntryIsValid, hp]
    | some P =>
      obtain ⟨CurrLoc, CurrQuat⟩ := P
      have hI : CreateIterator (x :: rest) =
          TIterator.mk (([] : List TSLEntityPreviousPose) ++ x :: rest)
            ((([] : List TSLEntityPreviousPose).length : Nat) : Int) := by
        simp [CreateIterator]
      simp only
      by_cases hch : PoseChanged W E CurrLoc CurrQuat x = true
      · rw [if_pos hch, hI, TIterator.set_next_at]
        have h := AddActorEntitiesLoop_at W E rest
          ([] ++ [TSLEntityPreviousPose.mk x.Obj x.Entity CurrLoc CurrQuat])
          (TSLEntityPreviousPose.mk x.Obj x.Entity CurrLoc CurrQuat) rest.length
          (out_doc ++ [(idx, FEntityDoc.mk x.Entity.Id (E.UToROSVector CurrLoc)
            (E.UToROSQuat CurrQuat) none)]) (idx + 1) [] (by simp) (le_refl _)
        rw [h]
        simp [FirstEntryIsStale, SamplePassResult, EntryIsValid, EntryIsWritten,
          EntryAfterPass, EntryDoc, hp, hch, List.enumFrom_cons, Nat.add_assoc,
          Nat.add_comm 1]
      · rw [if_neg hch, hI, TIterator.next_at]
        have h := AddActorEntitiesLoop_at W E rest ([] ++ [x]) x rest.length out_doc idx []
          (by simp) (le_refl _)
        rw [h]
        simp [FirstEntryIsStale, SamplePassResult, EntryIsValid, EntryIsWritten,
          EntryAfterPass, hp, hch]

theorem AddComponentEntitiesLoop_eq (W : FSLWorldStateWriterMongoC) (E : FEngine) :
    ∀ (fuel : Nat) (L : FSampleLoop),
      AddComponentEntitiesLoop W E fuel L = AddActorEntitiesLoop W E fuel L := by
  intro fuel
  induction fuel with
  | zero => intro L; rfl
  | succ fuel ih =>
    intro L
    simp only [AddComponentEntitiesLoop, AddActorEntitiesLoop, ih]

theorem AddComponentEntities_eq_actor (W : FSLWorldStateWriterMongoC) (E : FEngine)
    (ComponentEntities : List TSLEntityPreviousPose) (out_doc : List (Nat × FEntityDoc))
    (idx : Nat) :
    AddComponentEntities W E ComponentEntities out_doc idx =
      AddActorEntities W E ComponentEntities out_doc idx := by
  unfold AddComponentEntities AddActorEntities
  exact AddComponentEntitiesLoop_eq W E _ _

theorem EntryIsWritten_valid (W : FSLWorldStateWriterMongoC) (E : FEngine)
    (Ent : TSLEntityPreviousPose) (h : EntryIsWritten W E Ent = true) :
    EntryIsValid E Ent = true := by
  unfold EntryIsWritten at h
  unfold EntryIsValid
  cases hp : E.Pose Ent.Obj with
  | none => simp [hp] at h
  | some P => rfl

/-! ## C9: the threshold test of the sample pass -/

/-- C9 (the code at the failing input): object 1 has not moved (squared distance 0, below the
linear threshold 0.25) and has turned by 0.05, below the angular threshold 0.1; the claim says
it is not appended, but each of the three loops appends it, because the angular distance is
used as a truth value and never compared with `AngDistMin`. -/
theorem C9_angular_threshold_not_compared :
    exampleEngine.Pose 1 = some ({ X := 0, Y := 0, Z := 0 }, exampleTurned) ∧
    ¬ (FVector.DistSquared { X := 0, Y := 0, Z := 0 } (exampleEntry 1).PrevLoc >
        exampleWriter.LinDistSqMin) ∧
    ¬ (exampleEngine.AngularDistance exampleTurned (exampleEntry 1).PrevQuat >
        exampleWriter.AngDistMin) ∧
    (AddActorEntities exampleWriter exampleEngine [exampleEntry 1] [] 0).map
        (fun L => L.out_doc) =
      some [(0, { id := "cup", loc := { X := 0, Y := 0, Z := 0 }, rot := exampleTurned,
                  bones := none })] ∧
    (AddComponentEntities exampleWriter exampleEngine [exampleEntry 1] [] 0).map
        (fun L => L.out_doc) =
      some [(0, { id := "cup", loc := { X := 0, Y := 0, Z := 0 }, rot := exampleTurned,
                  bones := none })] ∧
    (AddSkeletalEntities exampleWriter exampleEngine [exampleEntry 1] [] 0).map
        (fun L => L.out_doc) =
      some [(0, { id := "cup", loc := { X := 0, Y := 0, Z := 0 }, rot := exampleTurned,
                  bones := none })] := by
  decide!

/-! ## Closed forms and frame lemmas of the grasp and contact functions -/

theorem mem_TSetIntersect (A B : List AActor) (x : AActor) :
    x ∈ TSetIntersect A B ↔ x ∈ A ∧ x ∈ B := by
  unfold TSetIntersect
  split <;> simp [List.mem_filter, and_comm]

theorem mem_TArrayAddUnique (Arr : List AActor) (x y : AActor) :
    y ∈ TArrayAddUnique Arr x ↔ y ∈ Arr ∨ y = x := by
  unfold TArrayAddUnique
  split
  · constructor
    · exact Or.inl
    · rintro (h | rfl)
      · exact h
      · assumption
  · simp

theorem nodup_TArrayAddUnique (Arr : List AActor) (x : AActor) (h : Arr.Nodup) :
    (TArrayAddUnique Arr x).Nodup := by
  unfold TArrayAddUnique
  split
  · exact h
  · rename_i hx
    rw [List.nodup_append]
    refine ⟨h, List.nodup_singleton x, ?_⟩
    intro a ha hb
    simp only [List.mem_singleton] at hb
    subst hb
    exact hx ha

theorem BeginGrasp_eq [FFloat] (now : ℚ) (X : AActor) (s : USLManipulatorListener) :
    BeginGrasp now X s =
      if s.RecentlyEndedGraspEvents.any (GraspCancels X now s.MaxGraspEventTimeGap) then
        { s with
          GraspedObjects := TArrayAddUnique s.GraspedObjects X,
          RecentlyEndedGraspEvents :=
            s.RecentlyEndedGraspEvents.eraseP (GraspCancels X now s.MaxGraspEventTimeGap),
          GraspDelayTimerHandle :=
            if (s.RecentlyEndedGraspEvents.eraseP
              (GraspCancels X now s.MaxGraspEventTimeGap)).length = 0
            then none else s.GraspDelayTimerHandle }
      else
        { s with
          GraspedObjects := TArrayAddUnique s.GraspedObjects X,
          Log := s.Log ++
            [Broadcast.OnBeginManipulatorGrasp s.SemanticOwner X now s.ActiveGraspType] } := by
  unfold BeginGrasp
  simp only [SkipRecentGraspEndEventBroadcast_eq]
  by_cases hc : s.RecentlyEndedGraspEvents.any
      (GraspCancels X now s.MaxGraspEventTimeGap) = true
  · simp [hc]
  · simp [hc]

theorem EndGrasp_eq [FFloat] (now : ℚ) (X : AActor) (s : USLManipulatorListener) :
    EndGrasp now X s =
      if X ∈ s.GraspedObjects then
        { s with
          GraspedObjects := s.GraspedObjects.filter (fun y => y != X),
          RecentlyEndedGraspEvents := s.RecentlyEndedGraspEvents ++ [⟨X, now⟩],
          GraspDelayTimerHandle :=
            if s.GraspDelayTimerHandle.isSome then s.GraspDelayTimerHandle
            else SetTimer now (FFloat.Mul s.MaxGraspEventTimeGap (6 / 5)) }
      else s := by
  unfold EndGrasp TArrayRemove
  have hpos : 0 < (s.GraspedObjects.filter (fun y => y == X)).length ↔ X ∈ s.GraspedObjects := by
    rw [List.length_pos_iff_exists_mem]
    simp [List.mem_filter]
  by_cases hX : X ∈ s.GraspedObjects
  · have h := hpos.mpr hX
    simp only [gt_iff_lt, h, if_true, hX]
    cases ht : s.GraspDelayTimerHandle <;> simp [ht]
  · have h : ¬ 0 < (s.GraspedObjects.filter (fun y => y == X)).length := fun h => hX (hpos.mp h)
    simp only [gt_iff_lt, h, if_false, hX]

/-- Induction principle for `CheckGraspState`: a property that holds before, and that every
`BeginGrasp` of a not yet grasped object preserves, holds afterwards. -/
theorem CheckGraspState_induct [FFloat] (P : USLManipulatorListener → Prop) (now : ℚ)
    (s : USLManipulatorListener) (h0 : P s)
    (hstep : ∀ st Obj, P st → Obj ∉ st.GraspedObjects → P (BeginGrasp now Obj st)) :
    P (CheckGraspState now s) := by
  unfold CheckGraspState
  generalize TSetIntersect s.SetA s.SetB = L
  induction L generalizing s with
  | nil => simpa using h0
  | cons a L ih =>
    simp only [List.foldl_cons]
    apply ih
    by_cases ha : a ∈ s.GraspedObjects
    · simpa [ha] using h0
    · simpa [ha] using hstep s a h0 ha

theorem BeginGrasp_sets [FFloat] (now : ℚ) (X : AActor) (s : USLManipulatorListener) :
    (BeginGrasp now X s).GraspedObjects = TArrayAddUnique s.GraspedObjects X ∧
    (BeginGrasp now X s).SetA = s.SetA ∧ (BeginGrasp now X s).SetB = s.SetB ∧
    (BeginGrasp now X s).GroupA = s.GroupA ∧ (BeginGrasp now X s).GroupB = s.GroupB := by
  rw [BeginGrasp_eq]
  split <;> simp

theorem CheckGraspState_sets [FFloat] (now : ℚ) (s : USLManipulatorListener) :
    (CheckGraspState now s).SetA = s.SetA ∧ (CheckGraspState now s).SetB = s.SetB ∧
    (CheckGraspState now s).GroupA = s.GroupA ∧ (CheckGraspState now s).GroupB = s.GroupB ∧
    (s.GraspedObjects.Nodup → (CheckGraspState now s).GraspedObjects.Nodup) ∧
    ∀ x, x ∈ (CheckGraspState now s).GraspedObjects ↔
      x ∈ s.GraspedObjects ∨ x ∈ TSetIntersect s.SetA s.SetB := by
  unfold CheckGraspState
  generalize TSetIntersect s.SetA s.SetB = L
  induction L generalizing s with
  | nil => simp
  | cons a L ih =>
    simp only [List.foldl_cons]
    by_cases ha : a ∈ s.GraspedObjects
    · simp only [ha, not_true_eq_false, if_false]
      obtain ⟨h1, h2, h3, h4, h5, h6⟩ := ih s
      refine ⟨h1, h2, h3, h4, h5, ?_⟩
      intro x
      rw [h6 x, List.mem_cons]
      constructor
      · rintro (h | h)
        · exact Or.inl h
        · exact Or.inr (Or.inr h)
      · rintro (h | h | h)
        · exact Or.inl h
        · subst h; exact Or.inl ha
        · exact Or.inr h
    · simp only [ha, not_false_eq_true, if_true]
      obtain ⟨g1, g2, g3, g4, g5⟩ := BeginGrasp_sets now a s
      obtain ⟨h1, h2, h3, h4, h5, h6⟩ := ih (BeginGrasp now a s)
      refine ⟨h1.trans g2, h2.trans g3, h3.trans g4, h4.trans g5, ?_, ?_⟩
      · intro hnd
        apply h5
        rw [g1]
        exact nodup_TArrayAddUnique _ _ hnd
      · intro x
        rw [h6 x, g1, mem_TArrayAddUnique, List.mem_cons]
        tauto


theorem OnBeginOverlapGroupAGrasp_intersection [FFloat] (now : ℚ) (X : AActor)
    (s : USLManipulatorListener) (hB : s.GroupB ≠ []) (h : GraspedIsIntersection s) :
    GraspedIsIntersection (OnBeginOverlapGroupAGrasp now X s) := by
  obtain ⟨hnd, hmem⟩ := h
  have hB' : s.GroupB.length ≠ 0 := by simpa using hB
  unfold OnBeginOverlapGroupAGrasp TSetEmplace
  by_cases hX : X ∈ s.SetA
  · simp only [hX, if_true, Bool.not_true, Bool.false_eq_true, false_and, if_false]
    exact ⟨hnd, by simpa using hmem⟩
  · have hXg : X ∉ s.GraspedObjects := fun hg => hX ((hmem X).mp hg).1
    simp only [hX, if_false, Bool.not_false, true_and, ne_eq, hB', not_false_eq_true, hXg,
      and_self, if_true]
    obtain ⟨h1, h2, _, _, h5, h6⟩ := CheckGraspState_sets now { s with SetA := s.SetA ++ [X] }
    refine ⟨h5 hnd, ?_⟩
    intro x
    rw [h6 x, h1, h2, mem_TSetIntersect]
    simp only [List.mem_append, List.mem_singleton]
    rw [hmem x]
    tauto

theorem OnBeginOverlapGroupBGrasp_intersection [FFloat] (now : ℚ) (X : AActor)
    (s : USLManipulatorListener) (hA : s.GroupA ≠ []) (h : GraspedIsIntersection s) :
    GraspedIsIntersection (OnBeginOverlapGroupBGrasp now X s) := by
  obtain ⟨hnd, hmem⟩ := h
  have hA' : s.GroupA.length ≠ 0 := by simpa using hA
  unfold OnBeginOverlapGroupBGrasp TSetEmplace
  by_cases hX : X ∈ s.SetB
  · simp only [hX, if_true, Bool.not_true, Bool.false_eq_true, false_and, if_false]
    exact ⟨hnd, by simpa using hmem⟩
  · have hXg : X ∉ s.GraspedObjects := fun hg => hX ((hmem X).mp hg).2
    simp only [hX, if_false, Bool.not_false, true_and, ne_eq, hA', not_false_eq_true, hXg,
      and_self, if_true]
    obtain ⟨h1, h2, _, _, h5, h6⟩ := CheckGraspState_sets now { s with SetB := s.SetB ++ [X] }
    refine ⟨h5 hnd, ?_⟩
    intro x
    rw [h6 x, h1, h2, mem_TSetIntersect]
    simp only [List.mem_append, List.mem_singleton]
    rw [hmem x]
    tauto

theorem OnEndOverlapGroupAGrasp_intersection [FFloat] (now : ℚ) (X : AActor)
    (s : USLManipulatorListener) (h : GraspedIsIntersection s) :
    GraspedIsIntersection (OnEndOverlapGroupAGrasp now X s) := by
  obtain ⟨hnd, hmem⟩ := h
  unfold OnEndOverlapGroupAGrasp TSetRemove
  simp only [EndGrasp_eq]
  have hfilter : ∀ x, x ∈ s.GraspedObjects.filter (fun y => y != X) ↔
      (x ∈ s.SetA.filter (fun y => y != X) ∧ x ∈ s.SetB) := by
    intro x
    simp only [List.mem_filter, hmem x]
    tauto
  by_cases hX : X ∈ s.SetA
  · have hpos : 0 < (s.SetA.filter (fun y => y == X)).length := by
      rw [List.length_pos_iff_exists_mem]
      exact ⟨X, by simp [List.mem_filter, hX]⟩
    by_cases hg : X ∈ s.GraspedObjects
    · simp only [gt_iff_lt, hpos, if_true, hg]
      exact ⟨hnd.filter _, hfilter⟩
    · simp only [gt_iff_lt, hpos, if_true, hg, if_false]
      refine ⟨hnd, ?_⟩
      intro x
      simp only [List.mem_filter, hmem x]
      constructor
      · rintro ⟨ha, hb⟩
        refine ⟨⟨ha, ?_⟩, hb⟩
        have : x ≠ X := by
          rintro rfl
          exact hg ((hmem x).mpr ⟨ha, hb⟩)
        simpa using this
      · rintro ⟨⟨ha, _⟩, hb⟩
        exact ⟨ha, hb⟩
  · have hzero : ¬ 0 < (s.SetA.filter (fun y => y == X)).length := by
      rw [List.length_pos_iff_exists_mem]
      rintro ⟨y, hy⟩
      simp only [List.mem_filter, beq_iff_eq] at hy
      exact hX (hy.2 ▸ hy.1)
    simp only [gt_iff_lt, hzero, if_false]
    refine ⟨hnd, ?_⟩
    intro x
    simp only [List.mem_filter, hmem x]
    constructor
    · rintro ⟨ha, hb⟩
      refine ⟨⟨ha, ?_⟩, hb⟩
      have : x ≠ X := by
        rintro rfl
        exact hX ha
      simpa using this
    · rintro ⟨⟨ha, _⟩, hb⟩
      exact ⟨ha, hb⟩

theorem OnEndOverlapGroupBGrasp_intersection [FFloat] (now : ℚ) (X : AActor)
    (s : USLManipulatorListener) (h : GraspedIsIntersection s) :
    GraspedIsIntersection (OnEndOverlapGroupBGrasp now X s) := by
  obtain ⟨hnd, hmem⟩ := h
  unfold OnEndOverlapGroupBGrasp TSetRemove
  simp only [EndGrasp_eq]
  have hfilter : ∀ x, x ∈ s.GraspedObjects.filter (fun y => y != X) ↔
      (x ∈ s.SetA ∧ x ∈ s.SetB.filter (fun y => y != X)) := by
    intro x
    simp only [List.mem_filter, hmem x]
    tauto
  by_cases hX : X ∈ s.SetB
  · have hpos : 0 < (s.SetB.filter (fun y => y == X)).length := by
      rw [List.length_pos_iff_exists_mem]
      exact ⟨X, by simp [List.mem_filter, hX]⟩
    by_cases hg : X ∈ s.GraspedObjects
    · simp only [gt_iff_lt, hpos, if_true, hg]
      exact ⟨hnd.filter _, hfilter⟩
    · simp only [gt_iff_lt, hpos, if_true, hg, if_false]
      refine ⟨hnd, ?_⟩
      intro x
      simp only [List.mem_filter, hmem x]
      constructor
      · rintro ⟨ha, hb⟩
        refine ⟨ha, hb, ?_⟩
        have : x ≠ X := by
          rintro rfl
          exact hg ((hmem x).mpr ⟨ha, hb⟩)
        simpa using this
      · rintro ⟨ha, hb, _⟩
        exact ⟨ha, hb⟩
  · have hzero : ¬ 0 < (s.SetB.filter (fun y => y == X)).length := by
      rw [List.length_pos_iff_exists_mem]
      rintro ⟨y, hy⟩
      simp only [List.mem_filter, beq_iff_eq] at hy
      exact hX (hy.2 ▸ hy.1)
    simp only [gt_iff_lt, hzero, if_false]
    refine ⟨hnd, ?_⟩
    intro x
    simp only [List.mem_filter, hmem x]
    constructor
    · rintro ⟨ha, hb⟩
      refine ⟨ha, hb, ?_⟩
      have : x ≠ X := by
        rintro rfl
        exact hX hb
      simpa using this
    · rintro ⟨ha, hb, _⟩
      exact ⟨ha, hb⟩

theorem OnBeginOverlapContact_frame [FFloat] (GetEntityPtr : AActor → Option FSLEntity) (now : ℚ)
    (k : AActor) (s : USLManipulatorListener) :
    ∃ M Q h L, OnBeginOverlapContact GetEntityPtr now k s =
      { s with ObjectsInContact := M, RecentlyEndedContactEvents := Q,
               ContactDelayTimerHandle := h, Log := L } := by
  unfold OnBeginOverlapContact
  cases hr : GetEntityPtr k with
  | none => exact ⟨_, _, _, _, rfl⟩
  | some Item =>
    cases hf : TMapFind s.ObjectsInContact k with
    | some n => exact ⟨_, _, _, _, rfl⟩
    | none =>
      simp only [SkipRecentContactEndEventBroadcast_eq]
      split <;> exact ⟨_, _, _, _, rfl⟩

theorem OnEndOverlapContact_frame [FFloat] (GetEntityPtr : AActor → Option FSLEntity) (now : ℚ)
    (k : AActor) (s : USLManipulatorListener) :
    ∃ M Q h, OnEndOverlapContact GetEntityPtr now k s =
      { s with ObjectsInContact := M, RecentlyEndedContactEvents := Q,
               ContactDelayTimerHandle := h } := by
  unfold OnEndOverlapContact
  cases hr : GetEntityPtr k with
  | none => exact ⟨_, _, _, rfl⟩
  | some Item =>
    cases hf : TMapFind s.ObjectsInContact k with
    | none => exact ⟨_, _, _, rfl⟩
    | some n =>
      simp only
      split
      · split <;> exact ⟨_, _, _, rfl⟩
      · exact ⟨_, _, _, rfl⟩

theorem PauseGraspDetection_intersection (now : ℚ) (b : Bool) (s : USLManipulatorListener)
    (h : GraspedIsIntersection s) : GraspedIsIntersection (PauseGraspDetection now b s) := by
  unfold PauseGraspDetection
  split
  · split
    · exact ⟨List.nodup_nil, by simp⟩
    · exact h
  · exact h

theorem Step_intersection [FFloat] (GetEntityPtr : AActor → Option FSLEntity)
    (s : USLManipulatorListener) (c : ℚ × Call) (hA : s.GroupA ≠ []) (hB : s.GroupB ≠ [])
    (h : GraspedIsIntersection s) : GraspedIsIntersection (Step GetEntityPtr s c) := by
  obtain ⟨t, c⟩ := c
  cases c with
  | BeginOverlapGroupAGrasp a => exact OnBeginOverlapGroupAGrasp_intersection t a s hB h
  | BeginOverlapGroupBGrasp a => exact OnBeginOverlapGroupBGrasp_intersection t a s hA h
  | EndOverlapGroupAGrasp a => exact OnEndOverlapGroupAGrasp_intersection t a s h
  | EndOverlapGroupBGrasp a => exact OnEndOverlapGroupBGrasp_intersection t a s h
  | PauseGraspDetection b => exact PauseGraspDetection_intersection t b s h
  | DelayedGraspEndEventCallback =>
    simp only [Step, DelayedGraspEndEventCallback_eq]
    exact h
  | BeginOverlapContact a =>
    obtain ⟨M, Q, hh, L, he⟩ := OnBeginOverlapContact_frame GetEntityPtr t a s
    simp only [Step, he]
    exact h
  | EndOverlapContact a =>
    obtain ⟨M, Q, hh, he⟩ := OnEndOverlapContact_frame GetEntityPtr t a s
    simp only [Step, he]
    exact h
  | DelayedContactEndEventCallback =>
    simp only [Step, DelayedContactEndEventCallback_eq]
    exact h
  | Finish b =>
    simp only [Step, Finish]
    split
    · exact h
    · exact h

theorem Step_groups [FFloat] (GetEntityPtr : AActor → Option FSLEntity)
    (s : USLManipulatorListener) (c : ℚ × Call) :
    (Step GetEntityPtr s c).GroupA = s.GroupA ∧ (Step GetEntityPtr s c).GroupB = s.GroupB := by
  obtain ⟨t, c⟩ := c
  cases c with
  | BeginOverlapGroupAGrasp a =>
    simp only [Step, OnBeginOverlapGroupAGrasp]
    split
    · obtain ⟨_, _, h3, h4, _⟩ := CheckGraspState_sets t
        { s with SetA := (TSetEmplace s.SetA a).1 }
      exact ⟨h3, h4⟩
    · exact ⟨rfl, rfl⟩
  | BeginOverlapGroupBGrasp a =>
    simp only [Step, OnBeginOverlapGroupBGrasp]
    split
    · obtain ⟨_, _, h3, h4, _⟩ := CheckGraspState_sets t
        { s with SetB := (TSetEmplace s.SetB a).1 }
      exact ⟨h3, h4⟩
    · exact ⟨rfl, rfl⟩
  | EndOverlapGroupAGrasp a =>
    simp only [Step, OnEndOverlapGroupAGrasp, EndGrasp_eq]
    split_ifs <;> exact ⟨rfl, rfl⟩
  | EndOverlapGroupBGrasp a =>
    simp only [Step, OnEndOverlapGroupBGrasp, EndGrasp_eq]
    split_ifs <;> exact ⟨rfl, rfl⟩
  | PauseGraspDetection b =>
    simp only [Step, PauseGraspDetection]
    split_ifs <;> exact ⟨rfl, rfl⟩
  | DelayedGraspEndEventCallback =>
    simp [Step, DelayedGraspEndEventCallback_eq]
  | BeginOverlapContact a =>
    obtain ⟨M, Q, hh, L, he⟩ := OnBeginOverlapContact_frame GetEntityPtr t a s
    simp [Step, he]
  | EndOverlapContact a =>
    obtain ⟨M, Q, hh, he⟩ := OnEndOverlapContact_frame GetEntityPtr t a s
    simp [Step, he]
  | DelayedContactEndEventCallback =>
    simp [Step, DelayedContactEndEventCallback_eq]
  | Finish b =>
    simp only [Step, Finish]
    split_ifs <;> exact ⟨rfl, rfl⟩

theorem Run_intersection [FFloat] (GetEntityPtr : AActor → Option FSLEntity) (cs : List (ℚ × Call)) :
    ∀ s : USLManipulatorListener, s.GroupA ≠ [] → s.GroupB ≠ [] → GraspedIsIntersection s →
      GraspedIsIntersection (Run GetEntityPtr s cs) := by
  induction cs with
  | nil => intro s _ _ h; exact h
  | cons c cs ih =>
    intro s hA hB h
    obtain ⟨gA, gB⟩ := Step_groups GetEntityPtr s c
    exact ih (Step GetEntityPtr s c) (gA ▸ hA) (gB ▸ hB)
      (Step_intersection GetEntityPtr s c hA hB h)

/-! ## C6: the grasp intersection invariant -/

/-- C6: starting from the empty state with both overlap groups non-empty, after every run of
calls (the four grasp overlap callbacks, `PauseGraspDetection`, the delayed grasp callback,
and also the contact callbacks and `Finish`), in any order and for any actors, `GraspedObjects`
has no duplicates and its members are exactly the members of `SetA.Intersect(SetB)`; in
particular every grasped object is in both sets. -/
theorem C6_grasped_is_intersection [FFloat] (GetEntityPtr : AActor → Option FSLEntity)
    (s : USLManipulatorListener) (cs : List (ℚ × Call))
    (hEmpty : IsEmptyState s) (hA : s.GroupA ≠ []) (hB : s.GroupB ≠ []) :
    (Run GetEntityPtr s cs).GraspedObjects.Nodup ∧
    (∀ x, x ∈ (Run GetEntityPtr s cs).GraspedObjects ↔
      x ∈ TSetIntersect (Run GetEntityPtr s cs).SetA (Run GetEntityPtr s cs).SetB) ∧
    (∀ x, x ∈ (Run GetEntityPtr s cs).GraspedObjects →
      x ∈ (Run GetEntityPtr s cs).SetA ∧ x ∈ (Run GetEntityPtr s cs).SetB) := by
  obtain ⟨h1, h2, h3, _⟩ := hEmpty
  have h0 : GraspedIsIntersection s := by
    refine ⟨by rw [h3]; exact List.nodup_nil, ?_⟩
    intro x
    simp [h1, h2, h3]
  obtain ⟨hnd, hmem⟩ := Run_intersection GetEntityPtr cs s hA hB h0
  refine ⟨hnd, ?_, ?_⟩
  · intro x
    rw [mem_TSetIntersect]
    exact hmem x
  · intro x hx
    exact (hmem x).mp hx

/-- C6 (witness): the example listener after object 5 entered both groups, object 6 entered
group A only, and object 5 left group B. -/
theorem C6_grasped_is_intersection_witness :
    (Run exampleRegistry exampleListener
      [(0, Call.BeginOverlapGroupAGrasp 5), (0, Call.BeginOverlapGroupBGrasp 5),
       (1, Call.BeginOverlapGroupAGrasp 6), (2, Call.EndOverlapGroupBGrasp 5)]).GraspedObjects.Nodup :=
  (C6_grasped_is_intersection exampleRegistry exampleListener
    [(0, Call.BeginOverlapGroupAGrasp 5), (0, Call.BeginOverlapGroupBGrasp 5),
     (1, Call.BeginOverlapGroupAGrasp 6), (2, Call.EndOverlapGroupBGrasp 5)]
    (by decide!) (by decide!) (by decide!)).1

/-! ## The pending queues stay in time order -/

theorem TimeOrdered.later {now T : ℚ} {ts : List ℚ} (h : TimeOrdered now ts) (hT : now ≤ T) :
    TimeOrdered T ts :=
  ⟨h.1, fun t ht => le_trans (h.2 t ht) hT⟩

theorem TimeOrdered.sublist {now : ℚ} {ts us : List ℚ} (h : TimeOrdered now ts)
    (hs : us.Sublist ts) : TimeOrdered now us :=
  ⟨h.1.sublist hs, fun t ht => h.2 t (hs.subset ht)⟩

theorem TimeOrdered.snoc {now : ℚ} {ts : List ℚ} (h : TimeOrdered now ts) :
    TimeOrdered now (ts ++ [now]) := by
  refine ⟨?_, ?_⟩
  · rw [List.pairwise_append]
    refine ⟨h.1, List.pairwise_singleton _ _, ?_⟩
    intro a ha b hb
    simp only [List.mem_singleton] at hb
    subst hb
    exact h.2 a ha
  · intro t ht
    simp only [List.mem_append, List.mem_singleton] at ht
    rcases ht with ht | rfl
    · exact h.2 t ht
    · exact le_refl _

/-- What one call can do to a pending queue: keep a sublist, and possibly append one entry
stamped with the time of the call. -/
theorem Step_queue_shape [FFloat] (GetEntityPtr : AActor → Option FSLEntity)
    (s : USLManipulatorListener) (c : ℚ × Call) :
    (∃ L, L.Sublist s.RecentlyEndedGraspEvents ∧
      ((Step GetEntityPtr s c).RecentlyEndedGraspEvents = L ∨
        ∃ X, (Step GetEntityPtr s c).RecentlyEndedGraspEvents = L ++ [⟨X, c.1⟩])) ∧
    (∃ L, L.Sublist s.RecentlyEndedContactEvents ∧
      ((Step GetEntityPtr s c).RecentlyEndedContactEvents = L ∨
        ∃ I, (Step GetEntityPtr s c).RecentlyEndedContactEvents = L ++ [⟨I, c.1⟩])) := by
  have hcheck : ∀ st : USLManipulatorListener,
      (CheckGraspState c.1 st).RecentlyEndedGraspEvents.Sublist st.RecentlyEndedGraspEvents ∧
      (CheckGraspState c.1 st).RecentlyEndedContactEvents = st.RecentlyEndedContactEvents := by
    intro st
    apply CheckGraspState_induct
      (fun r => r.RecentlyEndedGraspEvents.Sublist st.RecentlyEndedGraspEvents ∧
        r.RecentlyEndedContactEvents = st.RecentlyEndedContactEvents)
    · exact ⟨List.Sublist.refl _, rfl⟩
    · intro r Obj hr _
      rw [BeginGrasp_eq]
      split
      · exact ⟨(List.eraseP_sublist _).trans hr.1, hr.2⟩
      · exact hr
  have hend : ∀ (X : AActor) (st : USLManipulatorListener),
      ((EndGrasp c.1 X st).RecentlyEndedGraspEvents = st.RecentlyEndedGraspEvents ∨
        (EndGrasp c.1 X st).RecentlyEndedGraspEvents =
          st.RecentlyEndedGraspEvents ++ [⟨X, c.1⟩]) ∧
      (EndGrasp c.1 X st).RecentlyEndedContactEvents = st.RecentlyEndedContactEvents := by
    intro X st
    rw [EndGrasp_eq]
    split
    · exact ⟨Or.inr rfl, rfl⟩
    · exact ⟨Or.inl rfl, rfl⟩
  obtain ⟨t, c⟩ := c
  cases c with
  | BeginOverlapGroupAGrasp a =>
    simp only [Step, OnBeginOverlapGroupAGrasp]
    split
    · obtain ⟨h1, h2⟩ := hcheck { s with SetA := (TSetEmplace s.SetA a).1 }
      exact ⟨⟨_, h1, Or.inl rfl⟩, ⟨_, List.Sublist.refl _, Or.inl h2⟩⟩
    · exact ⟨⟨_, List.Sublist.refl _, Or.inl rfl⟩, ⟨_, List.Sublist.refl _, Or.inl rfl⟩⟩
  | BeginOverlapGroupBGrasp a =>
    simp only [Step, OnBeginOverlapGroupBGrasp]
    split
    · obtain ⟨h1, h2⟩ := hcheck { s with SetB := (TSetEmplace s.SetB a).1 }
      exact ⟨⟨_, h1, Or.inl rfl⟩, ⟨_, List.Sublist.refl _, Or.inl h2⟩⟩
    · exact ⟨⟨_, List.Sublist.refl _, Or.inl rfl⟩, ⟨_, List.Sublist.refl _, Or.inl rfl⟩⟩
  | EndOverlapGroupAGrasp a =>
    simp only [Step, OnEndOverlapGroupAGrasp]
    obtain ⟨h1, h2⟩ := hend a { s with SetA := (TSetRemove s.SetA a).1 }
    split_ifs
    · refine ⟨⟨_, List.Sublist.refl _, ?_⟩, ⟨_, List.Sublist.refl _, Or.inl h2⟩⟩
      rcases h1 with h1 | h1
      · exact Or.inl h1
      · exact Or.inr ⟨a, h1⟩
    · exact ⟨⟨_, List.Sublist.refl _, Or.inl rfl⟩, ⟨_, List.Sublist.refl _, Or.inl rfl⟩⟩
    · exact ⟨⟨_, List.Sublist.refl _, Or.inl rfl⟩, ⟨_, List.Sublist.refl _, Or.inl rfl⟩⟩
  | EndOverlapGroupBGrasp a =>
    simp only [Step, OnEndOverlapGroupBGrasp]
    obtain ⟨h1, h2⟩ := hend a { s with SetB := (TSetRemove s.SetB a).1 }
    split_ifs
    · refine ⟨⟨_, List.Sublist.refl _, ?_⟩, ⟨_, List.Sublist.refl _, Or.inl h2⟩⟩
      rcases h1 with h1 | h1
      · exact Or.inl h1
      · exact Or.inr ⟨a, h1⟩
    · exact ⟨⟨_, List.Sublist.refl _, Or.inl rfl⟩, ⟨_, List.Sublist.refl _, Or.inl rfl⟩⟩
    · exact ⟨⟨_, List.Sublist.refl _, Or.inl rfl⟩, ⟨_, List.Sublist.refl _, Or.inl rfl⟩⟩
  | PauseGraspDetection b =>
    simp only [Step, PauseGraspDetection]
    split_ifs <;>
      exact ⟨⟨_, List.Sublist.refl _, Or.inl rfl⟩, ⟨_, List.Sublist.refl _, Or.inl rfl⟩⟩
  | DelayedGraspEndEventCallback =>
    simp only [Step, DelayedGraspEndEventCallback_eq]
    exact ⟨⟨_, List.filter_sublist _, Or.inl rfl⟩, ⟨_, List.Sublist.refl _, Or.inl rfl⟩⟩
  | BeginOverlapContact a =>
    refine ⟨?_, ?_⟩
    · obtain ⟨M, Q, hh, L, he⟩ := OnBeginOverlapContact_frame GetEntityPtr t a s
      exact ⟨_, List.Sublist.refl _, Or.inl (by simp [Step, he])⟩
    · simp only [Step, OnBeginOverlapContact]
      cases hr : GetEntityPtr a with
      | none => exact ⟨_, List.Sublist.refl _, Or.inl rfl⟩
      | some Item =>
        cases hf : TMapFind s.ObjectsInContact a with
        | some n => exact ⟨_, List.Sublist.refl _, Or.inl rfl⟩
        | none =>
          simp only [SkipRecentContactEndEventBroadcast_eq]
          split
          · exact ⟨_, List.eraseP_sublist _, Or.inl rfl⟩
          · exact ⟨_, List.Sublist.refl _, Or.inl rfl⟩
  | EndOverlapContact a =>
    refine ⟨?_, ?_⟩
    · obtain ⟨M, Q, hh, he⟩ := OnEndOverlapContact_frame GetEntityPtr t a s
      exact ⟨_, List.Sublist.refl _, Or.inl (by simp [Step, he])⟩
    · simp only [Step, OnEndOverlapContact]
      cases hr : GetEntityPtr a with
      | none => exact ⟨_, List.Sublist.refl _, Or.inl rfl⟩
      | some Item =>
        cases hf : TMapFind s.ObjectsInContact a with
        | none => exact ⟨_, List.Sublist.refl _, Or.inl rfl⟩
        | some n =>
          simp only
          split
          · split <;> exact ⟨_, List.Sublist.refl _, Or.inr ⟨Item, rfl⟩⟩
          · exact ⟨_, List.Sublist.refl _, Or.inl rfl⟩
  | DelayedContactEndEventCallback =>
    simp only [Step, DelayedContactEndEventCallback_eq]
    exact ⟨⟨_, List.Sublist.refl _, Or.inl rfl⟩, ⟨_, List.filter_sublist _, Or.inl rfl⟩⟩
  | Finish b =>
    simp only [Step, Finish]
    split_ifs
    · exact ⟨⟨_, List.nil_sublist _, Or.inl rfl⟩, ⟨_, List.nil_sublist _, Or.inl rfl⟩⟩
    · exact ⟨⟨_, List.Sublist.refl _, Or.inl rfl⟩, ⟨_, List.Sublist.refl _, Or.inl rfl⟩⟩

theorem Step_queues_time_ordered [FFloat] (GetEntityPtr : AActor → Option FSLEntity)
    (s : USLManipulatorListener) (c : ℚ × Call) (now : ℚ) (hc : now ≤ c.1)
    (h : QueuesTimeOrdered now s) : QueuesTimeOrdered c.1 (Step GetEntityPtr s c) := by
  obtain ⟨⟨L, hL, hg⟩, ⟨K, hK, hk⟩⟩ := Step_queue_shape GetEntityPtr s c
  have hL' := ((h.1.later hc).sublist (hL.map (fun e => e.Time)))
  have hK' := ((h.2.later hc).sublist (hK.map (fun e => e.Time)))
  refine ⟨?_, ?_⟩
  · rcases hg with hg | ⟨X, hg⟩
    · rw [hg]; exact hL'
    · rw [hg, List.map_append]; exact hL'.snoc
  · rcases hk with hk | ⟨I, hk⟩
    · rw [hk]; exact hK'
    · rw [hk, List.map_append]; exact hK'.snoc

theorem Run_queues_time_ordered [FFloat] (GetEntityPtr : AActor → Option FSLEntity)
    (cs : List (ℚ × Call)) :
    ∀ (s : USLManipulatorListener) (now : ℚ), ClockFrom now cs → QueuesTimeOrdered now s →
      ∃ T, now ≤ T ∧ QueuesTimeOrdered T (Run GetEntityPtr s cs) := by
  induction cs with
  | nil => intro s now _ h; exact ⟨now, le_refl _, h⟩
  | cons c cs ih =>
    intro s now hclock h
    obtain ⟨hc, hrest⟩ := hclock
    obtain ⟨T, hT, hq⟩ := ih (Step GetEntityPtr s c) c.1 hrest
      (Step_queues_time_ordered GetEntityPtr s c now hc h)
    exact ⟨T, le_trans hc hT, hq⟩

/-! ## C5: the order in which Finish publishes -/

/-- C5 (counterexample): in the example run the contact with the cup ends at 1.0 and the
grasp of object 5 ends at 1.05, both under a non-decreasing clock; `Finish` then broadcasts
the end-grasp event of time 1.05 before the end-contact event of time 1.0, so the timestamps
in broadcast order are decreasing.  No difference of times is computed in this run. -/
theorem C5_counterexample :
    IsEmptyState exampleListener ∧ ClockFrom 0 exampleRunBeforeFinish ∧
    ((Finish false (Run exampleRegistry exampleListener exampleRunBeforeFinish)).Log.drop
      (Run exampleRegistry exampleListener exampleRunBeforeFinish).Log.length) =
      [Broadcast.OnEndManipulatorGrasp exampleOwner 5 (21 / 20),
       Broadcast.OnEndManipulatorContact exampleOwner exampleCup 1] ∧
    ¬ (((Finish false (Run exampleRegistry exampleListener exampleRunBeforeFinish)).Log.drop
      (Run exampleRegistry exampleListener exampleRunBeforeFinish).Log.length).map
        Broadcast.Time).Pairwise (fun a b => a ≤ b) := by
  decide!

/-- C5 (amended): let a state be reached from the empty state under a non-decreasing clock,
and let it be initialised or started and not finished, so that `Finish` acts.  Then `Finish`
appends to the log exactly one end-grasp event for every pending grasp end event, in queue
order, followed by one end-contact event for every pending contact end event, in queue order,
each with the stored timestamp, and it empties both queues.  The timestamps of the end-grasp
events it broadcasts are non-decreasing and the timestamps of the end-contact events it
broadcasts are non-decreasing (those of the two parts taken together need not be).  On a
listener that is finished, or neither initialised nor started, `Finish` changes nothing. -/
theorem C5_finish_order_per_queue [FFloat] (GetEntityPtr : AActor → Option FSLEntity)
    (s : USLManipulatorListener) (cs : List (ℚ × Call)) (t : ℚ) (bForced : Bool)
    (hEmpty : IsEmptyState s) (hClock : ClockFrom t cs)
    (hNotFinished : (Run GetEntityPtr s cs).bIsFinished = false)
    (hLive : (Run GetEntityPtr s cs).bIsInit = true ∨
      (Run GetEntityPtr s cs).bIsStarted = true) :
    (Finish bForced (Run GetEntityPtr s cs)).Log =
      (Run GetEntityPtr s cs).Log ++
        ((Run GetEntityPtr s cs).RecentlyEndedGraspEvents.map
          (fun e => Broadcast.OnEndManipulatorGrasp (Run GetEntityPtr s cs).SemanticOwner
            e.OtherActor e.Time) ++
         (Run GetEntityPtr s cs).RecentlyEndedContactEvents.map
          (fun e => Broadcast.OnEndManipulatorContact (Run GetEntityPtr s cs).SemanticOwner
            e.OtherItem e.Time)) ∧
    (Finish bForced (Run GetEntityPtr s cs)).RecentlyEndedGraspEvents = [] ∧
    (Finish bForced (Run GetEntityPtr s cs)).RecentlyEndedContactEvents = [] ∧
    (((Run GetEntityPtr s cs).RecentlyEndedGraspEvents.map
        (fun e => Broadcast.OnEndManipulatorGrasp (Run GetEntityPtr s cs).SemanticOwner
          e.OtherActor e.Time)).map Broadcast.Time).Pairwise (fun a b => a ≤ b) ∧
    (((Run GetEntityPtr s cs).RecentlyEndedContactEvents.map
        (fun e => Broadcast.OnEndManipulatorContact (Run GetEntityPtr s cs).SemanticOwner
          e.OtherItem e.Time)).map Broadcast.Time).Pairwise (fun a b => a ≤ b) ∧
    (∀ (st : USLManipulatorListener) (b : Bool),
      (st.bIsFinished = true ∨ (st.bIsInit = false ∧ st.bIsStarted = false)) →
        Finish b st = st) := by
  have h0 : QueuesTimeOrdered t s := by
    obtain ⟨_, _, _, _, h5, h6, _⟩ := hEmpty
    simp [QueuesTimeOrdered, TimeOrdered, h5, h6]
  obtain ⟨T, _, hq⟩ := Run_queues_time_ordered GetEntityPtr cs s t hClock h0
  generalize Run GetEntityPtr s cs = r at hq hNotFinished hLive ⊢
  have hGuard : (!r.bIsFinished && (r.bIsInit || r.bIsStarted)) = true := by
    rcases hLive with h | h <;> simp [hNotFinished, h]
  refine ⟨?_, ?_, ?_, ?_, ?_, ?_⟩
  · unfold Finish
    rw [if_pos hGuard]
    simp only [List.append_assoc]
  · unfold Finish
    rw [if_pos hGuard]
  · unfold Finish
    rw [if_pos hGuard]
  · have := hq.1.1
    simpa [Function.comp_def, Broadcast.Time] using this
  · have := hq.2.1
    simpa [Function.comp_def, Broadcast.Time] using this
  · intro st b hst
    unfold Finish
    rcases hst with h | ⟨h1, h2⟩
    · simp [h]
    · simp [h1, h2]

/-- C5 (witness): the amended statement at the example run, where the end-grasp event of time
1.05 and the end-contact event of time 1.0 are pending. -/
theorem C5_finish_order_per_queue_witness :
    IsEmptyState exampleListener ∧ ClockFrom 0 exampleRunBeforeFinish ∧
    (Run exampleRegistry exampleListener exampleRunBeforeFinish).bIsFinished = false ∧
    (Run exampleRegistry exampleListener exampleRunBeforeFinish).bIsInit = true ∧
    (Run exampleRegistry exampleListener exampleRunBeforeFinish).RecentlyEndedGraspEvents =
      [⟨5, 21 / 20⟩] ∧
    (Run exampleRegistry exampleListener exampleRunBeforeFinish).RecentlyEndedContactEvents =
      [⟨exampleCup, 1⟩] ∧
    (Finish false (Run exampleRegistry exampleListener exampleRunBeforeFinish)).Log =
      (Run exampleRegistry exampleListener exampleRunBeforeFinish).Log ++
        ((Run exampleRegistry exampleListener exampleRunBeforeFinish).RecentlyEndedGraspEvents.map
          (fun e => Broadcast.OnEndManipulatorGrasp
            (Run exampleRegistry exampleListener exampleRunBeforeFinish).SemanticOwner
            e.OtherActor e.Time) ++
         (Run exampleRegistry exampleListener
            exampleRunBeforeFinish).RecentlyEndedContactEvents.map
          (fun e => Broadcast.OnEndManipulatorContact
            (Run exampleRegistry exampleListener exampleRunBeforeFinish).SemanticOwner
            e.OtherItem e.Time)) :=
  ⟨by decide!, by decide!, by decide!, by decide!, by decide!, by decide!,
   (C5_finish_order_per_queue exampleRegistry exampleListener exampleRunBeforeFinish 0 false
    (by decide!) (by decide!) (by decide!) (Or.inl (by decide!))).1⟩

/-! ## Counting lemmas -/

theorem countP_eraseP_self {α : Type} (p : α → Bool) (l : List α) :
    (l.eraseP p).countP p = l.countP p - 1 := by
  induction l with
  | nil => simp
  | cons a l ih =>
    by_cases ha : p a = true
    · simp [List.eraseP_cons, ha, List.countP_cons]
    · simp only [List.eraseP_cons, ha, Bool.false_eq_true, if_false, List.countP_cons, ih,
        cond_false, Nat.add_zero]

theorem countP_eraseP_other {α : Type} (p q : α → Bool) (l : List α)
    (h : ∀ a ∈ l, p a = true → q a = false) :
    (l.eraseP p).countP q = l.countP q := by
  induction l with
  | nil => simp
  | cons a l ih =>
    have ih' := ih (fun b hb => h b (List.mem_cons_of_mem _ hb))
    by_cases ha : p a = true
    · have hq := h a (List.mem_cons_self _ _) ha
      simp [List.eraseP_cons, ha, List.countP_cons, hq]
    · simp [List.eraseP_cons, ha, List.countP_cons, ih']

theorem countP_filter_add {α : Type} (p q : α → Bool) (l : List α) :
    (l.filter q).countP p + (l.filter (fun a => !q a)).countP p = l.countP p := by
  induction l with
  | nil => simp
  | cons a l ih =>
    by_cases hq : q a = true
    · simp only [List.filter_cons, hq, if_true, Bool.not_true, Bool.false_eq_true, if_false,
        List.countP_cons]
      omega
    · simp only [List.filter_cons, hq, Bool.false_eq_true, if_false, Bool.not_eq_true] at *
      simp only [hq, Bool.not_false, if_true, List.countP_cons]
      omega

/-! ## The debounce invariant of the grasp queue -/

theorem GraspCancels_mono [FFloat] [SubRegular] (X : AActor) (now T G : ℚ) (h : now ≤ T) (Q : List FSLGraspEndEvent) :
    Q.countP (GraspCancels X T G) ≤ Q.countP (GraspCancels X now G) := by
  apply List.countP_mono_left
  intro e _ he
  simp only [GraspCancels, Bool.and_eq_true, decide_eq_true_eq] at he ⊢
  exact ⟨he.1, lt_of_le_of_lt (SubRegular.Left now T e.Time h) he.2⟩

theorem GraspPendingInv.laterGrasp [FFloat] [SubRegular] {now T : ℚ} {s : USLManipulatorListener}
    (h : GraspPendingInv now s) (hT : now ≤ T) : GraspPendingInv T s := by
  intro X
  have hm := GraspCancels_mono X now T s.MaxGraspEventTimeGap hT s.RecentlyEndedGraspEvents
  obtain ⟨h1, h2⟩ := h X
  exact ⟨le_trans hm h1, fun hX => Nat.eq_zero_of_le_zero (le_trans hm (le_of_eq (h2 hX)))⟩

theorem GraspPendingInv.of_sublist [FFloat] {now : ℚ} {s r : USLManipulatorListener}
    (h : GraspPendingInv now s)
    (hQ : r.RecentlyEndedGraspEvents.Sublist s.RecentlyEndedGraspEvents)
    (hG : ∀ x, x ∈ r.GraspedObjects → x ∈ s.GraspedObjects)
    (hGap : r.MaxGraspEventTimeGap = s.MaxGraspEventTimeGap) : GraspPendingInv now r := by
  intro X
  obtain ⟨h1, h2⟩ := h X
  rw [hGap]
  have hle := hQ.countP_le (GraspCancels X now s.MaxGraspEventTimeGap)
  exact ⟨le_trans hle h1,
    fun hX => Nat.eq_zero_of_le_zero (le_trans hle (le_of_eq (h2 (hG X hX))))⟩

theorem BeginGrasp_pending [FFloat] (now : ℚ) (X : AActor) (s : USLManipulatorListener)
    (h : GraspPendingInv now s) : GraspPendingInv now (BeginGrasp now X s) := by
  rw [BeginGrasp_eq]
  by_cases hany : s.RecentlyEndedGraspEvents.any
      (GraspCancels X now s.MaxGraspEventTimeGap) = true
  · rw [if_pos hany]
    intro Y
    obtain ⟨h1, h2⟩ := h Y
    have hsub : (s.RecentlyEndedGraspEvents.eraseP
        (GraspCancels X now s.MaxGraspEventTimeGap)).countP
          (GraspCancels Y now s.MaxGraspEventTimeGap) ≤
        s.RecentlyEndedGraspEvents.countP (GraspCancels Y now s.MaxGraspEventTimeGap) :=
      (List.eraseP_sublist _).countP_le _
    refine ⟨le_trans hsub h1, ?_⟩
    intro hY
    simp only [mem_TArrayAddUnique] at hY
    rcases hY with hY | rfl
    · exact Nat.eq_zero_of_le_zero (le_trans hsub (le_of_eq (h2 hY)))
    · simp only
      rw [countP_eraseP_self]
      omega
  · rw [if_neg hany]
    intro Y
    obtain ⟨h1, h2⟩ := h Y
    refine ⟨h1, ?_⟩
    intro hY
    simp only [mem_TArrayAddUnique] at hY
    rcases hY with hY | rfl
    · exact h2 hY
    · simp only
      rw [List.countP_eq_zero]
      intro e he hc
      exact hany (List.any_eq_true.mpr ⟨e, he, hc⟩)

theorem EndGrasp_pending [FFloat] (now : ℚ) (X : AActor) (s : USLManipulatorListener)
    (h : GraspPendingInv now s) : GraspPendingInv now (EndGrasp now X s) := by
  rw [EndGrasp_eq]
  by_cases hX : X ∈ s.GraspedObjects
  · rw [if_pos hX]
    intro Y
    obtain ⟨h1, h2⟩ := h Y
    simp only [List.countP_append, List.countP_cons, List.countP_nil, List.mem_filter]
    by_cases hY : Y = X
    · subst hY
      have h0 := h2 hX
      refine ⟨by rw [h0]; split <;> simp, ?_⟩
      rintro ⟨_, hne⟩
      simp at hne
    · have hc : GraspCancels Y now s.MaxGraspEventTimeGap ⟨X, now⟩ = false := by
        simp [GraspCancels, Ne.symm hY]
      simp only [hc, Bool.false_eq_true, if_false, Nat.add_zero]
      exact ⟨h1, fun hm => h2 hm.1⟩
  · rw [if_neg hX]
    exact h

theorem Step_pending [FFloat] [SubRegular] (GetEntityPtr : AActor → Option FSLEntity)
    (s : USLManipulatorListener) (c : ℚ × Call) (now : ℚ) (hc : now ≤ c.1)
    (h : GraspPendingInv now s) : GraspPendingInv c.1 (Step GetEntityPtr s c) := by
  have h' := h.laterGrasp hc
  have hcheck : ∀ st : USLManipulatorListener, GraspPendingInv c.1 st →
      GraspPendingInv c.1 (CheckGraspState c.1 st) := by
    intro st hst
    exact CheckGraspState_induct (GraspPendingInv c.1) c.1 st hst
      (fun r Obj hr _ => BeginGrasp_pending c.1 Obj r hr)
  obtain ⟨t, c⟩ := c
  cases c with
  | BeginOverlapGroupAGrasp a =>
    simp only [Step, OnBeginOverlapGroupAGrasp]
    split
    · exact hcheck _ h'
    · exact h'
  | BeginOverlapGroupBGrasp a =>
    simp only [Step, OnBeginOverlapGroupBGrasp]
    split
    · exact hcheck _ h'
    · exact h'
  | EndOverlapGroupAGrasp a =>
    simp only [Step, OnEndOverlapGroupAGrasp]
    split_ifs
    · exact EndGrasp_pending t a _ h'
    · exact h'
    · exact h'
  | EndOverlapGroupBGrasp a =>
    simp only [Step, OnEndOverlapGroupBGrasp]
    split_ifs
    · exact EndGrasp_pending t a _ h'
    · exact h'
    · exact h'
  | PauseGraspDetection b =>
    simp only [Step, PauseGraspDetection]
    split_ifs
    · exact h'.of_sublist (List.Sublist.refl _) (by simp) rfl
    · exact h'
    · exact h'
  | DelayedGraspEndEventCallback =>
    simp only [Step, DelayedGraspEndEventCallback_eq]
    exact h'.of_sublist (List.filter_sublist _) (fun x hx => hx) rfl
  | BeginOverlapContact a =>
    obtain ⟨M, Q, hh, L, he⟩ := OnBeginOverlapContact_frame GetEntityPtr t a s
    simp only [Step, he]
    exact h'
  | EndOverlapContact a =>
    obtain ⟨M, Q, hh, he⟩ := OnEndOverlapContact_frame GetEntityPtr t a s
    simp only [Step, he]
    exact h'
  | DelayedContactEndEventCallback =>
    simp only [Step, DelayedContactEndEventCallback_eq]
    exact h'
  | Finish b =>
    simp only [Step, Finish]
    split_ifs
    · exact h'.of_sublist (List.nil_sublist _) (fun x hx => hx) rfl
    · exact h'

/-! ## One pending grasp end event is broadcast at most once -/

theorem BeginGrasp_count [FFloat] (T t0 : ℚ) (X Obj : AActor) (st : USLManipulatorListener)
    (h : Obj ≠ X ∨ st.MaxGraspEventTimeGap ≤ FFloat.Sub T t0) :
    PendingPlusBroadcast X t0 (BeginGrasp T Obj st) = PendingPlusBroadcast X t0 st ∧
    (BeginGrasp T Obj st).MaxGraspEventTimeGap = st.MaxGraspEventTimeGap := by
  rw [BeginGrasp_eq]
  unfold PendingPlusBroadcast
  split
  · refine ⟨?_, rfl⟩
    simp only
    rw [countP_eraseP_other]
    intro a _ ha
    simp only [GraspCancels, Bool.and_eq_true, decide_eq_true_eq] at ha
    simp only [IsGraspEntry, Bool.and_eq_false_iff, decide_eq_false_iff_not]
    rcases h with h | h
    · left
      rw [ha.1]
      exact h
    · right
      intro ht
      rw [ht] at ha
      linarith [ha.2]
  · refine ⟨?_, rfl⟩
    simp [List.countP_append, List.countP_cons, IsEndGraspOf]

theorem CheckGraspState_count [FFloat] (T t0 G : ℚ) (X : AActor) (s : USLManipulatorListener)
    (hG : s.MaxGraspEventTimeGap = G)
    (hfin : FFloat.Sub T t0 < G → X ∉ (CheckGraspState T s).GraspedObjects) :
    PendingPlusBroadcast X t0 (CheckGraspState T s) = PendingPlusBroadcast X t0 s ∧
    (CheckGraspState T s).MaxGraspEventTimeGap = G := by
  have key := CheckGraspState_induct
    (fun st => st.MaxGraspEventTimeGap = G ∧
      ((X ∉ st.GraspedObjects ∨ G ≤ FFloat.Sub T t0) →
        PendingPlusBroadcast X t0 st = PendingPlusBroadcast X t0 s)) T s
    ⟨hG, fun _ => rfl⟩
    (by
      intro st Obj hst _
      obtain ⟨hg, hcount⟩ := hst
      obtain ⟨g1, _⟩ := BeginGrasp_sets T Obj st
      refine ⟨?_, ?_⟩
      · rw [BeginGrasp_eq]
        split <;> exact hg
      · intro hcase
        rw [g1, mem_TArrayAddUnique] at hcase
        have h1 : X ∉ st.GraspedObjects ∨ G ≤ FFloat.Sub T t0 := by
          rcases hcase with hcase | hcase
          · exact Or.inl (fun hx => hcase (Or.inl hx))
          · exact Or.inr hcase
        have h2 : Obj ≠ X ∨ st.MaxGraspEventTimeGap ≤ FFloat.Sub T t0 := by
          rcases hcase with hcase | hcase
          · exact Or.inl (fun hx => hcase (Or.inr hx.symm))
          · exact Or.inr (hg ▸ hcase)
        rw [(BeginGrasp_count T t0 X Obj st h2).1]
        exact hcount h1)
  refine ⟨key.2 ?_, key.1⟩
  by_cases hgap : FFloat.Sub T t0 < G
  · exact Or.inl (hfin hgap)
  · exact Or.inr (not_lt.mp hgap)

theorem countP_IsEndGraspOf_grasp_events (X : AActor) (t0 : ℚ) (Owner : FSLEntity)
    (Q : List FSLGraspEndEvent) :
    (Q.map (fun e => Broadcast.OnEndManipulatorGrasp Owner e.OtherActor e.Time)).countP
      (IsEndGraspOf X t0) = Q.countP (IsGraspEntry X t0) := by
  rw [List.countP_map]
  rfl

theorem countP_IsEndGraspOf_contact_events (X : AActor) (t0 : ℚ) (Owner : FSLEntity)
    (Q : List FSLContactEndEvent) :
    (Q.map (fun e => Broadcast.OnEndManipulatorContact Owner e.OtherItem e.Time)).countP
      (IsEndGraspOf X t0) = 0 := by
  rw [List.countP_map, List.countP_eq_zero]
  intro a _
  simp [IsEndGraspOf]

theorem OnBeginOverlapContact_count [FFloat] (GetEntityPtr : AActor → Option FSLEntity) (now : ℚ)
    (k : AActor) (s : USLManipulatorListener) (X : AActor) (t0 : ℚ) :
    (OnBeginOverlapContact GetEntityPtr now k s).Log.countP (IsEndGraspOf X t0) =
      s.Log.countP (IsEndGraspOf X t0) := by
  unfold OnBeginOverlapContact
  cases hr : GetEntityPtr k with
  | none => rfl
  | some Item =>
    cases hf : TMapFind s.ObjectsInContact k with
    | some n => rfl
    | none =>
      simp only [SkipRecentContactEndEventBroadcast_eq]
      split <;> simp [List.countP_append, List.countP_cons, IsEndGraspOf]

theorem Step_log_append [FFloat] (GetEntityPtr : AActor → Option FSLEntity)
    (s : USLManipulatorListener) (c : ℚ × Call) :
    ∃ L, (Step GetEntityPtr s c).Log = s.Log ++ L := by
  have hcheck : ∀ st : USLManipulatorListener,
      ∃ L, (CheckGraspState c.1 st).Log = st.Log ++ L := by
    intro st
    apply CheckGraspState_induct (fun r => ∃ L, r.Log = st.Log ++ L)
    · exact ⟨[], by simp⟩
    · intro r Obj hr _
      obtain ⟨L, hL⟩ := hr
      rw [BeginGrasp_eq]
      split
      · exact ⟨L, hL⟩
      · refine ⟨L ++ [Broadcast.OnBeginManipulatorGrasp r.SemanticOwner Obj c.1
          r.ActiveGraspType], ?_⟩
        simp [hL]
  obtain ⟨t, c⟩ := c
  cases c with
  | BeginOverlapGroupAGrasp a =>
    simp only [Step, OnBeginOverlapGroupAGrasp]
    split
    · exact hcheck _
    · exact ⟨[], by simp⟩
  | BeginOverlapGroupBGrasp a =>
    simp only [Step, OnBeginOverlapGroupBGrasp]
    split
    · exact hcheck _
    · exact ⟨[], by simp⟩
  | EndOverlapGroupAGrasp a =>
    simp only [Step, OnEndOverlapGroupAGrasp, EndGrasp_eq]
    split_ifs <;> exact ⟨[], by simp⟩
  | EndOverlapGroupBGrasp a =>
    simp only [Step, OnEndOverlapGroupBGrasp, EndGrasp_eq]
    split_ifs <;> exact ⟨[], by simp⟩
  | PauseGraspDetection b =>
    simp only [Step, PauseGraspDetection]
    split_ifs
    · exact ⟨_, rfl⟩
    · exact ⟨[], by simp⟩
    · exact ⟨[], by simp⟩
  | DelayedGraspEndEventCallback =>
    simp only [Step, DelayedGraspEndEventCallback_eq]
    exact ⟨_, rfl⟩
  | BeginOverlapContact a =>
    simp only [Step, OnBeginOverlapContact]
    cases hr : GetEntityPtr a with
    | none => exact ⟨[], by simp⟩
    | some Item =>
      cases hf : TMapFind s.ObjectsInContact a with
      | some n => exact ⟨[], by simp⟩
      | none =>
        simp only [SkipRecentContactEndEventBroadcast_eq]
        split
        · exact ⟨[], by simp⟩
        · exact ⟨_, rfl⟩
  | EndOverlapContact a =>
    obtain ⟨M, Q, hh, he⟩ := OnEndOverlapContact_frame GetEntityPtr t a s
    exact ⟨[], by simp [Step, he]⟩
  | DelayedContactEndEventCallback =>
    simp only [Step, DelayedContactEndEventCallback_eq]
    exact ⟨_, rfl⟩
  | Finish b =>
    simp only [Step, Finish]
    split_ifs
    · simp only [List.append_assoc]
      exact ⟨_, rfl⟩
    · exact ⟨[], by simp⟩

theorem Step_gaps [FFloat] (GetEntityPtr : AActor → Option FSLEntity)
    (s : USLManipulatorListener) (c : ℚ × Call) :
    (Step GetEntityPtr s c).MaxGraspEventTimeGap = s.MaxGraspEventTimeGap ∧
    (Step GetEntityPtr s c).MaxContactEventTimeGap = s.MaxContactEventTimeGap ∧
    (Step GetEntityPtr s c).SemanticOwner = s.SemanticOwner := by
  have hcheck : ∀ st : USLManipulatorListener,
      (CheckGraspState c.1 st).MaxGraspEventTimeGap = st.MaxGraspEventTimeGap ∧
      (CheckGraspState c.1 st).MaxContactEventTimeGap = st.MaxContactEventTimeGap ∧
      (CheckGraspState c.1 st).SemanticOwner = st.SemanticOwner := by
    intro st
    apply CheckGraspState_induct (fun r =>
      r.MaxGraspEventTimeGap = st.MaxGraspEventTimeGap ∧
      r.MaxContactEventTimeGap = st.MaxContactEventTimeGap ∧
      r.SemanticOwner = st.SemanticOwner)
    · exact ⟨rfl, rfl, rfl⟩
    · intro r Obj hr _
      rw [BeginGrasp_eq]
      split <;> exact hr
  obtain ⟨t, c⟩ := c
  cases c with
  | BeginOverlapGroupAGrasp a =>
    simp only [Step, OnBeginOverlapGroupAGrasp]
    split
    · exact hcheck _
    · exact ⟨rfl, rfl, rfl⟩
  | BeginOverlapGroupBGrasp a =>
    simp only [Step, OnBeginOverlapGroupBGrasp]
    split
    · exact hcheck _
    · exact ⟨rfl, rfl, rfl⟩
  | EndOverlapGroupAGrasp a =>
    simp only [Step, OnEndOverlapGroupAGrasp, EndGrasp_eq]
    split_ifs <;> exact ⟨rfl, rfl, rfl⟩
  | EndOverlapGroupBGrasp a =>
    simp only [Step, OnEndOverlapGroupBGrasp, EndGrasp_eq]
    split_ifs <;> exact ⟨rfl, rfl, rfl⟩
  | PauseGraspDetection b =>
    simp only [Step, PauseGraspDetection]
    split_ifs <;> exact ⟨rfl, rfl, rfl⟩
  | DelayedGraspEndEventCallback =>
    simp [Step, DelayedGraspEndEventCallback_eq]
  | BeginOverlapContact a =>
    obtain ⟨M, Q, hh, L, he⟩ := OnBeginOverlapContact_frame GetEntityPtr t a s
    simp [Step, he]
  | EndOverlapContact a =>
    obtain ⟨M, Q, hh, he⟩ := OnEndOverlapContact_frame GetEntityPtr t a s
    simp [Step, he]
  | DelayedContactEndEventCallback =>
    simp [Step, DelayedContactEndEventCallback_eq]
  | Finish b =>
    simp only [Step, Finish]
    split_ifs <;> exact ⟨rfl, rfl, rfl⟩

theorem Step_entry [FFloat] [SubRegular] (GetEntityPtr : AActor → Option FSLEntity)
    (s : USLManipulatorListener) (c : ℚ × Call) (K : Nat) (G : ℚ) (X : AActor) (t0 now : ℚ)
    (hG : 0 < G) (hc : now ≤ c.1)
    (hnot : FFloat.Sub c.1 t0 < G → X ∉ (Step GetEntityPtr s c).GraspedObjects)
    (h : GraspEntryInv K G X t0 now s) :
    GraspEntryInv K G X t0 c.1 (Step GetEntityPtr s c) := by
  obtain ⟨hK, hGap, hX⟩ := h
  refine ⟨?_, (Step_gaps GetEntityPtr s c).1.trans hGap, ?_⟩
  swap
  · intro hx
    by_cases hgap : FFloat.Sub c.1 t0 < G
    · exact absurd hx (hnot hgap)
    · by_contra hle
      have h1 := SubRegular.Left c.1 t0 t0 (not_lt.mp hle)
      rw [SubRegular.Self] at h1
      linarith [not_lt.mp hgap]
  rw [← hK]
  obtain ⟨t, c⟩ := c
  simp only at hc hnot ⊢
  have hend : ∀ (a : AActor) (st : USLManipulatorListener),
      (X ∈ st.GraspedObjects → t0 < now) →
      PendingPlusBroadcast X t0 (EndGrasp t a st) = PendingPlusBroadcast X t0 st := by
    intro a st hst
    rw [EndGrasp_eq]
    split
    · rename_i ha
      unfold PendingPlusBroadcast
      simp only [List.countP_append, List.countP_cons, List.countP_nil]
      have : IsGraspEntry X t0 ⟨a, t⟩ = false := by
        simp only [IsGraspEntry, Bool.and_eq_false_iff, decide_eq_false_iff_not]
        by_cases hax : a = X
        · right
          intro ht
          have := hst (hax ▸ ha)
          linarith
        · exact Or.inl hax
      simp [this]
    · rfl
  cases c with
  | BeginOverlapGroupAGrasp a =>
    simp only [Step, OnBeginOverlapGroupAGrasp] at hnot ⊢
    split
    · rename_i hcond
      rw [if_pos hcond] at hnot
      exact (CheckGraspState_count t t0 G X { s with SetA := (TSetEmplace s.SetA a).1 }
        hGap hnot).1
    · rfl
  | BeginOverlapGroupBGrasp a =>
    simp only [Step, OnBeginOverlapGroupBGrasp] at hnot ⊢
    split
    · rename_i hcond
      rw [if_pos hcond] at hnot
      exact (CheckGraspState_count t t0 G X { s with SetB := (TSetEmplace s.SetB a).1 }
        hGap hnot).1
    · rfl
  | EndOverlapGroupAGrasp a =>
    simp only [Step, OnEndOverlapGroupAGrasp]
    split_ifs
    · exact hend a _ hX
    · rfl
    · rfl
  | EndOverlapGroupBGrasp a =>
    simp only [Step, OnEndOverlapGroupBGrasp]
    split_ifs
    · exact hend a _ hX
    · rfl
    · rfl
  | PauseGraspDetection b =>
    simp only [Step, PauseGraspDetection]
    split_ifs
    · unfold PendingPlusBroadcast
      simp only [List.countP_append, List.countP_map]
      have : s.GraspedObjects.countP
          ((IsEndGraspOf X t0) ∘ fun Obj =>
            Broadcast.OnEndManipulatorGrasp s.SemanticOwner Obj t) = 0 := by
        rw [List.countP_eq_zero]
        intro Obj hObj
        simp only [Function.comp, IsEndGraspOf, Bool.and_eq_true, decide_eq_true_eq, not_and]
        intro hObjX ht
        have := hX (hObjX ▸ hObj)
        linarith
      rw [this]
      rfl
    · rfl
    · rfl
  | DelayedGraspEndEventCallback =>
    simp only [Step, DelayedGraspEndEventCallback_eq]
    unfold PendingPlusBroadcast
    simp only [List.countP_append, countP_IsEndGraspOf_grasp_events]
    have := countP_filter_add (IsGraspEntry X t0) (GraspExpired t s.MaxGraspEventTimeGap)
      s.RecentlyEndedGraspEvents
    omega
  | BeginOverlapContact a =>
    obtain ⟨M, Q, hh, L, he⟩ := OnBeginOverlapContact_frame GetEntityPtr t a s
    have hl := OnBeginOverlapContact_count GetEntityPtr t a s X t0
    unfold PendingPlusBroadcast
    simp only [Step]
    rw [hl, he]
  | EndOverlapContact a =>
    obtain ⟨M, Q, hh, he⟩ := OnEndOverlapContact_frame GetEntityPtr t a s
    simp only [Step, he]
    rfl
  | DelayedContactEndEventCallback =>
    simp only [Step, DelayedContactEndEventCallback_eq]
    unfold PendingPlusBroadcast
    simp only [List.countP_append, countP_IsEndGraspOf_contact_events]
    rfl
  | Finish b =>
    simp only [Step, Finish]
    split_ifs
    · unfold PendingPlusBroadcast
      simp only [List.countP_append, countP_IsEndGraspOf_grasp_events,
        countP_IsEndGraspOf_contact_events, List.countP_nil]
      omega
    · rfl

/-! ## Runs: splitting, constants, monotone log -/

theorem Run_append [FFloat] (GetEntityPtr : AActor → Option FSLEntity) (s : USLManipulatorListener)
    (a b : List (ℚ × Call)) :
    Run GetEntityPtr s (a ++ b) = Run GetEntityPtr (Run GetEntityPtr s a) b := by
  simp [Run, List.foldl_append]

theorem Run_cons [FFloat] (GetEntityPtr : AActor → Option FSLEntity) (s : USLManipulatorListener)
    (c : ℚ × Call) (cs : List (ℚ × Call)) :
    Run GetEntityPtr s (c :: cs) = Run GetEntityPtr (Step GetEntityPtr s c) cs := rfl

theorem ClockFrom_split (a : List (ℚ × Call)) :
    ∀ (t : ℚ) (c : ℚ × Call) (b : List (ℚ × Call)), ClockFrom t (a ++ c :: b) →
      ClockFrom t (a ++ [c]) ∧ t ≤ c.1 ∧ ClockFrom c.1 b := by
  induction a with
  | nil =>
    intro t c b h
    exact ⟨⟨h.1, trivial⟩, h.1, h.2⟩
  | cons x a ih =>
    intro t c b h
    obtain ⟨h1, h2, h3⟩ := ih x.1 c b h.2
    exact ⟨⟨h.1, h1⟩, le_trans h.1 h2, h3⟩

theorem Run_gaps [FFloat] (GetEntityPtr : AActor → Option FSLEntity) (cs : List (ℚ × Call)) :
    ∀ s : USLManipulatorListener,
      (Run GetEntityPtr s cs).MaxGraspEventTimeGap = s.MaxGraspEventTimeGap ∧
      (Run GetEntityPtr s cs).MaxContactEventTimeGap = s.MaxContactEventTimeGap ∧
      (Run GetEntityPtr s cs).SemanticOwner = s.SemanticOwner := by
  induction cs with
  | nil => intro s; exact ⟨rfl, rfl, rfl⟩
  | cons c cs ih =>
    intro s
    obtain ⟨h1, h2, h3⟩ := ih (Step GetEntityPtr s c)
    obtain ⟨g1, g2, g3⟩ := Step_gaps GetEntityPtr s c
    exact ⟨h1.trans g1, h2.trans g2, h3.trans g3⟩

theorem Run_log_countP_le [FFloat] (GetEntityPtr : AActor → Option FSLEntity) (p : Broadcast → Bool)
    (cs : List (ℚ × Call)) :
    ∀ s : USLManipulatorListener, s.Log.countP p ≤ (Run GetEntityPtr s cs).Log.countP p := by
  induction cs with
  | nil => intro s; exact le_refl _
  | cons c cs ih =>
    intro s
    obtain ⟨L, hL⟩ := Step_log_append GetEntityPtr s c
    refine le_trans ?_ (ih (Step GetEntityPtr s c))
    rw [hL, List.countP_append]
    exact Nat.le_add_right _ _

/-- The debounce invariant of the grasp queue holds, at the time of the next call, in every
state reached from a state in which it holds. -/
theorem Run_pending_before [FFloat] [SubRegular] (GetEntityPtr : AActor → Option FSLEntity)
    (pre : List (ℚ × Call)) :
    ∀ (s : USLManipulatorListener) (now : ℚ) (c : ℚ × Call),
      GraspPendingInv now s → ClockFrom now (pre ++ [c]) →
      GraspPendingInv c.1 (Run GetEntityPtr s pre) := by
  induction pre with
  | nil =>
    intro s now c h hc
    exact h.laterGrasp hc.1
  | cons x pre ih =>
    intro s now c h hc
    exact ih (Step GetEntityPtr s x) x.1 c (Step_pending GetEntityPtr s x now hc.1 h) hc.2

theorem Run_entry [FFloat] [SubRegular] (GetEntityPtr : AActor → Option FSLEntity) (K : Nat) (G : ℚ) (X : AActor)
    (t0 : ℚ) (hG : 0 < G) (post : List (ℚ × Call)) :
    ∀ (s : USLManipulatorListener) (now : ℚ), GraspEntryInv K G X t0 now s →
      ClockFrom now post → NotRegrasped GetEntityPtr X t0 s post →
      ∃ T, GraspEntryInv K G X t0 T (Run GetEntityPtr s post) := by
  induction post with
  | nil => intro s now h _ _; exact ⟨now, h⟩
  | cons c post ih =>
    intro s now h hc hn
    have hn1 : FFloat.Sub c.1 t0 < G → X ∉ (Step GetEntityPtr s c).GraspedObjects := by
      intro hlt
      exact hn.1 (h.2.1 ▸ hlt)
    exact ih (Step GetEntityPtr s c) c.1
      (Step_entry GetEntityPtr s c K G X t0 now hG hc.1 hn1 h) hc.2 hn.2

theorem NotRegrasped_split [FFloat] (GetEntityPtr : AActor → Option FSLEntity) (X : AActor) (t0 : ℚ)
    (a : List (ℚ × Call)) :
    ∀ (s : USLManipulatorListener) (b : List (ℚ × Call)),
      NotRegrasped GetEntityPtr X t0 s (a ++ b) →
      NotRegrasped GetEntityPtr X t0 s a ∧
      NotRegrasped GetEntityPtr X t0 (Run GetEntityPtr s a) b := by
  induction a with
  | nil => intro s b h; exact ⟨trivial, h⟩
  | cons x a ih =>
    intro s b h
    obtain ⟨h1, h2⟩ := ih (Step GetEntityPtr s x) b h.2
    exact ⟨⟨h.1, h1⟩, h2⟩

theorem ClockFrom_append (a : List (ℚ × Call)) :
    ∀ (t : ℚ) (b : List (ℚ × Call)), ClockFrom t (a ++ b) →
      ClockFrom t a ∧ ∃ T, t ≤ T ∧ ClockFrom T b := by
  induction a with
  | nil => intro t b h; exact ⟨trivial, t, le_refl _, h⟩
  | cons x a ih =>
    intro t b h
    obtain ⟨h1, T, hT, h2⟩ := ih x.1 b h.2
    exact ⟨⟨h.1, h1⟩, T, le_trans h.1 hT, h2⟩

theorem GraspEntryInv.laterEntry {K : Nat} {G : ℚ} {X : AActor} {t0 now T : ℚ}
    {s : USLManipulatorListener} (h : GraspEntryInv K G X t0 now s) (hT : now ≤ T) :
    GraspEntryInv K G X t0 T s :=
  ⟨h.1, h.2.1, fun hx => lt_of_lt_of_le (h.2.2 hx) hT⟩

theorem Run_entry_before [FFloat] [SubRegular] (GetEntityPtr : AActor → Option FSLEntity) (K : Nat) (G : ℚ)
    (X : AActor) (t0 : ℚ) (hG : 0 < G) (post : List (ℚ × Call)) :
    ∀ (s : USLManipulatorListener) (now : ℚ) (c : ℚ × Call), GraspEntryInv K G X t0 now s →
      ClockFrom now (post ++ [c]) → NotRegrasped GetEntityPtr X t0 s post →
      GraspEntryInv K G X t0 c.1 (Run GetEntityPtr s post) := by
  induction post with
  | nil => intro s now c h hc _; exact h.laterEntry hc.1
  | cons x post ih =>
    intro s now c h hc hn
    have hn1 : FFloat.Sub x.1 t0 < G → X ∉ (Step GetEntityPtr s x).GraspedObjects := by
      intro hlt
      exact hn.1 (h.2.1 ▸ hlt)
    exact ih (Step GetEntityPtr s x) x.1 c
      (Step_entry GetEntityPtr s x K G X t0 now hG hc.1 hn1 h) hc.2 hn.2

/-- The call that creates the pending entry `(X, t0)` is an end of overlap of `X` in one of
the groups while `X` is grasped; it broadcasts nothing and removes `X` from `GraspedObjects`. -/
theorem EndOverlap_created [FFloat] (GetEntityPtr : AActor → Option FSLEntity)
    (s : USLManipulatorListener) (c : Call) (X : AActor) (t0 : ℚ)
    (hc : c = Call.EndOverlapGroupAGrasp X ∨ c = Call.EndOverlapGroupBGrasp X)
    (hCreated : (Step GetEntityPtr s (t0, c)).RecentlyEndedGraspEvents =
      s.RecentlyEndedGraspEvents ++ [⟨X, t0⟩]) :
    X ∈ s.GraspedObjects ∧ (Step GetEntityPtr s (t0, c)).Log = s.Log ∧
    X ∉ (Step GetEntityPtr s (t0, c)).GraspedObjects := by
  rcases hc with rfl | rfl
  · by_cases h1 : (TSetRemove s.SetA X).2 > 0
    · by_cases h2 : X ∈ s.GraspedObjects
      · refine ⟨h2, ?_, ?_⟩ <;>
          simp [Step, OnEndOverlapGroupAGrasp, EndGrasp_eq, h1, h2, List.mem_filter]
      · simp [Step, OnEndOverlapGroupAGrasp, EndGrasp_eq, h1, h2] at hCreated
    · simp [Step, OnEndOverlapGroupAGrasp, h1] at hCreated
  · by_cases h1 : (TSetRemove s.SetB X).2 > 0
    · by_cases h2 : X ∈ s.GraspedObjects
      · refine ⟨h2, ?_, ?_⟩ <;>
          simp [Step, OnEndOverlapGroupBGrasp, EndGrasp_eq, h1, h2, List.mem_filter]
      · simp [Step, OnEndOverlapGroupBGrasp, EndGrasp_eq, h1, h2] at hCreated
    · simp [Step, OnEndOverlapGroupBGrasp, h1] at hCreated

theorem GraspPendingInv_empty [FFloat] (now : ℚ) (s : USLManipulatorListener) (h : IsEmptyState s) :
    GraspPendingInv now s := by
  obtain ⟨_, _, h3, _, h5, _⟩ := h
  intro X
  simp [h3, h5]

/-! ## C2: a pending grasp end event is broadcast exactly once, with its own timestamp -/

/-- C2: in a run from the empty state under a non-decreasing clock, let an end of overlap of
`X` at time `t0` create the pending grasp end event `(X, t0)`, and let no later call made at a
time `t1` with `t1 - t0 < MaxGraspEventTimeGap` begin a grasp of `X` (the entry is not
cancelled).  Then at most one end-grasp event for `X` with timestamp `t0` is broadcast after
the creation (never two), and exactly one is as soon as the rest of the run contains a
`Finish` of the initialised, not yet finished listener or a delayed callback at a time `T`
with `T - t0 > MaxGraspEventTimeGap`; the event carries `t0`, not the time of that call.
The differences `t1 - t0` and `T - t0` are the ones the platform computes (`FFloat.Sub`), for
any subtraction that is monotone and gives zero for equal operands. -/
theorem C2_grasp_end_broadcast_once [FFloat] (GetEntityPtr : AActor → Option FSLEntity)
    (s : USLManipulatorListener) (pre post : List (ℚ × Call)) (c : Call) (X : AActor)
    (t0 tstart : ℚ) (hReg : SubRegular)
    (hEmpty : IsEmptyState s) (hG : 0 < s.MaxGraspEventTimeGap)
    (hClock : ClockFrom tstart (pre ++ (t0, c) :: post))
    (hc : c = Call.EndOverlapGroupAGrasp X ∨ c = Call.EndOverlapGroupBGrasp X)
    (hCreated : (Step GetEntityPtr (Run GetEntityPtr s pre) (t0, c)).RecentlyEndedGraspEvents =
      (Run GetEntityPtr s pre).RecentlyEndedGraspEvents ++ [⟨X, t0⟩])
    (hNot : NotRegrasped GetEntityPtr X t0
      (Step GetEntityPtr (Run GetEntityPtr s pre) (t0, c)) post) :
    (Run GetEntityPtr s (pre ++ (t0, c) :: post)).Log.countP (IsEndGraspOf X t0) ≤
      (Run GetEntityPtr s pre).Log.countP (IsEndGraspOf X t0) + 1 ∧
    (((∃ p1 tF b p2, post = p1 ++ (tF, Call.Finish b) :: p2 ∧
          (Run GetEntityPtr s (pre ++ (t0, c) :: p1)).bIsInit = true ∧
          (Run GetEntityPtr s (pre ++ (t0, c) :: p1)).bIsFinished = false) ∨
      (∃ p1 T p2, post = p1 ++ (T, Call.DelayedGraspEndEventCallback) :: p2 ∧
          s.MaxGraspEventTimeGap < FFloat.Sub T t0)) →
      (Run GetEntityPtr s (pre ++ (t0, c) :: post)).Log.countP (IsEndGraspOf X t0) =
        (Run GetEntityPtr s pre).Log.countP (IsEndGraspOf X t0) + 1) := by
  haveI := hReg
  obtain ⟨hcl1, _, hcl2⟩ := ClockFrom_split pre tstart (t0, c) post hClock
  have hpend : GraspPendingInv t0 (Run GetEntityPtr s pre) :=
    Run_pending_before GetEntityPtr pre s tstart (t0, c)
      (GraspPendingInv_empty tstart s hEmpty) hcl1
  have hgap : (Run GetEntityPtr s pre).MaxGraspEventTimeGap = s.MaxGraspEventTimeGap :=
    (Run_gaps GetEntityPtr pre s).1
  obtain ⟨hX, hLog, hXnot⟩ := EndOverlap_created GetEntityPtr _ c X t0 hc hCreated
  have hzero : (Run GetEntityPtr s pre).RecentlyEndedGraspEvents.countP
      (IsGraspEntry X t0) = 0 := by
    have h0 := (hpend X).2 hX
    rw [List.countP_eq_zero] at h0 ⊢
    intro e he hent
    apply h0 e he
    simp only [IsGraspEntry, Bool.and_eq_true, decide_eq_true_eq] at hent
    simp only [GraspCancels, Bool.and_eq_true, decide_eq_true_eq, hent.1, hent.2, hgap,
      SubRegular.Self, hG, and_self]
  have hinv : GraspEntryInv ((Run GetEntityPtr s pre).Log.countP (IsEndGraspOf X t0) + 1)
      s.MaxGraspEventTimeGap X t0 t0 (Step GetEntityPtr (Run GetEntityPtr s pre) (t0, c)) := by
    refine ⟨?_, (Step_gaps GetEntityPtr _ _).1.trans hgap, fun hx => absurd hx hXnot⟩
    unfold PendingPlusBroadcast
    rw [hCreated, hLog, List.countP_append, hzero]
    simp [IsGraspEntry, Nat.add_comm]
  rw [Run_append, Run_cons]
  generalize hs1 : Step GetEntityPtr (Run GetEntityPtr s pre) (t0, c) = s1 at hinv hNot
  generalize (Run GetEntityPtr s pre).Log.countP (IsEndGraspOf X t0) + 1 = K at hinv
  obtain ⟨T, hfinal⟩ := Run_entry GetEntityPtr K _ X t0 hG post s1 t0 hinv hcl2 hNot
  have hsum := hfinal.1
  unfold PendingPlusBroadcast at hsum
  refine ⟨by omega, ?_⟩
  have hafter : ∀ (p1 p2 : List (ℚ × Call)) (x : ℚ × Call), post = p1 ++ x :: p2 →
      (Step GetEntityPtr (Run GetEntityPtr s1 p1) x).RecentlyEndedGraspEvents.countP
        (IsGraspEntry X t0) = 0 →
      K ≤ (Run GetEntityPtr s1 post).Log.countP (IsEndGraspOf X t0) := by
    intro p1 p2 x hpost hq
    subst hpost
    obtain ⟨hc1, _, _⟩ := ClockFrom_split p1 t0 x p2 hcl2
    obtain ⟨hn1, hn2⟩ := NotRegrasped_split GetEntityPtr X t0 p1 s1 (x :: p2) hNot
    have hi1 := Run_entry_before GetEntityPtr K _ X t0 hG p1 s1 t0 x hinv hc1 hn1
    have hn3 : FFloat.Sub x.1 t0 < s.MaxGraspEventTimeGap →
        X ∉ (Step GetEntityPtr (Run GetEntityPtr s1 p1) x).GraspedObjects := by
      intro hlt
      exact hn2.1 (hi1.2.1 ▸ hlt)
    have hi2 := Step_entry GetEntityPtr _ x K _ X t0 x.1 hG (le_refl _) hn3 hi1
    have hk := hi2.1
    unfold PendingPlusBroadcast at hk
    rw [hq] at hk
    rw [Run_append, Run_cons]
    have := Run_log_countP_le GetEntityPtr (IsEndGraspOf X t0) p2
      (Step GetEntityPtr (Run GetEntityPtr s1 p1) x)
    omega
  rintro (⟨p1, tF, b, p2, hpost, hInit, hFin⟩ | ⟨p1, Tf, p2, hpost, hlate⟩)
  · have hk := hafter p1 p2 (tF, Call.Finish b) hpost (by
      rw [Run_append, Run_cons, hs1] at hInit hFin
      simp [Step, Finish, hInit, hFin])
    omega
  · have hk := hafter p1 p2 (Tf, Call.DelayedGraspEndEventCallback) hpost (by
      subst hpost
      obtain ⟨hc1, _, _⟩ := ClockFrom_split p1 t0 _ p2 hcl2
      obtain ⟨hn1, _⟩ := NotRegrasped_split GetEntityPtr X t0 p1 s1 _ hNot
      have hi1 := Run_entry_before GetEntityPtr K _ X t0 hG p1 s1 t0 _ hinv hc1 hn1
      simp only [Step, DelayedGraspEndEventCallback_eq]
      rw [List.countP_eq_zero]
      intro e he hent
      simp only [List.mem_filter, GraspExpired, Bool.not_eq_true', decide_eq_false_iff_not,
        not_lt] at he
      simp only [IsGraspEntry, Bool.and_eq_true, decide_eq_true_eq] at hent
      have hg := hi1.2.1
      rw [hent.2, hg] at he
      exact absurd hlate (not_lt.mpr he.2))
    omega

/-- C2 (witness): object 5 is grasped at time 0 and leaves group A at time 1.0, which creates
the pending entry (5, 1.0); nothing begins a grasp of 5 afterwards and `Finish` is called at
1.2, before the gap of 0.5 has passed: exactly one end-grasp event (5, 1.0) is broadcast. -/
theorem C2_grasp_end_broadcast_once_witness :
    (Run exampleRegistry exampleListener
      ([(0, Call.BeginOverlapGroupAGrasp 5), (0, Call.BeginOverlapGroupBGrasp 5)] ++
        (1, Call.EndOverlapGroupAGrasp 5) :: [(6 / 5, Call.Finish false)])).Log.countP
        (IsEndGraspOf 5 1) =
      (Run exampleRegistry exampleListener
        [(0, Call.BeginOverlapGroupAGrasp 5), (0, Call.BeginOverlapGroupBGrasp 5)]).Log.countP
        (IsEndGraspOf 5 1) + 1 :=
  (C2_grasp_end_broadcast_once exampleRegistry exampleListener
    [(0, Call.BeginOverlapGroupAGrasp 5), (0, Call.BeginOverlapGroupBGrasp 5)]
    [(6 / 5, Call.Finish false)] (Call.EndOverlapGroupAGrasp 5) 5 1 0 ExactFloat_regular
    (by decide!) (by decide!) (by decide!) (Or.inl rfl) (by decide!) (by decide!)).2
    (Or.inl ⟨[], 6 / 5, false, [], rfl, by decide!, by decide!⟩)

/-! ## Keys of the contact map -/

theorem TMapFind_eq_none (M : List (AActor × Int)) (k : AActor) :
    TMapFind M k = none ↔ ∀ p ∈ M, p.1 ≠ k := by
  simp [TMapFind, List.find?_eq_none]

theorem TMapFind_TMapSetValue_none (M : List (AActor × Int)) (k k2 : AActor) (v : Int) :
    TMapFind (TMapSetValue M k v) k2 = none ↔ TMapFind M k2 = none := by
  rw [TMapFind_eq_none, TMapFind_eq_none]
  unfold TMapSetValue
  constructor
  · intro h p hp
    have := h (if p.1 == k then (p.1, v) else p) (List.mem_map.mpr ⟨p, hp, rfl⟩)
    split at this <;> exact this
  · intro h q hq
    obtain ⟨p, hp, rfl⟩ := List.mem_map.mp hq
    split <;> exact h p hp

theorem TMapFind_TMapAdd_none (M : List (AActor × Int)) (k k2 : AActor) (v : Int)
    (hk : TMapFind M k = none) :
    TMapFind (TMapAdd M k v) k2 = none ↔ (TMapFind M k2 = none ∧ k2 ≠ k) := by
  have h' : M.find? (fun p => p.1 == k) = none := by
    simpa [TMapFind] using hk
  rw [TMapFind_eq_none, TMapFind_eq_none]
  simp only [TMapAdd, h', Option.isSome_none, Bool.false_eq_true, if_false, List.mem_append,
    List.mem_singleton]
  constructor
  · intro h
    exact ⟨fun p hp => h p (Or.inl hp), fun hkk => h (k, v) (Or.inr rfl) hkk.symm⟩
  · rintro ⟨h1, h2⟩ p (hp | rfl)
    · exact h1 p hp
    · exact fun hkk => h2 hkk.symm

theorem TMapFind_TMapRemove_none (M : List (AActor × Int)) (k k2 : AActor) :
    TMapFind (TMapRemove M k) k2 = none ↔ (TMapFind M k2 = none ∨ k2 = k) := by
  rw [TMapFind_eq_none, TMapFind_eq_none]
  simp only [TMapRemove, List.mem_filter, bne_iff_ne, ne_eq, and_imp]
  constructor
  · intro h
    by_cases hk : k2 = k
    · exact Or.inr hk
    · left
      intro p hp hpk
      exact h p hp (by rw [hpk]; exact hk) hpk
  · rintro (h | rfl) p hp hne
    · exact h p hp
    · exact hne

theorem ContactCancels_keyed [FFloat] (Item : FSLEntity) (k : AActor) (now G : ℚ)
    (h : Item.Obj = some k) : ContactCancels Item now G = ContactOf k now G := by
  funext Ev
  unfold ContactCancels ContactOf FSLEntity.EqualsFast
  rw [h]
  cases hO : Ev.OtherItem.Obj <;> simp

/-! ## The effect of one call on the contact bookkeeping -/

theorem ContactEffect.same [FFloat] (GetEntityPtr : AActor → Option FSLEntity) (c : ℚ × Call)
    (s r : USLManipulatorListener) (hM : r.ObjectsInContact = s.ObjectsInContact)
    (hQ : r.RecentlyEndedContactEvents = s.RecentlyEndedContactEvents)
    (L : List Broadcast) (hL : r.Log = s.Log ++ L) (hE : ∀ e ∈ L, e.IsEndContact = false) :
    ContactEffect GetEntityPtr c s r :=
  ContactEffect.frame (fun k => by unfold InContact; rw [hM]) hQ L hL hE

theorem CheckGraspState_contact [FFloat] (now : ℚ) (st : USLManipulatorListener) :
    (CheckGraspState now st).ObjectsInContact = st.ObjectsInContact ∧
    (CheckGraspState now st).RecentlyEndedContactEvents = st.RecentlyEndedContactEvents ∧
    ∃ L, (CheckGraspState now st).Log = st.Log ++ L ∧ ∀ e ∈ L, e.IsEndContact = false := by
  apply CheckGraspState_induct (fun r =>
    r.ObjectsInContact = st.ObjectsInContact ∧
    r.RecentlyEndedContactEvents = st.RecentlyEndedContactEvents ∧
    ∃ L, r.Log = st.Log ++ L ∧ ∀ e ∈ L, e.IsEndContact = false)
  · exact ⟨rfl, rfl, [], by simp, by simp⟩
  · intro r Obj hr _
    obtain ⟨h1, h2, L, hL, hE⟩ := hr
    rw [BeginGrasp_eq]
    split
    · exact ⟨h1, h2, L, hL, hE⟩
    · refine ⟨h1, h2, L ++ [Broadcast.OnBeginManipulatorGrasp r.SemanticOwner Obj now
        r.ActiveGraspType], by simp [hL], ?_⟩
      intro e he
      simp only [List.mem_append, List.mem_singleton] at he
      rcases he with he | rfl
      · exact hE e he
      · rfl

theorem Step_contact_effect [FFloat] (GetEntityPtr : AActor → Option FSLEntity)
    (s : USLManipulatorListener) (c : ℚ × Call) :
    ContactEffect GetEntityPtr c s (Step GetEntityPtr s c) := by
  obtain ⟨t, c⟩ := c
  cases c with
  | BeginOverlapGroupAGrasp a =>
    simp only [Step, OnBeginOverlapGroupAGrasp]
    split
    · obtain ⟨h1, h2, L, hL, hE⟩ := CheckGraspState_contact t
        { s with SetA := (TSetEmplace s.SetA a).1 }
      exact ContactEffect.same _ _ _ _ h1 h2 L hL hE
    · exact ContactEffect.same _ _ _ _ rfl rfl [] (by simp) (by simp)
  | BeginOverlapGroupBGrasp a =>
    simp only [Step, OnBeginOverlapGroupBGrasp]
    split
    · obtain ⟨h1, h2, L, hL, hE⟩ := CheckGraspState_contact t
        { s with SetB := (TSetEmplace s.SetB a).1 }
      exact ContactEffect.same _ _ _ _ h1 h2 L hL hE
    · exact ContactEffect.same _ _ _ _ rfl rfl [] (by simp) (by simp)
  | EndOverlapGroupAGrasp a =>
    simp only [Step, OnEndOverlapGroupAGrasp, EndGrasp_eq]
    split_ifs <;> exact ContactEffect.same _ _ _ _ rfl rfl [] (by simp) (by simp)
  | EndOverlapGroupBGrasp a =>
    simp only [Step, OnEndOverlapGroupBGrasp, EndGrasp_eq]
    split_ifs <;> exact ContactEffect.same _ _ _ _ rfl rfl [] (by simp) (by simp)
  | PauseGraspDetection b =>
    simp only [Step, PauseGraspDetection]
    split_ifs
    · refine ContactEffect.same _ _ _ _ rfl rfl _ rfl ?_
      intro e he
      obtain ⟨Obj, _, rfl⟩ := List.mem_map.mp he
      rfl
    · exact ContactEffect.same _ _ _ _ rfl rfl [] (by simp) (by simp)
    · exact ContactEffect.same _ _ _ _ rfl rfl [] (by simp) (by simp)
  | DelayedGraspEndEventCallback =>
    simp only [Step, DelayedGraspEndEventCallback_eq]
    refine ContactEffect.same _ _ _ _ rfl rfl _ rfl ?_
    intro e he
    obtain ⟨Ev, _, rfl⟩ := List.mem_map.mp he
    rfl
  | BeginOverlapContact a =>
    simp only [Step, OnBeginOverlapContact]
    cases hr : GetEntityPtr a with
    | none => exact ContactEffect.same _ _ _ _ rfl rfl [] (by simp) (by simp)
    | some Item =>
      cases hf : TMapFind s.ObjectsInContact a with
      | some n =>
        refine ContactEffect.frame ?_ rfl [] (by simp) (by simp)
        intro k
        unfold InContact
        simp only [ne_eq, TMapFind_TMapSetValue_none]
      | none =>
        simp only [SkipRecentContactEndEventBroadcast_eq]
        have hK : ∀ (M : List (AActor × Int)), M = TMapAdd s.ObjectsInContact a 1 →
            ∀ k, TMapFind M k ≠ none ↔ (TMapFind s.ObjectsInContact k ≠ none ∨ k = a) := by
          intro M hM k
          rw [hM, ne_eq, TMapFind_TMapAdd_none _ _ _ _ hf]
          tauto
        by_cases hany : s.RecentlyEndedContactEvents.any
            (ContactCancels Item t s.MaxContactEventTimeGap) = true
        · simp only [hany, if_true, Bool.not_true, Bool.false_eq_true, if_false]
          exact ContactEffect.beginNew a Item rfl hr (by simp [InContact, hf])
            (hK _ rfl) rfl [] (by simp) (by simp) (fun _ => rfl)
        · simp only [hany, Bool.false_eq_true, if_false, Bool.not_false, if_true]
          refine ContactEffect.beginNew a Item rfl hr (by simp [InContact, hf])
            (hK _ rfl) ?_ _ rfl ?_ (fun h => absurd h hany)
          · simp only
            rw [List.eraseP_of_forall_not]
            intro e he hc
            exact hany (List.any_eq_true.mpr ⟨e, he, hc⟩)
          · intro e he
            simp only [List.mem_singleton] at he
            subst he
            rfl
  | EndOverlapContact a =>
    simp only [Step, OnEndOverlapContact]
    cases hr : GetEntityPtr a with
    | none => exact ContactEffect.same _ _ _ _ rfl rfl [] (by simp) (by simp)
    | some Item =>
      cases hf : TMapFind s.ObjectsInContact a with
      | none => exact ContactEffect.same _ _ _ _ rfl rfl [] (by simp) (by simp)
      | some n =>
        simp only
        by_cases hn : WrapInt32 (n - 1) < 1
        · simp only [hn, if_true]
          have hK : ∀ k, TMapFind (TMapRemove
              (TMapSetValue s.ObjectsInContact a (WrapInt32 (n - 1))) a) k
              ≠ none ↔ (TMapFind s.ObjectsInContact k ≠ none ∧ k ≠ a) := by
            intro k
            rw [ne_eq, TMapFind_TMapRemove_none, TMapFind_TMapSetValue_none]
            tauto
          split
          · exact ContactEffect.endLast a Item rfl hr (by simp [InContact, hf]) hK rfl rfl
          · exact ContactEffect.endLast a Item rfl hr (by simp [InContact, hf]) hK rfl rfl
        · simp only [hn, if_false]
          refine ContactEffect.frame ?_ rfl [] (by simp) (by simp)
          intro k
          unfold InContact
          simp only [ne_eq, TMapFind_TMapSetValue_none]
  | DelayedContactEndEventCallback =>
    simp only [Step, DelayedContactEndEventCallback_eq]
    exact ContactEffect.flush rfl (fun k => Iff.rfl) rfl rfl
  | Finish b =>
    simp only [Step, Finish]
    split_ifs
    · refine ContactEffect.finish b rfl (fun k => Iff.rfl) rfl _ ?_ rfl
      intro e he
      obtain ⟨Ev, _, rfl⟩ := List.mem_map.mp he
      rfl
    · exact ContactEffect.same _ _ _ _ rfl rfl [] (by simp) (by simp)

/-! ## The debounce invariant of the contact queue -/

theorem ContactOf_mono [FFloat] [SubRegular] (k : AActor) (now T G : ℚ) (h : now ≤ T)
    (Q : List FSLContactEndEvent) :
    Q.countP (ContactOf k T G) ≤ Q.countP (ContactOf k now G) := by
  apply List.countP_mono_left
  intro e _ he
  simp only [ContactOf, Bool.and_eq_true, decide_eq_true_eq] at he ⊢
  exact ⟨he.1, lt_of_le_of_lt (SubRegular.Left now T e.Time h) he.2⟩

theorem ContactPendingInv.laterContact [FFloat] [SubRegular] {now T : ℚ} {s : USLManipulatorListener}
    (h : ContactPendingInv now s) (hT : now ≤ T) : ContactPendingInv T s := by
  intro k
  have hm := ContactOf_mono k now T s.MaxContactEventTimeGap hT s.RecentlyEndedContactEvents
  obtain ⟨h1, h2⟩ := h k
  exact ⟨le_trans hm h1, fun hk => Nat.eq_zero_of_le_zero (le_trans hm (le_of_eq (h2 hk)))⟩

theorem countP_no_end_contact (p : Broadcast → Bool) (L : List Broadcast)
    (hp : ∀ e, p e = true → e.IsEndContact = true)
    (hE : ∀ e ∈ L, e.IsEndContact = false) : L.countP p = 0 := by
  rw [List.countP_eq_zero]
  intro e he hpe
  have := hp e hpe
  rw [hE e he] at this
  exact Bool.false_ne_true this

theorem IsEndContactOf_IsEndContact (k : AActor) (t0 : ℚ) (e : Broadcast)
    (h : IsEndContactOf k t0 e = true) : e.IsEndContact = true := by
  cases e <;> simp_all [IsEndContactOf, Broadcast.IsEndContact]

theorem countP_IsEndContactOf_contact_events (k : AActor) (t0 : ℚ) (Owner : FSLEntity)
    (Q : List FSLContactEndEvent) :
    (Q.map (fun e => Broadcast.OnEndManipulatorContact Owner e.OtherItem e.Time)).countP
      (IsEndContactOf k t0) = Q.countP (IsContactEntry k t0) := by
  rw [List.countP_map]
  rfl

theorem Step_contact_pending [FFloat] [SubRegular] (GetEntityPtr : AActor → Option FSLEntity)
    (hKeyed : RegistryKeyed GetEntityPtr)
    (s : USLManipulatorListener) (c : ℚ × Call) (now : ℚ) (hc : now ≤ c.1)
    (h : ContactPendingInv now s) : ContactPendingInv c.1 (Step GetEntityPtr s c) := by
  have h' := h.laterContact hc
  have hG := (Step_gaps GetEntityPtr s c).2.1
  intro k
  rw [hG]
  obtain ⟨h1, h2⟩ := h' k
  cases Step_contact_effect GetEntityPtr s c with
  | frame hK hQ L hL hE =>
    rw [hQ]
    exact ⟨h1, fun hk => h2 ((hK k).mp hk)⟩
  | beginNew a Item hca hr ha hK hQ L hL hE hAny =>
    rw [hQ, ContactCancels_keyed Item a _ _ (hKeyed a Item hr)]
    have hsub := (List.eraseP_sublist (p := ContactOf a c.1 s.MaxContactEventTimeGap)
      s.RecentlyEndedContactEvents).countP_le (ContactOf k c.1 s.MaxContactEventTimeGap)
    refine ⟨le_trans hsub h1, ?_⟩
    intro hk
    rcases (hK k).mp hk with hk | rfl
    · exact Nat.eq_zero_of_le_zero (le_trans hsub (le_of_eq (h2 hk)))
    · rw [countP_eraseP_self]
      omega
  | endLast a Item hca hr ha hK hQ hL =>
    rw [hQ, List.countP_append]
    have hObj := hKeyed a Item hr
    by_cases hka : k = a
    · subst hka
      have h0 := h2 ha
      refine ⟨by rw [h0]; simp only [List.countP_cons, List.countP_nil]; split <;> simp, ?_⟩
      intro hk
      exact absurd rfl ((hK k).mp hk).2
    · have hz : [(⟨Item, c.1⟩ : FSLContactEndEvent)].countP
          (ContactOf k c.1 s.MaxContactEventTimeGap) = 0 := by
        rw [List.countP_eq_zero]
        intro e he
        simp only [List.mem_singleton] at he
        subst he
        simp only [ContactOf, hObj, Option.some.injEq, Bool.and_eq_true, decide_eq_true_eq,
          not_and]
        intro hak
        exact absurd hak.symm hka
      rw [hz, Nat.add_zero]
      exact ⟨h1, fun hk => h2 ((hK k).mp hk).1⟩
  | flush hcf hK hQ hL =>
    rw [hQ]
    have hsub := (List.filter_sublist
      (p := fun e => !ContactExpired c.1 s.MaxContactEventTimeGap e)
      s.RecentlyEndedContactEvents).countP_le (ContactOf k c.1 s.MaxContactEventTimeGap)
    exact ⟨le_trans hsub h1,
      fun hk => Nat.eq_zero_of_le_zero (le_trans hsub (le_of_eq (h2 ((hK k).mp hk))))⟩
  | finish b hcf hK hQ L hE hL =>
    rw [hQ]
    simp

theorem Run_contact_pending_before [FFloat] [SubRegular] (GetEntityPtr : AActor → Option FSLEntity)
    (hKeyed : RegistryKeyed GetEntityPtr) (pre : List (ℚ × Call)) :
    ∀ (s : USLManipulatorListener) (now : ℚ) (c : ℚ × Call),
      ContactPendingInv now s → ClockFrom now (pre ++ [c]) →
      ContactPendingInv c.1 (Run GetEntityPtr s pre) := by
  induction pre with
  | nil =>
    intro s now c h hc
    exact h.laterContact hc.1
  | cons x pre ih =>
    intro s now c h hc
    exact ih (Step GetEntityPtr s x) x.1 c
      (Step_contact_pending GetEntityPtr hKeyed s x now hc.1 h) hc.2

theorem Step_contact_mid [FFloat] [SubRegular] (GetEntityPtr : AActor → Option FSLEntity)
    (hKeyed : RegistryKeyed GetEntityPtr) (k : AActor) (Item : FSLEntity) (t0 t1 G : ℚ)
    (c0 : Nat) (hReg : GetEntityPtr k = some Item) (hGap : FFloat.Sub t1 t0 < G)
    (s : USLManipulatorListener) (c : ℚ × Call) (hT : c.1 ≤ t1)
    (hc1 : c.2 ≠ Call.BeginOverlapContact k) (hc2 : ∀ b, c.2 ≠ Call.Finish b)
    (h : ContactMidInv k Item t0 t1 G c0 s) :
    ContactMidInv k Item t0 t1 G c0 (Step GetEntityPtr s c) := by
  obtain ⟨hk, hmem, hcount, hlog, hG⟩ := h
  have hG' := (Step_gaps GetEntityPtr s c).2.1
  have hObj := hKeyed k Item hReg
  have hlogL : ∀ L : List Broadcast, (∀ e ∈ L, e.IsEndContact = false) →
      (s.Log ++ L).countP (IsEndContactOf k t0) = c0 := by
    intro L hE
    rw [List.countP_append, hlog, countP_no_end_contact _ L
      (IsEndContactOf_IsEndContact k t0) hE]
    rfl
  cases Step_contact_effect GetEntityPtr s c with
  | frame hK hQ L hL hE =>
    exact ⟨fun hx => hk ((hK k).mp hx), hQ ▸ hmem, hQ ▸ hcount, hL ▸ hlogL L hE,
      hG'.trans hG⟩
  | beginNew a Item2 hca hr ha hK hQ L hL hE hAny =>
    have hak : a ≠ k := by
      rintro rfl
      exact hc1 hca
    have hObj2 := hKeyed a Item2 hr
    refine ⟨?_, ?_, ?_, hL ▸ hlogL L hE, hG'.trans hG⟩
    · intro hx
      rcases (hK k).mp hx with hx | hx
      · exact hk hx
      · exact hak hx.symm
    · rw [hQ]
      apply (List.mem_eraseP_of_neg _).mpr hmem
      simp [ContactCancels, FSLEntity.EqualsFast, hObj, hObj2, Ne.symm hak]
    · rw [hQ]
      exact le_trans ((List.eraseP_sublist _).countP_le _) hcount
  | endLast a Item2 hca hr ha hK hQ hL =>
    have hak : a ≠ k := by
      rintro rfl
      exact hk ha
    have hObj2 := hKeyed a Item2 hr
    refine ⟨fun hx => hk ((hK k).mp hx).1, ?_, ?_, hL ▸ hlog, hG'.trans hG⟩
    · rw [hQ]
      exact List.mem_append_left _ hmem
    · rw [hQ, List.countP_append]
      have hz : [(⟨Item2, c.1⟩ : FSLContactEndEvent)].countP (ContactOf k t1 G) = 0 := by
        rw [List.countP_eq_zero]
        intro e he
        simp only [List.mem_singleton] at he
        subst he
        simp [ContactOf, hObj2, hak]
      rw [hz]
      exact hcount
  | flush hcf hK hQ hL =>
    refine ⟨fun hx => hk ((hK k).mp hx), ?_, ?_, ?_, hG'.trans hG⟩
    · rw [hQ, List.mem_filter]
      refine ⟨hmem, ?_⟩
      simp only [ContactExpired, hG, Bool.not_eq_true', decide_eq_false_iff_not, not_lt]
      exact le_of_lt (lt_of_le_of_lt (SubRegular.Left c.1 t1 t0 hT) hGap)
    · rw [hQ]
      exact le_trans ((List.filter_sublist _).countP_le _) hcount
    · rw [hL, List.countP_append, hlog, countP_IsEndContactOf_contact_events]
      have : (s.RecentlyEndedContactEvents.filter
          (ContactExpired c.1 s.MaxContactEventTimeGap)).countP (IsContactEntry k t0) = 0 := by
        rw [List.countP_eq_zero]
        intro e he hent
        simp only [List.mem_filter, ContactExpired, decide_eq_true_eq, hG] at he
        simp only [IsContactEntry, Bool.and_eq_true, decide_eq_true_eq] at hent
        rw [hent.2] at he
        exact absurd (lt_of_le_of_lt (SubRegular.Left c.1 t1 t0 hT) hGap) (not_lt.mpr (le_of_lt he.2))
      rw [this]
      rfl
  | finish b hcf hK hQ L hE hL =>
    exact absurd hcf (hc2 b)

theorem Step_contact_post [FFloat] (GetEntityPtr : AActor → Option FSLEntity)
    (hKeyed : RegistryKeyed GetEntityPtr) (k : AActor) (t0 : ℚ) (c0 : Nat)
    (s : USLManipulatorListener) (c : ℚ × Call)
    (hc : c ≠ (t0, Call.EndOverlapContact k))
    (h : ContactPostInv k t0 c0 s) :
    ContactPostInv k t0 c0 (Step GetEntityPtr s c) := by
  obtain ⟨hq, hlog⟩ := h
  have hlogL : ∀ L : List Broadcast, (∀ e ∈ L, e.IsEndContact = false) →
      (s.Log ++ L).countP (IsEndContactOf k t0) = c0 := by
    intro L hE
    rw [List.countP_append, hlog, countP_no_end_contact _ L
      (IsEndContactOf_IsEndContact k t0) hE]
    rfl
  have hsubz : ∀ Q : List FSLContactEndEvent, Q.Sublist s.RecentlyEndedContactEvents →
      Q.countP (IsContactEntry k t0) = 0 := by
    intro Q hQ
    exact Nat.eq_zero_of_le_zero (le_trans (hQ.countP_le _) (le_of_eq hq))
  cases Step_contact_effect GetEntityPtr s c with
  | frame hK hQ L hL hE =>
    exact ⟨hQ ▸ hq, hL ▸ hlogL L hE⟩
  | beginNew a Item2 hca hr ha hK hQ L hL hE hAny =>
    exact ⟨hQ ▸ hsubz _ (List.eraseP_sublist _), hL ▸ hlogL L hE⟩
  | endLast a Item2 hca hr ha hK hQ hL =>
    refine ⟨?_, hL ▸ hlog⟩
    rw [hQ, List.countP_append, hq, Nat.zero_add, List.countP_eq_zero]
    intro e he hent
    simp only [List.mem_singleton] at he
    subst he
    simp only [IsContactEntry, hKeyed a Item2 hr, Option.some.injEq, Bool.and_eq_true,
      decide_eq_true_eq] at hent
    apply hc
    obtain ⟨t, cc⟩ := c
    simp only at hca hent
    rw [hca, hent.1, hent.2]
  | flush hcf hK hQ hL =>
    refine ⟨hQ ▸ hsubz _ (List.filter_sublist _), ?_⟩
    rw [hL, List.countP_append, hlog, countP_IsEndContactOf_contact_events,
      hsubz _ (List.filter_sublist _)]
    rfl
  | finish b hcf hK hQ L hE hL =>
    refine ⟨by rw [hQ]; rfl, ?_⟩
    rw [hL, List.countP_append, hlogL L hE, countP_IsEndContactOf_contact_events, hq]
    rfl

theorem ClockFrom_le_of_mem (a : List (ℚ × Call)) :
    ∀ (t : ℚ) (c : ℚ × Call) (b : List (ℚ × Call)), ClockFrom t (a ++ c :: b) →
      ∀ x ∈ a, x.1 ≤ c.1 := by
  induction a with
  | nil => intro t c b _ x hx; simp at hx
  | cons y a ih =>
    intro t c b h x hx
    rcases List.mem_cons.mp hx with rfl | hx
    · exact (ClockFrom_split a x.1 c b h.2).2.1
    · exact ih y.1 c b h.2 x hx

theorem Run_contact_mid [FFloat] [SubRegular] (GetEntityPtr : AActor → Option FSLEntity)
    (hKeyed : RegistryKeyed GetEntityPtr) (k : AActor) (Item : FSLEntity) (t0 t1 G : ℚ)
    (c0 : Nat) (hReg : GetEntityPtr k = some Item) (hGap : FFloat.Sub t1 t0 < G)
    (mid : List (ℚ × Call)) :
    ∀ s : USLManipulatorListener,
      (∀ x ∈ mid, x.1 ≤ t1 ∧ x.2 ≠ Call.BeginOverlapContact k ∧ ∀ b, x.2 ≠ Call.Finish b) →
      ContactMidInv k Item t0 t1 G c0 s →
      ContactMidInv k Item t0 t1 G c0 (Run GetEntityPtr s mid) := by
  induction mid with
  | nil => intro s _ h; exact h
  | cons x mid ih =>
    intro s hx h
    obtain ⟨h1, h2, h3⟩ := hx x (List.mem_cons_self _ _)
    exact ih (Step GetEntityPtr s x) (fun y hy => hx y (List.mem_cons_of_mem _ hy))
      (Step_contact_mid GetEntityPtr hKeyed k Item t0 t1 G c0 hReg hGap s x h1 h2 h3 h)

theorem Run_contact_post [FFloat] (GetEntityPtr : AActor → Option FSLEntity)
    (hKeyed : RegistryKeyed GetEntityPtr) (k : AActor) (t0 : ℚ) (c0 : Nat)
    (post : List (ℚ × Call)) :
    ∀ s : USLManipulatorListener, (∀ x ∈ post, x ≠ (t0, Call.EndOverlapContact k)) →
      ContactPostInv k t0 c0 s → ContactPostInv k t0 c0 (Run GetEntityPtr s post) := by
  induction post with
  | nil => intro s _ h; exact h
  | cons x post ih =>
    intro s hx h
    exact ih (Step GetEntityPtr s x) (fun y hy => hx y (List.mem_cons_of_mem _ hy))
      (Step_contact_post GetEntityPtr hKeyed k t0 c0 s x (hx x (List.mem_cons_self _ _)) h)

theorem ContactPendingInv_empty [FFloat] (now : ℚ) (s : USLManipulatorListener) (h : IsEmptyState s) :
    ContactPendingInv now s := by
  obtain ⟨_, _, _, _, _, h6, _⟩ := h
  intro k
  simp [h6]

/-- The end of the last contact of `k` at `t0` establishes the bookkeeping of the pending
entry. -/
theorem EndOverlapContact_mid [FFloat] [SubRegular] (GetEntityPtr : AActor → Option FSLEntity) (k : AActor) (Item : FSLEntity) (t0 t1 : ℚ)
    (n : Int) (s : USLManipulatorListener) (hReg : GetEntityPtr k = some Item)
    (hCount : TMapFind s.ObjectsInContact k = some n) (hn : WrapInt32 (n - 1) < 1)
    (h01 : t0 ≤ t1)
    (hInv : ContactPendingInv t0 s) :
    ContactMidInv k Item t0 t1 s.MaxContactEventTimeGap
      (s.Log.countP (IsEndContactOf k t0))
      (Step GetEntityPtr s (t0, Call.EndOverlapContact k)) := by
  have hin : InContact s k := by simp [InContact, hCount]
  have hz : s.RecentlyEndedContactEvents.countP
      (ContactOf k t1 s.MaxContactEventTimeGap) = 0 :=
    Nat.eq_zero_of_le_zero (le_trans (ContactOf_mono k t0 t1 _ h01 _)
      (le_of_eq ((hInv k).2 hin)))
  have hG := (Step_gaps GetEntityPtr s (t0, Call.EndOverlapContact k)).2.1
  cases Step_contact_effect GetEntityPtr s (t0, Call.EndOverlapContact k) with
  | frame hK hQ L hL hE =>
    exfalso
    have hq : (Step GetEntityPtr s (t0, Call.EndOverlapContact k)).RecentlyEndedContactEvents
        = s.RecentlyEndedContactEvents ++ [⟨Item, t0⟩] := by
      simp only [Step, OnEndOverlapContact, hReg, hCount, hn, if_true]
      split <;> rfl
    rw [hQ] at hq
    have := congrArg List.length hq
    simp at this
  | beginNew a Item2 hca hr ha hK hQ L hL hE hAny => simp at hca
  | endLast a Item2 hca hr ha hK hQ hL =>
    have hak : a = k := by
      simp only [Call.EndOverlapContact.injEq] at hca
      exact hca.symm
    subst hak
    rw [hReg] at hr
    cases hr
    refine ⟨fun hx => ((hK a).mp hx).2 rfl, ?_, ?_, hL ▸ rfl, hG⟩
    · rw [hQ]
      simp
    · rw [hQ, List.countP_append, hz]
      simp only [List.countP_cons, List.countP_nil]
      split <;> simp
  | flush hcf hK hQ hL => simp at hcf
  | finish b hcf hK hQ L hE hL => simp at hcf

/-- The begin of `k` at `t1` cancels the pending entry and broadcasts nothing. -/
theorem BeginOverlapContact_cancels [FFloat] (GetEntityPtr : AActor → Option FSLEntity)
    (hKeyed : RegistryKeyed GetEntityPtr) (k : AActor) (Item : FSLEntity) (t0 t1 G : ℚ)
    (c0 : Nat) (s : USLManipulatorListener) (hReg : GetEntityPtr k = some Item)
    (hGap : FFloat.Sub t1 t0 < G) (h : ContactMidInv k Item t0 t1 G c0 s) :
    (Step GetEntityPtr s (t1, Call.BeginOverlapContact k)).Log = s.Log ∧
    ContactPostInv k t0 c0 (Step GetEntityPtr s (t1, Call.BeginOverlapContact k)) := by
  obtain ⟨hk, hmem, hcount, hlog, hG⟩ := h
  have hObj := hKeyed k Item hReg
  have hcancel : ContactCancels Item t1 s.MaxContactEventTimeGap ⟨Item, t0⟩ = true := by
    simp [ContactCancels, FSLEntity.EqualsFast, hObj, hG, hGap]
  have hany : s.RecentlyEndedContactEvents.any
      (ContactCancels Item t1 s.MaxContactEventTimeGap) = true :=
    List.any_eq_true.mpr ⟨_, hmem, hcancel⟩
  have hnone : TMapFind s.ObjectsInContact k = none := by
    by_contra hne
    exact hk hne
  have hstep : Step GetEntityPtr s (t1, Call.BeginOverlapContact k) =
      { s with
        ObjectsInContact := TMapAdd s.ObjectsInContact k 1,
        RecentlyEndedContactEvents := s.RecentlyEndedContactEvents.eraseP
          (ContactCancels Item t1 s.MaxContactEventTimeGap),
        ContactDelayTimerHandle :=
          if (s.RecentlyEndedContactEvents.eraseP
            (ContactCancels Item t1 s.MaxContactEventTimeGap)).length = 0
          then none else s.ContactDelayTimerHandle } := by
    simp [Step, OnBeginOverlapContact, hReg, hnone, SkipRecentContactEndEventBroadcast_eq,
      hany]
  rw [hstep]
  refine ⟨rfl, ?_, hlog⟩
  simp only
  rw [ContactCancels_keyed Item k _ _ hObj, hG]
  have h1 : (s.RecentlyEndedContactEvents.eraseP (ContactOf k t1 G)).countP
      (ContactOf k t1 G) = 0 := by
    rw [countP_eraseP_self]
    omega
  rw [List.countP_eq_zero] at h1 ⊢
  intro e he hent
  apply h1 e he
  simp only [IsContactEntry, Bool.and_eq_true, decide_eq_true_eq] at hent
  simp [ContactOf, hent.1, hent.2, hGap]

/-! ## C1: debounce suppression on the contact path -/

/-- C1 (counterexample): the cup is touched at time 0; its contact ends at 1.0, which drops its
count to zero, and the next begin comes in the same tick, at 1.0, within the gap of 0.12; no
`Finish` occurs.  A second end in that tick enqueues a new entry stamped 1.0, and the flush at
2.0 broadcasts an end-contact event for the cup with timestamp 1.0.  The two differences the
run computes, 1.0 - 1.0 and 2.0 - 1.0, are exact in `float` arithmetic. -/
theorem C1_counterexample :
    RegistryKeyed exampleRegistry ∧ IsEmptyState exampleListener ∧
    ClockFrom 0 exampleSameTickRun ∧
    TMapFind (Run exampleRegistry exampleListener
      [(0, Call.BeginOverlapContact 7)]).ObjectsInContact 7 = some 1 ∧
    FFloat.Sub 1 1 < exampleListener.MaxContactEventTimeGap ∧
    Broadcast.OnEndManipulatorContact exampleOwner exampleCup 1 ∈
      (Run exampleRegistry exampleListener exampleSameTickRun).Log := by
  decide!

/-- C1 (amended): let the registry be keyed by the object and the run start in the empty state
under a non-decreasing clock.  If `OnEndOverlapContact(k)` at `t0` drops the contact count of
the registered actor `k` to zero, the calls up to the next `OnBeginOverlapContact(k)` at `t1`
contain no `Finish`, and the difference `t1 - t0` that the platform computes (`FFloat.Sub`,
any subtraction that is monotone and gives zero for equal operands) is less than
`MaxContactEventTimeGap`, then the begin at `t1` broadcasts nothing, the pending entry
`(k, t0)` is in the queue before that begin and not after it, and, provided no later
`OnEndOverlapContact(k)` is made at the clock value `t0` itself, no end-contact event for `k`
with timestamp `t0` is broadcast from the end at `t0` on, whatever calls follow.  The count
drops to zero when the decremented `int32` count is below 1. -/
theorem C1_contact_debounce_suppression [FFloat] (GetEntityPtr : AActor → Option FSLEntity)
    (s : USLManipulatorListener) (pre mid post : List (ℚ × Call)) (k : AActor)
    (Item : FSLEntity) (n : Int) (t0 t1 tstart : ℚ) (hRegular : SubRegular)
    (hKeyed : RegistryKeyed GetEntityPtr) (hEmpty : IsEmptyState s)
    (hReg : GetEntityPtr k = some Item)
    (hClock : ClockFrom tstart (pre ++ (t0, Call.EndOverlapContact k) ::
      (mid ++ (t1, Call.BeginOverlapContact k) :: post)))
    (hCount : TMapFind (Run GetEntityPtr s pre).ObjectsInContact k = some n)
    (hn : WrapInt32 (n - 1) < 1)
    (hMid : ∀ x ∈ mid, x.2 ≠ Call.BeginOverlapContact k ∧ ∀ b, x.2 ≠ Call.Finish b)
    (hGap : FFloat.Sub t1 t0 < s.MaxContactEventTimeGap)
    (hPost : ∀ x ∈ post, x ≠ (t0, Call.EndOverlapContact k)) :
    (Run GetEntityPtr s (pre ++ (t0, Call.EndOverlapContact k) ::
        (mid ++ [(t1, Call.BeginOverlapContact k)]))).Log =
      (Run GetEntityPtr s (pre ++ (t0, Call.EndOverlapContact k) :: mid)).Log ∧
    (⟨Item, t0⟩ : FSLContactEndEvent) ∈
      (Run GetEntityPtr s
        (pre ++ (t0, Call.EndOverlapContact k) :: mid)).RecentlyEndedContactEvents ∧
    (⟨Item, t0⟩ : FSLContactEndEvent) ∉
      (Run GetEntityPtr s (pre ++ (t0, Call.EndOverlapContact k) ::
        (mid ++ [(t1, Call.BeginOverlapContact k)]))).RecentlyEndedContactEvents ∧
    (Run GetEntityPtr s (pre ++ (t0, Call.EndOverlapContact k) ::
        (mid ++ (t1, Call.BeginOverlapContact k) :: post))).Log.countP
          (IsEndContactOf k t0) =
      (Run GetEntityPtr s pre).Log.countP (IsEndContactOf k t0) := by
  haveI := hRegular
  obtain ⟨hcl1, _, hcl2⟩ := ClockFrom_split pre tstart _ _ hClock
  obtain ⟨_, h01, _⟩ := ClockFrom_split mid t0 _ post hcl2
  simp only at h01
  have hmidT := ClockFrom_le_of_mem mid t0 _ post hcl2
  have hpend := Run_contact_pending_before GetEntityPtr hKeyed pre s tstart _
    (ContactPendingInv_empty tstart s hEmpty) hcl1
  have hgap : (Run GetEntityPtr s pre).MaxContactEventTimeGap = s.MaxContactEventTimeGap :=
    (Run_gaps GetEntityPtr pre s).2.1
  have hE := EndOverlapContact_mid GetEntityPtr k Item t0 t1 n (Run GetEntityPtr s pre)
    hReg hCount hn h01 hpend
  rw [hgap] at hE
  have hM := Run_contact_mid GetEntityPtr hKeyed k Item t0 t1 _ _ hReg hGap mid _
    (fun x hx => ⟨hmidT x hx, hMid x hx⟩) hE
  obtain ⟨hB1, hB2⟩ := BeginOverlapContact_cancels GetEntityPtr hKeyed k Item t0 t1 _ _ _
    hReg hGap hM
  have hP := Run_contact_post GetEntityPtr hKeyed k t0 _ post _ hPost hB2
  have e1 : ∀ tail : List (ℚ × Call),
      Run GetEntityPtr s (pre ++ (t0, Call.EndOverlapContact k) :: (mid ++ tail)) =
      Run GetEntityPtr (Run GetEntityPtr (Step GetEntityPtr (Run GetEntityPtr s pre)
        (t0, Call.EndOverlapContact k)) mid) tail := by
    intro tail
    rw [Run_append, Run_cons, Run_append]
  have e2 : Run GetEntityPtr s (pre ++ (t0, Call.EndOverlapContact k) :: mid) =
      Run GetEntityPtr (Step GetEntityPtr (Run GetEntityPtr s pre)
        (t0, Call.EndOverlapContact k)) mid := by
    rw [Run_append, Run_cons]
  rw [e1, e1, e2]
  refine ⟨hB1, hM.2.1, ?_, hP.2⟩
  intro hin
  have h0 := hB2.1
  rw [List.countP_eq_zero] at h0
  apply h0 _ hin
  simp [IsContactEntry, hKeyed k Item hReg]

/-- C1 (witness): the cup is touched at 0, its contact ends at 1.0 and begins again at 1.05
while the plate is touched in between; later the contact ends at 3.0, the flush at 3.2
publishes that end and `Finish` follows.  No end-contact event for the cup with timestamp 1.0
is ever broadcast. -/
theorem C1_contact_debounce_suppression_witness :
    (Run exampleRegistry exampleListener
      ([(0, Call.BeginOverlapContact 7)] ++ (1, Call.EndOverlapContact 7) ::
        ([(51 / 50, Call.BeginOverlapContact 8),
          (26 / 25, Call.DelayedContactEndEventCallback)] ++
          (21 / 20, Call.BeginOverlapContact 7) ::
            [(3, Call.EndOverlapContact 7), (16 / 5, Call.DelayedContactEndEventCallback),
             (4, Call.Finish false)]))).Log.countP (IsEndContactOf 7 1) =
      (Run exampleRegistry exampleListener
        [(0, Call.BeginOverlapContact 7)]).Log.countP (IsEndContactOf 7 1) :=
  (C1_contact_debounce_suppression exampleRegistry exampleListener
    [(0, Call.BeginOverlapContact 7)]
    [(51 / 50, Call.BeginOverlapContact 8), (26 / 25, Call.DelayedContactEndEventCallback)]
    [(3, Call.EndOverlapContact 7), (16 / 5, Call.DelayedContactEndEventCallback),
     (4, Call.Finish false)]
    7 exampleCup 1 1 (21 / 20) 0 ExactFloat_regular
    (by decide!) (by decide!) (by decide!) (by decide!) (by decide!) (by decide!)
    (by decide!) (by decide!) (by decide!)).2.2.2

/-! ## Pause, `BeginGrasp`, end for a missing key -/

theorem filter_bne_of_not_mem (S : List AActor) (k : AActor) (h : k ∉ S) :
    S.filter (fun y => y != k) = S := by
  rw [List.filter_eq_self]
  intro a ha
  simp only [bne_iff_ne, ne_eq]
  rintro rfl
  exact h ha

theorem filter_beq_of_not_mem (S : List AActor) (k : AActor) (h : k ∉ S) :
    S.filter (fun y => y == k) = [] := by
  rw [List.filter_eq_nil_iff]
  intro a ha
  simp only [beq_iff_eq]
  rintro rfl
  exact h ha

theorem count_map_of_injective_nodup {α β : Type} [DecidableEq α] [DecidableEq β]
    (f : α → β) (hf : Function.Injective f) (l : List α) (hl : l.Nodup) (x : α)
    (hx : x ∈ l) : (l.map f).count (f x) = 1 := by
  rw [List.count_map_of_injective l f hf x]
  exact List.count_eq_one_of_mem hl hx

/-- C14: `PauseGraspDetection(true)` on an unpaused listener publishes, directly on the
end-grasp delegate, one event `(owner, X, now)` per element of `GraspedObjects` (exactly one
for every grasped `X`, the array having no duplicates), empties `GraspedObjects`, `SetA` and
`SetB` and only sets the pause flag besides: the pending queue and the timers are not used.
A call with the value the listener already has returns the state as it is. -/
theorem C14_pause_ends_all_grasps (now : ℚ) (s : USLManipulatorListener)
    (hUnpaused : s.bIsPaused = false) (hNodup : s.GraspedObjects.Nodup) :
    PauseGraspDetection now true s =
      { s with
        bIsPaused := true,
        Log := s.Log ++ s.GraspedObjects.map
          (fun X => Broadcast.OnEndManipulatorGrasp s.SemanticOwner X now),
        GraspedObjects := [], SetA := [], SetB := [] } ∧
    (∀ X ∈ s.GraspedObjects,
      ((PauseGraspDetection now true s).Log.drop s.Log.length).count
        (Broadcast.OnEndManipulatorGrasp s.SemanticOwner X now) = 1) ∧
    (∀ b ∈ (PauseGraspDetection now true s).Log.drop s.Log.length,
      ∃ X ∈ s.GraspedObjects, b = Broadcast.OnEndManipulatorGrasp s.SemanticOwner X now) ∧
    (PauseGraspDetection now true s).GraspedObjects = [] ∧
    (PauseGraspDetection now true s).SetA = [] ∧
    (PauseGraspDetection now true s).SetB = [] ∧
    (PauseGraspDetection now true s).RecentlyEndedGraspEvents = s.RecentlyEndedGraspEvents ∧
    (PauseGraspDetection now true s).GraspDelayTimerHandle = s.GraspDelayTimerHandle ∧
    (∀ (t : ℚ) (s2 : USLManipulatorListener), PauseGraspDetection t s2.bIsPaused s2 = s2) := by
  have hEq : PauseGraspDetection now true s =
      { s with
        bIsPaused := true,
        Log := s.Log ++ s.GraspedObjects.map
          (fun X => Broadcast.OnEndManipulatorGrasp s.SemanticOwner X now),
        GraspedObjects := [], SetA := [], SetB := [] } := by
    simp [PauseGraspDetection, hUnpaused]
  refine ⟨hEq, ?_, ?_, ?_, ?_, ?_, ?_, ?_, ?_⟩
  · intro X hX
    rw [hEq]
    simp only [List.drop_left]
    exact count_map_of_injective_nodup
      (fun X => Broadcast.OnEndManipulatorGrasp s.SemanticOwner X now)
      (fun a b hab => by simpa using hab) s.GraspedObjects hNodup X hX
  · intro b hb
    rw [hEq] at hb
    simp only [List.drop_left, List.mem_map] at hb
    obtain ⟨X, hX, rfl⟩ := hb
    exact ⟨X, hX, rfl⟩
  · rw [hEq]
  · rw [hEq]
  · rw [hEq]
  · rw [hEq]
  · rw [hEq]
  · intro t s2
    simp [PauseGraspDetection]

theorem C14_pause_ends_all_grasps_witness :
    exampleGrasping.bIsPaused = false ∧ exampleGrasping.GraspedObjects = [5] ∧
    (PauseGraspDetection 1 true exampleGrasping).Log =
      [Broadcast.OnBeginManipulatorGrasp exampleOwner 5 0 "Default",
       Broadcast.OnEndManipulatorGrasp exampleOwner 5 1] ∧
    (PauseGraspDetection 1 true exampleGrasping).GraspedObjects = [] :=
  ⟨by decide!, by decide!,
   by
    have h := (C14_pause_ends_all_grasps 1 exampleGrasping (by decide!) (by decide!)).1
    rw [h]
    decide!,
   (C14_pause_ends_all_grasps 1 exampleGrasping (by decide!) (by decide!)).2.2.2.1⟩

theorem GraspCancels_iff [FFloat] (X : AActor) (now G : ℚ) (Ev : FSLGraspEndEvent) :
    GraspCancels X now G Ev = true ↔ (Ev.OtherActor = X ∧ FFloat.Sub now Ev.Time < G) := by
  simp [GraspCancels]

theorem any_GraspCancels_iff [FFloat] (X : AActor) (now G : ℚ) (Q : List FSLGraspEndEvent) :
    Q.any (GraspCancels X now G) = true ↔
      ∃ Ev ∈ Q, Ev.OtherActor = X ∧ FFloat.Sub now Ev.Time < G := by
  simp [List.any_eq_true, GraspCancels_iff]

theorem mem_and_count_TArrayAddUnique (Arr : List AActor) (X : AActor) (h : Arr.Nodup) :
    X ∈ TArrayAddUnique Arr X ∧ (TArrayAddUnique Arr X).count X = 1 ∧
    (TArrayAddUnique Arr X).Nodup := by
  have hN := nodup_TArrayAddUnique Arr X h
  have hM : X ∈ TArrayAddUnique Arr X := (mem_TArrayAddUnique Arr X X).2 (Or.inr rfl)
  exact ⟨hM, List.count_eq_one_of_mem hN hM, hN⟩

/-- C15: `BeginGrasp(X)` at time `now` leaves `X` in `GraspedObjects`, once (the array has no
duplicates before and after).  It broadcasts the begin-grasp event
`(owner, X, now, ActiveGraspType)` if and only if `RecentlyEndedGraspEvents` holds no entry for
`X` with `now - Time < MaxGraspEventTimeGap`, and then leaves the queue as it is.  When such an
entry exists nothing is broadcast and the queue loses exactly the first such entry: it was
`l1 ++ Ev :: l2` with no such entry in `l1`, and becomes `l1 ++ l2`.  The difference
`now - Time` is the one the platform computes, `FFloat.Sub now Time`, whatever its rounding. -/
theorem C15_begin_grasp_concatenation [FFloat] (now : ℚ) (X : AActor) (s : USLManipulatorListener)
    (hNodup : s.GraspedObjects.Nodup) :
    X ∈ (BeginGrasp now X s).GraspedObjects ∧
    (BeginGrasp now X s).GraspedObjects.count X = 1 ∧
    (BeginGrasp now X s).GraspedObjects.Nodup ∧
    ((BeginGrasp now X s).Log = s.Log ++
        [Broadcast.OnBeginManipulatorGrasp s.SemanticOwner X now s.ActiveGraspType] ↔
      ¬ ∃ Ev ∈ s.RecentlyEndedGraspEvents,
          Ev.OtherActor = X ∧ FFloat.Sub now Ev.Time < s.MaxGraspEventTimeGap) ∧
    ((¬ ∃ Ev ∈ s.RecentlyEndedGraspEvents,
          Ev.OtherActor = X ∧ FFloat.Sub now Ev.Time < s.MaxGraspEventTimeGap) →
      (BeginGrasp now X s).RecentlyEndedGraspEvents = s.RecentlyEndedGraspEvents) ∧
    ((∃ Ev ∈ s.RecentlyEndedGraspEvents,
          Ev.OtherActor = X ∧ FFloat.Sub now Ev.Time < s.MaxGraspEventTimeGap) →
      (BeginGrasp now X s).Log = s.Log ∧
      ∃ l1 Ev l2, s.RecentlyEndedGraspEvents = l1 ++ Ev :: l2 ∧
        (∀ e ∈ l1, ¬ (e.OtherActor = X ∧ FFloat.Sub now e.Time < s.MaxGraspEventTimeGap)) ∧
        (Ev.OtherActor = X ∧ FFloat.Sub now Ev.Time < s.MaxGraspEventTimeGap) ∧
        (BeginGrasp now X s).RecentlyEndedGraspEvents = l1 ++ l2) := by
  obtain ⟨hM, hC, hN⟩ := mem_and_count_TArrayAddUnique s.GraspedObjects X hNodup
  have hEq := BeginGrasp_eq now X s
  by_cases hAny : s.RecentlyEndedGraspEvents.any (GraspCancels X now s.MaxGraspEventTimeGap)
      = true
  · have hEx := (any_GraspCancels_iff X now s.MaxGraspEventTimeGap _).1 hAny
    rw [if_pos hAny] at hEq
    have hLog : (BeginGrasp now X s).Log = s.Log := by rw [hEq]
    refine ⟨by rw [hEq]; exact hM, by rw [hEq]; exact hC, by rw [hEq]; exact hN, ?_, ?_, ?_⟩
    · rw [hLog]
      constructor
      · intro h
        have := congrArg List.length h
        simp at this
      · intro h
        exact absurd hEx h
    · intro h
      exact absurd hEx h
    · intro _
      refine ⟨hLog, ?_⟩
      obtain ⟨Ev, hEv, hc⟩ := List.any_eq_true.1 hAny
      obtain ⟨a, l1, l2, h1, h2, h3, h4⟩ := List.exists_of_eraseP hEv hc
      refine ⟨l1, a, l2, h3, ?_, (GraspCancels_iff _ _ _ _).1 h2, ?_⟩
      · intro e he hce
        exact h1 e he ((GraspCancels_iff _ _ _ _).2 hce)
      · rw [hEq]
        exact h4
  · have hNo : ¬ ∃ Ev ∈ s.RecentlyEndedGraspEvents,
        Ev.OtherActor = X ∧ FFloat.Sub now Ev.Time < s.MaxGraspEventTimeGap := by
      intro h
      exact hAny ((any_GraspCancels_iff X now s.MaxGraspEventTimeGap _).2 h)
    rw [if_neg hAny] at hEq
    refine ⟨by rw [hEq]; exact hM, by rw [hEq]; exact hC, by rw [hEq]; exact hN, ?_, ?_, ?_⟩
    · constructor
      · intro _
        exact hNo
      · intro _
        rw [hEq]
    · intro _
      rw [hEq]
    · intro h
      exact absurd h hNo

theorem C15_begin_grasp_concatenation_witness :
    examplePending.GraspedObjects.Nodup ∧
    (∃ Ev ∈ examplePending.RecentlyEndedGraspEvents,
      Ev.OtherActor = 5 ∧ FFloat.Sub (6 / 5) Ev.Time < examplePending.MaxGraspEventTimeGap) ∧
    (BeginGrasp (6 / 5) 5 examplePending).GraspedObjects.count 5 = 1 ∧
    (BeginGrasp (6 / 5) 5 examplePending).Log = examplePending.Log :=
  ⟨by decide!, ⟨⟨5, 1⟩, by decide!, by decide!, by decide!⟩,
   (C15_begin_grasp_concatenation (6 / 5) 5 examplePending (by decide!)).2.1,
   ((C15_begin_grasp_concatenation (6 / 5) 5 examplePending (by decide!)).2.2.2.2.2
      ⟨⟨5, 1⟩, by decide!, by decide!, by decide!⟩).1⟩

/-- C16: an end for a missing key changes nothing.  `OnEndOverlapContact(k)` for an actor
that has no entry in `ObjectsInContact`, or that is not a registered entity, and
`OnEndOverlapGroupAGrasp(k)` / `OnEndOverlapGroupBGrasp(k)` for an actor that is not in
`SetA` / `SetB`, return the listener state as it was: no broadcast, no pending end event, no
timer, and every set, map and queue unchanged. -/
theorem C16_end_for_missing_key [FFloat] (GetEntityPtr : AActor → Option FSLEntity) (now : ℚ)
    (k : AActor) (s : USLManipulatorListener) :
    ((∀ p ∈ s.ObjectsInContact, p.1 ≠ k) → OnEndOverlapContact GetEntityPtr now k s = s) ∧
    (GetEntityPtr k = none → OnEndOverlapContact GetEntityPtr now k s = s) ∧
    (k ∉ s.SetA → OnEndOverlapGroupAGrasp now k s = s) ∧
    (k ∉ s.SetB → OnEndOverlapGroupBGrasp now k s = s) := by
  refine ⟨?_, ?_, ?_, ?_⟩
  · intro h
    have hF := (TMapFind_eq_none s.ObjectsInContact k).2 h
    unfold OnEndOverlapContact
    cases GetEntityPtr k with
    | none => rfl
    | some OtherItem => simp only [hF]
  · intro h
    unfold OnEndOverlapContact
    simp only [h]
  · intro h
    simp [OnEndOverlapGroupAGrasp, TSetRemove, filter_bne_of_not_mem s.SetA k h,
      filter_beq_of_not_mem s.SetA k h]
  · intro h
    simp [OnEndOverlapGroupBGrasp, TSetRemove, filter_bne_of_not_mem s.SetB k h,
      filter_beq_of_not_mem s.SetB k h]

theorem C16_end_for_missing_key_witness :
    (∀ p ∈ exampleGrasping.ObjectsInContact, p.1 ≠ 7) ∧ (9 : AActor) ∉ exampleGrasping.SetA ∧
    OnEndOverlapContact exampleRegistry 1 7 exampleGrasping = exampleGrasping ∧
    OnEndOverlapGroupAGrasp 1 9 exampleGrasping = exampleGrasping :=
  ⟨by decide!, by decide!,
   (C16_end_for_missing_key exampleRegistry 1 7 exampleGrasping).1 (by decide!),
   (C16_end_for_missing_key exampleRegistry 1 9 exampleGrasping).2.2.1 (by decide!)⟩

/-! ## The sample pass: removal of stale entries -/

theorem EntryAfterPass_key (W : FSLWorldStateWriterMongoC) (E : FEngine)
    (Ent : TSLEntityPreviousPose) :
    (EntryAfterPass W E Ent).Obj = Ent.Obj ∧ (EntryAfterPass W E Ent).Entity = Ent.Entity := by
  unfold EntryAfterPass
  cases hp : E.Pose Ent.Obj with
  | none => exact ⟨rfl, rfl⟩
  | some P =>
    obtain ⟨CurrLoc, CurrQuat⟩ := P
    by_cases hch : PoseChanged W E CurrLoc CurrQuat Ent = true <;> simp [hch]

theorem EntryAfterPass_not_written (W : FSLWorldStateWriterMongoC) (E : FEngine)
    (Ent : TSLEntityPreviousPose) (h : EntryIsWritten W E Ent = false) :
    EntryAfterPass W E Ent = Ent := by
  unfold EntryIsWritten at h
  unfold EntryAfterPass
  cases hp : E.Pose Ent.Obj with
  | none => rfl
  | some P =>
    obtain ⟨CurrLoc, CurrQuat⟩ := P
    rw [hp] at h
    simp only at h
    simp [h]

theorem EntryAfterPass_follows (W : FSLWorldStateWriterMongoC) (E : FEngine)
    (Ent : TSLEntityPreviousPose) :
    PoseFollowsWritten W E Ent (EntryAfterPass W E Ent) := by
  unfold PoseFollowsWritten EntryIsWritten EntryAfterPass
  cases hp : E.Pose Ent.Obj with
  | none => simp
  | some P =>
    obtain ⟨CurrLoc, CurrQuat⟩ := P
    by_cases hch : PoseChanged W E CurrLoc CurrQuat Ent = true <;> simp [hch]

theorem map_EntryAfterPass_follows (W : FSLWorldStateWriterMongoC) (E : FEngine)
    (Entities : List TSLEntityPreviousPose) :
    List.Forall₂ (PoseFollowsWritten W E) Entities (Entities.map (EntryAfterPass W E)) := by
  rw [List.forall₂_map_right_iff, List.forall₂_same]
  intro Ent _
  exact EntryAfterPass_follows W E Ent

theorem filter_valid_written (W : FSLWorldStateWriterMongoC) (E : FEngine)
    (Entities : List TSLEntityPreviousPose) :
    (Entities.filter (EntryIsValid E)).filter (EntryIsWritten W E) =
      Entities.filter (EntryIsWritten W E) := by
  rw [List.filter_filter]
  apply List.filter_congr
  intro Ent _
  cases hw : EntryIsWritten W E Ent with
  | false => simp
  | true => simp [EntryIsWritten_valid W E Ent hw]

theorem all_valid_not_first_stale (E : FEngine) (Entities : List TSLEntityPreviousPose)
    (h : Entities.all (EntryIsValid E) = true) : FirstEntryIsStale E Entities = false := by
  cases Entities with
  | nil => rfl
  | cons x rest =>
    simp only [List.all_cons, Bool.and_eq_true] at h
    simp [FirstEntryIsStale, h.1]

theorem SamplePassResult_lazy (W : FSLWorldStateWriterMongoC) (E : FEngine)
    (Entities : List TSLEntityPreviousPose) (out_doc : List (Nat × FEntityDoc)) (idx : Nat) :
    LazyRemoval W E Entities out_doc idx (SamplePassResult W E Entities out_doc idx) := by
  refine ⟨rfl, ?_, ?_, ?_, ?_, ?_⟩
  · show ((Entities.filter (EntryIsValid E)).map (EntryAfterPass W E)).map _ = _
    rw [List.map_map]
    apply List.map_congr_left
    intro Ent _
    obtain ⟨k1, k2⟩ := EntryAfterPass_key W E Ent
    simp [k1, k2]
  · intro hNone
    show (Entities.filter (EntryIsValid E)).map (EntryAfterPass W E) = _
    conv_rhs => rw [← List.map_id (Entities.filter (EntryIsValid E))]
    apply List.map_congr_left
    intro Ent hEnt
    exact EntryAfterPass_not_written W E Ent (hNone Ent (List.mem_filter.1 hEnt).1)
  · show out_doc ++ _ = _
    rw [filter_valid_written]
  · show idx + _ = _
    rw [filter_valid_written]
  · intro Ent _ hv
    cases hw : EntryIsWritten W E Ent with
    | false => rfl
    | true => rw [EntryIsWritten_valid W E Ent hw] at hv; exact absurd hv (by simp)

/-- C12 (the code at the failing input, and in general).  `AddActorEntities` and
`AddComponentEntities` remove a stale entry with `RemoveCurrent`, which steps the iterator
back, and then read `Itr->Obj` for the call of `RemoveEntity`.  When the stale entry is the
first element of the array the iterator is at index -1 and the read fails the range check of
the array: the pass does not return, exactly in that case.  In every other case the pass
returns and the removal is as the claim says: the array is the original array without the
stale entries, the valid entries in their order with `Obj` and `Entity` as before, and the
document receives one element per written valid entry and none for a stale entry.  In the
example the array `[entry 3, resting entry, entry 4]` starts with the stale entry of object 3:
neither pass returns, nor does `Write`; with the resting entry first the pass returns and
leaves the resting entry alone. -/
theorem C12_stale_first_entry_stops_pass :
    (∀ (W : FSLWorldStateWriterMongoC) (E : FEngine) (Entities : List TSLEntityPreviousPose)
        (out_doc : List (Nat × FEntityDoc)) (idx : Nat),
      (AddActorEntities W E Entities out_doc idx = none ↔
        FirstEntryIsStale E Entities = true) ∧
      (AddComponentEntities W E Entities out_doc idx = none ↔
        FirstEntryIsStale E Entities = true) ∧
      (FirstEntryIsStale E Entities = false →
        AddActorEntities W E Entities out_doc idx =
          some (SamplePassResult W E Entities out_doc idx) ∧
        AddComponentEntities W E Entities out_doc idx =
          some (SamplePassResult W E Entities out_doc idx) ∧
        LazyRemoval W E Entities out_doc idx (SamplePassResult W E Entities out_doc idx))) ∧
    EntryIsValid exampleEngine (exampleEntry 3) = false ∧
    (CreateIterator [exampleEntry 3, exampleRestingEntry, exampleEntry 4]).RemoveCurrent =
      TIterator.mk [exampleRestingEntry, exampleEntry 4] (-1) ∧
    RemoveEntityArgument exampleEngine
      (CreateIterator [exampleEntry 3, exampleRestingEntry, exampleEntry 4]).RemoveCurrent =
        none ∧
    AddActorEntities exampleWriter exampleEngine
      [exampleEntry 3, exampleRestingEntry, exampleEntry 4] [] 0 = none ∧
    AddComponentEntities exampleWriter exampleEngine
      [exampleEntry 3, exampleRestingEntry, exampleEntry 4] [] 0 = none ∧
    (Write exampleEngine exampleGazeOps exampleAnswers 1
      [exampleEntry 3, exampleRestingEntry, exampleEntry 4] [] [] exampleNoGaze true
      exampleWriter).isNone = true ∧
    (AddActorEntities exampleWriter exampleEngine
      [exampleRestingEntry, exampleEntry 3, exampleEntry 4] [] 0).map
        (fun L => L.Itr.Container) = some [exampleRestingEntry] := by
  refine ⟨?_, by decide!, by decide!, by decide!, by decide!, by decide!, by decide!,
    by decide!⟩
  intro W E Entities out_doc idx
  have hA := AddActorEntities_eq W E Entities out_doc idx
  have hC := AddComponentEntities_eq_actor W E Entities out_doc idx
  by_cases hS : FirstEntryIsStale E Entities = true
  · rw [if_pos hS] at hA
    refine ⟨?_, ?_, ?_⟩
    · simp [hA, hS]
    · simp [hC, hA, hS]
    · intro hN
      rw [hS] at hN
      exact absurd hN (by simp)
  · rw [if_neg hS] at hA
    refine ⟨?_, ?_, ?_⟩
    · simp [hA, hS]
    · simp [hC, hA, hS]
    · intro _
      exact ⟨hA, by rw [hC, hA], SamplePassResult_lazy W E Entities out_doc idx⟩

theorem RemoveEntityCallsOf_valid (W : FSLWorldStateWriterMongoC) (E : FEngine) :
    ∀ (Entities : List TSLEntityPreviousPose) (Before : TSLEntityPreviousPose),
      ∀ c ∈ RemoveEntityCallsOf W E Before Entities, ∀ o, c = some o →
        (E.Pose o).isSome = true := by
  intro Entities
  induction Entities with
  | nil => intro Before c hc; simp [RemoveEntityCallsOf] at hc
  | cons x rest ih =>
    intro Before c hc o ho
    unfold RemoveEntityCallsOf at hc
    by_cases hv : EntryIsValid E x = true
    · rw [if_pos hv] at hc
      exact ih _ c hc o ho
    · rw [if_neg hv] at hc
      rcases List.mem_cons.1 hc with rfl | hc
      · unfold WeakGet at ho
        by_cases hb : (E.Pose Before.Obj).isSome = true
        · rw [if_pos hb] at ho
          simp only [Option.some.injEq] at ho
          rw [← ho]
          exact hb
        · rw [if_neg hb] at ho
          simp at ho
      · exact ih _ c hc o ho

theorem SamplePassResult_calls_valid (W : FSLWorldStateWriterMongoC) (E : FEngine)
    (Entities : List TSLEntityPreviousPose) (out_doc : List (Nat × FEntityDoc)) (idx : Nat) :
    ∀ c ∈ (SamplePassResult W E Entities out_doc idx).RemoveEntityCalls, ∀ o, c = some o →
      (E.Pose o).isSome = true := by
  cases Entities with
  | nil => intro c hc; simp [SamplePassResult] at hc
  | cons x rest =>
    intro c hc
    exact RemoveEntityCallsOf_valid W E rest _ c hc

/-- C13 (the code at the failing inputs, and in general).  In `AddActorEntities` and
`AddComponentEntities` the argument of `RemoveEntity` is read through the iterator after
`RemoveCurrent` has erased the stale entry and stepped back: in a pass that returns, the call
made for a stale entry receives the pointer of the array element before it, and an argument
that is an object is always an object that is still valid, never the one of the stale entry.
With only the stale entry of object 3 in the array the read is at index -1, outside the array,
and the pass stops there without calling `RemoveEntity`; with the valid entry of object 2
before it, `RemoveEntity` is called for object 2.  The skeletal pass does not reach its call:
it dereferences the stale pointer first. -/
theorem C13_remove_entity_argument_after_remove_current :
    (∀ (W : FSLWorldStateWriterMongoC) (E : FEngine) (Entities : List TSLEntityPreviousPose)
        (out_doc : List (Nat × FEntityDoc)) (idx : Nat) (L : FSampleLoop),
      (AddActorEntities W E Entities out_doc idx = some L ∨
        AddComponentEntities W E Entities out_doc idx = some L) →
      L.RemoveEntityCalls = (SamplePassResult W E Entities out_doc idx).RemoveEntityCalls ∧
      ∀ c ∈ L.RemoveEntityCalls, ∀ o, c = some o → (E.Pose o).isSome = true) ∧
    (∀ (W : FSLWorldStateWriterMongoC) (E : FEngine) (Before Ent : TSLEntityPreviousPose)
        (Rest : List TSLEntityPreviousPose), EntryIsValid E Ent = false →
      RemoveEntityCallsOf W E Before (Ent :: Rest) =
        WeakGet E Before :: RemoveEntityCallsOf W E Before Rest) ∧
    EntryIsValid exampleEngine (exampleEntry 3) = false ∧
    EntryIsValid exampleEngine (exampleEntry 2) = true ∧
    (CreateIterator [exampleEntry 3]).RemoveCurrent.Index = -1 ∧
    RemoveEntityArgument exampleEngine (CreateIterator [exampleEntry 3]).RemoveCurrent = none ∧
    AddActorEntities exampleWriter exampleEngine [exampleEntry 3] [] 0 = none ∧
    (AddActorEntities exampleWriter exampleEngine [exampleEntry 2, exampleEntry 3]
      [] 0).map (fun L => L.RemoveEntityCalls) = some [some 2] ∧
    AddComponentEntities exampleWriter exampleEngine [exampleEntry 3] [] 0 = none ∧
    (AddComponentEntities exampleWriter exampleEngine [exampleEntry 2, exampleEntry 3]
      [] 0).map (fun L => L.RemoveEntityCalls) = some [some 2] ∧
    (AddSkeletalEntities exampleWriter exampleEngine [exampleEntry 2, exampleEntry 3]
      [] 0).isNone = true := by
  refine ⟨?_, ?_, by decide!, by decide!, by decide!, by decide!, by decide!, by decide!,
    by decide!, by decide!, by decide!⟩
  · intro W E Entities out_doc idx L hL
    have hA := AddActorEntities_eq W E Entities out_doc idx
    have hC := AddComponentEntities_eq_actor W E Entities out_doc idx
    have hL' : AddActorEntities W E Entities out_doc idx = some L := by
      rcases hL with h | h
      · exact h
      · rw [← hC]
        exact h
    rw [hL'] at hA
    by_cases hS : FirstEntryIsStale E Entities = true
    · rw [if_pos hS] at hA
      exact absurd hA (by simp)
    · rw [if_neg hS] at hA
      simp only [Option.some.injEq] at hA
      rw [hA]
      exact ⟨rfl, SamplePassResult_calls_valid W E Entities out_doc idx⟩
  · intro W E Before Ent Rest hv
    simp [RemoveEntityCallsOf, hv]

/-! ## The writer: `Write`, `Connect`, `Init`, `Finish`, `CreateIndexes` -/

/-- C11: when the actor list, the scene-component list and the skeletal list are all empty,
`Write` returns at once, whatever the timestamp and the gaze data are: the writer is as it
was (no driver call, so no document inserted, and `PreviousGazeData` unchanged), the three
lists are as they were and `RemoveEntity` is not called. -/
theorem C11_empty_write_skip (E : FEngine) (G : FSLGazeDataOps) (Srv : FMongoAnswers)
    (Timestamp : ℚ) (GazeData : FSLGazeData) (bCheckAndRemoveInvalidEntities : Bool)
    (W : FSLWorldStateWriterMongoC) :
    Write E G Srv Timestamp [] [] [] GazeData bCheckAndRemoveInvalidEntities W =
      some { Writer := W, ActorEntities := [], ComponentEntities := [],
             SkeletalEntities := [], RemoveEntityCalls := [] } ∧
    (Write E G Srv Timestamp [] [] [] GazeData bCheckAndRemoveInvalidEntities W).map
      (fun r => r.Writer.Commands) = some W.Commands ∧
    (Write E G Srv Timestamp [] [] [] GazeData bCheckAndRemoveInvalidEntities W).map
      (fun r => r.Writer.PreviousGazeData) = some W.PreviousGazeData := by
  refine ⟨?_, ?_, ?_⟩ <;> simp [Write]

theorem WriteDocument_eq (E : FEngine) (G : FSLGazeDataOps) (Srv : FMongoAnswers)
    (Timestamp : ℚ) (entities : List (Nat × FEntityDoc))
    (skel_entities : Option (List (Nat × FEntityDoc))) (GazeData : FSLGazeData)
    (W : FSLWorldStateWriterMongoC) :
    WriteDocument E G Srv Timestamp entities skel_entities GazeData W =
      { W with
        PreviousGazeData :=
          if G.HasDataFast GazeData = true ∧ G.Equals W.PreviousGazeData GazeData 3 = false
          then GazeData else W.PreviousGazeData,
        Commands := W.Commands ++
          FMongoCommand.CollectionInsertOne W.collection
            { timestamp := Timestamp, entities := entities, skel_entities := skel_entities,
              gaze :=
                if G.HasDataFast GazeData = true ∧
                  G.Equals W.PreviousGazeData GazeData 3 = false
                then some (AddGazeData E GazeData) else none } ::
          (if Srv.bInsertSucceeds then [FMongoCommand.BsonDestroy]
           else [FMongoCommand.BsonDestroy, FMongoCommand.BsonDestroy]) } := by
  unfold WriteDocument FSLWorldStateWriterMongoC.Issue
  cases hH : G.HasDataFast GazeData <;> cases hE : G.Equals W.PreviousGazeData GazeData 3 <;>
    cases hI : Srv.bInsertSucceeds <;> simp

theorem Write_writer (E : FEngine) (G : FSLGazeDataOps) (Srv : FMongoAnswers) (Timestamp : ℚ)
    (ActorEntities ComponentEntities SkeletalEntities : List TSLEntityPreviousPose)
    (GazeData : FSLGazeData) (b : Bool) (W : FSLWorldStateWriterMongoC) (r : FWriteResult)
    (hWrite : Write E G Srv Timestamp ActorEntities ComponentEntities SkeletalEntities
      GazeData b W = some r) :
    (ActorEntities.length = 0 ∧ ComponentEntities.length = 0 ∧ SkeletalEntities.length = 0 ∧
      r.Writer = W) ∨
    (¬ (ActorEntities.length = 0 ∧ ComponentEntities.length = 0 ∧
        SkeletalEntities.length = 0) ∧
      ∃ entities skel_entities,
        r.Writer = WriteDocument E G Srv Timestamp entities skel_entities GazeData W) := by
  unfold Write at hWrite
  by_cases h0 : ActorEntities.length = 0 ∧ ComponentEntities.length = 0 ∧
      SkeletalEntities.length = 0
  · rw [if_pos h0] at hWrite
    left
    refine ⟨h0.1, h0.2.1, h0.2.2, ?_⟩
    simp only [Option.some.injEq] at hWrite
    rw [← hWrite]
  · rw [if_neg h0] at hWrite
    right
    refine ⟨h0, ?_⟩
    simp only at hWrite
    cases hA : AddActorEntities W E ActorEntities [] 0 with
    | none => rw [hA] at hWrite; simp at hWrite
    | some A =>
      rw [hA] at hWrite
      simp only at hWrite
      cases hC : AddComponentEntities W E ComponentEntities A.out_doc A.idx with
      | none => rw [hC] at hWrite; simp at hWrite
      | some C =>
        rw [hC] at hWrite
        simp only at hWrite
        by_cases hS : SkeletalEntities.length > 0
        · rw [if_pos hS] at hWrite
          cases hSk : AddSkeletalEntities W E SkeletalEntities [] 0 with
          | none => rw [hSk] at hWrite; simp at hWrite
          | some S =>
            rw [hSk] at hWrite
            simp only [Option.some.injEq] at hWrite
            exact ⟨_, _, by rw [← hWrite]⟩
        · rw [if_neg hS] at hWrite
          simp only [Option.some.injEq] at hWrite
          exact ⟨_, _, by rw [← hWrite]⟩

/-- C20: the gaze change filter.  A call of `Write` that returns and has a non-empty list
inserts one document, and the `gaze` sub-document is in it if and only if the gaze data is
present (`HasDataFast`) and `PreviousGazeData.Equals(GazeData, 3)` is false; when it is in the
document it is the one `AddGazeData` builds from the new data.  `PreviousGazeData` becomes the
new gaze data exactly in that case and keeps its value otherwise. -/
theorem C20_gaze_change_filter (E : FEngine) (G : FSLGazeDataOps) (Srv : FMongoAnswers)
    (Timestamp : ℚ)
    (ActorEntities ComponentEntities SkeletalEntities : List TSLEntityPreviousPose)
    (GazeData : FSLGazeData) (b : Bool) (W : FSLWorldStateWriterMongoC) (r : FWriteResult)
    (hWrite : Write E G Srv Timestamp ActorEntities ComponentEntities SkeletalEntities
      GazeData b W = some r)
    (hDoc : ¬ (ActorEntities.length = 0 ∧ ComponentEntities.length = 0 ∧
      SkeletalEntities.length = 0)) :
    ∃ Doc : FWorldStateDoc,
      r.Writer.Commands = W.Commands ++
        FMongoCommand.CollectionInsertOne W.collection Doc ::
          (if Srv.bInsertSucceeds then [FMongoCommand.BsonDestroy]
           else [FMongoCommand.BsonDestroy, FMongoCommand.BsonDestroy]) ∧
      Doc.timestamp = Timestamp ∧
      (Doc.gaze.isSome = true ↔
        (G.HasDataFast GazeData = true ∧ G.Equals W.PreviousGazeData GazeData 3 = false)) ∧
      (Doc.gaze.isSome = true → Doc.gaze = some (AddGazeData E GazeData)) ∧
      r.Writer.PreviousGazeData =
        (if Doc.gaze.isSome = true then GazeData else W.PreviousGazeData) := by
  rcases Write_writer E G Srv Timestamp ActorEntities ComponentEntities SkeletalEntities
    GazeData b W r hWrite with ⟨h1, h2, h3, _⟩ | ⟨_, entities, skel_entities, hW⟩
  · exact absurd ⟨h1, h2, h3⟩ hDoc
  · rw [WriteDocument_eq] at hW
    by_cases hc : G.HasDataFast GazeData = true ∧ G.Equals W.PreviousGazeData GazeData 3 = false
    · rw [if_pos hc, if_pos hc] at hW
      refine ⟨_, by rw [hW], rfl, ?_, ?_, ?_⟩
      · simp [hc]
      · intro _
        rfl
      · rw [hW]
        simp
    · rw [if_neg hc, if_neg hc] at hW
      refine ⟨_, by rw [hW], rfl, ?_, ?_, ?_⟩
      · simp only [Option.isSome_none, Bool.false_eq_true, false_iff]
        exact hc
      · intro h
        simp at h
      · rw [hW]
        simp

theorem C20_gaze_change_filter_witness :
    ∃ r : FWriteResult,
      Write exampleEngine exampleGazeOps exampleAnswers 1 [exampleEntry 2] [] [] exampleGaze
        true exampleWriter = some r ∧
      exampleGazeOps.HasDataFast exampleGaze = true ∧
      exampleGazeOps.Equals exampleWriter.PreviousGazeData exampleGaze 3 = false ∧
      r.Writer.PreviousGazeData = exampleGaze := by
  have hSome : (Write exampleEngine exampleGazeOps exampleAnswers 1 [exampleEntry 2] [] []
      exampleGaze true exampleWriter).isSome = true := by decide!
  obtain ⟨r, hr⟩ := Option.isSome_iff_exists.1 hSome
  have hHas : exampleGazeOps.HasDataFast exampleGaze = true := by decide!
  have hEq : exampleGazeOps.Equals exampleWriter.PreviousGazeData exampleGaze 3 = false := by
    decide!
  obtain ⟨Doc, _, _, hIff, _, hPrev⟩ := C20_gaze_change_filter exampleEngine exampleGazeOps
    exampleAnswers 1 [exampleEntry 2] [] [] exampleGaze true exampleWriter r hr (by decide)
  refine ⟨r, hr, hHas, hEq, ?_⟩
  rw [hPrev, if_pos (hIff.2 ⟨hHas, hEq⟩)]

theorem Connect_existing (Srv : FMongoAnswers) (DBName CollectionName ServerIp : String)
    (ServerPort : Nat) (bOverwrite : Bool) (W : FSLWorldStateWriterMongoC)
    (hUri : Srv.bUriValid = true) (hClient : Srv.bClientCreated = true)
    (hHas : Srv.bHasCollection = true) :
    Connect Srv DBName CollectionName ServerIp ServerPort bOverwrite W =
      if bOverwrite then
        if Srv.bDropSucceeds then
          (Srv.bPingSucceeds,
            { W with
              uri := true, client := true, database := true, collection := true,
              Commands := W.Commands ++
                ConnectPrefix DBName CollectionName ServerIp ServerPort ++
                [FMongoCommand.CollectionDrop CollectionName,
                 FMongoCommand.ClientGetCollection DBName CollectionName,
                 FMongoCommand.PingAdmin, FMongoCommand.BsonDestroy] })
        else
          (false,
            { W with
              uri := true, client := true, database := true,
              Commands := W.Commands ++
                ConnectPrefix DBName CollectionName ServerIp ServerPort ++
                [FMongoCommand.CollectionDrop CollectionName] })
      else
        (false,
          { W with
            uri := true, client := true, database := true,
            Commands := W.Commands ++
              ConnectPrefix DBName CollectionName ServerIp ServerPort }) := by
  unfold Connect ConnectCollection ConnectPrefix FSLWorldStateWriterMongoC.Issue
  cases bOverwrite <;> cases hD : Srv.bDropSucceeds <;> cases hP : Srv.bPingSucceeds <;>
    simp [hUri, hClient, hHas]

/-- C17: the collection overwrite policy.  When the target collection exists (the URI is
valid and the client was created, so that `Connect` reaches the test): with `bOverwrite` true
`Connect` issues the drop of the collection right after the test, no document having been
inserted, and when the drop succeeds it continues: it takes the collection handle, pings the
server, destroys the ping command and returns the result of the ping (it returns false when
the drop itself fails); with
`bOverwrite` false it returns false after the test, having neither dropped the collection nor
inserted a document nor taken the collection handle.  `Init` on an uninitialised writer then
leaves `bIsInit` false and both thresholds as they were. -/
theorem C17_collection_overwrite_policy (Srv : FMongoAnswers)
    (InParams : FSLWorldStateWriterParams) (W : FSLWorldStateWriterMongoC)
    (hUri : Srv.bUriValid = true) (hClient : Srv.bClientCreated = true)
    (hHas : Srv.bHasCollection = true) (hUninit : W.bIsInit = false) :
    ((Connect Srv InParams.TaskId InParams.EpisodeId InParams.ServerIp InParams.ServerPort
        true W).2.Commands =
      W.Commands ++
        ConnectPrefix InParams.TaskId InParams.EpisodeId InParams.ServerIp
          InParams.ServerPort ++
        FMongoCommand.CollectionDrop InParams.EpisodeId ::
          (if Srv.bDropSucceeds then
            [FMongoCommand.ClientGetCollection InParams.TaskId InParams.EpisodeId,
             FMongoCommand.PingAdmin, FMongoCommand.BsonDestroy]
           else [])) ∧
    ((Connect Srv InParams.TaskId InParams.EpisodeId InParams.ServerIp InParams.ServerPort
        true W).1 = (Srv.bDropSucceeds && Srv.bPingSucceeds)) ∧
    ((Connect Srv InParams.TaskId InParams.EpisodeId InParams.ServerIp InParams.ServerPort
        false W).1 = false) ∧
    ((Connect Srv InParams.TaskId InParams.EpisodeId InParams.ServerIp InParams.ServerPort
        false W).2.Commands =
      W.Commands ++
        ConnectPrefix InParams.TaskId InParams.EpisodeId InParams.ServerIp
          InParams.ServerPort) ∧
    ((Connect Srv InParams.TaskId InParams.EpisodeId InParams.ServerIp InParams.ServerPort
        false W).2.collection = W.collection) ∧
    (∀ c ∈ ConnectPrefix InParams.TaskId InParams.EpisodeId InParams.ServerIp
        InParams.ServerPort, IsCollectionDrop c = false ∧ IsInsertOne c = false) ∧
    (InParams.bOverwrite = false →
      (W.Init Srv InParams).bIsInit = false ∧
      (W.Init Srv InParams).LinDistSqMin = W.LinDistSqMin ∧
      (W.Init Srv InParams).AngDistMin = W.AngDistMin ∧
      (W.Init Srv InParams).Commands =
        W.Commands ++
          ConnectPrefix InParams.TaskId InParams.EpisodeId InParams.ServerIp
            InParams.ServerPort) ∧
    (InParams.bOverwrite = true → Srv.bDropSucceeds = true → Srv.bPingSucceeds = true →
      (W.Init Srv InParams).bIsInit = true ∧
      (W.Init Srv InParams).LinDistSqMin = InParams.LinearDistanceSquared ∧
      (W.Init Srv InParams).AngDistMin = InParams.AngularDistance) := by
  have hT := Connect_existing Srv InParams.TaskId InParams.EpisodeId InParams.ServerIp
    InParams.ServerPort true W hUri hClient hHas
  have hF := Connect_existing Srv InParams.TaskId InParams.EpisodeId InParams.ServerIp
    InParams.ServerPort false W hUri hClient hHas
  simp only [if_true] at hT
  simp only [Bool.false_eq_true, if_false] at hF
  refine ⟨?_, ?_, ?_, ?_, ?_, ?_, ?_, ?_⟩
  · rw [hT]
    cases hD : Srv.bDropSucceeds <;> simp
  · rw [hT]
    cases hD : Srv.bDropSucceeds <;> simp
  · rw [hF]
  · rw [hF]
  · rw [hF]
  · intro c hc
    simp only [ConnectPrefix, List.mem_cons, List.mem_singleton, List.not_mem_nil,
      or_false] at hc
    rcases hc with rfl | rfl | rfl | rfl | rfl | rfl <;> exact ⟨rfl, rfl⟩
  · intro hO
    unfold FSLWorldStateWriterMongoC.Init
    rw [hO, hF]
    simp [hUninit]
  · intro hO hD hP
    unfold FSLWorldStateWriterMongoC.Init
    rw [hO, hT]
    simp [hUninit, hD, hP]

theorem C17_collection_overwrite_policy_witness :
    exampleAnswers.bUriValid = true ∧ exampleAnswers.bClientCreated = true ∧
    exampleAnswers.bHasCollection = true ∧ exampleFreshWriter.bIsInit = false ∧
    exampleParams.bOverwrite = false ∧
    (exampleFreshWriter.Init exampleAnswers exampleParams).bIsInit = false ∧
    (exampleFreshWriter.Init exampleAnswers exampleParams).LinDistSqMin = 0 ∧
    (Connect exampleAnswers "task" "episode" "127.0.0.1" 27017 true exampleFreshWriter).1
      = true :=
  ⟨rfl, rfl, rfl, rfl, rfl,
   ((C17_collection_overwrite_policy exampleAnswers exampleParams exampleFreshWriter
      rfl rfl rfl rfl).2.2.2.2.2.2.1 rfl).1,
   ((C17_collection_overwrite_policy exampleAnswers exampleParams exampleFreshWriter
      rfl rfl rfl rfl).2.2.2.2.2.2.1 rfl).2.1,
   (C17_collection_overwrite_policy exampleAnswers exampleParams exampleFreshWriter
      rfl rfl rfl rfl).2.1⟩

theorem Connect_no_index (Srv : FMongoAnswers) (DBName CollectionName ServerIp : String)
    (ServerPort : Nat) (bOverwrite : Bool) (W : FSLWorldStateWriterMongoC) :
    ∃ new, (Connect Srv DBName CollectionName ServerIp ServerPort bOverwrite W).2.Commands =
        W.Commands ++ new ∧
      (∀ x ∈ new, IsCreateIndexes x = false) ∧
      (Connect Srv DBName CollectionName ServerIp ServerPort bOverwrite W).2.bIsInit =
        W.bIsInit := by
  obtain ⟨u, c, h, d, p, i, x⟩ := Srv
  refine ⟨(Connect ⟨u, c, h, d, p, i, x⟩ DBName CollectionName ServerIp ServerPort
    bOverwrite W).2.Commands.drop W.Commands.length, ?_, ?_, ?_⟩
  · unfold Connect ConnectCollection FSLWorldStateWriterMongoC.Issue
    cases u <;> cases c <;> cases h <;> cases d <;> cases p <;> cases bOverwrite <;>
      simp [List.append_assoc]
  · unfold Connect ConnectCollection FSLWorldStateWriterMongoC.Issue
    cases u <;> cases c <;> cases h <;> cases d <;> cases p <;> cases bOverwrite <;>
      simp [List.append_assoc, IsCreateIndexes]
  · unfold Connect ConnectCollection FSLWorldStateWriterMongoC.Issue
    cases u <;> cases c <;> cases h <;> cases d <;> cases p <;> cases bOverwrite <;>
      simp

theorem countP_eq_zero_of_all_false {α : Type} (p : α → Bool) (l : List α)
    (h : ∀ x ∈ l, p x = false) : l.countP p = 0 := by
  rw [List.countP_eq_zero]
  intro x hx
  simp [h x hx]

/-- The effect of one returning call on the driver calls and on the init flag. -/
theorem WriterStep_commands (W : FSLWorldStateWriterMongoC) (c : WriterCall)
    (W1 : FSLWorldStateWriterMongoC) (hStep : WriterStep W c = some W1) :
    ∃ new, W1.Commands = W.Commands ++ new ∧
      new.countP IsCreateIndexes = (if (c.IsFinish && W.bIsInit) = true then 1 else 0) ∧
      (∀ x ∈ new, IsCreateIndexes x = true → x = FMongoCommand.CreateIndexes IndexKeys) ∧
      (if W1.bIsInit = true then 1 else 0) + new.countP IsCreateIndexes =
        (if W.bIsInit = true then 1 else 0) + (if InitSucceeds W c = true then 1 else 0) := by
  cases c with
  | Init Srv InParams =>
    simp only [WriterStep, Option.some.injEq] at hStep
    subst hStep
    unfold FSLWorldStateWriterMongoC.Init
    by_cases hI : W.bIsInit = true
    · refine ⟨[], ?_, ?_, ?_, ?_⟩ <;>
        simp [hI, WriterCall.IsFinish, InitSucceeds]
    · have hI' : W.bIsInit = false := by simpa using hI
      obtain ⟨new, h1, h2, h3⟩ := Connect_no_index Srv InParams.TaskId InParams.EpisodeId
        InParams.ServerIp InParams.ServerPort InParams.bOverwrite W
      have hCount := countP_eq_zero_of_all_false IsCreateIndexes new h2
      refine ⟨new, ?_, ?_, ?_, ?_⟩
      · cases hC : (Connect Srv InParams.TaskId InParams.EpisodeId InParams.ServerIp
          InParams.ServerPort InParams.bOverwrite W).1 <;> simp [hI', h1, hC]
      · simp [hCount, WriterCall.IsFinish]
      · intro x hx hT
        rw [h2 x hx] at hT
        exact absurd hT (by simp)
      · rw [hCount]
        simp only [InitSucceeds, FSLWorldStateWriterMongoC.Init]
        cases hC : (Connect Srv InParams.TaskId InParams.EpisodeId InParams.ServerIp
          InParams.ServerPort InParams.bOverwrite W).1 <;> simp [hI', h3]
  | Write E G Srv Timestamp A C S GazeData b =>
    simp only [WriterStep, Option.map_eq_some'] at hStep
    obtain ⟨r, hr, rfl⟩ := hStep
    rcases Write_writer E G Srv Timestamp A C S GazeData b W r hr with
      ⟨_, _, _, hW⟩ | ⟨_, entities, skel_entities, hW⟩
    · refine ⟨[], ?_, ?_, ?_, ?_⟩ <;> simp [hW, WriterCall.IsFinish, InitSucceeds]
    · rw [WriteDocument_eq] at hW
      refine ⟨_, by rw [hW], ?_, ?_, ?_⟩
      · cases hI : Srv.bInsertSucceeds <;>
          simp [WriterCall.IsFinish, IsCreateIndexes, List.countP_cons]
      · intro x hx hT
        cases hI : Srv.bInsertSucceeds <;> rw [hI] at hx <;>
          simp only [Bool.false_eq_true, if_false, if_true, List.mem_cons,
            List.mem_singleton, List.not_mem_nil, or_false] at hx <;>
          rcases hx with rfl | hx <;> simp_all [IsCreateIndexes]
      · rw [hW]
        cases hI : Srv.bInsertSucceeds <;>
          simp [InitSucceeds, IsCreateIndexes, List.countP_cons]
  | Finish Srv =>
    simp only [WriterStep, Option.some.injEq] at hStep
    subst hStep
    unfold FSLWorldStateWriterMongoC.Finish CreateIndexes FSLWorldStateWriterMongoC.Issue
    by_cases hI : W.bIsInit = true
    · refine ⟨[FMongoCommand.CreateIndexes IndexKeys, FMongoCommand.BsonDestroy], ?_, ?_, ?_, ?_⟩
      · cases hX : Srv.bIndexCommandSucceeds <;> simp [hI]
      · simp [hI, WriterCall.IsFinish, IsCreateIndexes, List.countP_cons]
      · intro x hx hT
        simp only [List.mem_cons, List.mem_singleton, List.not_mem_nil, or_false] at hx
        rcases hx with rfl | rfl
        · rfl
        · simp [IsCreateIndexes] at hT
      · cases hX : Srv.bIndexCommandSucceeds <;>
          simp [hI, InitSucceeds, IsCreateIndexes, List.countP_cons]
    · have hI' : W.bIsInit = false := by simpa using hI
      refine ⟨[], ?_, ?_, ?_, ?_⟩ <;> simp [hI', WriterCall.IsFinish, InitSucceeds]

theorem WriterRun_commands (calls : List WriterCall) :
    ∀ W0 : FSLWorldStateWriterMongoC,
      (WriterRun W0 calls).Commands.countP IsCreateIndexes +
          (if (WriterRun W0 calls).bIsInit = true then 1 else 0) =
        W0.Commands.countP IsCreateIndexes + (if W0.bIsInit = true then 1 else 0) +
          SuccessfulInits W0 calls ∧
      ∀ x ∈ (WriterRun W0 calls).Commands, IsCreateIndexes x = true →
        x ∈ W0.Commands ∨ x = FMongoCommand.CreateIndexes IndexKeys := by
  induction calls with
  | nil =>
    intro W0
    exact ⟨by simp [WriterRun, SuccessfulInits], fun x hx _ => Or.inl hx⟩
  | cons c cs ih =>
    intro W0
    cases hS : WriterStep W0 c with
    | none =>
      simp only [WriterRun, SuccessfulInits, hS]
      exact ⟨by simp, fun x hx _ => Or.inl hx⟩
    | some W1 =>
      obtain ⟨new, h1, h2, h3, h4⟩ := WriterStep_commands W0 c W1 hS
      obtain ⟨i1, i2⟩ := ih W1
      simp only [WriterRun, SuccessfulInits, hS]
      refine ⟨?_, ?_⟩
      · rw [i1, h1, List.countP_append]
        omega
      · intro x hx hT
        rcases i2 x hx hT with hIn | hEq
        · rw [h1] at hIn
          rcases List.mem_append.1 hIn with hOld | hNew
          · exact Or.inl hOld
          · exact Or.inr (h3 x hNew hT)
        · exact Or.inr hEq

/-- C18: the index contract.  A returning call changes the number of `createIndexes` commands
issued so far by one when it is `Finish` on an initialised writer and by nothing otherwise (so
never when it is `Write` or `Init`, nor `Finish` on an uninitialised writer); `Finish` clears
`bIsInit`, so a second `Finish` is the identity.  Over every sequence of `Init`, `Write` and
`Finish` calls from a constructed writer the number of `createIndexes` commands is at most
the number of successful `Init` calls (it is that number, less one while the writer is
initialised), and every such command lists exactly the five single-field keys `timestamp`,
`entities.id`, `skel_entities.id`, `skel_entities.bones.name` and `gaze.entity_id`, each
with value 1. -/
theorem C18_index_contract (W0 : FSLWorldStateWriterMongoC) (calls : List WriterCall) :
    (∀ (W : FSLWorldStateWriterMongoC) (c : WriterCall) (W1 : FSLWorldStateWriterMongoC),
      WriterStep W c = some W1 →
        W1.Commands.countP IsCreateIndexes =
          W.Commands.countP IsCreateIndexes +
            (if (c.IsFinish && W.bIsInit) = true then 1 else 0)) ∧
    (∀ (Srv1 Srv2 : FMongoAnswers) (W : FSLWorldStateWriterMongoC),
      (W.Finish Srv1).bIsInit = false ∧ (W.Finish Srv1).Finish Srv2 = W.Finish Srv1) ∧
    ((WriterRun W0 calls).Commands.countP IsCreateIndexes +
        (if (WriterRun W0 calls).bIsInit = true then 1 else 0) =
      W0.Commands.countP IsCreateIndexes + (if W0.bIsInit = true then 1 else 0) +
        SuccessfulInits W0 calls) ∧
    (W0.bIsInit = false → W0.Commands = [] →
      (WriterRun W0 calls).Commands.countP IsCreateIndexes ≤ SuccessfulInits W0 calls) ∧
    (∀ x ∈ (WriterRun W0 calls).Commands, IsCreateIndexes x = true →
      x ∈ W0.Commands ∨
      x = FMongoCommand.CreateIndexes
        [[("timestamp", 1)], [("entities.id", 1)], [("skel_entities.id", 1)],
         [("skel_entities.bones.name", 1)], [("gaze.entity_id", 1)]]) := by
  obtain ⟨hRun, hKeys⟩ := WriterRun_commands calls W0
  refine ⟨?_, ?_, hRun, ?_, hKeys⟩
  · intro W c W1 hS
    obtain ⟨new, h1, h2, _, _⟩ := WriterStep_commands W c W1 hS
    rw [h1, List.countP_append, h2]
  · intro Srv1 Srv2 W
    have hF : (W.Finish Srv1).bIsInit = false := by
      unfold FSLWorldStateWriterMongoC.Finish
      by_cases hI : W.bIsInit = true
      · simp [hI]
      · simp [hI]
    refine ⟨hF, ?_⟩
    generalize W.Finish Srv1 = W2 at hF
    simp [FSLWorldStateWriterMongoC.Finish, hF]
  · intro hI hC
    rw [hI, hC] at hRun
    simp only [List.countP_nil, Bool.false_eq_true, if_false, Nat.add_zero, Nat.zero_add]
      at hRun
    omega

theorem C18_index_contract_witness :
    exampleFreshWriter.bIsInit = false ∧ exampleFreshWriter.Commands = [] ∧
    (WriterRun exampleFreshWriter
      [WriterCall.Init exampleAnswers { exampleParams with bOverwrite := true },
       WriterCall.Write exampleEngine exampleGazeOps exampleAnswers 1 [exampleEntry 2] [] []
         exampleGaze true,
       WriterCall.Finish exampleAnswers,
       WriterCall.Finish exampleAnswers]).Commands.countP IsCreateIndexes ≤
      SuccessfulInits exampleFreshWriter
        [WriterCall.Init exampleAnswers { exampleParams with bOverwrite := true },
         WriterCall.Write exampleEngine exampleGazeOps exampleAnswers 1 [exampleEntry 2] [] []
           exampleGaze true,
         WriterCall.Finish exampleAnswers,
         WriterCall.Finish exampleAnswers] :=
  ⟨rfl, rfl,
   (C18_index_contract exampleFreshWriter
      [WriterCall.Init exampleAnswers { exampleParams with bOverwrite := true },
       WriterCall.Write exampleEngine exampleGazeOps exampleAnswers 1 [exampleEntry 2] [] []
         exampleGaze true,
       WriterCall.Finish exampleAnswers,
       WriterCall.Finish exampleAnswers]).2.2.2.1 rfl rfl⟩

theorem GraspFrame_refl (s : USLManipulatorListener) : GraspFrame s s :=
  ⟨rfl, rfl, rfl, rfl, rfl, rfl, [], by simp, by simp⟩

theorem ContactFrame_refl (s : USLManipulatorListener) : ContactFrame s s :=
  ⟨rfl, rfl, rfl, rfl, rfl, [], by simp, by simp⟩

theorem OnBeginOverlapContact_graspFrame [FFloat] (GetEntityPtr : AActor → Option FSLEntity) (now : ℚ)
    (k : AActor) (s : USLManipulatorListener) :
    GraspFrame s (OnBeginOverlapContact GetEntityPtr now k s) := by
  unfold OnBeginOverlapContact
  cases hr : GetEntityPtr k with
  | none => exact GraspFrame_refl s
  | some Item =>
    cases hf : TMapFind s.ObjectsInContact k with
    | some n => exact ⟨rfl, rfl, rfl, rfl, rfl, rfl, [], by simp, by simp⟩
    | none =>
      simp only [SkipRecentContactEndEventBroadcast_eq]
      split
      · exact ⟨rfl, rfl, rfl, rfl, rfl, rfl, [], by simp, by simp⟩
      · refine ⟨rfl, rfl, rfl, rfl, rfl, rfl, _, rfl, ?_⟩
        intro e he
        simp only [List.mem_singleton] at he
        subst he
        rfl

theorem OnEndOverlapContact_graspFrame [FFloat] (GetEntityPtr : AActor → Option FSLEntity) (now : ℚ)
    (k : AActor) (s : USLManipulatorListener) :
    GraspFrame s (OnEndOverlapContact GetEntityPtr now k s) := by
  unfold OnEndOverlapContact
  cases hr : GetEntityPtr k with
  | none => exact GraspFrame_refl s
  | some Item =>
    cases hf : TMapFind s.ObjectsInContact k with
    | none => exact GraspFrame_refl s
    | some n =>
      simp only
      split
      · split <;> exact ⟨rfl, rfl, rfl, rfl, rfl, rfl, [], by simp, by simp⟩
      · exact ⟨rfl, rfl, rfl, rfl, rfl, rfl, [], by simp, by simp⟩

theorem DelayedContactEndEventCallback_graspFrame [FFloat] (now : ℚ) (s : USLManipulatorListener) :
    GraspFrame s
      (DelayedContactEndEventCallback now { s with ContactDelayTimerHandle := none }) := by
  rw [DelayedContactEndEventCallback_eq]
  refine ⟨rfl, rfl, rfl, rfl, rfl, rfl, _, rfl, ?_⟩
  intro e he
  simp only [List.mem_map] at he
  obtain ⟨Ev, _, rfl⟩ := he
  rfl

/-- Induction over one call, for a property of the grasp side: it is enough that the property
survives a frame change, a `BeginGrasp` of an object that is not grasped, an `EndGrasp` of a
grasped object, an effective pause, a flush of the grasp queue and a `Finish`. -/
theorem Step_grasp_induct [FFloat] (GetEntityPtr : AActor → Option FSLEntity)
    (P : USLManipulatorListener → Prop) (s : USLManipulatorListener) (c : ℚ × Call)
    (hP : P s)
    (hFrame : ∀ st r, P st → GraspFrame st r → P r)
    (hBegin : ∀ st Obj, P st → Obj ∉ st.GraspedObjects → P (BeginGrasp c.1 Obj st))
    (hEnd : ∀ st X, P st → X ∈ st.GraspedObjects → P (EndGrasp c.1 X st))
    (hPause : c.2 = Call.PauseGraspDetection true → s.bIsPaused = false →
      P (PauseGraspDetection c.1 true s))
    (hFlush : c.2 = Call.DelayedGraspEndEventCallback →
      P (DelayedGraspEndEventCallback c.1 { s with GraspDelayTimerHandle := none }))
    (hFinish : ∀ b, c.2 = Call.Finish b → P (Finish b s)) :
    P (Step GetEntityPtr s c) := by
  obtain ⟨t, c⟩ := c
  cases c with
  | BeginOverlapGroupAGrasp a =>
    simp only [Step, OnBeginOverlapGroupAGrasp]
    have h1 : P { s with SetA := (TSetEmplace s.SetA a).1 } :=
      hFrame s _ hP ⟨rfl, rfl, rfl, rfl, rfl, rfl, [], by simp, by simp⟩
    split
    · exact CheckGraspState_induct P t _ h1 hBegin
    · exact h1
  | BeginOverlapGroupBGrasp a =>
    simp only [Step, OnBeginOverlapGroupBGrasp]
    have h1 : P { s with SetB := (TSetEmplace s.SetB a).1 } :=
      hFrame s _ hP ⟨rfl, rfl, rfl, rfl, rfl, rfl, [], by simp, by simp⟩
    split
    · exact CheckGraspState_induct P t _ h1 hBegin
    · exact h1
  | EndOverlapGroupAGrasp a =>
    simp only [Step, OnEndOverlapGroupAGrasp]
    have h1 : P { s with SetA := (TSetRemove s.SetA a).1 } :=
      hFrame s _ hP ⟨rfl, rfl, rfl, rfl, rfl, rfl, [], by simp, by simp⟩
    split_ifs with hr hg
    · exact hEnd _ a h1 hg
    · exact h1
    · exact h1
  | EndOverlapGroupBGrasp a =>
    simp only [Step, OnEndOverlapGroupBGrasp]
    have h1 : P { s with SetB := (TSetRemove s.SetB a).1 } :=
      hFrame s _ hP ⟨rfl, rfl, rfl, rfl, rfl, rfl, [], by simp, by simp⟩
    split_ifs with hr hg
    · exact hEnd _ a h1 hg
    · exact h1
    · exact h1
  | PauseGraspDetection b =>
    cases b with
    | true =>
      by_cases hp : s.bIsPaused = false
      · exact hPause rfl hp
      · have hp' : s.bIsPaused = true := by simpa using hp
        have : Step GetEntityPtr s (t, Call.PauseGraspDetection true) = s := by
          simp [Step, PauseGraspDetection, hp']
        rw [this]
        exact hP
    | false =>
      simp only [Step, PauseGraspDetection]
      split
      · exact hFrame s _ hP ⟨rfl, rfl, rfl, rfl, rfl, rfl, [], by simp, by simp⟩
      · exact hP
  | DelayedGraspEndEventCallback => exact hFlush rfl
  | BeginOverlapContact a =>
    exact hFrame s _ hP (OnBeginOverlapContact_graspFrame GetEntityPtr t a s)
  | EndOverlapContact a =>
    exact hFrame s _ hP (OnEndOverlapContact_graspFrame GetEntityPtr t a s)
  | DelayedContactEndEventCallback =>
    exact hFrame s _ hP (DelayedContactEndEventCallback_graspFrame t s)
  | Finish b => exact hFinish b rfl

theorem ContactFrame_trans {a b c : USLManipulatorListener} (h1 : ContactFrame a b)
    (h2 : ContactFrame b c) : ContactFrame a c := by
  obtain ⟨a1, a2, a3, a4, a5, L1, a6, a7⟩ := h1
  obtain ⟨b1, b2, b3, b4, b5, L2, b6, b7⟩ := h2
  refine ⟨b1.trans a1, b2.trans a2, b3.trans a3, b4.trans a4, b5.trans a5, L1 ++ L2, ?_, ?_⟩
  · rw [b6, a6, List.append_assoc]
  · intro e he
    rcases List.mem_append.1 he with he | he
    · exact a7 e he
    · exact b7 e he

theorem BeginGrasp_contactFrame [FFloat] (now : ℚ) (X : AActor) (s : USLManipulatorListener) :
    ContactFrame s (BeginGrasp now X s) := by
  rw [BeginGrasp_eq]
  split
  · exact ⟨rfl, rfl, rfl, rfl, rfl, [], by simp, by simp⟩
  · refine ⟨rfl, rfl, rfl, rfl, rfl, _, rfl, ?_⟩
    intro e he
    simp only [List.mem_singleton] at he
    subst he
    rfl

theorem EndGrasp_contactFrame [FFloat] (now : ℚ) (X : AActor) (s : USLManipulatorListener) :
    ContactFrame s (EndGrasp now X s) := by
  rw [EndGrasp_eq]
  split
  · exact ⟨rfl, rfl, rfl, rfl, rfl, [], by simp, by simp⟩
  · exact ContactFrame_refl s

theorem CheckGraspState_contactFrame [FFloat] (now : ℚ) (s : USLManipulatorListener) :
    ContactFrame s (CheckGraspState now s) := by
  apply CheckGraspState_induct (fun r => ContactFrame s r)
  · exact ContactFrame_refl s
  · intro st Obj hst _
    exact ContactFrame_trans hst (BeginGrasp_contactFrame now Obj st)

/-- A call that is neither on the contact path nor `Finish` leaves the contact side as it
is. -/
theorem Step_contactFrame [FFloat] (GetEntityPtr : AActor → Option FSLEntity)
    (s : USLManipulatorListener) (c : ℚ × Call) (hC : c.2.IsContactCall = false)
    (hF : c.2.IsFinish = false) : ContactFrame s (Step GetEntityPtr s c) := by
  obtain ⟨t, c⟩ := c
  cases c with
  | BeginOverlapGroupAGrasp a =>
    simp only [Step, OnBeginOverlapGroupAGrasp]
    have h1 : ContactFrame s { s with SetA := (TSetEmplace s.SetA a).1 } :=
      ⟨rfl, rfl, rfl, rfl, rfl, [], by simp, by simp⟩
    split
    · exact ContactFrame_trans h1 (CheckGraspState_contactFrame t _)
    · exact h1
  | BeginOverlapGroupBGrasp a =>
    simp only [Step, OnBeginOverlapGroupBGrasp]
    have h1 : ContactFrame s { s with SetB := (TSetEmplace s.SetB a).1 } :=
      ⟨rfl, rfl, rfl, rfl, rfl, [], by simp, by simp⟩
    split
    · exact ContactFrame_trans h1 (CheckGraspState_contactFrame t _)
    · exact h1
  | EndOverlapGroupAGrasp a =>
    simp only [Step, OnEndOverlapGroupAGrasp]
    have h1 : ContactFrame s { s with SetA := (TSetRemove s.SetA a).1 } :=
      ⟨rfl, rfl, rfl, rfl, rfl, [], by simp, by simp⟩
    split_ifs
    · exact ContactFrame_trans h1 (EndGrasp_contactFrame t a _)
    · exact h1
    · exact h1
  | EndOverlapGroupBGrasp a =>
    simp only [Step, OnEndOverlapGroupBGrasp]
    have h1 : ContactFrame s { s with SetB := (TSetRemove s.SetB a).1 } :=
      ⟨rfl, rfl, rfl, rfl, rfl, [], by simp, by simp⟩
    split_ifs
    · exact ContactFrame_trans h1 (EndGrasp_contactFrame t a _)
    · exact h1
    · exact h1
  | PauseGraspDetection b =>
    simp only [Step, PauseGraspDetection]
    split_ifs
    · refine ⟨rfl, rfl, rfl, rfl, rfl, _, rfl, ?_⟩
      intro e he
      simp only [List.mem_map] at he
      obtain ⟨Obj, _, rfl⟩ := he
      rfl
    · exact ⟨rfl, rfl, rfl, rfl, rfl, [], by simp, by simp⟩
    · exact ContactFrame_refl s
  | DelayedGraspEndEventCallback =>
    simp only [Step, DelayedGraspEndEventCallback_eq]
    refine ⟨rfl, rfl, rfl, rfl, rfl, _, rfl, ?_⟩
    intro e he
    simp only [List.mem_map] at he
    obtain ⟨Ev, _, rfl⟩ := he
    rfl
  | BeginOverlapContact a => simp [Call.IsContactCall] at hC
  | EndOverlapContact a => simp [Call.IsContactCall] at hC
  | DelayedContactEndEventCallback => simp [Call.IsContactCall] at hC
  | Finish b => simp [Call.IsFinish] at hF

/-! ## Closed forms of the contact callbacks, and induction over the calls for the contact
side -/

theorem OnBeginOverlapContact_eq [FFloat] (GetEntityPtr : AActor → Option FSLEntity) (now : ℚ)
    (k : AActor) (Item : FSLEntity) (s : USLManipulatorListener)
    (hr : GetEntityPtr k = some Item) :
    OnBeginOverlapContact GetEntityPtr now k s =
      match TMapFind s.ObjectsInContact k with
      | some n => { s with ObjectsInContact := TMapSetValue s.ObjectsInContact k (WrapInt32 (n + 1)) }
      | none =>
        if s.RecentlyEndedContactEvents.any
            (ContactCancels Item now s.MaxContactEventTimeGap) then
          { s with
            ObjectsInContact := TMapAdd s.ObjectsInContact k 1,
            RecentlyEndedContactEvents := s.RecentlyEndedContactEvents.eraseP
              (ContactCancels Item now s.MaxContactEventTimeGap),
            ContactDelayTimerHandle :=
              if (s.RecentlyEndedContactEvents.eraseP
                (ContactCancels Item now s.MaxContactEventTimeGap)).length = 0
              then none else s.ContactDelayTimerHandle }
        else
          { s with
            ObjectsInContact := TMapAdd s.ObjectsInContact k 1,
            Log := s.Log ++ [Broadcast.OnBeginManipulatorContact
              (FSLContactResult.Init s.SemanticOwner Item now false)] } := by
  unfold OnBeginOverlapContact
  rw [hr]
  cases hf : TMapFind s.ObjectsInContact k with
  | some n => rfl
  | none =>
    simp only [SkipRecentContactEndEventBroadcast_eq]
    by_cases hc : s.RecentlyEndedContactEvents.any
        (ContactCancels Item now s.MaxContactEventTimeGap) = true
    · simp [hc]
    · simp [hc]

theorem OnEndOverlapContact_eq [FFloat] (GetEntityPtr : AActor → Option FSLEntity) (now : ℚ)
    (k : AActor) (Item : FSLEntity) (s : USLManipulatorListener)
    (hr : GetEntityPtr k = some Item) :
    OnEndOverlapContact GetEntityPtr now k s =
      match TMapFind s.ObjectsInContact k with
      | some n =>
        if WrapInt32 (n - 1) < 1 then
          { s with
            ObjectsInContact := TMapRemove (TMapSetValue s.ObjectsInContact k (WrapInt32 (n - 1))) k,
            RecentlyEndedContactEvents := s.RecentlyEndedContactEvents ++ [⟨Item, now⟩],
            ContactDelayTimerHandle :=
              if s.ContactDelayTimerHandle.isSome then s.ContactDelayTimerHandle
              else SetTimer now (FFloat.Mul s.MaxContactEventTimeGap (6 / 5)) }
        else { s with ObjectsInContact := TMapSetValue s.ObjectsInContact k (WrapInt32 (n - 1)) }
      | none => s := by
  unfold OnEndOverlapContact
  rw [hr]
  cases hf : TMapFind s.ObjectsInContact k with
  | none => rfl
  | some n =>
    simp only
    by_cases hn : WrapInt32 (n - 1) < 1
    · rw [if_pos hn, if_pos hn]
      cases ht : s.ContactDelayTimerHandle <;> simp [ht]
    · rw [if_neg hn, if_neg hn]

/-- Induction over one call, for a property of the contact side. -/
theorem Step_contact_induct [FFloat] (GetEntityPtr : AActor → Option FSLEntity)
    (P : USLManipulatorListener → Prop) (s : USLManipulatorListener) (c : ℚ × Call)
    (hFrame : ∀ r, ContactFrame s r → P r)
    (hBegin : ∀ a, c.2 = Call.BeginOverlapContact a →
      P (OnBeginOverlapContact GetEntityPtr c.1 a s))
    (hEnd : ∀ a, c.2 = Call.EndOverlapContact a →
      P (OnEndOverlapContact GetEntityPtr c.1 a s))
    (hFlush : c.2 = Call.DelayedContactEndEventCallback →
      P (DelayedContactEndEventCallback c.1 { s with ContactDelayTimerHandle := none }))
    (hFinish : ∀ b, c.2 = Call.Finish b → P (Finish b s)) :
    P (Step GetEntityPtr s c) := by
  by_cases hC : c.2.IsContactCall = true
  · obtain ⟨t, c⟩ := c
    cases c with
    | BeginOverlapContact a => exact hBegin a rfl
    | EndOverlapContact a => exact hEnd a rfl
    | DelayedContactEndEventCallback => exact hFlush rfl
    | _ => simp [Call.IsContactCall] at hC
  · by_cases hF : c.2.IsFinish = true
    · obtain ⟨t, c⟩ := c
      cases c with
      | Finish b => exact hFinish b rfl
      | _ => simp [Call.IsFinish] at hF
    · exact hFrame _ (Step_contactFrame GetEntityPtr s c (by simpa using hC)
        (by simpa using hF))

/-! ## The flush timers and the pending queues -/

theorem eraseP_ne_nil_of {α : Type} (p : α → Bool) (l : List α) (h : l.eraseP p ≠ []) :
    l ≠ [] := by
  rintro rfl
  simp at h

theorem Step_grasp_armed [FFloat] (GetEntityPtr : AActor → Option FSLEntity)
    (s : USLManipulatorListener) (c : ℚ × Call)
    (h : 0 < FFloat.Mul s.MaxGraspEventTimeGap (6 / 5) → GraspFlushArmed s) :
    0 < FFloat.Mul (Step GetEntityPtr s c).MaxGraspEventTimeGap (6 / 5) →
      GraspFlushArmed (Step GetEntityPtr s c) := by
  apply Step_grasp_induct GetEntityPtr
    (fun r => 0 < FFloat.Mul r.MaxGraspEventTimeGap (6 / 5) → GraspFlushArmed r) s c h
  · intro st r hst hf hr
    obtain ⟨_, h2, h3, _, h5, _⟩ := hf
    unfold GraspFlushArmed
    rw [h2, h3]
    rw [h5] at hr
    exact hst hr
  · intro st Obj hst _
    rw [BeginGrasp_eq]
    unfold GraspFlushArmed at *
    split
    · intro hr hne
      have hlen : (st.RecentlyEndedGraspEvents.eraseP
          (GraspCancels Obj c.1 st.MaxGraspEventTimeGap)).length ≠ 0 := by
        simpa using hne
      simp only [hlen, if_false]
      exact hst hr (eraseP_ne_nil_of _ _ hne)
    · exact hst
  · intro st X hst hX
    rw [EndGrasp_eq, if_pos hX]
    unfold GraspFlushArmed
    intro hr _
    have hr2 : 0 < FFloat.Mul st.MaxGraspEventTimeGap (6 / 5) := hr
    cases ht : st.GraspDelayTimerHandle <;> simp [ht, SetTimer, hr2]
  · intro _ hp hr
    have h2 := h (by simpa [PauseGraspDetection, hp] using hr)
    unfold GraspFlushArmed at *
    simpa [PauseGraspDetection, hp] using h2
  · intro _
    rw [DelayedGraspEndEventCallback_eq]
    unfold GraspFlushArmed
    intro hr hne
    have hr2 : 0 < FFloat.Mul s.MaxGraspEventTimeGap (6 / 5) := hr
    have hlen : (s.RecentlyEndedGraspEvents.filter
        (fun e => !GraspExpired c.1 s.MaxGraspEventTimeGap e)).length > 0 :=
      List.length_pos.2 hne
    simp [hlen, SetTimer, hr2]
  · intro b _
    unfold Finish GraspFlushArmed
    split
    · intro _ hne
      exact absurd rfl hne
    · exact h

theorem Step_grasp_timer_work [FFloat] (GetEntityPtr : AActor → Option FSLEntity)
    (s : USLManipulatorListener) (c : ℚ × Call) (hF : c.2.IsFinish = false)
    (h : GraspTimerHasWork s) : GraspTimerHasWork (Step GetEntityPtr s c) := by
  apply Step_grasp_induct GetEntityPtr GraspTimerHasWork s c h
  · intro st r hst hf
    obtain ⟨_, h2, h3, _⟩ := hf
    unfold GraspTimerHasWork
    rw [h2, h3]
    exact hst
  · intro st Obj hst _
    rw [BeginGrasp_eq]
    unfold GraspTimerHasWork at *
    split
    · by_cases hlen : (st.RecentlyEndedGraspEvents.eraseP
          (GraspCancels Obj c.1 st.MaxGraspEventTimeGap)).length = 0
      · simp [hlen]
      · intro _ hnil
        exact hlen (List.length_eq_zero.2 hnil)
    · exact hst
  · intro st X hst hX
    rw [EndGrasp_eq, if_pos hX]
    unfold GraspTimerHasWork
    intro _
    simp
  · intro _ hp
    unfold GraspTimerHasWork at *
    simpa [PauseGraspDetection, hp] using h
  · intro _
    rw [DelayedGraspEndEventCallback_eq]
    unfold GraspTimerHasWork
    by_cases hlen : (s.RecentlyEndedGraspEvents.filter
        (fun e => !GraspExpired c.1 s.MaxGraspEventTimeGap e)).length > 0
    · intro _
      exact List.length_pos.1 hlen
    · simp [hlen]
  · intro b hb
    rw [hb] at hF
    simp [Call.IsFinish] at hF

theorem Step_contact_armed [FFloat] (GetEntityPtr : AActor → Option FSLEntity)
    (s : USLManipulatorListener) (c : ℚ × Call)
    (h : 0 < FFloat.Mul s.MaxContactEventTimeGap (6 / 5) → ContactFlushArmed s) :
    0 < FFloat.Mul (Step GetEntityPtr s c).MaxContactEventTimeGap (6 / 5) →
      ContactFlushArmed (Step GetEntityPtr s c) := by
  apply Step_contact_induct GetEntityPtr
    (fun r => 0 < FFloat.Mul r.MaxContactEventTimeGap (6 / 5) → ContactFlushArmed r) s c
  · intro r hf hr
    obtain ⟨_, h2, h3, _, h5, _⟩ := hf
    unfold ContactFlushArmed
    rw [h2, h3]
    rw [h5] at hr
    exact h hr
  · intro a _
    cases hr : GetEntityPtr a with
    | none => simpa [OnBeginOverlapContact, hr] using h
    | some Item =>
      rw [OnBeginOverlapContact_eq GetEntityPtr c.1 a Item s hr]
      unfold ContactFlushArmed at *
      cases hf : TMapFind s.ObjectsInContact a with
      | some n => exact h
      | none =>
        simp only
        split
        · intro hrate hne
          have hlen : (s.RecentlyEndedContactEvents.eraseP
              (ContactCancels Item c.1 s.MaxContactEventTimeGap)).length ≠ 0 := by
            simpa using hne
          simp only [hlen, if_false]
          exact h hrate (eraseP_ne_nil_of _ _ hne)
        · exact h
  · intro a _
    cases hr : GetEntityPtr a with
    | none => simpa [OnEndOverlapContact, hr] using h
    | some Item =>
      rw [OnEndOverlapContact_eq GetEntityPtr c.1 a Item s hr]
      unfold ContactFlushArmed at *
      cases hf : TMapFind s.ObjectsInContact a with
      | none => exact h
      | some n =>
        simp only
        split
        · intro hrate _
          have hr2 : 0 < FFloat.Mul s.MaxContactEventTimeGap (6 / 5) := hrate
          cases ht : s.ContactDelayTimerHandle <;> simp [ht, SetTimer, hr2]
        · exact h
  · intro _
    rw [DelayedContactEndEventCallback_eq]
    unfold ContactFlushArmed
    intro hrate hne
    have hr2 : 0 < FFloat.Mul s.MaxContactEventTimeGap (6 / 5) := hrate
    have hlen : (s.RecentlyEndedContactEvents.filter
        (fun e => !ContactExpired c.1 s.MaxContactEventTimeGap e)).length > 0 :=
      List.length_pos.2 hne
    simp [hlen, SetTimer, hr2]
  · intro b _
    unfold Finish ContactFlushArmed
    split
    · intro _ hne
      exact absurd rfl hne
    · exact h

theorem Step_contact_timer_work [FFloat] (GetEntityPtr : AActor → Option FSLEntity)
    (s : USLManipulatorListener) (c : ℚ × Call) (hF : c.2.IsFinish = false)
    (h : ContactTimerHasWork s) : ContactTimerHasWork (Step GetEntityPtr s c) := by
  apply Step_contact_induct GetEntityPtr ContactTimerHasWork s c
  · intro r hf
    obtain ⟨_, h2, h3, _⟩ := hf
    unfold ContactTimerHasWork
    rw [h2, h3]
    exact h
  · intro a _
    cases hr : GetEntityPtr a with
    | none => simpa [OnBeginOverlapContact, hr] using h
    | some Item =>
      rw [OnBeginOverlapContact_eq GetEntityPtr c.1 a Item s hr]
      unfold ContactTimerHasWork at *
      cases hf : TMapFind s.ObjectsInContact a with
      | some n => exact h
      | none =>
        simp only
        split
        · by_cases hlen : (s.RecentlyEndedContactEvents.eraseP
              (ContactCancels Item c.1 s.MaxContactEventTimeGap)).length = 0
          · simp [hlen]
          · intro _ hnil
            exact hlen (List.length_eq_zero.2 hnil)
        · exact h
  · intro a _
    cases hr : GetEntityPtr a with
    | none => simpa [OnEndOverlapContact, hr] using h
    | some Item =>
      rw [OnEndOverlapContact_eq GetEntityPtr c.1 a Item s hr]
      unfold ContactTimerHasWork at *
      cases hf : TMapFind s.ObjectsInContact a with
      | none => exact h
      | some n =>
        simp only
        split
        · intro _
          simp
        · exact h
  · intro _
    rw [DelayedContactEndEventCallback_eq]
    unfold ContactTimerHasWork
    by_cases hlen : (s.RecentlyEndedContactEvents.filter
        (fun e => !ContactExpired c.1 s.MaxContactEventTimeGap e)).length > 0
    · intro _
      exact List.length_pos.1 hlen
    · simp [hlen]
  · intro b hb
    rw [hb] at hF
    simp [Call.IsFinish] at hF

theorem Run_induct [FFloat] (GetEntityPtr : AActor → Option FSLEntity)
    (P : USLManipulatorListener → Prop)
    (hStep : ∀ s c, P s → P (Step GetEntityPtr s c)) :
    ∀ (cs : List (ℚ × Call)) (s : USLManipulatorListener), P s → P (Run GetEntityPtr s cs) := by
  intro cs
  induction cs with
  | nil => intro s h; exact h
  | cons c cs ih =>
    intro s h
    rw [Run_cons]
    exact ih _ (hStep s c h)

/-- C28: every pending end event has an armed flush.  The engine arms a timer only for a
positive rate, so the statement is for listeners whose two timer rates, the products
`MaxGraspEventTimeGap * 1.2f` and `MaxContactEventTimeGap * 1.2f` as the platform computes
them, are positive.  From a state in which each non-empty pending queue has its timer pending
(in particular from a state with empty queues), after every call of a run each of the two
queues, when it is not empty, has its delay timer pending.  An end that finds the timer
pending enqueues its entry and leaves the deadline of the timer as it is; an end that finds no
timer pending calls `SetTimer` with the rate, which arms the timer at `now + rate`. -/
theorem C28_pending_end_has_armed_flush [FFloat] (GetEntityPtr : AActor → Option FSLEntity)
    (s : USLManipulatorListener) (cs : List (ℚ × Call))
    (hRateG : 0 < FFloat.Mul s.MaxGraspEventTimeGap (6 / 5))
    (hRateC : 0 < FFloat.Mul s.MaxContactEventTimeGap (6 / 5))
    (hG : GraspFlushArmed s) (hC : ContactFlushArmed s) :
    (∀ n, GraspFlushArmed (Run GetEntityPtr s (cs.take n)) ∧
      ContactFlushArmed (Run GetEntityPtr s (cs.take n))) ∧
    (∀ (st : USLManipulatorListener) (now : ℚ) (X : AActor), X ∈ st.GraspedObjects →
      (EndGrasp now X st).RecentlyEndedGraspEvents =
        st.RecentlyEndedGraspEvents ++ [⟨X, now⟩] ∧
      (∀ d, st.GraspDelayTimerHandle = some d →
        (EndGrasp now X st).GraspDelayTimerHandle = some d) ∧
      (st.GraspDelayTimerHandle = none →
        (EndGrasp now X st).GraspDelayTimerHandle =
          SetTimer now (FFloat.Mul st.MaxGraspEventTimeGap (6 / 5))) ∧
      (st.GraspDelayTimerHandle = none →
        0 < FFloat.Mul st.MaxGraspEventTimeGap (6 / 5) →
        (EndGrasp now X st).GraspDelayTimerHandle =
          some (now + FFloat.Mul st.MaxGraspEventTimeGap (6 / 5)))) ∧
    (∀ (st : USLManipulatorListener) (now : ℚ) (k : AActor) (Item : FSLEntity) (n : Int),
      GetEntityPtr k = some Item → TMapFind st.ObjectsInContact k = some n →
      WrapInt32 (n - 1) < 1 →
      (OnEndOverlapContact GetEntityPtr now k st).RecentlyEndedContactEvents =
        st.RecentlyEndedContactEvents ++ [⟨Item, now⟩] ∧
      (∀ d, st.ContactDelayTimerHandle = some d →
        (OnEndOverlapContact GetEntityPtr now k st).ContactDelayTimerHandle = some d) ∧
      (st.ContactDelayTimerHandle = none →
        (OnEndOverlapContact GetEntityPtr now k st).ContactDelayTimerHandle =
          SetTimer now (FFloat.Mul st.MaxContactEventTimeGap (6 / 5))) ∧
      (st.ContactDelayTimerHandle = none →
        0 < FFloat.Mul st.MaxContactEventTimeGap (6 / 5) →
        (OnEndOverlapContact GetEntityPtr now k st).ContactDelayTimerHandle =
          some (now + FFloat.Mul st.MaxContactEventTimeGap (6 / 5)))) := by
  refine ⟨?_, ?_, ?_⟩
  · intro n
    have h := Run_induct GetEntityPtr
      (fun r => (0 < FFloat.Mul r.MaxGraspEventTimeGap (6 / 5) → GraspFlushArmed r) ∧
        (0 < FFloat.Mul r.MaxContactEventTimeGap (6 / 5) → ContactFlushArmed r))
      (fun r c hr => ⟨Step_grasp_armed GetEntityPtr r c hr.1,
        Step_contact_armed GetEntityPtr r c hr.2⟩) (cs.take n) s ⟨fun _ => hG, fun _ => hC⟩
    have hg := Run_gaps GetEntityPtr (cs.take n) s
    refine ⟨h.1 ?_, h.2 ?_⟩
    · rw [hg.1]
      exact hRateG
    · rw [hg.2.1]
      exact hRateC
  · intro st now X hX
    rw [EndGrasp_eq, if_pos hX]
    refine ⟨rfl, ?_, ?_, ?_⟩
    · intro d hd
      simp [hd]
    · intro hd
      simp [hd]
    · intro hd hr
      simp [hd, SetTimer, hr]
  · intro st now k Item n hr hf hlt
    rw [OnEndOverlapContact_eq GetEntityPtr now k Item st hr, hf]
    refine ⟨?_, ?_, ?_, ?_⟩
    · simp [hlt]
    · intro d hd
      simp [hlt, hd]
    · intro hd
      simp [hlt, hd]
    · intro hd hrate
      simp [hlt, hd, SetTimer, hrate]

theorem C28_pending_end_has_armed_flush_witness :
    0 < FFloat.Mul exampleListener.MaxGraspEventTimeGap (6 / 5) ∧
    0 < FFloat.Mul exampleListener.MaxContactEventTimeGap (6 / 5) ∧
    GraspFlushArmed exampleListener ∧ ContactFlushArmed exampleListener ∧
    GraspFlushArmed (Run exampleRegistry exampleListener (exampleRunBeforeFinish.take 5)) ∧
    (Run exampleRegistry exampleListener
      (exampleRunBeforeFinish.take 5)).RecentlyEndedGraspEvents ≠ [] :=
  ⟨by decide!, by decide!, fun h => absurd rfl h, fun h => absurd rfl h,
   ((C28_pending_end_has_armed_flush exampleRegistry exampleListener exampleRunBeforeFinish
      (by decide!) (by decide!) (fun h => absurd rfl h) (fun h => absurd rfl h)).1 5).1,
   by decide!⟩

/-- C24 (the code at the failing input, and in general).  Every call other than `Finish`
keeps the property that a pending delay timer has a non-empty queue, whatever the rounding of
the platform arithmetic.  `Finish` does not: it
publishes and empties both queues and never clears the timers.  In the example one grasp end
event and one contact end event are pending, both timers are pending; after `Finish` at 1.2
both queues are empty and both timers are still pending, and the grasp callback that runs
at the deadline 1.6 finds an empty queue and broadcasts nothing. -/
theorem C24_finish_leaves_timers_pending :
    (∀ [FFloat] (GetEntityPtr : AActor → Option FSLEntity) (s : USLManipulatorListener)
        (c : ℚ × Call),
      c.2.IsFinish = false → GraspTimerHasWork s → ContactTimerHasWork s →
        GraspTimerHasWork (Step GetEntityPtr s c) ∧
        ContactTimerHasWork (Step GetEntityPtr s c)) ∧
    examplePending.RecentlyEndedGraspEvents = [⟨5, 1⟩] ∧
    examplePending.GraspDelayTimerHandle = some (8 / 5) ∧
    examplePending.RecentlyEndedContactEvents = [⟨exampleCup, 1⟩] ∧
    examplePending.ContactDelayTimerHandle = some (143 / 125) ∧
    (Step exampleRegistry examplePending (6 / 5, Call.Finish false)).RecentlyEndedGraspEvents
      = [] ∧
    (Step exampleRegistry examplePending (6 / 5, Call.Finish false)).GraspDelayTimerHandle
      = some (8 / 5) ∧
    (Step exampleRegistry examplePending (6 / 5, Call.Finish false)).RecentlyEndedContactEvents
      = [] ∧
    (Step exampleRegistry examplePending (6 / 5, Call.Finish false)).ContactDelayTimerHandle
      = some (143 / 125) ∧
    (Step exampleRegistry (Step exampleRegistry examplePending (6 / 5, Call.Finish false))
      (8 / 5, Call.DelayedGraspEndEventCallback)).Log =
      (Step exampleRegistry examplePending (6 / 5, Call.Finish false)).Log := by
  refine ⟨?_, by decide!, by decide!, by decide!, by decide!, by decide!, by decide!,
    by decide!, by decide!, by decide!⟩
  intro _ GetEntityPtr s c hF hG hC
  exact ⟨Step_grasp_timer_work GetEntityPtr s c hF hG,
    Step_contact_timer_work GetEntityPtr s c hF hC⟩

/-! ## The flush tick, the order of the pending queues, the delivery latency -/

/-- C25: the flush tick.  `DelayedGraspEndEventCallback` at time `T`, run by the timer on a
listener with pending queue `Q`, broadcasts in queue order one end-grasp event with the stored
actor and the stored time for exactly the entries with `T - Time > MaxGraspEventTimeGap`
(the difference as the platform computes it), leaves in the queue exactly the other entries in
their order, and sets the timer again, to `T + MaxGraspEventTimeGap * 1.2f`, if and only if the
queue is not empty afterwards; nothing else of the state changes.  The engine arms a timer
only for a positive rate, so the rate `MaxGraspEventTimeGap * 1.2f` is positive here.  (The
body itself, on any timer handle, calls `SetTimer` exactly when the queue is not empty
afterwards and does not touch the handle otherwise.) -/
theorem C25_flush_tick_postcondition [FFloat] (GetEntityPtr : AActor → Option FSLEntity) (T : ℚ)
    (s : USLManipulatorListener)
    (hRate : 0 < FFloat.Mul s.MaxGraspEventTimeGap (6 / 5)) :
    (Step GetEntityPtr s (T, Call.DelayedGraspEndEventCallback)).Log =
      s.Log ++ (s.RecentlyEndedGraspEvents.filter
        (fun Ev => decide (FFloat.Sub T Ev.Time > s.MaxGraspEventTimeGap))).map
          (fun Ev => Broadcast.OnEndManipulatorGrasp s.SemanticOwner Ev.OtherActor Ev.Time) ∧
    (Step GetEntityPtr s (T, Call.DelayedGraspEndEventCallback)).RecentlyEndedGraspEvents =
      s.RecentlyEndedGraspEvents.filter
        (fun Ev => !decide (FFloat.Sub T Ev.Time > s.MaxGraspEventTimeGap)) ∧
    (Step GetEntityPtr s (T, Call.DelayedGraspEndEventCallback)).GraspDelayTimerHandle =
      (if (Step GetEntityPtr s
          (T, Call.DelayedGraspEndEventCallback)).RecentlyEndedGraspEvents ≠ []
       then some (T + FFloat.Mul s.MaxGraspEventTimeGap (6 / 5)) else none) ∧
    Step GetEntityPtr s (T, Call.DelayedGraspEndEventCallback) =
      { s with
        Log := (Step GetEntityPtr s (T, Call.DelayedGraspEndEventCallback)).Log,
        RecentlyEndedGraspEvents :=
          (Step GetEntityPtr s (T, Call.DelayedGraspEndEventCallback)).RecentlyEndedGraspEvents,
        GraspDelayTimerHandle :=
          (Step GetEntityPtr s (T, Call.DelayedGraspEndEventCallback)).GraspDelayTimerHandle } ∧
    (DelayedGraspEndEventCallback T s).GraspDelayTimerHandle =
      (if (DelayedGraspEndEventCallback T s).RecentlyEndedGraspEvents ≠ []
       then SetTimer T (FFloat.Mul s.MaxGraspEventTimeGap (6 / 5))
       else s.GraspDelayTimerHandle) ∧
    SetTimer T (FFloat.Mul s.MaxGraspEventTimeGap (6 / 5)) =
      some (T + FFloat.Mul s.MaxGraspEventTimeGap (6 / 5)) := by
  have hS : Step GetEntityPtr s (T, Call.DelayedGraspEndEventCallback) =
      DelayedGraspEndEventCallback T { s with GraspDelayTimerHandle := none } := rfl
  rw [hS, DelayedGraspEndEventCallback_eq, DelayedGraspEndEventCallback_eq]
  refine ⟨rfl, rfl, ?_, rfl, ?_, ?_⟩
  · by_cases hl : s.RecentlyEndedGraspEvents.filter
        (fun e => !GraspExpired T s.MaxGraspEventTimeGap e) = []
    · simp [hl]
    · have hpos := List.length_pos.2 hl
      simp [hl, hpos, SetTimer, hRate]
  · by_cases hl : s.RecentlyEndedGraspEvents.filter
        (fun e => !GraspExpired T s.MaxGraspEventTimeGap e) = []
    · simp [hl]
    · have hpos := List.length_pos.2 hl
      simp [hl, hpos]
  · simp [SetTimer, hRate]

theorem C25_flush_tick_postcondition_witness :
    0 < FFloat.Mul exampleTwoPending.MaxGraspEventTimeGap (6 / 5) ∧
    (Step exampleRegistry exampleTwoPending
      (8 / 5, Call.DelayedGraspEndEventCallback)).RecentlyEndedGraspEvents =
      exampleTwoPending.RecentlyEndedGraspEvents.filter
        (fun Ev => !decide (FFloat.Sub (8 / 5) Ev.Time >
          exampleTwoPending.MaxGraspEventTimeGap)) :=
  ⟨by decide!,
   (C25_flush_tick_postcondition exampleRegistry (8 / 5) exampleTwoPending (by decide!)).2.1⟩

theorem ClockFrom_take (cs : List (ℚ × Call)) (n : Nat) (t : ℚ) (h : ClockFrom t cs) :
    ClockFrom t (cs.take n) := by
  have h2 : ClockFrom t (cs.take n ++ cs.drop n) := by
    rw [List.take_append_drop]
    exact h
  exact (ClockFrom_append (cs.take n) t (cs.drop n) h2).1

theorem QueuesTimeOrdered_of_empty (now : ℚ) (s : USLManipulatorListener)
    (h : IsEmptyState s) : QueuesTimeOrdered now s := by
  obtain ⟨_, _, _, _, h5, h6, _⟩ := h
  simp [QueuesTimeOrdered, TimeOrdered, h5, h6]

/-- C29: the pending queues stay time-ordered.  From a state whose two queues are in
non-decreasing order of `Time` and hold no entry later than the clock (in particular from an
empty state), under a non-decreasing clock, after every call of a run the entries of
`RecentlyEndedGraspEvents` are in non-decreasing order of `Time`, and so are, separately,
those of `RecentlyEndedContactEvents`; no entry is stamped later than the last call, and a
call keeps a sublist of the queue and appends at most one entry, stamped with its own time. -/
theorem C29_pending_queues_time_ordered [FFloat] (GetEntityPtr : AActor → Option FSLEntity)
    (s : USLManipulatorListener) (now : ℚ) (cs : List (ℚ × Call))
    (hOrd : QueuesTimeOrdered now s) (hClock : ClockFrom now cs) :
    (∀ n,
      ((Run GetEntityPtr s (cs.take n)).RecentlyEndedGraspEvents.map
        (fun e => e.Time)).Pairwise (fun a b => a ≤ b) ∧
      ((Run GetEntityPtr s (cs.take n)).RecentlyEndedContactEvents.map
        (fun e => e.Time)).Pairwise (fun a b => a ≤ b)) ∧
    (∃ T, now ≤ T ∧ QueuesTimeOrdered T (Run GetEntityPtr s cs)) ∧
    (∀ (st : USLManipulatorListener) (c : ℚ × Call),
      (∃ L, L.Sublist st.RecentlyEndedGraspEvents ∧
        ((Step GetEntityPtr st c).RecentlyEndedGraspEvents = L ∨
          ∃ X, (Step GetEntityPtr st c).RecentlyEndedGraspEvents = L ++ [⟨X, c.1⟩])) ∧
      (∃ L, L.Sublist st.RecentlyEndedContactEvents ∧
        ((Step GetEntityPtr st c).RecentlyEndedContactEvents = L ∨
          ∃ I, (Step GetEntityPtr st c).RecentlyEndedContactEvents = L ++ [⟨I, c.1⟩]))) := by
  refine ⟨?_, Run_queues_time_ordered GetEntityPtr cs s now hClock hOrd, ?_⟩
  · intro n
    obtain ⟨T, _, hT⟩ := Run_queues_time_ordered GetEntityPtr (cs.take n) s now
      (ClockFrom_take cs n now hClock) hOrd
    exact ⟨hT.1.1, hT.2.1⟩
  · intro st c
    exact Step_queue_shape GetEntityPtr st c

theorem C29_pending_queues_time_ordered_witness :
    QueuesTimeOrdered 0 exampleListener ∧ ClockFrom 0 exampleRunBeforeFinish ∧
    ((Run exampleRegistry exampleListener
      (exampleRunBeforeFinish.take 5)).RecentlyEndedGraspEvents.map
        (fun e => e.Time)).Pairwise (fun a b => a ≤ b) :=
  ⟨QueuesTimeOrdered_of_empty 0 exampleListener (by decide!), by decide!,
   ((C29_pending_queues_time_ordered exampleRegistry exampleListener 0 exampleRunBeforeFinish
      (QueuesTimeOrdered_of_empty 0 exampleListener (by decide!)) (by decide!)).1 5).1⟩

theorem flush_mem_queue [FFloat] (GetEntityPtr : AActor → Option FSLEntity)
    (st : USLManipulatorListener) (T : ℚ) (Ev : FSLGraspEndEvent) :
    Ev ∈ (Step GetEntityPtr st (T, Call.DelayedGraspEndEventCallback)).RecentlyEndedGraspEvents
      ↔ (Ev ∈ st.RecentlyEndedGraspEvents ∧
          FFloat.Sub T Ev.Time ≤ st.MaxGraspEventTimeGap) := by
  have hS : Step GetEntityPtr st (T, Call.DelayedGraspEndEventCallback) =
      DelayedGraspEndEventCallback T { st with GraspDelayTimerHandle := none } := rfl
  rw [hS, DelayedGraspEndEventCallback_eq]
  simp [List.mem_filter, GraspExpired]

theorem flush_mem_log [FFloat] (GetEntityPtr : AActor → Option FSLEntity)
    (st : USLManipulatorListener) (T : ℚ) (e : Broadcast) :
    e ∈ (Step GetEntityPtr st (T, Call.DelayedGraspEndEventCallback)).Log.drop st.Log.length
      ↔ ∃ Ev ∈ st.RecentlyEndedGraspEvents,
          st.MaxGraspEventTimeGap < FFloat.Sub T Ev.Time ∧
          e = Broadcast.OnEndManipulatorGrasp st.SemanticOwner Ev.OtherActor Ev.Time := by
  have hS : Step GetEntityPtr st (T, Call.DelayedGraspEndEventCallback) =
      DelayedGraspEndEventCallback T { st with GraspDelayTimerHandle := none } := rfl
  rw [hS, DelayedGraspEndEventCallback_eq]
  simp only [List.drop_left, List.mem_map, List.mem_filter, GraspExpired, decide_eq_true_eq,
    gt_iff_lt]
  constructor
  · rintro ⟨Ev, ⟨h1, h2⟩, rfl⟩
    exact ⟨Ev, h1, h2, rfl⟩
  · rintro ⟨Ev, h1, h2, rfl⟩
    exact ⟨Ev, ⟨h1, h2⟩, rfl⟩

theorem GraspDeadlineNear.laterDeadline [FFloat] {now T : ℚ} {s : USLManipulatorListener}
    (h : GraspDeadlineNear now s) (hT : now ≤ T) : GraspDeadlineNear T s := by
  intro d hd
  have := h d hd
  linarith

theorem Step_deadline_near [FFloat] (GetEntityPtr : AActor → Option FSLEntity)
    (s : USLManipulatorListener) (c : ℚ × Call) (now : ℚ) (hc : now ≤ c.1)
    (h : GraspDeadlineNear now s) : GraspDeadlineNear c.1 (Step GetEntityPtr s c) := by
  have h0 : GraspDeadlineNear c.1 s := h.laterDeadline hc
  apply Step_grasp_induct GetEntityPtr (GraspDeadlineNear c.1) s c h0
  · intro st r hst hf
    obtain ⟨_, _, h3, _, h5, _⟩ := hf
    unfold GraspDeadlineNear
    rw [h3, h5]
    exact hst
  · intro st Obj hst _
    rw [BeginGrasp_eq]
    unfold GraspDeadlineNear at *
    split
    · intro d hd
      simp only at hd
      split at hd
      · exact absurd hd (by simp)
      · exact hst d hd
    · exact hst
  · intro st X hst hX
    rw [EndGrasp_eq, if_pos hX]
    unfold GraspDeadlineNear at *
    intro d hd
    simp only at hd
    cases ht : st.GraspDelayTimerHandle with
    | none =>
      rw [ht] at hd
      simp only [Option.isSome_none, Bool.false_eq_true, if_false, SetTimer] at hd
      split at hd
      · simp only [Option.some.injEq] at hd
        rw [← hd]
      · exact absurd hd (by simp)
    | some d0 =>
      rw [ht] at hd
      simp only [Option.isSome_some, if_true, Option.some.injEq] at hd
      rw [← hd]
      exact hst d0 ht
  · intro _ hp
    unfold GraspDeadlineNear at *
    simpa [PauseGraspDetection, hp] using h0
  · intro _
    rw [DelayedGraspEndEventCallback_eq]
    unfold GraspDeadlineNear
    intro d hd
    simp only at hd
    split at hd
    · simp only [SetTimer] at hd
      split at hd
      · simp only [Option.some.injEq] at hd
        rw [← hd]
      · exact absurd hd (by simp)
    · exact absurd hd (by simp)
  · intro b _
    unfold Finish GraspDeadlineNear
    split
    · exact h0
    · exact h0

theorem Run_deadline_near [FFloat] (GetEntityPtr : AActor → Option FSLEntity)
    (cs : List (ℚ × Call)) :
    ∀ (s : USLManipulatorListener) (now : ℚ), ClockFrom now cs → GraspDeadlineNear now s →
      GraspDeadlineNear (LastClock now cs) (Run GetEntityPtr s cs) := by
  induction cs with
  | nil => intro s now _ h; exact h
  | cons c cs ih =>
    intro s now hclock h
    exact ih (Step GetEntityPtr s c) c.1 hclock.2
      (Step_deadline_near GetEntityPtr s c now hclock.1 h)

/-- C27 (the claim as stated fails).  `Finish` delivers a pending end event that is not
cancelled earlier than `G` after its timestamp: in the example the end event of object 5,
stamped 1.0, is pending with `G = 0.5`, no flush has run, and `Finish` at 1.2 broadcasts it,
0.2 after its timestamp.  No difference of times is computed in this run. -/
theorem C27_counterexample :
    0 < examplePending.MaxGraspEventTimeGap ∧
    examplePending.RecentlyEndedGraspEvents = [⟨5, 1⟩] ∧
    (Step exampleRegistry examplePending (6 / 5, Call.Finish false)).Log.drop
        examplePending.Log.length =
      [Broadcast.OnEndManipulatorGrasp examplePending.SemanticOwner 5 1,
       Broadcast.OnEndManipulatorContact examplePending.SemanticOwner exampleCup 1] ∧
    ¬ (examplePending.MaxGraspEventTimeGap ≤ 6 / 5 - 1) := by
  refine ⟨by decide!, by decide!, by decide!, by decide!⟩

/-- C27 (amended): bounded delivery latency of the flush callbacks.  Let
`G = MaxGraspEventTimeGap > 0`, let `R` be the timer rate `G * 1.2f` as the platform computes
it, and let the two differences the callbacks compute for the entry be within `ε` of the exact
differences, with `G + ε < R`.  If the flush callback run at time `T` keeps an entry (stamped
not later than `T`) pending, then the computed `T - Time` is at most `G` (so the exact
difference is at most `G + ε`), the timer is set again to `T + R`, and the flush callback the
timer runs at a time `T2` not before that deadline, in any state in which the entry is still
pending, broadcasts the end event of the entry and removes the entry, at least `R` (so more
than `G`) after the time the entry carries and at most `G + ε + R` plus the lateness
`T2 - (T + R)` of the timer after it; without rounding error and with a punctual timer that is
at most `2.2 * G`.  Every flush either broadcasts a pending entry or keeps it, and an event it
broadcasts has a computed age of more than `G`.  In a run under a non-decreasing clock from a
state without pending timer, a pending timer expires at most `R` after the last call, so the
first flush after an end is due not later than `R` after it.  (`Finish` publishes the pending
entries at once, whatever their age.) -/
theorem C27_bounded_delivery_latency [FFloat] (GetEntityPtr : AActor → Option FSLEntity)
    (s s2 : USLManipulatorListener) (T T2 ε : ℚ) (Ev : FSLGraspEndEvent)
    (hG : 0 < s.MaxGraspEventTimeGap)
    (hRate : s.MaxGraspEventTimeGap + ε < FFloat.Mul s.MaxGraspEventTimeGap (6 / 5))
    (hKept : Ev ∈ (Step GetEntityPtr s
      (T, Call.DelayedGraspEndEventCallback)).RecentlyEndedGraspEvents)
    (hTime : Ev.Time ≤ T)
    (hErrT : |FFloat.Sub T Ev.Time - (T - Ev.Time)| ≤ ε)
    (hT2 : T + FFloat.Mul s.MaxGraspEventTimeGap (6 / 5) ≤ T2)
    (hErrT2 : |FFloat.Sub T2 Ev.Time - (T2 - Ev.Time)| ≤ ε)
    (hStill : Ev ∈ s2.RecentlyEndedGraspEvents)
    (hGap : s2.MaxGraspEventTimeGap = s.MaxGraspEventTimeGap) :
    FFloat.Sub T Ev.Time ≤ s.MaxGraspEventTimeGap ∧
    T - Ev.Time ≤ s.MaxGraspEventTimeGap + ε ∧
    (Step GetEntityPtr s (T, Call.DelayedGraspEndEventCallback)).GraspDelayTimerHandle =
      some (T + FFloat.Mul s.MaxGraspEventTimeGap (6 / 5)) ∧
    Broadcast.OnEndManipulatorGrasp s2.SemanticOwner Ev.OtherActor Ev.Time ∈
      (Step GetEntityPtr s2 (T2, Call.DelayedGraspEndEventCallback)).Log.drop s2.Log.length ∧
    Ev ∉ (Step GetEntityPtr s2 (T2, Call.DelayedGraspEndEventCallback)).RecentlyEndedGraspEvents ∧
    s.MaxGraspEventTimeGap < T2 - Ev.Time ∧
    FFloat.Mul s.MaxGraspEventTimeGap (6 / 5) ≤ T2 - Ev.Time ∧
    T2 - Ev.Time ≤ s.MaxGraspEventTimeGap + ε + FFloat.Mul s.MaxGraspEventTimeGap (6 / 5) +
      (T2 - (T + FFloat.Mul s.MaxGraspEventTimeGap (6 / 5))) ∧
    (∀ (st : USLManipulatorListener) (T3 : ℚ) (e : Broadcast),
      e ∈ (Step GetEntityPtr st (T3, Call.DelayedGraspEndEventCallback)).Log.drop
          st.Log.length →
        ∃ Ev3 ∈ st.RecentlyEndedGraspEvents,
          st.MaxGraspEventTimeGap < FFloat.Sub T3 Ev3.Time ∧
          e = Broadcast.OnEndManipulatorGrasp st.SemanticOwner Ev3.OtherActor Ev3.Time) ∧
    (∀ (st : USLManipulatorListener) (T3 : ℚ) (Ev3 : FSLGraspEndEvent),
      Ev3 ∈ st.RecentlyEndedGraspEvents →
        ((st.MaxGraspEventTimeGap < FFloat.Sub T3 Ev3.Time ∧
          Broadcast.OnEndManipulatorGrasp st.SemanticOwner Ev3.OtherActor Ev3.Time ∈
            (Step GetEntityPtr st (T3, Call.DelayedGraspEndEventCallback)).Log.drop
              st.Log.length) ∨
         (FFloat.Sub T3 Ev3.Time ≤ st.MaxGraspEventTimeGap ∧
          Ev3 ∈ (Step GetEntityPtr st
            (T3, Call.DelayedGraspEndEventCallback)).RecentlyEndedGraspEvents))) ∧
    (∀ (s0 : USLManipulatorListener) (now : ℚ) (cs : List (ℚ × Call)),
      s0.GraspDelayTimerHandle = none → ClockFrom now cs →
        ∀ d, (Run GetEntityPtr s0 cs).GraspDelayTimerHandle = some d →
          d ≤ LastClock now cs +
            FFloat.Mul (Run GetEntityPtr s0 cs).MaxGraspEventTimeGap (6 / 5)) := by
  have hK := (flush_mem_queue GetEntityPtr s T Ev).1 hKept
  have hE1 := abs_le.1 hErrT
  have hE2 := abs_le.1 hErrT2
  have hε : 0 ≤ ε := le_trans (abs_nonneg _) hErrT
  have hR : 0 < FFloat.Mul s.MaxGraspEventTimeGap (6 / 5) := by linarith
  have hLat1 : s.MaxGraspEventTimeGap < FFloat.Sub T2 Ev.Time := by linarith [hE2.1]
  refine ⟨hK.2, by linarith [hK.2, hE1.1], ?_, ?_, ?_, by linarith, by linarith,
    by linarith [hK.2, hE1.1], ?_, ?_, ?_⟩
  · have hS : Step GetEntityPtr s (T, Call.DelayedGraspEndEventCallback) =
        DelayedGraspEndEventCallback T { s with GraspDelayTimerHandle := none } := rfl
    have hne : (Step GetEntityPtr s
        (T, Call.DelayedGraspEndEventCallback)).RecentlyEndedGraspEvents ≠ [] :=
      List.ne_nil_of_mem hKept
    rw [hS, DelayedGraspEndEventCallback_eq] at hne ⊢
    have hpos := List.length_pos.2 hne
    simp only at hpos
    simp [hpos, SetTimer, hR]
  · rw [flush_mem_log]
    exact ⟨Ev, hStill, by rw [hGap]; exact hLat1, rfl⟩
  · rw [flush_mem_queue]
    rintro ⟨_, h2⟩
    rw [hGap] at h2
    linarith
  · intro st T3 e he
    exact (flush_mem_log GetEntityPtr st T3 e).1 he
  · intro st T3 Ev3 hEv3
    by_cases hlt : st.MaxGraspEventTimeGap < FFloat.Sub T3 Ev3.Time
    · exact Or.inl ⟨hlt, (flush_mem_log GetEntityPtr st T3 _).2 ⟨Ev3, hEv3, hlt, rfl⟩⟩
    · exact Or.inr ⟨not_lt.1 hlt, (flush_mem_queue GetEntityPtr st T3 Ev3).2
        ⟨hEv3, not_lt.1 hlt⟩⟩
  · intro s0 now cs h0 hclock d hd
    have hN : GraspDeadlineNear now s0 := by
      intro d0 hd0
      rw [h0] at hd0
      exact absurd hd0 (by simp)
    exact Run_deadline_near GetEntityPtr cs s0 now hclock hN d hd

theorem C27_bounded_delivery_latency_witness :
    0 < exampleTwoPending.MaxGraspEventTimeGap ∧
    exampleTwoPending.MaxGraspEventTimeGap + 0 <
      FFloat.Mul exampleTwoPending.MaxGraspEventTimeGap (6 / 5) ∧
    exampleTwoPending.GraspDelayTimerHandle = some (8 / 5) ∧
    (⟨6, 13 / 10⟩ : FSLGraspEndEvent) ∈
      (Step exampleRegistry exampleTwoPending
        (8 / 5, Call.DelayedGraspEndEventCallback)).RecentlyEndedGraspEvents ∧
    Broadcast.OnEndManipulatorGrasp
        (Step exampleRegistry exampleTwoPending
          (8 / 5, Call.DelayedGraspEndEventCallback)).SemanticOwner 6 (13 / 10) ∈
      (Step exampleRegistry
        (Step exampleRegistry exampleTwoPending (8 / 5, Call.DelayedGraspEndEventCallback))
        (11 / 5, Call.DelayedGraspEndEventCallback)).Log.drop
        (Step exampleRegistry exampleTwoPending
          (8 / 5, Call.DelayedGraspEndEventCallback)).Log.length :=
  ⟨by decide!, by decide!, by decide!, by decide!,
   (C27_bounded_delivery_latency exampleRegistry exampleTwoPending
      (Step exampleRegistry exampleTwoPending (8 / 5, Call.DelayedGraspEndEventCallback))
      (8 / 5) (11 / 5) 0 ⟨6, 13 / 10⟩ (by decide!) (by decide!) (by decide!) (by decide!)
      (by decide!) (by decide!) (by decide!) (by decide!) (by decide!)).2.2.2.1⟩

/-! ## The skeletal pass; `LoadOverlapGroups` and `Init` -/

theorem AddSkeletalEntitiesLoop_at (W : FSLWorldStateWriterMongoC) (E : FEngine) :
    ∀ (rest done : List TSLEntityPreviousPose) (fuel : Nat) (out : List (Nat × FEntityDoc))
      (idx : Nat) (calls : List (Option Nat)), rest.length ≤ fuel →
      AddSkeletalEntitiesLoop W E fuel
          { Itr := TIterator.mk (done ++ rest) (done.length : Int), out_doc := out, idx := idx,
            RemoveEntityCalls := calls } =
        if rest.all (EntryIsValid E) then
          some
            { Itr := TIterator.mk (done ++ rest.map (EntryAfterPass W E))
                ((done ++ rest.map (EntryAfterPass W E)).length : Int),
              out_doc := out ++
                ((rest.filter (EntryIsWritten W E)).filterMap (SkeletalEntryDoc E)).enumFrom idx,
              idx := idx + (rest.filter (EntryIsWritten W E)).length,
              RemoveEntityCalls := calls }
        else none := by
  intro rest
  induction rest with
  | nil =>
    intro done fuel out idx calls _
    cases fuel <;> simp [AddSkeletalEntitiesLoop, TIterator.get_end]
  | cons x rest ih =>
    intro done fuel out idx calls hf
    cases fuel with
    | zero => simp at hf
    | succ fuel =>
      have hf' : rest.length ≤ fuel := by simpa using hf
      simp only [AddSkeletalEntitiesLoop, TIterator.get_at]
      cases hp : E.Pose x.Obj with
      | none => simp [EntryIsValid, hp]
      | some P =>
        obtain ⟨CurrLoc, CurrQuat⟩ := P
        simp only [Option.isSome_some, if_true]
        by_cases hch : PoseChanged W E CurrLoc CurrQuat x = true
        · rw [if_pos hch, TIterator.set_next_at]
          have h := ih (done ++ [{ x with PrevLoc := CurrLoc, PrevQuat := CurrQuat }])
            fuel (out ++ [(idx, FEntityDoc.mk x.Entity.Id (E.UToROSVector CurrLoc)
              (E.UToROSQuat CurrQuat)
              ((E.SkeletalMeshParent x.Obj).map (AddSkeletalBones E)))]) (idx + 1) calls hf'
          rw [h]
          by_cases hall : rest.all (EntryIsValid E) = true
          · simp [EntryIsValid, EntryIsWritten, EntryAfterPass, SkeletalEntryDoc, hp, hch,
              hall, List.enumFrom_cons, Nat.add_assoc, Nat.add_comm 1]
          · simp only [hall, Bool.false_eq_true, if_false]
            have : ¬ ((x :: rest).all (EntryIsValid E) = true) := by
              simp only [List.all_cons, Bool.and_eq_true, not_and]
              intro _
              exact hall
            simp [this]
        · rw [if_neg hch, TIterator.next_at]
          have h := ih (done ++ [x]) fuel out idx calls hf'
          rw [h]
          by_cases hall : rest.all (EntryIsValid E) = true
          · simp [EntryIsValid, EntryIsWritten, EntryAfterPass, hp, hch, hall]
          · simp only [hall, Bool.false_eq_true, if_false]
            have : ¬ ((x :: rest).all (EntryIsValid E) = true) := by
              simp only [List.all_cons, Bool.and_eq_true, not_and]
              intro _
              exact hall
            simp [this]

theorem AddSkeletalEntities_eq (W : FSLWorldStateWriterMongoC) (E : FEngine)
    (SkeletalEntities : List TSLEntityPreviousPose) (out_doc : List (Nat × FEntityDoc))
    (idx : Nat) :
    AddSkeletalEntities W E SkeletalEntities out_doc idx =
      if SkeletalEntities.all (EntryIsValid E) then
        some
          { Itr := TIterator.mk (SkeletalEntities.map (EntryAfterPass W E))
              ((SkeletalEntities.map (EntryAfterPass W E)).length : Int),
            out_doc := out_doc ++
              ((SkeletalEntities.filter (EntryIsWritten W E)).filterMap
                (SkeletalEntryDoc E)).enumFrom idx,
            idx := idx + (SkeletalEntities.filter (EntryIsWritten W E)).length,
            RemoveEntityCalls := [] }
      else none := by
  have h := AddSkeletalEntitiesLoop_at W E SkeletalEntities [] SkeletalEntities.length
    out_doc idx [] (le_refl _)
  simp only [List.nil_append, List.length_nil, Nat.cast_zero] at h
  unfold AddSkeletalEntities CreateIterator
  exact h

/-- C22 (the code at the failing input, and in general).  The skeletal pass reads the
location and the orientation through the weak pointer of every entry before it tests the
pointer: the pass does not return (null dereference) exactly when the array holds a stale
entry, and when it returns it has removed no entry and has not called `RemoveEntity`, so its
branch for stale entries is never taken.  With the stale entry of object 3 in the skeletal
array the pass and `Write` do not return, while the actor pass on the array of the entries of
objects 1 and 3 removes the stale entry and returns. -/
theorem C22_skeletal_pose_read_before_validity_test :
    (∀ (W : FSLWorldStateWriterMongoC) (E : FEngine)
        (SkeletalEntities : List TSLEntityPreviousPose) (out_doc : List (Nat × FEntityDoc))
        (idx : Nat),
      ((AddSkeletalEntities W E SkeletalEntities out_doc idx).isNone = true ↔
        ∃ Ent ∈ SkeletalEntities, EntryIsValid E Ent = false) ∧
      ∀ r, AddSkeletalEntities W E SkeletalEntities out_doc idx = some r →
        r.RemoveEntityCalls = [] ∧
        r.Itr.Container = SkeletalEntities.map (EntryAfterPass W E)) ∧
    EntryIsValid exampleEngine (exampleEntry 3) = false ∧
    (AddSkeletalEntities exampleWriter exampleEngine [exampleEntry 3] [] 0).isNone = true ∧
    (AddSkeletalEntities exampleWriter exampleEngine [exampleEntry 1, exampleEntry 3]
      [] 0).isNone = true ∧
    (AddActorEntities exampleWriter exampleEngine [exampleEntry 1, exampleEntry 3] [] 0).map
        (fun L => L.Itr.Container.map (fun Ent => Ent.Obj)) = some [1] ∧
    (Write exampleEngine exampleGazeOps exampleAnswers 1 [] [] [exampleEntry 3] exampleNoGaze
      true exampleWriter).isNone = true := by
  refine ⟨?_, by decide!, by decide!, by decide!, by decide!, by decide!⟩
  intro W E SkeletalEntities out_doc idx
  have h := AddSkeletalEntities_eq W E SkeletalEntities out_doc idx
  by_cases hall : SkeletalEntities.all (EntryIsValid E) = true
  · rw [if_pos hall] at h
    refine ⟨?_, ?_⟩
    · rw [h]
      simp only [Option.isNone_some, Bool.false_eq_true, false_iff, not_exists, not_and]
      intro Ent hEnt
      have := List.all_eq_true.1 hall Ent hEnt
      simp [this]
    · intro r hr
      rw [h] at hr
      simp only [Option.some.injEq] at hr
      rw [← hr]
      exact ⟨rfl, rfl⟩
  · rw [if_neg hall] at h
    refine ⟨?_, ?_⟩
    · rw [h]
      simp only [Option.isNone_none, true_iff]
      rw [List.all_eq_true] at hall
      push_neg at hall
      obtain ⟨Ent, hEnt, hv⟩ := hall
      exact ⟨Ent, hEnt, by simpa using hv⟩
    · intro r hr
      rw [h] at hr
      exact absurd hr (by simp)

/-- C10: the previous pose follows the written pose, in each of the three passes and in
`Write`.  A pass of `AddActorEntities` or `AddComponentEntities` over an array whose first
entry is not stale, and a pass of `AddSkeletalEntities` over an array without stale entries,
returns (these are the passes that return), and then every valid tracked entity is in the
array afterwards, in order, with `Obj` and `Entity` unchanged, its previous pose being the
current pose when the entity was appended to the document and its old value when it was not;
the document receives exactly the entities for which the test of the pass is true.  `Write`
on three such arrays returns and leaves the three arrays in that relation to the arrays it
was given. -/
theorem C10_previous_pose_follows_written (W : FSLWorldStateWriterMongoC) (E : FEngine)
    (G : FSLGazeDataOps) (Srv : FMongoAnswers) (Timestamp : ℚ) (GazeData : FSLGazeData)
    (bCheckAndRemoveInvalidEntities : Bool)
    (ActorEntities ComponentEntities SkeletalEntities : List TSLEntityPreviousPose)
    (out_doc : List (Nat × FEntityDoc)) (idx : Nat)
    (hActors : FirstEntryIsStale E ActorEntities = false)
    (hComponents : FirstEntryIsStale E ComponentEntities = false)
    (hSkeletals : SkeletalEntities.all (EntryIsValid E) = true) :
    (∃ A, AddActorEntities W E ActorEntities out_doc idx = some A ∧
      List.Forall₂ (PoseFollowsWritten W E) (ActorEntities.filter (EntryIsValid E))
        A.Itr.Container ∧
      A.out_doc = out_doc ++
        ((ActorEntities.filter (EntryIsWritten W E)).filterMap (EntryDoc E)).enumFrom idx) ∧
    (∃ C, AddComponentEntities W E ComponentEntities out_doc idx = some C ∧
      List.Forall₂ (PoseFollowsWritten W E) (ComponentEntities.filter (EntryIsValid E))
        C.Itr.Container ∧
      C.out_doc = out_doc ++
        ((ComponentEntities.filter (EntryIsWritten W E)).filterMap
          (EntryDoc E)).enumFrom idx) ∧
    (∃ S, AddSkeletalEntities W E SkeletalEntities out_doc idx = some S ∧
      List.Forall₂ (PoseFollowsWritten W E) SkeletalEntities S.Itr.Container ∧
      S.out_doc = out_doc ++
        ((SkeletalEntities.filter (EntryIsWritten W E)).filterMap
          (SkeletalEntryDoc E)).enumFrom idx) ∧
    (∃ r, Write E G Srv Timestamp ActorEntities ComponentEntities SkeletalEntities GazeData
        bCheckAndRemoveInvalidEntities W = some r ∧
      List.Forall₂ (PoseFollowsWritten W E) (ActorEntities.filter (EntryIsValid E))
        r.ActorEntities ∧
      List.Forall₂ (PoseFollowsWritten W E) (ComponentEntities.filter (EntryIsValid E))
        r.ComponentEntities ∧
      List.Forall₂ (PoseFollowsWritten W E) SkeletalEntities r.SkeletalEntities) := by
  have hA : ∀ o i, AddActorEntities W E ActorEntities o i =
      some (SamplePassResult W E ActorEntities o i) := by
    intro o i
    rw [AddActorEntities_eq, hActors]
    simp
  have hC : ∀ o i, AddComponentEntities W E ComponentEntities o i =
      some (SamplePassResult W E ComponentEntities o i) := by
    intro o i
    rw [AddComponentEntities_eq_actor, AddActorEntities_eq, hComponents]
    simp
  have hS : ∀ o i, AddSkeletalEntities W E SkeletalEntities o i =
      some
        { Itr := TIterator.mk (SkeletalEntities.map (EntryAfterPass W E))
            ((SkeletalEntities.map (EntryAfterPass W E)).length : Int),
          out_doc := o ++
            ((SkeletalEntities.filter (EntryIsWritten W E)).filterMap
              (SkeletalEntryDoc E)).enumFrom i,
          idx := i + (SkeletalEntities.filter (EntryIsWritten W E)).length,
          RemoveEntityCalls := [] } := by
    intro o i
    rw [AddSkeletalEntities_eq, if_pos hSkeletals]
  refine ⟨⟨_, hA out_doc idx, ?_, rfl⟩, ⟨_, hC out_doc idx, ?_, rfl⟩,
    ⟨_, hS out_doc idx, ?_, rfl⟩, ?_⟩
  · exact map_EntryAfterPass_follows W E _
  · exact map_EntryAfterPass_follows W E _
  · exact map_EntryAfterPass_follows W E _
  · unfold Write
    by_cases h0 : ActorEntities.length = 0 ∧ ComponentEntities.length = 0 ∧
        SkeletalEntities.length = 0
    · rw [if_pos h0]
      obtain ⟨h1, h2, h3⟩ := h0
      rw [List.length_eq_zero] at h1 h2 h3
      subst h1 h2 h3
      exact ⟨_, rfl, List.Forall₂.nil, List.Forall₂.nil, List.Forall₂.nil⟩
    · rw [if_neg h0]
      simp only [hA, hC, hS]
      by_cases hL : SkeletalEntities.length > 0
      · rw [if_pos hL]
        exact ⟨_, rfl, map_EntryAfterPass_follows W E _, map_EntryAfterPass_follows W E _,
          map_EntryAfterPass_follows W E _⟩
      · rw [if_neg hL]
        have hE : SkeletalEntities = [] := by
          rw [← List.length_eq_zero]
          omega
        subst hE
        exact ⟨_, rfl, map_EntryAfterPass_follows W E _, map_EntryAfterPass_follows W E _,
          List.Forall₂.nil⟩

/-- C10 (witness): the actor array holds the moved object 2 and the destroyed object 3, the
component array the resting entry, the skeletal array the turned object 1. -/
theorem C10_previous_pose_follows_written_witness :
    FirstEntryIsStale exampleEngine [exampleEntry 2, exampleEntry 3] = false ∧
    FirstEntryIsStale exampleEngine [exampleRestingEntry] = false ∧
    [exampleEntry 1].all (EntryIsValid exampleEngine) = true ∧
    ∃ r, Write exampleEngine exampleGazeOps exampleAnswers 1 [exampleEntry 2, exampleEntry 3]
        [exampleRestingEntry] [exampleEntry 1] exampleNoGaze true exampleWriter = some r ∧
      List.Forall₂ (PoseFollowsWritten exampleWriter exampleEngine)
        ([exampleEntry 2, exampleEntry 3].filter (EntryIsValid exampleEngine))
        r.ActorEntities ∧
      List.Forall₂ (PoseFollowsWritten exampleWriter exampleEngine)
        ([exampleRestingEntry].filter (EntryIsValid exampleEngine)) r.ComponentEntities ∧
      List.Forall₂ (PoseFollowsWritten exampleWriter exampleEngine) [exampleEntry 1]
        r.SkeletalEntities :=
  ⟨by decide!, by decide!, by decide!,
   (C10_previous_pose_follows_written exampleWriter exampleEngine exampleGazeOps
      exampleAnswers 1 exampleNoGaze true [exampleEntry 2, exampleEntry 3]
      [exampleRestingEntry] [exampleEntry 1] [] 0 (by decide!) (by decide!)
      (by decide!)).2.2.2⟩

/-- C23 (counterexample): no overlap sphere of group A is found, yet `LoadOverlapGroups`
returns true with `GroupA` empty, and `Init` returns true and marks the listener
initialised. -/
theorem C23_counterexample :
    (LoadOverlapGroups [] [2]
      (USLManipulatorListener.Constructor true true (1 / 2) (3 / 25))).1 = true ∧
    (LoadOverlapGroups [] [2]
      (USLManipulatorListener.Constructor true true (1 / 2) (3 / 25))).2.GroupA = [] ∧
    (Init true true exampleOwner [] [2]
      (USLManipulatorListener.Constructor true true (1 / 2) (3 / 25))).1 = true ∧
    (Init true true exampleOwner [] [2]
      (USLManipulatorListener.Constructor true true (1 / 2) (3 / 25))).2.bIsInit = true ∧
    (Init true true exampleOwner [] [2]
      (USLManipulatorListener.Constructor true true (1 / 2) (3 / 25))).2.GroupA = [] := by
  decide!

theorem LoadOverlapGroups_eq (FoundA FoundB : List Nat) (s : USLManipulatorListener) :
    LoadOverlapGroups FoundA FoundB s =
      (true, { s with
        GroupA := s.GroupA ++ FoundA, GroupB := s.GroupB ++ FoundB,
        bDetectGrasps := s.bDetectGrasps &&
          decide (s.GroupA ++ FoundA ≠ [] ∧ s.GroupB ++ FoundB ≠ []) }) := by
  unfold LoadOverlapGroups
  simp only
  by_cases h : (s.GroupA ++ FoundA).length = 0 ∨ (s.GroupB ++ FoundB).length = 0
  · rw [if_pos h]
    have hd : decide (s.GroupA ++ FoundA ≠ [] ∧ s.GroupB ++ FoundB ≠ []) = false := by
      rw [decide_eq_false_iff_not]
      rintro ⟨h1, h2⟩
      rcases h with h | h
      · exact h1 (List.length_eq_zero.1 h)
      · exact h2 (List.length_eq_zero.1 h)
    rw [hd, Bool.and_false]
  · rw [if_neg h]
    have hd : decide (s.GroupA ++ FoundA ≠ [] ∧ s.GroupB ++ FoundB ≠ []) = true := by
      rw [decide_eq_true_iff]
      push_neg at h
      exact ⟨fun e => h.1 (List.length_eq_zero.2 e), fun e => h.2 (List.length_eq_zero.2 e)⟩
    rw [hd, Bool.and_true]

/-- C23 (amended): `LoadOverlapGroups` returns true on every path; it appends the overlap
spheres found to the two groups and, when one of the groups is empty afterwards, switches
grasp detection off (`bDetectGrasps = false`), leaving the flag as it is otherwise.
Consequently `Init` returns true exactly when the listener was not initialised and the owner
is semantically annotated, whatever the groups hold; it then marks the listener initialised,
with grasp detection on only when it was asked for and both groups are non-empty; when it
returns false the init flag is unchanged. -/
theorem C23_load_overlap_groups_returns_true (bInDetectGrasps bInDetectContacts : Bool)
    (OwnerEntity : FSLEntity) (FoundA FoundB : List Nat) (s : USLManipulatorListener) :
    (LoadOverlapGroups FoundA FoundB s).1 = true ∧
    (LoadOverlapGroups FoundA FoundB s).2.GroupA = s.GroupA ++ FoundA ∧
    (LoadOverlapGroups FoundA FoundB s).2.GroupB = s.GroupB ++ FoundB ∧
    (LoadOverlapGroups FoundA FoundB s).2.bDetectGrasps =
      (s.bDetectGrasps && decide (s.GroupA ++ FoundA ≠ [] ∧ s.GroupB ++ FoundB ≠ [])) ∧
    (Init bInDetectGrasps bInDetectContacts OwnerEntity FoundA FoundB s).1 =
      (!s.bIsInit && OwnerEntity.IsSet) ∧
    ((Init bInDetectGrasps bInDetectContacts OwnerEntity FoundA FoundB s).1 = true →
      (Init bInDetectGrasps bInDetectContacts OwnerEntity FoundA FoundB s).2.bIsInit = true ∧
      (Init bInDetectGrasps bInDetectContacts OwnerEntity FoundA FoundB s).2.bDetectGrasps =
        (bInDetectGrasps &&
          decide (s.GroupA ++ FoundA ≠ [] ∧ s.GroupB ++ FoundB ≠ [])) ∧
      (Init bInDetectGrasps bInDetectContacts OwnerEntity FoundA FoundB s).2.bDetectContacts =
        bInDetectContacts) ∧
    ((Init bInDetectGrasps bInDetectContacts OwnerEntity FoundA FoundB s).1 = false →
      (Init bInDetectGrasps bInDetectContacts OwnerEntity FoundA FoundB s).2.bIsInit =
        s.bIsInit) := by
  have hL := LoadOverlapGroups_eq FoundA FoundB s
  refine ⟨by rw [hL], by rw [hL], by rw [hL], by rw [hL], ?_, ?_, ?_⟩
  · unfold Init
    simp only [LoadOverlapGroups_eq]
    cases hI : s.bIsInit <;> cases hO : OwnerEntity.IsSet <;> simp [hO, hI]
  · unfold Init
    simp only [LoadOverlapGroups_eq]
    cases hI : s.bIsInit <;> cases hO : OwnerEntity.IsSet <;> simp [hO, hI]
  · unfold Init
    simp only [LoadOverlapGroups_eq]
    cases hI : s.bIsInit <;> cases hO : OwnerEntity.IsSet <;> simp [hO, hI]

theorem C23_load_overlap_groups_returns_true_witness :
    (Init true true exampleOwner [] [2]
      (USLManipulatorListener.Constructor true true (1 / 2) (3 / 25))).1 = true ∧
    (Init true true exampleOwner [] [2]
      (USLManipulatorListener.Constructor true true (1 / 2) (3 / 25))).2.bIsInit = true ∧
    (Init true true exampleOwner [] [2]
      (USLManipulatorListener.Constructor true true (1 / 2) (3 / 25))).2.bDetectGrasps
      = false :=
  ⟨by decide!,
   ((C23_load_overlap_groups_returns_true true true exampleOwner [] [2]
      (USLManipulatorListener.Constructor true true (1 / 2) (3 / 25))).2.2.2.2.2.1
      (by decide!)).1,
   by
    have h := ((C23_load_overlap_groups_returns_true true true exampleOwner [] [2]
      (USLManipulatorListener.Constructor true true (1 / 2) (3 / 25))).2.2.2.2.2.1
      (by decide!)).2.1
    rw [h]
    decide!⟩

/-! ## The contact counts -/

theorem TMapFind_mem (M : List (AActor × Int)) (k : AActor) (n : Int)
    (h : TMapFind M k = some n) : (k, n) ∈ M := by
  unfold TMapFind at h
  cases hf : M.find? (fun p => p.1 == k) with
  | none => rw [hf] at h; simp at h
  | some p =>
    rw [hf] at h
    simp only [Option.map_some', Option.some.injEq] at h
    have hk := List.find?_some hf
    have hm := List.mem_of_find?_eq_some hf
    simp only [beq_iff_eq] at hk
    obtain ⟨a, b⟩ := p
    simp only at hk h
    subst hk
    subst h
    exact hm

theorem TMapFind_TMapSetValue_self (M : List (AActor × Int)) (k : AActor) (n v : Int)
    (h : TMapFind M k = some n) : TMapFind (TMapSetValue M k v) k = some v := by
  induction M with
  | nil => simp [TMapFind] at h
  | cons p M ih =>
    by_cases hp : p.1 = k
    · simp [TMapFind, TMapSetValue, hp]
    · have h2 : TMapFind M k = some n := by
        simpa [TMapFind, List.find?_cons, hp] using h
      have := ih h2
      simpa [TMapFind, TMapSetValue, List.find?_cons, hp] using this

theorem TMapFind_cons (p : AActor × Int) (M : List (AActor × Int)) (k : AActor) :
    TMapFind (p :: M) k = if p.1 = k then some p.2 else TMapFind M k := by
  unfold TMapFind
  by_cases hp : p.1 = k
  · simp [List.find?_cons, hp]
  · simp [List.find?_cons, hp]

theorem TMapFind_TMapSetValue_other (M : List (AActor × Int)) (k k2 : AActor) (v : Int)
    (hk : k2 ≠ k) : TMapFind (TMapSetValue M k v) k2 = TMapFind M k2 := by
  induction M with
  | nil => rfl
  | cons p M ih =>
    have hc : TMapSetValue (p :: M) k v =
        (if p.1 == k then (p.1, v) else p) :: TMapSetValue M k v := rfl
    rw [hc, TMapFind_cons, TMapFind_cons, ih]
    by_cases hp : p.1 = k
    · have hp2 : ¬ p.1 = k2 := fun e => hk (e.symm.trans hp)
      have hb : (p.1 == k) = true := by simpa using hp
      rw [hb]
      simp only [if_true]
      rw [if_neg hp2, if_neg hp2]
    · have hb : (p.1 == k) = false := by simpa using hp
      rw [hb]
      simp only [Bool.false_eq_true, if_false]

theorem TMapFind_TMapAdd_other (M : List (AActor × Int)) (k k2 : AActor) (v : Int)
    (h : TMapFind M k = none) (hk : k2 ≠ k) :
    TMapFind (TMapAdd M k v) k2 = TMapFind M k2 := by
  have h' : M.find? (fun p => p.1 == k) = none := by
    simpa [TMapFind] using h
  have hk' : ¬ k = k2 := fun e => hk e.symm
  simp only [TMapFind, TMapAdd, h', Option.isSome_none, Bool.false_eq_true, if_false,
    List.find?_append]
  cases hf : M.find? (fun p => p.1 == k2) with
  | some p => simp
  | none => simp [hk']

theorem TMapFind_TMapRemove_other (M : List (AActor × Int)) (k k2 : AActor) (hk : k2 ≠ k) :
    TMapFind (TMapRemove M k) k2 = TMapFind M k2 := by
  induction M with
  | nil => rfl
  | cons p M ih =>
    by_cases hp : p.1 = k
    · have hp2 : ¬ p.1 = k2 := fun e => hk (e.symm.trans hp)
      have hc : TMapRemove (p :: M) k = TMapRemove M k := by
        simp [TMapRemove, List.filter_cons, hp]
      rw [hc, TMapFind_cons, if_neg hp2, ih]
    · have hc : TMapRemove (p :: M) k = p :: TMapRemove M k := by
        simp [TMapRemove, List.filter_cons, hp]
      rw [hc, TMapFind_cons, TMapFind_cons, ih]

theorem TMapFind_TMapRemove_self (M : List (AActor × Int)) (k : AActor) :
    TMapFind (TMapRemove M k) k = none :=
  (TMapFind_TMapRemove_none M k k).2 (Or.inr rfl)

theorem WrapInt32_of_range (x : Int) (h1 : -2147483648 ≤ x) (h2 : x ≤ 2147483647) :
    WrapInt32 x = x := by
  unfold WrapInt32
  omega

theorem CountsWithin.mono {B C : Int} {s r : USLManipulatorListener}
    (h : CountsWithin B s) (hBC : B ≤ C) (hr : r.ObjectsInContact = s.ObjectsInContact) :
    CountsWithin C r := by
  intro p hp
  rw [hr] at hp
  exact ⟨(h p hp).1, le_trans (h p hp).2 hBC⟩

theorem Step_counts_within [FFloat] (GetEntityPtr : AActor → Option FSLEntity)
    (s : USLManipulatorListener) (c : ℚ × Call) (B : Int) (hB0 : 0 ≤ B)
    (hB : B < 2147483647) (h : CountsWithin B s) :
    CountsWithin (B + 1) (Step GetEntityPtr s c) := by
  have hmono : ∀ q ∈ s.ObjectsInContact, 1 ≤ q.2 ∧ q.2 ≤ B + 1 := by
    intro q hq
    exact ⟨(h q hq).1, by linarith [(h q hq).2]⟩
  apply Step_contact_induct GetEntityPtr (CountsWithin (B + 1)) s c
  · intro r hf
    exact h.mono (by omega) hf.1
  · intro a _
    cases hr : GetEntityPtr a with
    | none =>
      have hS : OnBeginOverlapContact GetEntityPtr c.1 a s = s := by
        simp [OnBeginOverlapContact, hr]
      rw [hS]
      exact hmono
    | some Item =>
      rw [OnBeginOverlapContact_eq GetEntityPtr c.1 a Item s hr]
      cases hf : TMapFind s.ObjectsInContact a with
      | some n =>
        have hn := h (a, n) (TMapFind_mem _ _ _ hf)
        simp only at hn
        intro p hp
        simp only [TMapSetValue, List.mem_map] at hp
        obtain ⟨q, hq, rfl⟩ := hp
        split
        · simp only
          rw [WrapInt32_of_range _ (by omega) (by omega)]
          constructor <;> omega
        · exact hmono q hq
      | none =>
        have hfind : s.ObjectsInContact.find? (fun p => p.1 == a) = none := by
          simpa [TMapFind] using hf
        have hAdd : ∀ p ∈ TMapAdd s.ObjectsInContact a 1, 1 ≤ p.2 ∧ p.2 ≤ B + 1 := by
          intro p hp
          simp only [TMapAdd, hfind, Option.isSome_none, Bool.false_eq_true, if_false,
            List.mem_append, List.mem_singleton] at hp
          rcases hp with hp | rfl
          · exact hmono p hp
          · exact ⟨le_refl _, by simp only; omega⟩
        simp only
        split <;> exact hAdd
  · intro a _
    cases hr : GetEntityPtr a with
    | none =>
      have hS : OnEndOverlapContact GetEntityPtr c.1 a s = s := by
        simp [OnEndOverlapContact, hr]
      rw [hS]
      exact hmono
    | some Item =>
      rw [OnEndOverlapContact_eq GetEntityPtr c.1 a Item s hr]
      cases hf : TMapFind s.ObjectsInContact a with
      | none => exact hmono
      | some n =>
        have hn := h (a, n) (TMapFind_mem _ _ _ hf)
        simp only at hn
        have hw : WrapInt32 (n - 1) = n - 1 := WrapInt32_of_range _ (by omega) (by omega)
        simp only
        split
        · intro p hp
          simp only [TMapRemove, TMapSetValue, List.mem_filter, List.mem_map, bne_iff_ne,
            ne_eq] at hp
          obtain ⟨⟨q, hq, rfl⟩, hne⟩ := hp
          by_cases hq1 : q.1 = a
          · simp [hq1] at hne
          · simp only [beq_iff_eq, hq1, if_false]
            exact hmono q hq
        · rename_i hlt
          rw [hw] at hlt
          intro p hp
          simp only [TMapSetValue, List.mem_map] at hp
          obtain ⟨q, hq, rfl⟩ := hp
          split
          · simp only
            rw [hw]
            constructor <;> omega
          · exact hmono q hq
  · intro _
    rw [DelayedContactEndEventCallback_eq]
    exact hmono
  · intro b _
    unfold Finish
    split
    · exact hmono
    · exact hmono

theorem Run_counts_within [FFloat] (GetEntityPtr : AActor → Option FSLEntity)
    (cs : List (ℚ × Call)) :
    ∀ (s : USLManipulatorListener) (B : Int), 0 ≤ B → B + cs.length ≤ 2147483647 →
      CountsWithin B s → CountsWithin (B + cs.length) (Run GetEntityPtr s cs) := by
  induction cs with
  | nil =>
    intro s B _ _ h
    simpa [Run] using h
  | cons c cs ih =>
    intro s B hB0 hB h
    simp only [List.length_cons, Nat.cast_add, Nat.cast_one] at hB ⊢
    rw [Run_cons]
    have h1 := Step_counts_within GetEntityPtr s c B hB0 (by omega) h
    have h2 := ih (Step GetEntityPtr s c) (B + 1) (by omega) (by omega) h1
    have he : B + 1 + (cs.length : Int) = B + ((cs.length : Int) + 1) := by ring
    rw [he] at h2
    exact h2

theorem OnBeginOverlapContact_counted [FFloat] (GetEntityPtr : AActor → Option FSLEntity)
    (now : ℚ) (k : AActor) (Item : FSLEntity) (c : Int) (s : USLManipulatorListener)
    (hr : GetEntityPtr k = some Item) (hf : TMapFind s.ObjectsInContact k = some c) :
    OnBeginOverlapContact GetEntityPtr now k s =
      { s with ObjectsInContact := TMapSetValue s.ObjectsInContact k (WrapInt32 (c + 1)) } ∧
    TMapFind (OnBeginOverlapContact GetEntityPtr now k s).ObjectsInContact k =
      some (WrapInt32 (c + 1)) := by
  have h := OnBeginOverlapContact_eq GetEntityPtr now k Item s hr
  rw [hf] at h
  simp only at h
  rw [h]
  exact ⟨rfl, TMapFind_TMapSetValue_self _ _ _ _ hf⟩

theorem OnBeginOverlapContact_first [FFloat] (GetEntityPtr : AActor → Option FSLEntity)
    (now : ℚ) (k : AActor) (Item : FSLEntity) (s : USLManipulatorListener)
    (hr : GetEntityPtr k = some Item) (hf : TMapFind s.ObjectsInContact k = none) :
    TMapFind (OnBeginOverlapContact GetEntityPtr now k s).ObjectsInContact k = some 1 := by
  have h := OnBeginOverlapContact_eq GetEntityPtr now k Item s hr
  rw [hf] at h
  simp only at h
  rw [h]
  split <;> exact TMapFind_TMapAdd_self _ _ _ hf

theorem OnEndOverlapContact_decrement [FFloat] (GetEntityPtr : AActor → Option FSLEntity)
    (now : ℚ) (k : AActor) (Item : FSLEntity) (c : Int) (s : USLManipulatorListener)
    (hr : GetEntityPtr k = some Item) (hf : TMapFind s.ObjectsInContact k = some c)
    (hc : 1 < c) (hc2 : c ≤ 2147483647) :
    OnEndOverlapContact GetEntityPtr now k s =
      { s with ObjectsInContact := TMapSetValue s.ObjectsInContact k (c - 1) } ∧
    TMapFind (OnEndOverlapContact GetEntityPtr now k s).ObjectsInContact k = some (c - 1) := by
  have h := OnEndOverlapContact_eq GetEntityPtr now k Item s hr
  rw [hf] at h
  have hw : WrapInt32 (c - 1) = c - 1 := WrapInt32_of_range _ (by omega) (by omega)
  have hn : ¬ (c - 1 < 1) := by omega
  simp only [hw, hn, if_false] at h
  rw [h]
  exact ⟨rfl, TMapFind_TMapSetValue_self _ _ _ _ hf⟩

theorem OnEndOverlapContact_last [FFloat] (GetEntityPtr : AActor → Option FSLEntity)
    (now : ℚ) (k : AActor) (Item : FSLEntity) (c : Int) (s : USLManipulatorListener)
    (hr : GetEntityPtr k = some Item) (hf : TMapFind s.ObjectsInContact k = some c)
    (hc : WrapInt32 (c - 1) < 1) :
    TMapFind (OnEndOverlapContact GetEntityPtr now k s).ObjectsInContact k = none ∧
    (OnEndOverlapContact GetEntityPtr now k s).RecentlyEndedContactEvents =
      s.RecentlyEndedContactEvents ++ [⟨Item, now⟩] ∧
    (OnEndOverlapContact GetEntityPtr now k s).Log = s.Log := by
  have h := OnEndOverlapContact_eq GetEntityPtr now k Item s hr
  rw [hf] at h
  simp only [hc, if_true] at h
  rw [h]
  exact ⟨TMapFind_TMapRemove_self _ _, rfl, rfl⟩

theorem OnlyContactMapChanged_trans {a b c : USLManipulatorListener}
    (h1 : OnlyContactMapChanged a b) (h2 : OnlyContactMapChanged b c) :
    OnlyContactMapChanged a c := by
  unfold OnlyContactMapChanged at *
  cases a; cases b; cases c
  simp only [USLManipulatorListener.mk.injEq] at *
  simp_all

theorem Run_begin_contacts [FFloat] (GetEntityPtr : AActor → Option FSLEntity) (k : AActor)
    (Item : FSLEntity) (hr : GetEntityPtr k = some Item) (ts : List ℚ) :
    ∀ (s : USLManipulatorListener) (c : Int), TMapFind s.ObjectsInContact k = some c →
      0 ≤ c → c + ts.length ≤ 2147483647 →
      OnlyContactMapChanged s (Run GetEntityPtr s (BeginContactCalls k ts)) ∧
      TMapFind (Run GetEntityPtr s (BeginContactCalls k ts)).ObjectsInContact k =
        some (c + ts.length) := by
  induction ts with
  | nil =>
    intro s c hf _ _
    exact ⟨rfl, by simpa [BeginContactCalls, Run] using hf⟩
  | cons t ts ih =>
    intro s c hf hc0 hc
    simp only [List.length_cons, Nat.cast_add, Nat.cast_one] at hc
    have hS : Run GetEntityPtr s (BeginContactCalls k (t :: ts)) =
        Run GetEntityPtr (OnBeginOverlapContact GetEntityPtr t k s)
          (BeginContactCalls k ts) := rfl
    obtain ⟨h1, h2⟩ := OnBeginOverlapContact_counted GetEntityPtr t k Item c s hr hf
    have hw : WrapInt32 (c + 1) = c + 1 := WrapInt32_of_range _ (by omega) (by omega)
    rw [hw] at h1 h2
    obtain ⟨i1, i2⟩ := ih _ (c + 1) h2 (by omega) (by omega)
    have h1' : OnlyContactMapChanged s (OnBeginOverlapContact GetEntityPtr t k s) := by
      unfold OnlyContactMapChanged
      rw [h1]
    rw [hS]
    refine ⟨OnlyContactMapChanged_trans h1' i1, ?_⟩
    rw [i2]
    simp only [List.length_cons, Nat.cast_add, Nat.cast_one]
    congr 1
    ring

theorem Run_end_contacts [FFloat] (GetEntityPtr : AActor → Option FSLEntity) (k : AActor)
    (Item : FSLEntity) (hr : GetEntityPtr k = some Item) (ts : List ℚ) :
    ∀ (s : USLManipulatorListener) (c : Int), TMapFind s.ObjectsInContact k = some c →
      (ts.length : Int) < c → c ≤ 2147483647 →
      OnlyContactMapChanged s (Run GetEntityPtr s (EndContactCalls k ts)) ∧
      TMapFind (Run GetEntityPtr s (EndContactCalls k ts)).ObjectsInContact k =
        some (c - ts.length) := by
  induction ts with
  | nil =>
    intro s c hf _ _
    exact ⟨rfl, by simpa [EndContactCalls, Run] using hf⟩
  | cons t ts ih =>
    intro s c hf hlt hmax
    have hS : Run GetEntityPtr s (EndContactCalls k (t :: ts)) =
        Run GetEntityPtr (OnEndOverlapContact GetEntityPtr t k s)
          (EndContactCalls k ts) := rfl
    simp only [List.length_cons, Nat.cast_add, Nat.cast_one] at hlt
    obtain ⟨h1, h2⟩ := OnEndOverlapContact_decrement GetEntityPtr t k Item c s hr hf
      (by omega) hmax
    obtain ⟨i1, i2⟩ := ih _ (c - 1) h2 (by omega) (by omega)
    have h1' : OnlyContactMapChanged s (OnEndOverlapContact GetEntityPtr t k s) := by
      unfold OnlyContactMapChanged
      rw [h1]
    rw [hS]
    refine ⟨OnlyContactMapChanged_trans h1' i1, ?_⟩
    rw [i2]
    simp only [List.length_cons, Nat.cast_add, Nat.cast_one]
    congr 1
    ring

theorem Step_contact_count_other [FFloat] (GetEntityPtr : AActor → Option FSLEntity) (k : AActor)
    (s : USLManipulatorListener) (c : ℚ × Call) (hB : c.2 ≠ Call.BeginOverlapContact k)
    (hE : c.2 ≠ Call.EndOverlapContact k) :
    TMapFind (Step GetEntityPtr s c).ObjectsInContact k = TMapFind s.ObjectsInContact k := by
  apply Step_contact_induct GetEntityPtr
    (fun r => TMapFind r.ObjectsInContact k = TMapFind s.ObjectsInContact k) s c
  · intro r hf
    rw [hf.1]
  · intro a ha
    have hak : k ≠ a := by
      rintro rfl
      exact hB ha
    cases hr : GetEntityPtr a with
    | none => simp [OnBeginOverlapContact, hr]
    | some Item =>
      rw [OnBeginOverlapContact_eq GetEntityPtr c.1 a Item s hr]
      cases hf : TMapFind s.ObjectsInContact a with
      | some n => exact TMapFind_TMapSetValue_other _ _ _ _ hak
      | none =>
        simp only
        split <;> exact TMapFind_TMapAdd_other _ _ _ _ hf hak
  · intro a ha
    have hak : k ≠ a := by
      rintro rfl
      exact hE ha
    cases hr : GetEntityPtr a with
    | none => simp [OnEndOverlapContact, hr]
    | some Item =>
      rw [OnEndOverlapContact_eq GetEntityPtr c.1 a Item s hr]
      cases hf : TMapFind s.ObjectsInContact a with
      | none => rfl
      | some n =>
        simp only
        split
        · simp only
          rw [TMapFind_TMapRemove_other _ _ _ hak, TMapFind_TMapSetValue_other _ _ _ _ hak]
        · exact TMapFind_TMapSetValue_other _ _ _ _ hak
  · intro _
    rw [DelayedContactEndEventCallback_eq]
  · intro b _
    unfold Finish
    split <;> rfl

theorem CountsWithin_of_empty (s : USLManipulatorListener) (h : IsEmptyState s) :
    CountsWithin 0 s := by
  obtain ⟨_, _, _, h4, _⟩ := h
  intro p hp
  rw [h4] at hp
  simp at hp

theorem Run_begin_contacts_wrap [FFloat] (GetEntityPtr : AActor → Option FSLEntity)
    (k : AActor) (Item : FSLEntity) (s : USLManipulatorListener) (t0 t : ℚ) (ts : List ℚ)
    (hReg : GetEntityPtr k = some Item) (hOut : TMapFind s.ObjectsInContact k = none)
    (hLen : (ts.length : Int) = 2147483646) :
    TMapFind (Run GetEntityPtr s (BeginContactCalls k (t0 :: ts))).ObjectsInContact k =
      some 2147483647 ∧
    TMapFind (Step GetEntityPtr (Run GetEntityPtr s (BeginContactCalls k (t0 :: ts)))
      (t, Call.BeginOverlapContact k)).ObjectsInContact k = some (-2147483648) ∧
    ¬ CountsPositive (Step GetEntityPtr (Run GetEntityPtr s (BeginContactCalls k (t0 :: ts)))
      (t, Call.BeginOverlapContact k)) := by
  have hFirst := OnBeginOverlapContact_first GetEntityPtr t0 k Item s hReg hOut
  have hS : Run GetEntityPtr s (BeginContactCalls k (t0 :: ts)) =
      Run GetEntityPtr (OnBeginOverlapContact GetEntityPtr t0 k s)
        (BeginContactCalls k ts) := rfl
  have hB := (Run_begin_contacts GetEntityPtr k Item hReg ts _ 1 hFirst (by omega)
    (by omega)).2
  have hCount : TMapFind (Run GetEntityPtr s
      (BeginContactCalls k (t0 :: ts))).ObjectsInContact k = some 2147483647 := by
    rw [hS, hB, hLen]
    rfl
  have hNext := (OnBeginOverlapContact_counted GetEntityPtr t k Item 2147483647
    _ hReg hCount).2
  have hW : WrapInt32 (2147483647 + 1) = -2147483648 := by
    unfold WrapInt32
    norm_num
  rw [hW] at hNext
  have hStep : Step GetEntityPtr (Run GetEntityPtr s (BeginContactCalls k (t0 :: ts)))
      (t, Call.BeginOverlapContact k) =
      OnBeginOverlapContact GetEntityPtr t k
        (Run GetEntityPtr s (BeginContactCalls k (t0 :: ts))) := rfl
  rw [hStep]
  refine ⟨hCount, hNext, ?_⟩
  intro hPos
  have := hPos _ (TMapFind_mem _ _ _ hNext)
  simp only at this
  omega

/-- C30 (the claim as stated fails).  The count is an `int32` and `(*NumContacts)++` wraps:
from the empty example listener, 2147483647 calls of `OnBeginOverlapContact(7)` for the
registered actor 7 leave its count at 2147483647, and after one more call the stored count is
-2147483648, which is not at least 1 and is not the number 2147483648 of begin calls. -/
theorem C30_counterexample :
    exampleRegistry 7 = some exampleCup ∧ IsEmptyState exampleListener ∧
    TMapFind (Run exampleRegistry exampleListener
      (BeginContactCalls 7 (0 :: List.replicate 2147483646 0))).ObjectsInContact 7 =
        some 2147483647 ∧
    TMapFind (Step exampleRegistry (Run exampleRegistry exampleListener
      (BeginContactCalls 7 (0 :: List.replicate 2147483646 0)))
        (0, Call.BeginOverlapContact 7)).ObjectsInContact 7 = some (-2147483648) ∧
    ¬ CountsPositive (Step exampleRegistry (Run exampleRegistry exampleListener
      (BeginContactCalls 7 (0 :: List.replicate 2147483646 0)))
        (0, Call.BeginOverlapContact 7)) :=
  ⟨by decide!, by decide!,
   Run_begin_contacts_wrap exampleRegistry 7 exampleCup exampleListener 0 0
    (List.replicate 2147483646 0) (by decide!) (by decide!)
    (by rw [List.length_replicate]; rfl)⟩

/-- C30 (amended): contact reference counting while no count reaches the largest `int32`.  In
a run of `cs` from a state whose counts are between 1 and `B`, with
`B + length cs <= 2147483647` (in particular in a run of at most 2147483647 calls from the
empty map), every count stored in `ObjectsInContact` is at least 1 after every call.  For a
registered actor `k` that is not in contact, after `n >= 1` calls of
`OnBeginOverlapContact(k)` (at `t0` and at the times `tsB`), `n <= 2147483647`, its count is
`n`; `m < n` calls of `OnEndOverlapContact(k)` then leave the count `n - m >= 1` and change
nothing but the map (nothing is enqueued or broadcast, no timer is touched), and the end call
that finds the count 1 removes `k` from the map and enqueues the entry
`(entity of k, time of that call)`, without broadcasting.  A call other than a contact begin
or end of `k` leaves the count of `k` as it is. -/
theorem C30_contact_reference_counting [FFloat] (GetEntityPtr : AActor → Option FSLEntity)
    (k : AActor) (Item : FSLEntity) (s : USLManipulatorListener) (cs : List (ℚ × Call))
    (B : Int) (t0 tEnd : ℚ) (tsB tsE : List ℚ)
    (hReg : GetEntityPtr k = some Item) (hB0 : 0 ≤ B) (hPos : CountsWithin B s)
    (hRun : B + cs.length ≤ 2147483647)
    (hOut : TMapFind s.ObjectsInContact k = none) (hN : (tsB.length : Int) + 1 ≤ 2147483647)
    (hm : tsE.length ≤ tsB.length) :
    (∀ n, CountsPositive (Run GetEntityPtr s (cs.take n))) ∧
    TMapFind (Run GetEntityPtr s (BeginContactCalls k (t0 :: tsB))).ObjectsInContact k =
      some ((tsB.length : Int) + 1) ∧
    TMapFind (Run GetEntityPtr (Run GetEntityPtr s (BeginContactCalls k (t0 :: tsB)))
        (EndContactCalls k tsE)).ObjectsInContact k =
      some ((tsB.length : Int) + 1 - tsE.length) ∧
    OnlyContactMapChanged (Run GetEntityPtr s (BeginContactCalls k (t0 :: tsB)))
      (Run GetEntityPtr (Run GetEntityPtr s (BeginContactCalls k (t0 :: tsB)))
        (EndContactCalls k tsE)) ∧
    (tsE.length = tsB.length →
      TMapFind (Step GetEntityPtr
        (Run GetEntityPtr (Run GetEntityPtr s (BeginContactCalls k (t0 :: tsB)))
          (EndContactCalls k tsE)) (tEnd, Call.EndOverlapContact k)).ObjectsInContact k
        = none ∧
      (Step GetEntityPtr
        (Run GetEntityPtr (Run GetEntityPtr s (BeginContactCalls k (t0 :: tsB)))
          (EndContactCalls k tsE))
        (tEnd, Call.EndOverlapContact k)).RecentlyEndedContactEvents =
        (Run GetEntityPtr s (BeginContactCalls k (t0 :: tsB))).RecentlyEndedContactEvents
          ++ [⟨Item, tEnd⟩] ∧
      (Step GetEntityPtr
        (Run GetEntityPtr (Run GetEntityPtr s (BeginContactCalls k (t0 :: tsB)))
          (EndContactCalls k tsE)) (tEnd, Call.EndOverlapContact k)).Log =
        (Run GetEntityPtr s (BeginContactCalls k (t0 :: tsB))).Log) ∧
    (∀ (st : USLManipulatorListener) (c : ℚ × Call),
      c.2 ≠ Call.BeginOverlapContact k → c.2 ≠ Call.EndOverlapContact k →
        TMapFind (Step GetEntityPtr st c).ObjectsInContact k =
          TMapFind st.ObjectsInContact k) := by
  have hFirst := OnBeginOverlapContact_first GetEntityPtr t0 k Item s hReg hOut
  have hS : Run GetEntityPtr s (BeginContactCalls k (t0 :: tsB)) =
      Run GetEntityPtr (OnBeginOverlapContact GetEntityPtr t0 k s)
        (BeginContactCalls k tsB) := rfl
  obtain ⟨_, hB⟩ := Run_begin_contacts GetEntityPtr k Item hReg tsB _ 1 hFirst (by omega)
    (by omega)
  have hB' : TMapFind (Run GetEntityPtr s
      (BeginContactCalls k (t0 :: tsB))).ObjectsInContact k = some ((tsB.length : Int) + 1) := by
    rw [hS, hB]
    congr 1
    ring
  have hlt : (tsE.length : Int) < (tsB.length : Int) + 1 := by
    have : (tsE.length : Int) ≤ (tsB.length : Int) := by exact_mod_cast hm
    omega
  obtain ⟨hE1, hE2⟩ := Run_end_contacts GetEntityPtr k Item hReg tsE _ _ hB' hlt hN
  refine ⟨?_, hB', hE2, hE1, ?_, ?_⟩
  · intro n p hp
    have hlen : ((cs.take n).length : Int) ≤ (cs.length : Int) := by
      have hle : (cs.take n).length ≤ cs.length := by
        rw [List.length_take]
        exact min_le_right _ _
      exact_mod_cast hle
    exact (Run_counts_within GetEntityPtr (cs.take n) s B hB0 (by omega) hPos p hp).1
  · intro hEq
    have hc : WrapInt32 ((tsB.length : Int) + 1 - tsE.length - 1) < 1 := by
      rw [hEq]
      rw [WrapInt32_of_range _ (by omega) (by omega)]
      omega
    obtain ⟨l1, l2, l3⟩ := OnEndOverlapContact_last GetEntityPtr tEnd k Item _ _ hReg hE2 hc
    have hQ : (Run GetEntityPtr (Run GetEntityPtr s (BeginContactCalls k (t0 :: tsB)))
        (EndContactCalls k tsE)).RecentlyEndedContactEvents =
        (Run GetEntityPtr s (BeginContactCalls k (t0 :: tsB))).RecentlyEndedContactEvents := by
      unfold OnlyContactMapChanged at hE1
      rw [hE1]
    have hL : (Run GetEntityPtr (Run GetEntityPtr s (BeginContactCalls k (t0 :: tsB)))
        (EndContactCalls k tsE)).Log =
        (Run GetEntityPtr s (BeginContactCalls k (t0 :: tsB))).Log := by
      unfold OnlyContactMapChanged at hE1
      rw [hE1]
    refine ⟨l1, ?_, ?_⟩
    · show (OnEndOverlapContact GetEntityPtr tEnd k _).RecentlyEndedContactEvents = _
      rw [l2, hQ]
    · show (OnEndOverlapContact GetEntityPtr tEnd k _).Log = _
      rw [l3, hL]
  · intro st c h1 h2
    exact Step_contact_count_other GetEntityPtr k st c h1 h2

theorem C30_contact_reference_counting_witness :
    exampleRegistry 7 = some exampleCup ∧ IsEmptyState exampleListener ∧
    TMapFind exampleListener.ObjectsInContact 7 = none ∧
    TMapFind (Run exampleRegistry exampleListener
      (BeginContactCalls 7 [0, 1 / 10])).ObjectsInContact 7 = some 2 ∧
    TMapFind (Step exampleRegistry
      (Run exampleRegistry (Run exampleRegistry exampleListener
        (BeginContactCalls 7 [0, 1 / 10])) (EndContactCalls 7 [2]))
      (3, Call.EndOverlapContact 7)).ObjectsInContact 7 = none :=
  ⟨by decide!, by decide!, by decide!,
   (C30_contact_reference_counting exampleRegistry 7 exampleCup exampleListener
      exampleRunBeforeFinish 0 0 3 [1 / 10] [2] (by decide!) (by decide)
      (CountsWithin_of_empty exampleListener (by decide!)) (by decide) (by decide!)
      (by decide) (by decide)).2.1,
   ((C30_contact_reference_counting exampleRegistry 7 exampleCup exampleListener
      exampleRunBeforeFinish 0 0 3 [1 / 10] [2] (by decide!) (by decide)
      (CountsWithin_of_empty exampleListener (by decide!)) (by decide) (by decide!)
      (by decide) (by decide)).2.2.2.2.1 rfl).1⟩

/-! ## Paired begin/end accounting of the grasp events -/

theorem countP_eraseP_sub {α : Type} (p q : α → Bool) (l : List α)
    (hpq : ∀ a ∈ l, p a = true → q a = true) (hex : l.any p = true) :
    (l.eraseP p).countP q + 1 = l.countP q := by
  induction l with
  | nil => simp at hex
  | cons a l ih =>
    by_cases ha : p a = true
    · have hq := hpq a (List.mem_cons_self _ _) ha
      simp [List.eraseP_cons, ha, List.countP_cons, hq]
    · have hex' : l.any p = true := by
        simpa [List.any_cons, ha] using hex
      have ih' := ih (fun b hb => hpq b (List.mem_cons_of_mem _ hb)) hex'
      have ha' : p a = false := by simpa using ha
      simp only [List.eraseP_cons, ha', cond_false, List.countP_cons]
      omega

theorem IsBeginGraspFor_grasp (X : AActor) (e : Broadcast) (h : e.IsGraspEvent = false) :
    IsBeginGraspFor X e = false := by
  cases e <;> simp_all [Broadcast.IsGraspEvent, Broadcast.IsBeginGrasp, Broadcast.IsEndGrasp,
    IsBeginGraspFor]

theorem IsEndGraspFor_grasp (X : AActor) (e : Broadcast) (h : e.IsGraspEvent = false) :
    IsEndGraspFor X e = false := by
  cases e <;> simp_all [Broadcast.IsGraspEvent, Broadcast.IsBeginGrasp, Broadcast.IsEndGrasp,
    IsEndGraspFor]

theorem countP_ends_begin (X : AActor) (Owner : FSLEntity) (Q : List FSLGraspEndEvent) :
    (Q.map (fun e => Broadcast.OnEndManipulatorGrasp Owner e.OtherActor e.Time)).countP
        (IsBeginGraspFor X) = 0 ∧
    (Q.map (fun e => Broadcast.OnEndManipulatorGrasp Owner e.OtherActor e.Time)).countP
        (IsEndGraspFor X) = Q.countP (IsPendingFor X) := by
  induction Q with
  | nil => simp
  | cons a Q ih =>
    simp only [List.map_cons, List.countP_cons, ih.1, ih.2, IsBeginGraspFor, IsEndGraspFor,
      IsPendingFor]
    simp

theorem countP_contact_ends (X : AActor) (Owner : FSLEntity) (Q : List FSLContactEndEvent) :
    (Q.map (fun e => Broadcast.OnEndManipulatorContact Owner e.OtherItem e.Time)).countP
        (IsBeginGraspFor X) = 0 ∧
    (Q.map (fun e => Broadcast.OnEndManipulatorContact Owner e.OtherItem e.Time)).countP
        (IsEndGraspFor X) = 0 := by
  induction Q with
  | nil => simp
  | cons a Q ih =>
    simp only [List.map_cons, List.countP_cons, ih.1, ih.2, IsBeginGraspFor, IsEndGraspFor]
    simp

theorem countP_pause_ends (X : AActor) (Owner : FSLEntity) (now : ℚ) (A : List AActor) :
    (A.map (fun Obj => Broadcast.OnEndManipulatorGrasp Owner Obj now)).countP
        (IsBeginGraspFor X) = 0 ∧
    (A.map (fun Obj => Broadcast.OnEndManipulatorGrasp Owner Obj now)).countP
        (IsEndGraspFor X) = A.count X := by
  induction A with
  | nil => simp
  | cons a A ih =>
    simp only [List.map_cons, List.countP_cons, ih.1, ih.2, IsBeginGraspFor, IsEndGraspFor,
      List.count_cons]
    by_cases h : a = X <;> simp [h]

theorem countP_zero_of_frame (p : Broadcast → Bool) (L : List Broadcast)
    (h : ∀ e ∈ L, p e = false) : L.countP p = 0 :=
  countP_eq_zero_of_all_false p L h

theorem Step_grasp_account [FFloat] (GetEntityPtr : AActor → Option FSLEntity) (X : AActor)
    (s : USLManipulatorListener) (c : ℚ × Call) (h : GraspAccount X s) :
    GraspAccount X (Step GetEntityPtr s c) := by
  apply Step_grasp_induct GetEntityPtr (GraspAccount X) s c h
  · intro st r hst hf
    obtain ⟨h1, h2, _, _, _, _, L, hL, hE⟩ := hf
    unfold GraspAccount at *
    rw [h1, h2, hL, List.countP_append, List.countP_append,
      countP_zero_of_frame _ L (fun e he => IsBeginGraspFor_grasp X e (hE e he)),
      countP_zero_of_frame _ L (fun e he => IsEndGraspFor_grasp X e (hE e he))]
    exact ⟨hst.1, by omega⟩
  · intro st Obj hst hObj
    obtain ⟨hN, hC⟩ := hst
    have hAdd : TArrayAddUnique st.GraspedObjects Obj = st.GraspedObjects ++ [Obj] := by
      simp [TArrayAddUnique, hObj]
    have hCount : (st.GraspedObjects ++ [Obj]).count X =
        st.GraspedObjects.count X + (if Obj = X then 1 else 0) := by
      rw [List.count_append]
      by_cases hx : Obj = X <;> simp [List.count_cons, hx]
    rw [BeginGrasp_eq]
    unfold GraspAccount
    split
    · rename_i hAny
      refine ⟨by rw [hAdd]; exact hAdd ▸ nodup_TArrayAddUnique _ _ hN, ?_⟩
      simp only
      rw [hAdd, hCount]
      by_cases hx : Obj = X
      · subst hx
        have := countP_eraseP_sub (GraspCancels Obj c.1 st.MaxGraspEventTimeGap)
          (IsPendingFor Obj) st.RecentlyEndedGraspEvents
          (by
            intro a _ ha
            simp only [GraspCancels, Bool.and_eq_true, decide_eq_true_eq] at ha
            simp [IsPendingFor, ha.1]) hAny
        simp only [if_true]
        omega
      · have := countP_eraseP_other (GraspCancels Obj c.1 st.MaxGraspEventTimeGap)
          (IsPendingFor X) st.RecentlyEndedGraspEvents
          (by
            intro a _ ha
            simp only [GraspCancels, Bool.and_eq_true, decide_eq_true_eq] at ha
            simp only [IsPendingFor, decide_eq_false_iff_not]
            rw [ha.1]
            exact hx)
        simp only [hx, if_false]
        omega
    · refine ⟨by rw [hAdd]; exact hAdd ▸ nodup_TArrayAddUnique _ _ hN, ?_⟩
      simp only
      rw [hAdd, hCount, List.countP_append, List.countP_append]
      by_cases hx : Obj = X
      · simp [hx, IsBeginGraspFor, IsEndGraspFor, List.countP_cons] at hC ⊢
        subst hx
        omega
      · simp [hx, IsBeginGraspFor, IsEndGraspFor, List.countP_cons] at hC ⊢
        omega
  · intro st Y hst hY
    obtain ⟨hN, hC⟩ := hst
    rw [EndGrasp_eq, if_pos hY]
    unfold GraspAccount
    refine ⟨hN.filter _, ?_⟩
    simp only
    rw [List.countP_append]
    by_cases hx : Y = X
    · subst hx
      have h1 : st.GraspedObjects.count Y = 1 := List.count_eq_one_of_mem hN hY
      have h0 : (st.GraspedObjects.filter (fun y => y != Y)).count Y = 0 := by
        rw [List.count_eq_zero]
        intro hm
        simp [List.mem_filter] at hm
      simp only [h0, List.countP_cons, List.countP_nil, IsPendingFor]
      simp
      omega
    · have h0 : (st.GraspedObjects.filter (fun y => y != Y)).count X =
          st.GraspedObjects.count X := by
        apply List.count_filter
        simp only [bne_iff_ne, ne_eq]
        exact fun e => hx e.symm
      simp only [h0, List.countP_cons, List.countP_nil, IsPendingFor]
      simp [hx]
      omega
  · intro _ hp
    obtain ⟨hN, hC⟩ := h
    have hEq : PauseGraspDetection c.1 true s =
        { s with
          bIsPaused := true,
          Log := s.Log ++ s.GraspedObjects.map
            (fun Obj => Broadcast.OnEndManipulatorGrasp s.SemanticOwner Obj c.1),
          GraspedObjects := [], SetA := [], SetB := [] } := by
      simp [PauseGraspDetection, hp]
    rw [hEq]
    unfold GraspAccount
    refine ⟨List.nodup_nil, ?_⟩
    simp only
    obtain ⟨p1, p2⟩ := countP_pause_ends X s.SemanticOwner c.1 s.GraspedObjects
    rw [List.countP_append, List.countP_append, p1, p2]
    simp
    omega
  · intro _
    obtain ⟨hN, hC⟩ := h
    rw [DelayedGraspEndEventCallback_eq]
    unfold GraspAccount
    refine ⟨hN, ?_⟩
    simp only
    obtain ⟨p1, p2⟩ := countP_ends_begin X s.SemanticOwner
      (s.RecentlyEndedGraspEvents.filter (GraspExpired c.1 s.MaxGraspEventTimeGap))
    have := countP_filter_add (IsPendingFor X) (GraspExpired c.1 s.MaxGraspEventTimeGap)
      s.RecentlyEndedGraspEvents
    rw [List.countP_append, List.countP_append, p1, p2]
    omega
  · intro b _
    obtain ⟨hN, hC⟩ := h
    unfold Finish
    split
    · unfold GraspAccount
      refine ⟨hN, ?_⟩
      simp only
      obtain ⟨p1, p2⟩ := countP_ends_begin X s.SemanticOwner s.RecentlyEndedGraspEvents
      obtain ⟨q1, q2⟩ := countP_contact_ends X s.SemanticOwner s.RecentlyEndedContactEvents
      rw [List.countP_append, List.countP_append, List.countP_append, List.countP_append,
        p1, p2, q1, q2]
      simp
      omega
    · exact ⟨hN, hC⟩

theorem EndsMatched_append_begins (X : AActor) (L B : List Broadcast)
    (h : EndsMatched X L) (hB : ∀ e ∈ B, IsEndGraspFor X e = false) :
    EndsMatched X (L ++ B) := by
  intro n
  by_cases hn : n ≤ L.length
  · rw [List.take_append_of_le_length hn]
    exact h n
  · have hn' : L.length ≤ n := by omega
    rw [List.take_append_eq_append_take, List.take_of_length_le hn', List.countP_append,
      List.countP_append]
    have h0 : (B.take (n - L.length)).countP (IsEndGraspFor X) = 0 :=
      countP_eq_zero_of_all_false _ _ (fun e he => hB e (List.mem_of_mem_take he))
    have hL := h L.length
    rw [List.take_length] at hL
    omega

theorem EndsMatched_append_ends (X : AActor) (L E : List Broadcast)
    (h : EndsMatched X L) (hE : ∀ e ∈ E, IsBeginGraspFor X e = false)
    (hle : (L ++ E).countP (IsEndGraspFor X) ≤ (L ++ E).countP (IsBeginGraspFor X)) :
    EndsMatched X (L ++ E) := by
  intro n
  by_cases hn : n ≤ L.length
  · rw [List.take_append_of_le_length hn]
    exact h n
  · have hn' : L.length ≤ n := by omega
    rw [List.take_append_eq_append_take, List.take_of_length_le hn', List.countP_append,
      List.countP_append]
    have h0 : (E.take (n - L.length)).countP (IsBeginGraspFor X) = 0 :=
      countP_eq_zero_of_all_false _ _ (fun e he => hE e (List.mem_of_mem_take he))
    have h1 : E.countP (IsBeginGraspFor X) = 0 := countP_eq_zero_of_all_false _ _ hE
    have h2 : (E.take (n - L.length)).countP (IsEndGraspFor X) ≤
        E.countP (IsEndGraspFor X) := (List.take_sublist _ _).countP_le _
    rw [List.countP_append, List.countP_append] at hle
    omega

/-- What one call appends to the log holds no end-grasp event of `X`, or holds no begin-grasp
event of `X`. -/
theorem Step_log_homogeneous [FFloat] (GetEntityPtr : AActor → Option FSLEntity) (X : AActor)
    (s : USLManipulatorListener) (c : ℚ × Call) :
    ∃ L, (Step GetEntityPtr s c).Log = s.Log ++ L ∧
      ((∀ e ∈ L, IsEndGraspFor X e = false) ∨ (∀ e ∈ L, IsBeginGraspFor X e = false)) := by
  have hMain : (c.2 ≠ Call.PauseGraspDetection true) → (c.2 ≠ Call.DelayedGraspEndEventCallback)
      → (∀ b, c.2 ≠ Call.Finish b) →
      ∃ L, (Step GetEntityPtr s c).Log = s.Log ++ L ∧ ∀ e ∈ L, IsEndGraspFor X e = false := by
    intro h1 h2 h3
    apply Step_grasp_induct GetEntityPtr
      (fun r => ∃ L, r.Log = s.Log ++ L ∧ ∀ e ∈ L, IsEndGraspFor X e = false) s c
    · exact ⟨[], by simp, by simp⟩
    · intro st r hst hf
      obtain ⟨L, hL, hE⟩ := hst
      obtain ⟨_, _, _, _, _, _, L2, hL2, hE2⟩ := hf
      refine ⟨L ++ L2, by rw [hL2, hL, List.append_assoc], ?_⟩
      intro e he
      rcases List.mem_append.1 he with he | he
      · exact hE e he
      · exact IsEndGraspFor_grasp X e (hE2 e he)
    · intro st Obj hst _
      obtain ⟨L, hL, hE⟩ := hst
      rw [BeginGrasp_eq]
      split
      · exact ⟨L, hL, hE⟩
      · refine ⟨L ++ [Broadcast.OnBeginManipulatorGrasp st.SemanticOwner Obj c.1
          st.ActiveGraspType], by simp [hL], ?_⟩
        intro e he
        rcases List.mem_append.1 he with he | he
        · exact hE e he
        · simp only [List.mem_singleton] at he
          subst he
          rfl
    · intro st Y hst hY
      obtain ⟨L, hL, hE⟩ := hst
      rw [EndGrasp_eq, if_pos hY]
      exact ⟨L, hL, hE⟩
    · intro h _
      exact absurd h h1
    · intro h
      exact absurd h h2
    · intro b h
      exact absurd h (h3 b)
  obtain ⟨t, c⟩ := c
  cases c with
  | PauseGraspDetection b =>
    cases b with
    | false =>
      obtain ⟨L, hL, hE⟩ := hMain (by simp) (by simp) (by simp)
      exact ⟨L, hL, Or.inl hE⟩
    | true =>
      simp only [Step, PauseGraspDetection]
      split
      · refine ⟨_, rfl, Or.inr ?_⟩
        intro e he
        simp only [List.mem_map] at he
        obtain ⟨Obj, _, rfl⟩ := he
        rfl
      · exact ⟨[], by simp, Or.inl (by simp)⟩
  | DelayedGraspEndEventCallback =>
    simp only [Step, DelayedGraspEndEventCallback_eq]
    refine ⟨_, rfl, Or.inr ?_⟩
    intro e he
    simp only [List.mem_map] at he
    obtain ⟨Ev, _, rfl⟩ := he
    rfl
  | Finish b =>
    simp only [Step, Finish]
    split
    · refine ⟨List.map (fun EvItr => Broadcast.OnEndManipulatorGrasp s.SemanticOwner
          EvItr.OtherActor EvItr.Time) s.RecentlyEndedGraspEvents ++
        List.map (fun EvItr => Broadcast.OnEndManipulatorContact s.SemanticOwner
          EvItr.OtherItem EvItr.Time) s.RecentlyEndedContactEvents,
        List.append_assoc _ _ _, Or.inr ?_⟩
      intro e he
      rcases List.mem_append.1 he with he | he
      · simp only [List.mem_map] at he
        obtain ⟨Ev, _, rfl⟩ := he
        rfl
      · simp only [List.mem_map] at he
        obtain ⟨Ev, _, rfl⟩ := he
        rfl
    · exact ⟨[], by simp, Or.inl (by simp)⟩
  | BeginOverlapGroupAGrasp a =>
    obtain ⟨L, hL, hE⟩ := hMain (by simp) (by simp) (by simp)
    exact ⟨L, hL, Or.inl hE⟩
  | BeginOverlapGroupBGrasp a =>
    obtain ⟨L, hL, hE⟩ := hMain (by simp) (by simp) (by simp)
    exact ⟨L, hL, Or.inl hE⟩
  | EndOverlapGroupAGrasp a =>
    obtain ⟨L, hL, hE⟩ := hMain (by simp) (by simp) (by simp)
    exact ⟨L, hL, Or.inl hE⟩
  | EndOverlapGroupBGrasp a =>
    obtain ⟨L, hL, hE⟩ := hMain (by simp) (by simp) (by simp)
    exact ⟨L, hL, Or.inl hE⟩
  | BeginOverlapContact a =>
    obtain ⟨L, hL, hE⟩ := hMain (by simp) (by simp) (by simp)
    exact ⟨L, hL, Or.inl hE⟩
  | EndOverlapContact a =>
    obtain ⟨L, hL, hE⟩ := hMain (by simp) (by simp) (by simp)
    exact ⟨L, hL, Or.inl hE⟩
  | DelayedContactEndEventCallback =>
    obtain ⟨L, hL, hE⟩ := hMain (by simp) (by simp) (by simp)
    exact ⟨L, hL, Or.inl hE⟩

theorem Run_grasp_account [FFloat] (GetEntityPtr : AActor → Option FSLEntity) (X : AActor)
    (cs : List (ℚ × Call)) :
    ∀ s : USLManipulatorListener, GraspAccount X s → EndsMatched X s.Log →
      GraspAccount X (Run GetEntityPtr s cs) ∧ EndsMatched X (Run GetEntityPtr s cs).Log := by
  induction cs with
  | nil => intro s h1 h2; exact ⟨h1, h2⟩
  | cons c cs ih =>
    intro s h1 h2
    rw [Run_cons]
    have hA := Step_grasp_account GetEntityPtr X s c h1
    obtain ⟨L, hL, hH⟩ := Step_log_homogeneous GetEntityPtr X s c
    apply ih _ hA
    rw [hL]
    rcases hH with hH | hH
    · exact EndsMatched_append_begins X s.Log L h2 hH
    · apply EndsMatched_append_ends X s.Log L h2 hH
      rw [← hL, hA.2]
      omega

theorem GraspAccount_of_empty (X : AActor) (s : USLManipulatorListener)
    (h : IsEmptyState s) : GraspAccount X s ∧ EndsMatched X s.Log := by
  obtain ⟨_, _, h3, _, h5, _, h7⟩ := h
  refine ⟨⟨by rw [h3]; exact List.nodup_nil, by simp [h3, h5, h7]⟩, ?_⟩
  intro n
  simp [h7]

/-- C26: paired begin/end accounting.  For every actor `X` and every run from the empty state
(any calls, at any times), the number of begin-grasp events broadcast for `X` minus the number
of end-grasp events broadcast for `X` is 1 when `X` is in `GraspedObjects` and 0 otherwise,
plus the number of pending entries of `X` in `RecentlyEndedGraspEvents`.  Hence in every
initial segment of the broadcast log the end-grasp events of `X` are at most as many as the
begin-grasp events of `X`: no end-grasp event is broadcast without an earlier begin-grasp
event of the same actor that no earlier end has used. -/
theorem C26_paired_begin_end_accounting [FFloat] (GetEntityPtr : AActor → Option FSLEntity)
    (X : AActor) (s : USLManipulatorListener) (cs : List (ℚ × Call))
    (hEmpty : IsEmptyState s) :
    (((Run GetEntityPtr s cs).Log.countP (IsBeginGraspFor X) : Int) -
        ((Run GetEntityPtr s cs).Log.countP (IsEndGraspFor X) : Int) =
      (if X ∈ (Run GetEntityPtr s cs).GraspedObjects then 1 else 0) +
        ((Run GetEntityPtr s cs).RecentlyEndedGraspEvents.countP (IsPendingFor X) : Int)) ∧
    (∀ n, ((Run GetEntityPtr s cs).Log.take n).countP (IsEndGraspFor X) ≤
      ((Run GetEntityPtr s cs).Log.take n).countP (IsBeginGraspFor X)) ∧
    (Run GetEntityPtr s cs).GraspedObjects.Nodup := by
  obtain ⟨h1, h2⟩ := GraspAccount_of_empty X s hEmpty
  obtain ⟨⟨hN, hC⟩, hM⟩ := Run_grasp_account GetEntityPtr X cs s h1 h2
  refine ⟨?_, hM, hN⟩
  rw [hC]
  by_cases hX : X ∈ (Run GetEntityPtr s cs).GraspedObjects
  · rw [List.count_eq_one_of_mem hN hX, if_pos hX]
    push_cast
    ring
  · rw [List.count_eq_zero_of_not_mem hX, if_neg hX]
    push_cast
    ring

theorem C26_paired_begin_end_accounting_witness :
    IsEmptyState exampleListener ∧
    (((Run exampleRegistry exampleListener exampleRunBeforeFinish).Log.countP
        (IsBeginGraspFor 5) : Int) -
      ((Run exampleRegistry exampleListener exampleRunBeforeFinish).Log.countP
        (IsEndGraspFor 5) : Int) =
      (if (5 : AActor) ∈
          (Run exampleRegistry exampleListener exampleRunBeforeFinish).GraspedObjects
        then 1 else 0) +
        ((Run exampleRegistry exampleListener
          exampleRunBeforeFinish).RecentlyEndedGraspEvents.countP (IsPendingFor 5) : Int)) :=
  ⟨by decide!,
   (C26_paired_begin_end_accounting exampleRegistry 5 exampleListener exampleRunBeforeFinish
      (by decide!)).1⟩


/-! ## Timestamps of the grasp events in broadcast order -/

theorem StampsOf_append (p : Broadcast → Bool) (L M : List Broadcast) :
    StampsOf p (L ++ M) = StampsOf p L ++ StampsOf p M := by
  simp [StampsOf]

theorem StampsOf_eq_nil (p : Broadcast → Bool) (L : List Broadcast)
    (h : ∀ e ∈ L, p e = false) : StampsOf p L = [] := by
  induction L with
  | nil => rfl
  | cons a L ih =>
    have ha := h a (List.mem_cons_self _ _)
    have hL := ih (fun e he => h e (List.mem_cons_of_mem _ he))
    simp only [StampsOf] at hL ⊢
    rw [List.filter_cons_of_neg (by simp [ha])]
    exact hL

theorem StampsOf_map_all {α : Type} (p : Broadcast → Bool) (f : α → Broadcast) (Q : List α)
    (h : ∀ a, p (f a) = true) : StampsOf p (Q.map f) = Q.map (fun a => (f a).Time) := by
  induction Q with
  | nil => rfl
  | cons a Q ih =>
    simp only [StampsOf] at ih ⊢
    rw [List.map_cons, List.filter_cons_of_pos (h a), List.map_cons, ih, List.map_cons]

theorem mem_StampsOf (p : Broadcast → Bool) (L : List Broadcast) (a : ℚ)
    (h : a ∈ StampsOf p L) : ∃ e ∈ L, p e = true ∧ e.Time = a := by
  simp only [StampsOf, List.mem_map, List.mem_filter] at h
  obtain ⟨e, ⟨he, hp⟩, ht⟩ := h
  exact ⟨e, he, hp, ht⟩

theorem IsBeginGrasp_of_not_grasp (e : Broadcast) (h : e.IsGraspEvent = false) :
    e.IsBeginGrasp = false := by
  simp only [Broadcast.IsGraspEvent, Bool.or_eq_false_iff] at h
  exact h.1

theorem IsEndGrasp_of_not_grasp (e : Broadcast) (h : e.IsGraspEvent = false) :
    e.IsEndGrasp = false := by
  simp only [Broadcast.IsGraspEvent, Bool.or_eq_false_iff] at h
  exact h.2

/-- A flush splits a time-ordered queue into a published front and a kept back. -/
theorem filter_expired_append [FFloat] [SubRegular] (T G : ℚ) (Q : List FSLGraspEndEvent)
    (h : (Q.map (fun e => e.Time)).Pairwise (fun a b => a ≤ b)) :
    Q.filter (GraspExpired T G) ++ Q.filter (fun e => !GraspExpired T G e) = Q := by
  induction Q with
  | nil => rfl
  | cons a Q ih =>
    rw [List.map_cons, List.pairwise_cons] at h
    by_cases ha : GraspExpired T G a = true
    · rw [List.filter_cons_of_pos ha, List.filter_cons_of_neg (by simp [ha]), List.cons_append,
        ih h.2]
    · have hall : ∀ b ∈ Q, GraspExpired T G b = false := by
        intro b hb
        have hab : a.Time ≤ b.Time := h.1 b.Time (List.mem_map_of_mem _ hb)
        simp only [GraspExpired, decide_eq_true_eq, not_lt, gt_iff_lt] at ha
        simp only [GraspExpired, decide_eq_false_iff_not, not_lt, gt_iff_lt]
        exact le_trans (SubRegular.Right T a.Time b.Time hab) ha
      have h1 : Q.filter (GraspExpired T G) = [] := by
        rw [List.filter_eq_nil_iff]
        intro b hb
        simp [hall b hb]
      have h2 : Q.filter (fun e => !GraspExpired T G e) = Q := by
        rw [List.filter_eq_self]
        intro b hb
        simp [hall b hb]
      rw [List.filter_cons_of_neg ha, List.filter_cons_of_pos (by simpa using ha), h1, h2]
      rfl

theorem Step_grasp_stamps [FFloat] (GetEntityPtr : AActor → Option FSLEntity)
    (s : USLManipulatorListener) (c : ℚ × Call) (t : ℚ)
    (h : GraspStampsBounded t s) (ht : t ≤ c.1) :
    GraspStampsBounded c.1 (Step GetEntityPtr s c) := by
  have h0 : GraspStampsBounded c.1 s :=
    ⟨h.1, fun e he hg => le_trans (h.2.1 e he hg) ht, fun e he => le_trans (h.2.2 e he) ht⟩
  apply Step_grasp_induct GetEntityPtr (GraspStampsBounded c.1) s c h0
  · intro st r hst hf
    obtain ⟨_, h2, _, _, _, _, L, hL, hE⟩ := hf
    refine ⟨?_, ?_, ?_⟩
    · rw [hL, StampsOf_append,
        StampsOf_eq_nil _ L (fun e he => IsBeginGrasp_of_not_grasp e (hE e he)),
        List.append_nil]
      exact hst.1
    · intro e he hg
      rw [hL] at he
      rcases List.mem_append.1 he with he | he
      · exact hst.2.1 e he hg
      · rw [hE e he] at hg
        cases hg
    · rw [h2]
      exact hst.2.2
  · intro st Obj hst _
    rw [BeginGrasp_eq]
    split
    · exact ⟨hst.1, hst.2.1, fun e he => hst.2.2 e (List.mem_of_mem_eraseP he)⟩
    · refine ⟨?_, ?_, hst.2.2⟩
      · show (StampsOf Broadcast.IsBeginGrasp (st.Log ++
          [Broadcast.OnBeginManipulatorGrasp st.SemanticOwner Obj c.1
            st.ActiveGraspType])).Pairwise (fun a b => a ≤ b)
        rw [StampsOf_append, List.pairwise_append]
        refine ⟨hst.1, by simp [StampsOf, Broadcast.IsBeginGrasp], ?_⟩
        intro a ha b hb
        obtain ⟨e, he, hp, rfl⟩ := mem_StampsOf _ _ _ ha
        have hb' : b = c.1 := by
          simpa [StampsOf, Broadcast.IsBeginGrasp, Broadcast.Time] using hb
        rw [hb']
        exact hst.2.1 e he (by simp [Broadcast.IsGraspEvent, hp])
      · intro e he hg
        have he' : e ∈ st.Log ++ [Broadcast.OnBeginManipulatorGrasp st.SemanticOwner Obj c.1
            st.ActiveGraspType] := he
        rcases List.mem_append.1 he' with he' | he'
        · exact hst.2.1 e he' hg
        · simp only [List.mem_singleton] at he'
          subst he'
          exact le_refl _
  · intro st Y hst hY
    rw [EndGrasp_eq, if_pos hY]
    refine ⟨hst.1, hst.2.1, ?_⟩
    intro e he
    have he' : e ∈ st.RecentlyEndedGraspEvents ++ [⟨Y, c.1⟩] := he
    rcases List.mem_append.1 he' with he' | he'
    · exact hst.2.2 e he'
    · simp only [List.mem_singleton] at he'
      subst he'
      exact le_refl _
  · intro _ hp
    have hEq : PauseGraspDetection c.1 true s =
        { s with
          bIsPaused := true,
          Log := s.Log ++ s.GraspedObjects.map
            (fun Obj => Broadcast.OnEndManipulatorGrasp s.SemanticOwner Obj c.1),
          GraspedObjects := [], SetA := [], SetB := [] } := by
      simp [PauseGraspDetection, hp]
    rw [hEq]
    refine ⟨?_, ?_, h0.2.2⟩
    · show (StampsOf Broadcast.IsBeginGrasp (s.Log ++ s.GraspedObjects.map
        (fun Obj => Broadcast.OnEndManipulatorGrasp s.SemanticOwner Obj c.1))).Pairwise
          (fun a b => a ≤ b)
      rw [StampsOf_append, StampsOf_eq_nil _ (s.GraspedObjects.map _), List.append_nil]
      · exact h0.1
      · intro e he
        simp only [List.mem_map] at he
        obtain ⟨Obj, _, rfl⟩ := he
        rfl
    · intro e he hg
      have he' : e ∈ s.Log ++ s.GraspedObjects.map
          (fun Obj => Broadcast.OnEndManipulatorGrasp s.SemanticOwner Obj c.1) := he
      rcases List.mem_append.1 he' with he' | he'
      · exact h0.2.1 e he' hg
      · simp only [List.mem_map] at he'
        obtain ⟨Obj, _, rfl⟩ := he'
        exact le_refl _
  · intro _
    rw [DelayedGraspEndEventCallback_eq]
    refine ⟨?_, ?_, ?_⟩
    · show (StampsOf Broadcast.IsBeginGrasp (s.Log ++
        (s.RecentlyEndedGraspEvents.filter (GraspExpired c.1 s.MaxGraspEventTimeGap)).map
          (fun e => Broadcast.OnEndManipulatorGrasp s.SemanticOwner e.OtherActor
            e.Time))).Pairwise (fun a b => a ≤ b)
      rw [StampsOf_append, StampsOf_eq_nil _ (List.map _ _), List.append_nil]
      · exact h0.1
      · intro e he
        simp only [List.mem_map] at he
        obtain ⟨Ev, _, rfl⟩ := he
        rfl
    · intro e he hg
      have he' : e ∈ s.Log ++
        (s.RecentlyEndedGraspEvents.filter (GraspExpired c.1 s.MaxGraspEventTimeGap)).map
          (fun e => Broadcast.OnEndManipulatorGrasp s.SemanticOwner e.OtherActor e.Time) := he
      rcases List.mem_append.1 he' with he' | he'
      · exact h0.2.1 e he' hg
      · simp only [List.mem_map] at he'
        obtain ⟨Ev, hEv, rfl⟩ := he'
        exact h0.2.2 Ev (List.mem_of_mem_filter hEv)
    · intro e he
      have he' : e ∈ s.RecentlyEndedGraspEvents.filter
          (fun e => !GraspExpired c.1 s.MaxGraspEventTimeGap e) := he
      exact h0.2.2 e (List.mem_of_mem_filter he')
  · intro b _
    unfold Finish
    split
    · refine ⟨?_, ?_, ?_⟩
      · show (StampsOf Broadcast.IsBeginGrasp (s.Log ++
          s.RecentlyEndedGraspEvents.map
            (fun e => Broadcast.OnEndManipulatorGrasp s.SemanticOwner e.OtherActor e.Time) ++
          s.RecentlyEndedContactEvents.map
            (fun e => Broadcast.OnEndManipulatorContact s.SemanticOwner e.OtherItem
              e.Time))).Pairwise (fun a b => a ≤ b)
        rw [StampsOf_append, StampsOf_append, StampsOf_eq_nil _ (List.map _ _),
          StampsOf_eq_nil _ (List.map _ _), List.append_nil, List.append_nil]
        · exact h0.1
        · intro e he
          simp only [List.mem_map] at he
          obtain ⟨Ev, _, rfl⟩ := he
          rfl
        · intro e he
          simp only [List.mem_map] at he
          obtain ⟨Ev, _, rfl⟩ := he
          rfl
      · intro e he hg
        have he' : e ∈ s.Log ++
          s.RecentlyEndedGraspEvents.map
            (fun e => Broadcast.OnEndManipulatorGrasp s.SemanticOwner e.OtherActor e.Time) ++
          s.RecentlyEndedContactEvents.map
            (fun e => Broadcast.OnEndManipulatorContact s.SemanticOwner e.OtherItem
              e.Time) := he
        rcases List.mem_append.1 he' with he' | he'
        · rcases List.mem_append.1 he' with he' | he'
          · exact h0.2.1 e he' hg
          · simp only [List.mem_map] at he'
            obtain ⟨Ev, hEv, rfl⟩ := he'
            exact h0.2.2 Ev hEv
        · simp only [List.mem_map] at he'
          obtain ⟨Ev, hEv, rfl⟩ := he'
          simp [Broadcast.IsGraspEvent, Broadcast.IsBeginGrasp, Broadcast.IsEndGrasp] at hg
      · intro e he
        cases he
    · exact h0

theorem StampsOf_grasp_ends (Owner : FSLEntity) (Q : List FSLGraspEndEvent) :
    StampsOf Broadcast.IsEndGrasp
        (Q.map (fun e => Broadcast.OnEndManipulatorGrasp Owner e.OtherActor e.Time)) =
      Q.map (fun e => e.Time) :=
  StampsOf_map_all _ _ Q (fun _ => rfl)

theorem StampsOf_contact_ends (Owner : FSLEntity) (Q : List FSLContactEndEvent) :
    StampsOf Broadcast.IsEndGrasp
        (Q.map (fun e => Broadcast.OnEndManipulatorContact Owner e.OtherItem e.Time)) = [] := by
  apply StampsOf_eq_nil
  intro e he
  simp only [List.mem_map] at he
  obtain ⟨Ev, _, rfl⟩ := he
  rfl

theorem Step_end_stamps [FFloat] [SubRegular] (GetEntityPtr : AActor → Option FSLEntity)
    (s : USLManipulatorListener) (c : ℚ × Call) (t : ℚ)
    (h : EndStampsOrdered t s) (ht : t ≤ c.1) (hNP : c.2 ≠ Call.PauseGraspDetection true) :
    EndStampsOrdered c.1 (Step GetEntityPtr s c) := by
  have h0 : EndStampsOrdered c.1 s := TimeOrdered.later h ht
  apply Step_grasp_induct GetEntityPtr (EndStampsOrdered c.1) s c h0
  · intro st r hst hf
    obtain ⟨_, h2, _, _, _, _, L, hL, hE⟩ := hf
    unfold EndStampsOrdered at hst ⊢
    rw [hL, h2, StampsOf_append,
      StampsOf_eq_nil _ L (fun e he => IsEndGrasp_of_not_grasp e (hE e he)), List.append_nil]
    exact hst
  · intro st Obj hst _
    rw [BeginGrasp_eq]
    unfold EndStampsOrdered at hst ⊢
    split
    · exact hst.sublist (List.Sublist.append (List.Sublist.refl _)
        ((List.eraseP_sublist _).map _))
    · show TimeOrdered c.1 (StampsOf Broadcast.IsEndGrasp (st.Log ++
          [Broadcast.OnBeginManipulatorGrasp st.SemanticOwner Obj c.1 st.ActiveGraspType]) ++
        st.RecentlyEndedGraspEvents.map (fun e => e.Time))
      rw [StampsOf_append, StampsOf_eq_nil _ [_], List.append_nil]
      · exact hst
      · intro e he
        simp only [List.mem_singleton] at he
        subst he
        rfl
  · intro st Y hst hY
    rw [EndGrasp_eq, if_pos hY]
    unfold EndStampsOrdered at hst ⊢
    show TimeOrdered c.1 (StampsOf Broadcast.IsEndGrasp st.Log ++
      (st.RecentlyEndedGraspEvents ++ [FSLGraspEndEvent.mk Y c.1]).map (fun e => e.Time))
    rw [List.map_append, ← List.append_assoc]
    exact hst.snoc
  · intro hp _
    exact absurd hp hNP
  · intro _
    rw [DelayedGraspEndEventCallback_eq]
    unfold EndStampsOrdered at h0 ⊢
    show TimeOrdered c.1 (StampsOf Broadcast.IsEndGrasp (s.Log ++
        (s.RecentlyEndedGraspEvents.filter (GraspExpired c.1 s.MaxGraspEventTimeGap)).map
          (fun e => Broadcast.OnEndManipulatorGrasp s.SemanticOwner e.OtherActor e.Time)) ++
      (s.RecentlyEndedGraspEvents.filter
        (fun e => !GraspExpired c.1 s.MaxGraspEventTimeGap e)).map (fun e => e.Time))
    have hQ : (s.RecentlyEndedGraspEvents.map (fun e => e.Time)).Pairwise (fun a b => a ≤ b) :=
      (List.pairwise_append.1 h0.1).2.1
    rw [StampsOf_append, StampsOf_grasp_ends, List.append_assoc, ← List.map_append,
      filter_expired_append _ _ _ hQ]
    exact h0
  · intro b _
    unfold Finish
    split
    · unfold EndStampsOrdered at h0 ⊢
      show TimeOrdered c.1 (StampsOf Broadcast.IsEndGrasp (s.Log ++
          s.RecentlyEndedGraspEvents.map
            (fun e => Broadcast.OnEndManipulatorGrasp s.SemanticOwner e.OtherActor e.Time) ++
          s.RecentlyEndedContactEvents.map
            (fun e => Broadcast.OnEndManipulatorContact s.SemanticOwner e.OtherItem
              e.Time)) ++ ([] : List FSLGraspEndEvent).map (fun e => e.Time))
      rw [StampsOf_append, StampsOf_append, StampsOf_grasp_ends, StampsOf_contact_ends,
        List.map_nil, List.append_nil, List.append_nil]
      exact h0
    · exact h0

theorem Run_grasp_stamps [FFloat] (GetEntityPtr : AActor → Option FSLEntity) (cs : List (ℚ × Call)) :
    ∀ (s : USLManipulatorListener) (t : ℚ), ClockFrom t cs → GraspStampsBounded t s →
      GraspStampsBounded (LastClock t cs) (Run GetEntityPtr s cs) := by
  induction cs with
  | nil => intro s t _ h; exact h
  | cons c cs ih =>
    intro s t hc h
    rw [Run_cons]
    exact ih _ c.1 hc.2 (Step_grasp_stamps GetEntityPtr s c t h hc.1)

theorem Run_end_stamps [FFloat] [SubRegular] (GetEntityPtr : AActor → Option FSLEntity) (cs : List (ℚ × Call)) :
    ∀ (s : USLManipulatorListener) (t : ℚ), ClockFrom t cs →
      (∀ c ∈ cs, c.2 ≠ Call.PauseGraspDetection true) → EndStampsOrdered t s →
      EndStampsOrdered (LastClock t cs) (Run GetEntityPtr s cs) := by
  induction cs with
  | nil => intro s t _ _ h; exact h
  | cons c cs ih =>
    intro s t hc hNP h
    rw [Run_cons]
    exact ih _ c.1 hc.2 (fun d hd => hNP d (List.mem_cons_of_mem _ hd))
      (Step_end_stamps GetEntityPtr s c t h hc.1 (hNP c (List.mem_cons_self _ _)))

theorem stamps_of_empty (t : ℚ) (s : USLManipulatorListener) (h : IsEmptyState s) :
    GraspStampsBounded t s ∧ EndStampsOrdered t s := by
  obtain ⟨_, _, _, _, h5, _, h7⟩ := h
  refine ⟨⟨?_, ?_, ?_⟩, ?_⟩
  · rw [h7]
    exact List.Pairwise.nil
  · intro e he
    rw [h7] at he
    cases he
  · intro e he
    rw [h5] at he
    cases he
  · unfold EndStampsOrdered
    rw [h7, h5]
    exact ⟨List.Pairwise.nil, fun t ht => by cases ht⟩

/-- C21 (counterexample): in the run `exampleLateEnd` of the example listener, under a
non-decreasing clock from the empty state, the grasp events are broadcast with the timestamps
0, 1.2, 1.0: the end of the grasp of object 5 carries the time 1.0 of the raw end and is
broadcast by the flush at 1.6, after the begin of the grasp of object 6 stamped 1.2.  The
only difference the run computes, 1.6 - 1.0 at the flush, exceeds the gap 0.5 by 0.1, far
more than the rounding of `float` arithmetic. -/
theorem C21_counterexample :
    ClockFrom 0 exampleLateEnd ∧ IsEmptyState exampleListener ∧
    StampsOf Broadcast.IsGraspEvent (Run exampleRegistry exampleListener exampleLateEnd).Log =
      [0, 6 / 5, 1] ∧
    ¬ (StampsOf Broadcast.IsGraspEvent
        (Run exampleRegistry exampleListener exampleLateEnd).Log).Pairwise
          (fun a b => a ≤ b) := by
  decide!

/-- C21 (amended): for every run from the empty state under a non-decreasing clock, (a) the
timestamps of the begin-grasp events, in broadcast order, are non-decreasing; (b) after every
call of the run no grasp event that has been broadcast carries a timestamp later than the
clock of that call; (c) when the run holds no call `PauseGraspDetection(true)`, the timestamps
of the end-grasp events, in broadcast order, are non-decreasing.  Part (c) reads the test
`CurrTime - Time > MaxGraspEventTimeGap` of the flush and holds for every subtraction that is
monotone in both arguments, as the exact one and the correctly rounded one are. -/
theorem C21_grasp_event_timestamps [FFloat] (GetEntityPtr : AActor → Option FSLEntity)
    (s : USLManipulatorListener) (cs : List (ℚ × Call)) (t : ℚ)
    (hEmpty : IsEmptyState s) (hClock : ClockFrom t cs) :
    (StampsOf Broadcast.IsBeginGrasp (Run GetEntityPtr s cs).Log).Pairwise
      (fun a b => a ≤ b) ∧
    (∀ n, ∀ e ∈ (Run GetEntityPtr s (cs.take n)).Log, e.IsGraspEvent = true →
      e.Time ≤ LastClock t (cs.take n)) ∧
    (SubRegular → (∀ c ∈ cs, c.2 ≠ Call.PauseGraspDetection true) →
      (StampsOf Broadcast.IsEndGrasp (Run GetEntityPtr s cs).Log).Pairwise
        (fun a b => a ≤ b)) := by
  obtain ⟨hK, hJ⟩ := stamps_of_empty t s hEmpty
  refine ⟨(Run_grasp_stamps GetEntityPtr cs s t hClock hK).1, ?_, ?_⟩
  · intro n
    exact (Run_grasp_stamps GetEntityPtr (cs.take n) s t (ClockFrom_take cs n t hClock) hK).2.1
  · intro hReg hNP
    haveI := hReg
    exact (List.pairwise_append.1 (Run_end_stamps GetEntityPtr cs s t hClock hNP hJ).1).1

theorem C21_grasp_event_timestamps_witness :
    IsEmptyState exampleListener ∧ ClockFrom 0 exampleLateEnd ∧
    (StampsOf Broadcast.IsBeginGrasp
      (Run exampleRegistry exampleListener exampleLateEnd).Log).Pairwise (fun a b => a ≤ b) ∧
    (∀ c ∈ exampleLateEnd, c.2 ≠ Call.PauseGraspDetection true) ∧
    (StampsOf Broadcast.IsEndGrasp
      (Run exampleRegistry exampleListener exampleLateEnd).Log).Pairwise (fun a b => a ≤ b) :=
  ⟨by decide!, by decide!,
   (C21_grasp_event_timestamps exampleRegistry exampleListener exampleLateEnd 0
      (by decide!) (by decide!)).1,
   by decide!,
   (C21_grasp_event_timestamps exampleRegistry exampleListener exampleLateEnd 0
      (by decide!) (by decide!)).2.2 ExactFloat_regular (by decide!)⟩

end USemLog
